import Mathlib

/-!
Starlight: the indicator model of the preliminary traversal.

A shallow embedding of `src/traverse/Indicator.mjs`, of the queries of
`src/traverse/NodePath.mjs`, of the checks `interactsWithSecretVisitor.mjs`
and `decoratorVisitor.mjs`, of the circuit `BoilerplateGenerator.mjs` and of
`buildNode` (`src/types/solidity-types.mjs`), together with theorems about
the whole / partitioned classification, the ancestor and sibling queries,
the taint marks, the decorators, the indexes of the parts of a partitioned
state and the nodes that `buildNode` returns.

Conventions of the embedding

* A JavaScript property that may be `undefined` is an `Option`; `null` and
  `undefined` are not told apart (the code only tests them with `??`, `?.`
  and truthiness).
* Objects are mutated in place in the source.  Here every method takes the
  objects it can reach and returns them after the call, together with the
  exception that ended the call, if any: what was written before a `throw`
  stays written, as in the source.
* Arrays are values.  The one place where the source makes two objects hold
  one array is `updateFromBinding`, which assigns the reason arrays of the
  binding: an object that holds an array of the binding says so in a flag,
  and a push onto such an array is repeated in every object that holds it.
* The table `mappingKeys` is a plain object: reading a name gives the key
  stored under it or, when there is none, the member that the table inherits
  from `Object.prototype` under that name.
* A method that the sources call and do not define is a parameter: the
  embedding records the call and asks the parameter what the call throws.
-/

namespace Starlight

/-! ## JavaScript values -/

/-- Truthiness of a flag that is `undefined`, `false` or `true`. -/
def truthy : Option Bool → Bool
  | some true => true
  | _ => false

/-- The value left in `a` by `a ??= b`. -/
def nullishAssign {α : Type} (a b : Option α) : Option α :=
  match a with
  | some x => some x
  | none => b

/-- The value left in `a` by `a ||= b`, on flags. -/
def orAssign (a b : Option Bool) : Option Bool :=
  if truthy a then a else b

/-- A reference to an object that this module only passes around (an owner, a key registry). -/
abbrev Ref := Nat

/-! ## Nodes and paths (`NodePath.mjs`) -/

/-- The `typeDescriptions` record of a parser node. -/
structure TypeDescriptions where
  typeIdentifier : Option String := none
  typeString : Option String := none
deriving DecidableEq, Repr

/-- The scalar properties of an AST node that the analysis reads or writes. -/
structure NodeData where
  id : Nat
  nodeType : String
  name : Option String := none
  src : String := ""
  memberName : Option String := none
  referencedDeclaration : Option Int := none
  typeDescriptions : TypeDescriptions := {}
  isSecret : Option Bool := none
  isKnown : Option Bool := none
  isUnknown : Option Bool := none
  reinitialisable : Option Bool := none
  isIncremented : Option Bool := none
  isDecremented : Option Bool := none
  incrementedDeclaration : Option Int := none
deriving DecidableEq, Repr

/-- The properties of an AST node that hold child nodes, for child nodes of type `α`.  A
property that the node does not have is `none`; `declarations` and `arguments` hold
arrays. -/
structure Children (α : Type) where
  baseExpression : Option α := none
  indexExpression : Option α := none
  expression : Option α := none
  leftHandSide : Option α := none
  rightHandSide : Option α := none
  initialValue : Option α := none
  leftExpression : Option α := none
  rightExpression : Option α := none
  declarations : Option (List α) := none
  arguments : Option (List α) := none
deriving Repr

/-- An AST node: its scalar properties and the child nodes the analysis follows. -/
inductive Node where
  | mk (data : NodeData) (children : Children Node)
deriving Repr

namespace Node

def data : Node → NodeData
  | mk d _ => d

def children : Node → Children Node
  | mk _ c => c

def baseExpression (n : Node) : Option Node := n.children.baseExpression

def indexExpression (n : Node) : Option Node := n.children.indexExpression

def expression (n : Node) : Option Node := n.children.expression

def leftHandSide (n : Node) : Option Node := n.children.leftHandSide

def rightHandSide (n : Node) : Option Node := n.children.rightHandSide

def initialValue (n : Node) : Option Node := n.children.initialValue

def leftExpression (n : Node) : Option Node := n.children.leftExpression

def rightExpression (n : Node) : Option Node := n.children.rightExpression

def declarations (n : Node) : Option (List Node) := n.children.declarations

def id (n : Node) : Nat := n.data.id

def nodeType (n : Node) : String := n.data.nodeType

def name (n : Node) : Option String := n.data.name

def src (n : Node) : String := n.data.src

def isKnown (n : Node) : Option Bool := n.data.isKnown

def isUnknown (n : Node) : Option Bool := n.data.isUnknown

def reinitialisable (n : Node) : Option Bool := n.data.reinitialisable

/-- A node without children. -/
def leaf (d : NodeData) : Node := mk d {}

end Node

/-- The properties of a path other than its node and its parent path. -/
structure PathData where
  /-- The `key` of the path, also called `containerName`. -/
  key : String
  isIncremented : Option Bool := none
  isDecremented : Option Bool := none
deriving DecidableEq, Repr

/-- A `NodePath`: a node, where it sits in its parent, and the parent's path. -/
inductive NodePath where
  | mk (node : Node) (data : PathData) (parentPath : Option NodePath)
deriving Repr

namespace NodePath

def node : NodePath → Node
  | mk n _ _ => n

def data : NodePath → PathData
  | mk _ d _ => d

def parentPath : NodePath → Option NodePath
  | mk _ _ p => p

def key (p : NodePath) : String := p.data.key

def containerName (p : NodePath) : String := p.data.key

def nodeType (p : NodePath) : String := p.node.nodeType

def isIncremented (p : NodePath) : Option Bool := p.data.isIncremented

def isDecremented (p : NodePath) : Option Bool := p.data.isDecremented

/-- `findAncestor(callback)`: the first path, from this one upwards, that satisfies the callback. -/
def findAncestor (callback : NodePath → Bool) : NodePath → Option NodePath
  | mk n d none => if callback (mk n d none) then some (mk n d none) else none
  | mk n d (some p) =>
    if callback (mk n d (some p)) then some (mk n d (some p)) else findAncestor callback p

/-- The method `findAncestorFromParent(callback)`: the same search, started at the parent
path. -/
def findAncestorFromParent (callback : NodePath → Bool) : NodePath → Option NodePath
  | mk _ _ none => none
  | mk _ _ (some p) => if callback p then some p else findAncestorFromParent callback p

/-- The method `getAncestry()`: this path, its parent path, the parent path of that one, and
so on up to the root. -/
def getAncestry : NodePath → List NodePath
  | mk n d none => [mk n d none]
  | mk n d (some p) => mk n d (some p) :: getAncestry p

/-- `getAncestorOfType(nodeType)`. -/
def getAncestorOfType (p : NodePath) (nodeType : String) : Option NodePath :=
  findAncestor (fun q => q.node.nodeType == nodeType) p

/-- `getAncestorContainedWithin(containerName)`. -/
def getAncestorContainedWithin (p : NodePath) (containerName : String) : Option NodePath :=
  findAncestor (fun q => q.containerName == containerName) p

/-- The list `lhsContainers` of `getLhsAncestor`, in the order of the source. -/
def lhsContainers : List String :=
  ["leftHandSide", "declarations", "subExpression", "leftExpression"]

/-- `getLhsAncestor(true)`: the first container name of `lhsContainers` that holds this path
or one of its ancestors; `none` stands for the result `false`. -/
def getLhsAncestorName (p : NodePath) : Option String :=
  lhsContainers.find? (fun container => (p.getAncestorContainedWithin container).isSome)

/-- Truthiness of `isModification()`. -/
def isModification (p : NodePath) : Bool :=
  if p.nodeType == "Identifier" then
    p.containerName != "indexExpression"
      && (p.getAncestorOfType "FunctionCall").isNone
      && (match p.getLhsAncestorName with
          | some name => name != ""
          | none => false)
  else false

/-- `isMsg(node)`, on a node that is given. -/
def isMsgNode (node : Node) : Bool :=
  node.nodeType == "Identifier"
    && node.name == some "msg"
    && node.data.typeDescriptions.typeIdentifier == some "t_magic_message"
    && node.data.typeDescriptions.typeString == some "msg"

/-- `isMsg(node = this.node)`: an argument that is `undefined` is replaced by the node of the path. -/
def isMsg (p : NodePath) (node : Option Node) : Bool :=
  isMsgNode (node.getD p.node)

/-- `isMsgSender(node = this.node)`. -/
def isMsgSender (p : NodePath) (node : Option Node) : Bool :=
  let n := node.getD p.node
  n.nodeType == "MemberAccess"
    && n.data.memberName == some "sender"
    && n.data.typeDescriptions.typeString == some "address"
    && p.isMsg n.expression

/-- The body of `getMappingKeyIdentifier` on a path whose node is an `IndexAccess`:
the index expression, or the `msg` identifier of a `msg.sender` index expression. -/
def mappingKeyOfIndexAccess (p : NodePath) : Option Node :=
  let indexExpression := p.node.indexExpression
  if p.isMsgSender indexExpression then indexExpression.bind Node.expression
  else indexExpression

end NodePath

/-! ## Reasons and exceptions -/

/-- A reason `{ src, 0: text }` recorded for a classification. -/
structure Reason where
  src : String
  text : String
deriving DecidableEq, Repr

/-- What a call can throw. -/
inductive Exception where
  /-- `new SyntaxUsageError(message, node, reasons)`. -/
  | SyntaxUsageError (message : String) (node : Node) (reasons : Option (List Reason))
  /-- A `TypeError` of the language (a property of `undefined`, a spread of `undefined`). -/
  | TypeError (message : String)
  /-- `new Error(message)`. -/
  | Error (message : String)
deriving Repr

/-- The reasons carried by an exception, when it carries a list. -/
def Exception.reasons : Exception → Option (List Reason)
  | .SyntaxUsageError _ _ rs => rs
  | _ => none

/-- The message of an exception. -/
def Exception.message : Exception → String
  | .SyntaxUsageError m _ _ => m
  | .TypeError m => m
  | .Error m => m

namespace NodePath

/-- `getMappingKeyIdentifier()`.  On a node that is not an `IndexAccess` the source calls
itself on `getAncestorOfType('IndexAccess')`, whose node is an `IndexAccess`
(`findAncestor_sat` below), so that call takes the second branch. -/
def getMappingKeyIdentifier (p : NodePath) : Except Exception (Option Node) :=
  if p.node.nodeType != "IndexAccess" then
    match p.getAncestorOfType "IndexAccess" with
    | none => .error (.TypeError "Cannot read properties of null (reading getMappingKeyIdentifier)")
    | some a => .ok a.mappingKeyOfIndexAccess
  else .ok p.mappingKeyOfIndexAccess

end NodePath

/-! ## The indicators (`Indicator.mjs`) -/

/-- `ContractDefinitionIndicator`, as its constructor leaves it. -/
structure ContractDefinitionIndicator where
  zkSnarkVerificationRequired : Bool := false
  oldCommitmentAccessRequired : Bool := false
  nullifiersRequired : Bool := false
  newCommitmentsRequired : Bool := false
deriving DecidableEq, Repr

/-- `ContractDefinitionIndicator.update(path)`. -/
def ContractDefinitionIndicator.update (c : ContractDefinitionIndicator) (path : NodePath) :
    ContractDefinitionIndicator :=
  if truthy path.node.data.isSecret then
    { c with newCommitmentsRequired := true, zkSnarkVerificationRequired := true }
  else c

/-- `FunctionDefinitionIndicator`, as its constructor leaves it; `interactsWithSecret` and
`onChainKeyRegistry` are the two properties added later. -/
structure FunctionDefinitionIndicator where
  zkSnarkVerificationRequired : Bool := false
  oldCommitmentAccessRequired : Bool := false
  nullifiersRequired : Bool := false
  newCommitmentsRequired : Bool := false
  initialisationRequired : Bool := false
  interactsWithSecret : Option Bool := none
  onChainKeyRegistry : Option Ref := none
deriving DecidableEq, Repr

/-- `FunctionDefinitionIndicator.update(path)`. -/
def FunctionDefinitionIndicator.update (f : FunctionDefinitionIndicator) (path : NodePath) :
    FunctionDefinitionIndicator :=
  if truthy path.node.data.isSecret then { f with interactsWithSecret := some true } else f

/-- The properties of a `Binding` that the indicators and the checks read or write.  The class itself is defined
outside the files at hand; its two methods that the indicators call are fields of `Env`. -/
structure Binding where
  id : Nat
  name : String
  isSecret : Option Bool := none
  isWhole : Option Bool := none
  isWholeReason : Option (List Reason) := none
  isPartitioned : Option Bool := none
  isPartitionedReason : Option (List Reason) := none
  isOwned : Option Bool := none
  owner : Option Ref := none
  onChainKeyRegistry : Option Ref := none
  nullifyingPaths : List (Option NodePath) := []
  stateVariable : Option Bool := none
  secretVariable : Option Bool := none
  isKnown : Option Bool := none
  isUnknown : Option Bool := none
deriving Repr

/-- A `MappingKey`.  The properties down to `nullifyingPaths` are those the constructor sets;
the others are added by the methods and start `undefined`.  The back reference `container`
is not stored: a method that follows it takes the container as an argument. -/
structure MappingKey where
  id : Nat
  node : Node
  referencedKeyId : Option Int
  referencedKeyName : Option String
  referencedKeyNodeType : String
  referencedKeyIsParam : Bool
  isMsgSender : Bool
  isSecret : Option Bool
  isMapping : Option Bool := some true
  name : String
  isReferenced : Option Bool := some false
  referenceCount : Nat := 0
  referencingPaths : List NodePath := []
  isModified : Option Bool := some false
  modificationCount : Nat := 0
  modifyingPaths : List NodePath := []
  isNullified : Option Bool := some false
  nullificationCount : Nat := 0
  nullifyingPaths : List (Option NodePath) := []
  isUnknown : Option Bool := none
  isKnown : Option Bool := none
  reinitialisable : Option Bool := none
  newCommitmentRequired : Option Bool := none
  initialisationRequired : Option Bool := none
  isWhole : Option Bool := none
  isWholeReason : Option (List Reason) := none
  isPartitioned : Option Bool := none
  isPartitionedReason : Option (List Reason) := none
  isIncremented : Option Bool := none
  isDecremented : Option Bool := none
  increments : Option (List Node) := none
  decrements : Option (List Node) := none
  isOwned : Option Bool := none
  owner : Option Ref := none
  onChainKeyRegistry : Option Ref := none
  accessedPaths : Option (List NodePath) := none
  /-- Whether `isWholeReason` is the array object that the binding holds: `updateFromBinding`
  assigns the array itself, so a reason pushed onto it shows in every object that holds it. -/
  isWholeReasonOfBinding : Bool := false
  /-- Whether `isPartitionedReason` is the array object that the binding holds. -/
  isPartitionedReasonOfBinding : Bool := false
deriving Repr

/-- A `StateVariableIndicator`.  The properties down to `mappingKeys` are those the
constructor sets (the last two only for a mapping); the others are added by the methods
and start `undefined`.  The references `binding` and `parentIndincator` are not stored:
the objects they point to travel with the indicator in a `World`. -/
structure StateVariableIndicator where
  id : Nat
  name : String
  node : Node
  isSecret : Option Bool
  referenceCount : Nat := 0
  referencingPaths : List NodePath := []
  modificationCount : Nat := 0
  modifyingPaths : List NodePath := []
  nullificationCount : Nat := 0
  nullifyingPaths : List (Option NodePath) := []
  isMapping : Option Bool := none
  mappingKeys : Option (List (String × MappingKey)) := none
  isReferenced : Option Bool := none
  isModified : Option Bool := none
  isNullified : Option Bool := none
  isUnknown : Option Bool := none
  isKnown : Option Bool := none
  reinitialisable : Option Bool := none
  newCommitmentRequired : Option Bool := none
  initialisationRequired : Option Bool := none
  oldCommitmentAccessRequired : Option Bool := none
  isWhole : Option Bool := none
  isWholeReason : Option (List Reason) := none
  isPartitioned : Option Bool := none
  isPartitionedReason : Option (List Reason) := none
  isAccessed : Option Bool := none
  accessedPaths : Option (List NodePath) := none
  isIncremented : Option Bool := none
  isDecremented : Option Bool := none
  increments : Option (List Node) := none
  decrements : Option (List Node) := none
  isOwned : Option Bool := none
  owner : Option Ref := none
  onChainKeyRegistry : Option Ref := none
  /-- Whether `isWholeReason` is the array object that the binding holds: `updateFromBinding`
  assigns the array itself, so a reason pushed onto it shows in every object that holds it. -/
  isWholeReasonOfBinding : Bool := false
  /-- Whether `isPartitionedReason` is the array object that the binding holds. -/
  isPartitionedReasonOfBinding : Bool := false
deriving Repr

/-- The `state` argument of `updateIncrementation`, shared by the visitor that found the
incrementation. -/
structure IncrementationState where
  incrementedIdentifier : Node
  incrementedPath : Option NodePath
  increments : List Node
  decrements : List Node
deriving Repr

/-- The objects an indicator method can reach: the indicator (with its mapping keys), the
indicator of the enclosing function (`parentIndincator`) and the binding. -/
structure World where
  ind : StateVariableIndicator
  parentIndincator : FunctionDefinitionIndicator
  binding : Binding
deriving Repr

/-- What the indicators call but is defined outside the files at hand: the path cache
(`cache.mjs`), the scope (`Scope.mjs`) and the binding (`Binding.mjs`). -/
structure Env where
  /-- `pathCache.get(node)`, `none` when `pathCache.has(node)` is false. -/
  pathCache : Node → Option NodePath
  /-- `path.getScope().getReferencedNode(path.node)`. -/
  getReferencedNode : NodePath → Option Node
  /-- `path.isFunctionParameter()`, which asks the scope for the referenced binding. -/
  isFunctionParameter : NodePath → Bool
  /-- `binding.getMappingKeyName(referencingPath)`. -/
  getMappingKeyName : Binding → NodePath → Except Exception String
  /-- `binding.addNullifyingPath(path)`: the binding after the call and what it threw. -/
  bindingAddNullifyingPath : Binding → Option NodePath → Binding × Option Exception

/-- How a template literal prints a name that may be `undefined`. -/
def templateString : Option String → String
  | some s => s
  | none => "undefined"

/-! ### `MappingKey` -/

namespace MappingKey

/-- The constructor `new MappingKey(container, keyPath)`, for a container that is an
indicator.  It throws when the key is not `msg` and the scope finds no referenced node. -/
def create (E : Env) (container : StateVariableIndicator) (keyPath : NodePath) :
    Except Exception MappingKey :=
  let isMsg := keyPath.isMsg none
  let referenced : Except Exception (Option String × String) :=
    if isMsg then .ok (some "msg", "msg.sender")
    else
      match E.getReferencedNode keyPath with
      | none => .error (.TypeError "Cannot read properties of null (reading name)")
      | some r => .ok (r.name, r.nodeType)
  match referenced with
  | .error e => .error e
  | .ok (referencedKeyName, referencedKeyNodeType) =>
    .ok {
      id := container.id
      node := container.node
      referencedKeyId := keyPath.node.data.referencedDeclaration
      referencedKeyName := referencedKeyName
      referencedKeyNodeType := referencedKeyNodeType
      referencedKeyIsParam := E.isFunctionParameter keyPath
      isMsgSender := isMsg
      isSecret := container.isSecret
      isMapping := some true
      name :=
        if isMsg then container.name ++ "[msg.sender]"
        else container.name ++ "[" ++ templateString keyPath.node.name ++ "]" }

/-- The method `addReferencingPath(path)`. -/
def addReferencingPath (k : MappingKey) (path : NodePath) : MappingKey :=
  { k with
    isReferenced := some true
    referenceCount := k.referenceCount + 1
    referencingPaths :=
      if k.referencingPaths.any (fun p => p.node.id == path.node.id) then k.referencingPaths
      else k.referencingPaths ++ [path] }

/-- The method `addModifyingPath(path)`. -/
def addModifyingPath (k : MappingKey) (path : NodePath) : MappingKey :=
  let k1 := { k with isModified := some true, modificationCount := k.modificationCount + 1 }
  if k1.modifyingPaths.any (fun p => p.node.id == path.node.id) then k1
  else
    let k2 := { k1 with
      modifyingPaths := k1.modifyingPaths ++ [path]
      newCommitmentRequired := some true
      initialisationRequired := some true }
    let k3 := if truthy path.node.isKnown then { k2 with isKnown := some true } else k2
    if truthy path.node.isUnknown then { k3 with isUnknown := some true } else k3

/-- The method `addNullifyingPath(path)`. -/
def addNullifyingPath (k : MappingKey) (path : Option NodePath) : MappingKey :=
  { k with
    isNullified := some true
    nullificationCount := k.nullificationCount + 1
    nullifyingPaths := k.nullifyingPaths ++ [path] }

/-- The part of `updateProperties(path)` that writes the key itself: everything but the
last statement, `this.container.updateProperties(path)`. -/
def updateOwnProperties (k : MappingKey) (path : NodePath) : MappingKey :=
  let k1 := k.addReferencingPath path
  let k2 := { k1 with
    isUnknown := nullishAssign k1.isUnknown path.node.isUnknown
    isKnown := nullishAssign k1.isKnown path.node.isKnown
    reinitialisable := nullishAssign k1.reinitialisable path.node.reinitialisable }
  if path.isModification then k2.addModifyingPath path else k2

/-- The warning of `prelimTraversalErrorChecks`, which prints the reason list inside a
template literal. -/
def pedanticWarning (k : MappingKey) : String :=
  "PEDANTIC: Unnecessary 'known' decorator. Secret state '" ++ k.name
    ++ "' is trivially 'known' because it is 'whole', due to: "
    ++ (match k.isWholeReason with
        | none => "undefined"
        | some rs => ",".intercalate (rs.map (fun _ => "[object Object]")))

/-- The method `prelimTraversalErrorChecks()`: the lines logged when it returns, or the
exception it throws.  The node of the container is the one reported for a whole and
partitioned state. -/
def prelimTraversalErrorChecks (k : MappingKey) (containerNode : Node) :
    Except Exception (List String) :=
  let log : List String :=
    if truthy k.isKnown && truthy k.isWhole then
      pedanticWarning k :: ((k.isWholeReason.getD []).map Reason.text)
    else []
  if truthy k.isUnknown && truthy k.isWhole then
    .error (.SyntaxUsageError "Can't mark a whole state as 'unknown'" k.node k.isWholeReason)
  else if truthy k.isWhole && truthy k.isPartitioned then
    match k.isWholeReason, k.isPartitionedReason with
    | some whole, some partitioned =>
      .error (.SyntaxUsageError
        "State cannot be whole and partitioned. The following reasons conflict."
        containerNode (some (whole ++ partitioned)))
    | _, _ => .error (.TypeError "undefined is not iterable")
  else .ok log

/-- The method `updateIncrementation(path, state)`. -/
def updateIncrementation (k : MappingKey) (path : NodePath) (state : IncrementationState) :
    MappingKey :=
  let identifier := state.incrementedIdentifier
  let k1 : MappingKey :=
    if !truthy path.isIncremented || truthy identifier.isKnown then
      let k0 := { k with
        isWhole := some true
        isWholeReason :=
          some (k.isWholeReason.getD [] ++ [{ src := identifier.src, text := "Overwritten" }]) }
      if state.incrementedPath.isSome && !truthy identifier.reinitialisable then
        k0.addNullifyingPath state.incrementedPath
      else k0
    else if !truthy path.isDecremented
        && (truthy identifier.isUnknown
            || truthy (identifier.baseExpression.bind Node.isUnknown)) then
      { k with
        isPartitioned := some true
        isUnknown := nullishAssign k.isUnknown (some true)
        isPartitionedReason :=
          some (k.isPartitionedReason.getD []
            ++ [{ src := identifier.src, text := "Incremented and marked as unknown" }]) }
    else k
  let k2 : MappingKey :=
    if truthy path.isDecremented && !truthy identifier.isKnown then
      k1.addNullifyingPath state.incrementedPath
    else k1
  { k2 with
    isIncremented := orAssign k2.isIncremented path.isIncremented
    isDecremented := orAssign k2.isDecremented path.isDecremented
    increments := some (k2.increments.getD [] ++ state.increments)
    decrements := some (k2.decrements.getD [] ++ state.decrements) }

/-- The method `updateFromBinding()`, which reads `this.container.binding`.  The reasons
assigned are the array of the binding itself, when it has one. -/
def updateFromBinding (k : MappingKey) (binding : Binding) : MappingKey :=
  let isWhole := nullishAssign k.isWhole binding.isWhole
  let isPartitioned := nullishAssign k.isPartitioned binding.isPartitioned
  { k with
    isWhole := isWhole
    isWholeReason := if truthy isWhole then binding.isWholeReason else k.isWholeReason
    isWholeReasonOfBinding :=
      if truthy isWhole then binding.isWholeReason.isSome else k.isWholeReasonOfBinding
    isPartitioned := isPartitioned
    isPartitionedReason :=
      if truthy isPartitioned then binding.isPartitionedReason else k.isPartitionedReason
    isPartitionedReasonOfBinding :=
      if truthy isPartitioned then binding.isPartitionedReason.isSome
      else k.isPartitionedReasonOfBinding
    isOwned := nullishAssign k.isOwned binding.isOwned
    owner := nullishAssign k.owner binding.owner
    onChainKeyRegistry := nullishAssign k.onChainKeyRegistry binding.onChainKeyRegistry }

end MappingKey

/-! ### The table of mapping keys -/

/-- The entry of the table `mappingKeys` under a key name is replaced by its image under `f`:
a method called on the object `this.mappingKeys[keyName]`. -/
def modifyKey :
    List (String × MappingKey) → String → (MappingKey → MappingKey) → List (String × MappingKey)
  | [], _, _ => []
  | (n, k) :: rest, keyName, f =>
    if n == keyName then (n, f k) :: rest else (n, k) :: modifyKey rest keyName f

/-- All keys of the table run `prelimTraversalErrorChecks`, in the order of the table, until
one throws. -/
def checkMappingKeys (containerNode : Node) :
    List (String × MappingKey) → Except Exception (List String)
  | [] => .ok []
  | (_, k) :: rest =>
    match k.prelimTraversalErrorChecks containerNode with
    | .error e => .error e
    | .ok log =>
      match checkMappingKeys containerNode rest with
      | .error e => .error e
      | .ok logs => .ok (log ++ logs)

/-! ### `StateVariableIndicator` -/

namespace StateVariableIndicator

/-- The constructor `new StateVariableIndicator(path)`: `referencedBinding` is what
`path.getReferencedBinding()` returned and `isMappingIdentifier` what
`path.isMappingIdentifier()` returned, both answered by the scope. -/
def create (referencedBinding : Binding) (path : NodePath) (isMappingIdentifier : Bool) :
    StateVariableIndicator :=
  { id := referencedBinding.id
    name := referencedBinding.name
    node := path.node
    isSecret := referencedBinding.isSecret
    isMapping := if isMappingIdentifier then some true else none
    mappingKeys := if isMappingIdentifier then some [] else none }

/-- The method `addReferencingPath(path)`. -/
def addReferencingPath (ind : StateVariableIndicator) (path : NodePath) :
    StateVariableIndicator :=
  { ind with
    isReferenced := some true
    referenceCount := ind.referenceCount + 1
    referencingPaths :=
      if ind.referencingPaths.any (fun p => p.node.id == path.node.id) then ind.referencingPaths
      else ind.referencingPaths ++ [path] }

/-- The method `addModifyingPath(path)`. -/
def addModifyingPath (ind : StateVariableIndicator) (path : NodePath) :
    StateVariableIndicator :=
  let i1 := { ind with isModified := some true, modificationCount := ind.modificationCount + 1 }
  if i1.modifyingPaths.any (fun p => p.node.id == path.node.id) then i1
  else
    let i2 := { i1 with
      modifyingPaths := i1.modifyingPaths ++ [path]
      newCommitmentRequired := some true
      initialisationRequired := some true }
    let i3 := if truthy path.node.isKnown then { i2 with isKnown := some true } else i2
    if truthy path.node.isUnknown then { i3 with isUnknown := some true } else i3

/-- The method `updateProperties(path)`. -/
def updateProperties (ind : StateVariableIndicator) (path : NodePath) :
    StateVariableIndicator :=
  let i1 := ind.addReferencingPath path
  let i2 := { i1 with
    isUnknown := nullishAssign i1.isUnknown path.node.isUnknown
    isKnown := nullishAssign i1.isKnown path.node.isKnown
    reinitialisable := nullishAssign i1.reinitialisable path.node.reinitialisable }
  if path.isModification then i2.addModifyingPath path else i2

/-- The warning of `prelimTraversalErrorChecks`. -/
def pedanticWarning (ind : StateVariableIndicator) : String :=
  "PEDANTIC: Unnecessary 'known' decorator. Secret state '" ++ ind.name
    ++ "' is trivially 'known' because it is 'whole', due to:"

/-- The method `prelimTraversalErrorChecks()`: the lines logged when it returns, or the
exception it throws. -/
def prelimTraversalErrorChecks (ind : StateVariableIndicator) :
    Except Exception (List String) :=
  if !truthy ind.isSecret then .ok []
  else
    let keysChecked : Except Exception (List String) :=
      if truthy ind.isMapping then
        match ind.mappingKeys with
        | none => .error (.TypeError "Cannot convert undefined or null to object")
        | some keys => checkMappingKeys ind.node keys
      else .ok []
    match keysChecked with
    | .error e => .error e
    | .ok keyLog =>
      let warned : Except Exception (List String) :=
        if truthy ind.isKnown && truthy ind.isWhole && !truthy ind.isIncremented then
          match ind.isWholeReason with
          | none => .error (.TypeError "Cannot read properties of undefined (reading forEach)")
          | some rs => .ok (pedanticWarning ind :: rs.map Reason.text)
        else .ok []
      match warned with
      | .error e => .error e
      | .ok log =>
        if truthy ind.isUnknown && truthy ind.isWhole then
          .error (.SyntaxUsageError "Can't mark a whole state as 'unknown'" ind.node
            ind.isWholeReason)
        else if truthy ind.isWhole && truthy ind.isPartitioned then
          match ind.isWholeReason, ind.isPartitionedReason with
          | some whole, some partitioned =>
            .error (.SyntaxUsageError
              "State cannot be whole and partitioned. The following reasons conflict."
              ind.node (some (whole ++ partitioned)))
          | _, _ => .error (.TypeError "undefined is not iterable")
        else .ok (keyLog ++ log)

end StateVariableIndicator

/-- The names of the members that a plain object inherits from `Object.prototype`: on an
object that has no property of its own under one of these names, `object[name]` is that
member, which is truthy. -/
def objectPrototypeNames : List String :=
  ["constructor", "hasOwnProperty", "isPrototypeOf", "propertyIsEnumerable", "toLocaleString",
    "toString", "valueOf", "__defineGetter__", "__defineSetter__", "__lookupGetter__",
    "__lookupSetter__", "__proto__"]

/-- The method `MappingKey.updateProperties(path)`: the key, then its container. -/
def MappingKey.updateProperties (k : MappingKey) (container : StateVariableIndicator)
    (path : NodePath) : MappingKey × StateVariableIndicator :=
  (k.updateOwnProperties path, container.updateProperties path)

namespace StateVariableIndicator

/-- The method `addMappingKey(referencingPath)`: the objects after the call and the name
`keyName` of the member `this.mappingKeys[keyName]` that it returns.  The test
`!!this.mappingKeys[keyName]` holds for a key stored under the name and also for a name that
the table, a plain object, inherits from `Object.prototype`: for such a name no key is made
and the member returned is the inherited one.  The call writes nothing before the point
where it can throw. -/
def addMappingKey (E : Env) (w : World) (referencingPath : Option NodePath) :
    Except Exception (World × String) :=
  match referencingPath with
  | none => .error (.TypeError "Cannot read properties of undefined (reading getMappingKeyIdentifier)")
  | some rp =>
    match rp.getMappingKeyIdentifier with
    | .error e => .error e
    | .ok keyNode =>
      match keyNode.bind E.pathCache with
      | none => .error (.Error "Node not found in pathCache")
      | some keyPath =>
        if keyNode.map Node.nodeType != some "Identifier" then
          .error (.Error ("A mapping key of nodeType '"
            ++ (keyNode.map Node.nodeType).getD "undefined"
            ++ "' isn't supported yet. We've only written the code for keys of nodeType Identifier'"))
        else
          match E.getMappingKeyName w.binding rp with
          | .error e => .error e
          | .ok keyName =>
            match w.ind.mappingKeys with
            | none => .error (.TypeError "Cannot read properties of undefined")
            | some keys =>
              match keys.lookup keyName with
              | some _ => .ok (w, keyName)
              | none =>
                if objectPrototypeNames.contains keyName then .ok (w, keyName)
                else
                  match MappingKey.create E w.ind keyPath with
                  | .error e => .error e
                  | .ok k =>
                    .ok ({ w with
                        ind := { w.ind with mappingKeys := some (keys ++ [(keyName, k)]) } },
                      keyName)

/-- A method is called on the mapping key stored under a name. -/
def onKey (w : World) (keyName : String) (f : MappingKey → MappingKey) : World :=
  { w with ind := { w.ind with mappingKeys := w.ind.mappingKeys.map (fun keys => modifyKey keys keyName f) } }

/-- The mapping key stored under a name, if there is one. -/
def storedKey (w : World) (keyName : String) : Option MappingKey :=
  w.ind.mappingKeys.bind (fun keys => keys.lookup keyName)

/-- A method is called on what `addMappingKey` returned, `this.mappingKeys[keyName]`: `after`
is what the method leaves when that is a mapping key.  When no key is stored under the name,
what was returned is the member that the table inherits, which has no such method, and the
call throws. -/
def callOnKey (w : World) (keyName method : String) (after : World) :
    World × Option Exception :=
  match storedKey w keyName with
  | some _ => (after, none)
  | none =>
    (w, some (.TypeError ("this.addMappingKey(...)." ++ method ++ " is not a function")))

/-- The array that the binding holds as `isWholeReason` has received a reason: `reasons` is
its content afterwards, which the binding shows, and with it the indicator and every mapping
key that hold that same array. -/
def shareWholeReason (w : World) (reasons : Option (List Reason)) : World :=
  { w with
    binding := { w.binding with isWholeReason := reasons }
    ind := { w.ind with
      isWholeReason := if w.ind.isWholeReasonOfBinding then reasons else w.ind.isWholeReason
      mappingKeys := w.ind.mappingKeys.map (fun keys =>
        keys.map (fun kv =>
          (kv.1, if kv.2.isWholeReasonOfBinding then { kv.2 with isWholeReason := reasons }
            else kv.2))) } }

/-- The same for the array that the binding holds as `isPartitionedReason`. -/
def sharePartitionedReason (w : World) (reasons : Option (List Reason)) : World :=
  { w with
    binding := { w.binding with isPartitionedReason := reasons }
    ind := { w.ind with
      isPartitionedReason :=
        if w.ind.isPartitionedReasonOfBinding then reasons else w.ind.isPartitionedReason
      mappingKeys := w.ind.mappingKeys.map (fun keys =>
        keys.map (fun kv =>
          (kv.1,
            if kv.2.isPartitionedReasonOfBinding then { kv.2 with isPartitionedReason := reasons }
            else kv.2))) } }

/-- The indicator has pushed a reason onto its `isWholeReason`: when that array is the one of
the binding, the other objects that hold it show the reason too. -/
def pushedWholeReason (w : World) : World :=
  if w.ind.isWholeReasonOfBinding then shareWholeReason w w.ind.isWholeReason else w

/-- The indicator has pushed a reason onto its `isPartitionedReason`. -/
def pushedPartitionedReason (w : World) : World :=
  if w.ind.isPartitionedReasonOfBinding then sharePartitionedReason w w.ind.isPartitionedReason
  else w

/-- The call `key.updateIncrementation(path, state)` on the mapping key stored under a name.
A reason that the key pushes onto an array that is the one of the binding shows in the
other objects that hold it. -/
def keyUpdateIncrementation (w : World) (keyName : String) (path : NodePath)
    (state : IncrementationState) : World :=
  let identifier := state.incrementedIdentifier
  let w1 := onKey w keyName (fun k => k.updateIncrementation path state)
  match storedKey w1 keyName with
  | none => w1
  | some k =>
    if !truthy path.isIncremented || truthy identifier.isKnown then
      if k.isWholeReasonOfBinding then shareWholeReason w1 k.isWholeReason else w1
    else if !truthy path.isDecremented
        && (truthy identifier.isUnknown
            || truthy (identifier.baseExpression.bind Node.isUnknown)) then
      if k.isPartitionedReasonOfBinding then sharePartitionedReason w1 k.isPartitionedReason
      else w1
    else w1

/-- The method `addNullifyingPath(path)`. -/
def addNullifyingPath (E : Env) (w : World) (path : Option NodePath) :
    World × Option Exception :=
  let ind1 := { w.ind with
    isNullified := some true
    oldCommitmentAccessRequired := some true
    nullificationCount := w.ind.nullificationCount + 1
    nullifyingPaths := w.ind.nullifyingPaths ++ [path] }
  let called := E.bindingAddNullifyingPath w.binding path
  let w1 : World := { w with ind := ind1, binding := called.1 }
  match called.2 with
  | some e => (w1, some e)
  | none =>
    if truthy w1.ind.isMapping then
      match addMappingKey E w1 path with
      | .error e => (w1, some e)
      | .ok (w2, keyName) =>
        callOnKey w2 keyName "addNullifyingPath"
          (onKey w2 keyName (fun k => k.addNullifyingPath path))
    else (w1, none)

end StateVariableIndicator

namespace StateVariableIndicator

/-- The rest of a method runs on the objects as the first part left them, unless the first
part threw. -/
def andThen (r : World × Option Exception) (rest : World → World × Option Exception) :
    World × Option Exception :=
  match r.2 with
  | some e => (r.1, some e)
  | none => rest r.1

/-- The method `update(path)`. -/
def update (E : Env) (w : World) (path : NodePath) : World × Option Exception :=
  if truthy w.ind.isMapping then
    match addMappingKey E w (some path) with
    | .error e => (w, some e)
    | .ok (w1, keyName) =>
      callOnKey w1 keyName "updateProperties"
        (onKey { w1 with ind := w1.ind.updateProperties path } keyName
          (fun k => k.updateOwnProperties path))
  else ({ w with ind := w.ind.updateProperties path }, none)

/-- The method `updateFromBinding()`.  The reasons assigned are the arrays of the binding
themselves, so that the indicator, its mapping keys and the binding then hold one array. -/
def updateFromBinding (w : World) : World × Option Exception :=
  let ind := w.ind
  let binding := w.binding
  let isWhole := nullishAssign ind.isWhole binding.isWhole
  let isPartitioned := nullishAssign ind.isPartitioned binding.isPartitioned
  let ind1 := { ind with
    isWhole := isWhole
    isWholeReason := if truthy isWhole then binding.isWholeReason else ind.isWholeReason
    isWholeReasonOfBinding :=
      if truthy isWhole then binding.isWholeReason.isSome else ind.isWholeReasonOfBinding
    isPartitioned := isPartitioned
    isPartitionedReason :=
      if truthy isPartitioned then binding.isPartitionedReason else ind.isPartitionedReason
    isPartitionedReasonOfBinding :=
      if truthy isPartitioned then binding.isPartitionedReason.isSome
      else ind.isPartitionedReasonOfBinding
    isOwned := nullishAssign ind.isOwned binding.isOwned
    owner := nullishAssign ind.owner binding.owner
    onChainKeyRegistry := nullishAssign ind.onChainKeyRegistry binding.onChainKeyRegistry }
  let parent1 := { w.parentIndincator with
    onChainKeyRegistry :=
      nullishAssign w.parentIndincator.onChainKeyRegistry binding.onChainKeyRegistry }
  let w1 : World := { w with ind := ind1, parentIndincator := parent1 }
  if truthy ind1.isMapping then
    match ind1.mappingKeys with
    | none => (w1, some (.TypeError "Cannot convert undefined or null to object"))
    | some keys =>
      ({ w1 with ind := { ind1 with
          mappingKeys := some (keys.map (fun kv => (kv.1, kv.2.updateFromBinding binding))) } },
        none)
  else (w1, none)

/-- The method `updateAccessed(path)`.  On a name that the table inherits, `accessedPaths` is
written on the inherited member, which is not an object of the indicator. -/
def updateAccessed (E : Env) (w : World) (path : NodePath) : World × Option Exception :=
  let ind1 := { w.ind with
    isWhole := some true
    isAccessed := some true
    oldCommitmentAccessRequired := some true
    isWholeReason :=
      some (w.ind.isWholeReason.getD [] ++ [{ src := path.node.src, text := "Accessed" }])
    accessedPaths := some (w.ind.accessedPaths.getD [] ++ [path]) }
  let parent1 := { w.parentIndincator with
    oldCommitmentAccessRequired := true
    initialisationRequired := true }
  let w1 : World := pushedWholeReason { w with ind := ind1, parentIndincator := parent1 }
  if truthy ind1.isMapping then
    match addMappingKey E w1 (some path) with
    | .error e => (w1, some e)
    | .ok (w2, keyName) =>
      let w3 := onKey w2 keyName
        (fun k => { k with accessedPaths := nullishAssign k.accessedPaths (some []) })
      match addMappingKey E w3 (some path) with
      | .error e => (w3, some e)
      | .ok (w4, keyName2) =>
        (onKey w4 keyName2
          (fun k => { k with accessedPaths := k.accessedPaths.map (fun ps => ps ++ [path]) }),
          none)
  else (w1, none)

/-- The first statement of `updateIncrementation(path, state)`: the classification as whole
or partitioned. -/
def classifyIncrementation (E : Env) (w : World) (path : NodePath)
    (state : IncrementationState) : World × Option Exception :=
  let identifier := state.incrementedIdentifier
  if !truthy path.isIncremented || truthy identifier.isKnown then
    let ind1 := { w.ind with
      isWhole := some true
      isWholeReason :=
        some (w.ind.isWholeReason.getD [] ++ [{ src := identifier.src, text := "Overwritten" }]) }
    if state.incrementedPath.isSome && !truthy identifier.reinitialisable then
      let parent1 := { w.parentIndincator with
        nullifiersRequired := true
        newCommitmentsRequired := true
        oldCommitmentAccessRequired := true
        initialisationRequired := true }
      addNullifyingPath E (pushedWholeReason { w with ind := ind1, parentIndincator := parent1 })
        state.incrementedPath
    else (pushedWholeReason { w with ind := ind1 }, none)
  else if !truthy path.isDecremented
      && (truthy identifier.isUnknown
          || truthy (identifier.baseExpression.bind Node.isUnknown)) then
    let ind1 := { w.ind with
      isPartitioned := some true
      isUnknown := nullishAssign w.ind.isUnknown (some true)
      isPartitionedReason :=
        some (w.ind.isPartitionedReason.getD []
          ++ [{ src := identifier.src, text := "Incremented and marked as unknown" }]) }
    (pushedPartitionedReason { w with
        ind := ind1
        parentIndincator := { w.parentIndincator with newCommitmentsRequired := true } }, none)
  else if !truthy path.isDecremented then
    ({ w with parentIndincator := { w.parentIndincator with newCommitmentsRequired := true } },
      none)
  else (w, none)

/-- The second statement of `updateIncrementation(path, state)`: a decrement that is not
known nullifies. -/
def nullifyDecrement (E : Env) (w : World) (path : NodePath) (state : IncrementationState) :
    World × Option Exception :=
  if truthy path.isDecremented && !truthy state.incrementedIdentifier.isKnown then
    let parent1 := { w.parentIndincator with
      nullifiersRequired := true
      newCommitmentsRequired := true
      oldCommitmentAccessRequired := true }
    addNullifyingPath E { w with parentIndincator := parent1 } state.incrementedPath
  else (w, none)

/-- The rest of `updateIncrementation(path, state)`: the flags and lists of increments and
decrements, then the mapping key. -/
def recordIncrementation (E : Env) (w : World) (path : NodePath)
    (state : IncrementationState) : World × Option Exception :=
  let ind1 := { w.ind with
    isIncremented := orAssign w.ind.isIncremented path.isIncremented
    isDecremented := orAssign w.ind.isDecremented path.isDecremented
    increments := some (w.ind.increments.getD [] ++ state.increments)
    decrements := some (w.ind.decrements.getD [] ++ state.decrements) }
  let w1 : World := { w with ind := ind1 }
  if truthy ind1.isMapping then
    match addMappingKey E w1 state.incrementedPath with
    | .error e => (w1, some e)
    | .ok (w2, keyName) =>
      callOnKey w2 keyName "updateIncrementation" (keyUpdateIncrementation w2 keyName path state)
  else (w1, none)

/-- The method `updateIncrementation(path, state)`. -/
def updateIncrementation (E : Env) (w : World) (path : NodePath)
    (state : IncrementationState) : World × Option Exception :=
  andThen (classifyIncrementation E w path state) fun w1 =>
    andThen (nullifyDecrement E w1 path state) fun w2 =>
      recordIncrementation E w2 path state

end StateVariableIndicator

/-! ### The properties shared by the two accumulators -/

/-- The properties that `updateIncrementation` reads or writes on the object itself, which
`StateVariableIndicator` and `MappingKey` both have. -/
structure Classification where
  isWhole : Option Bool
  isWholeReason : Option (List Reason)
  isPartitioned : Option Bool
  isPartitionedReason : Option (List Reason)
  isUnknown : Option Bool
  isIncremented : Option Bool
  isDecremented : Option Bool
  increments : Option (List Node)
  decrements : Option (List Node)
  isNullified : Option Bool
  nullificationCount : Nat
  nullifyingPaths : List (Option NodePath)

/-- The classification properties of an indicator. -/
def StateVariableIndicator.classification (ind : StateVariableIndicator) : Classification :=
  { isWhole := ind.isWhole
    isWholeReason := ind.isWholeReason
    isPartitioned := ind.isPartitioned
    isPartitionedReason := ind.isPartitionedReason
    isUnknown := ind.isUnknown
    isIncremented := ind.isIncremented
    isDecremented := ind.isDecremented
    increments := ind.increments
    decrements := ind.decrements
    isNullified := ind.isNullified
    nullificationCount := ind.nullificationCount
    nullifyingPaths := ind.nullifyingPaths }

/-- The classification properties of a mapping key. -/
def MappingKey.classification (k : MappingKey) : Classification :=
  { isWhole := k.isWhole
    isWholeReason := k.isWholeReason
    isPartitioned := k.isPartitioned
    isPartitionedReason := k.isPartitionedReason
    isUnknown := k.isUnknown
    isIncremented := k.isIncremented
    isDecremented := k.isDecremented
    increments := k.increments
    decrements := k.decrements
    isNullified := k.isNullified
    nullificationCount := k.nullificationCount
    nullifyingPaths := k.nullifyingPaths }

/-! ### The flags that are never reset -/

/-- The four flags `isIncremented`, `isDecremented`, `isReferenced` and `isModified`, which
`StateVariableIndicator` and `MappingKey` both have. -/
structure Flags where
  isIncremented : Option Bool
  isDecremented : Option Bool
  isReferenced : Option Bool
  isModified : Option Bool
deriving DecidableEq, Repr

/-- Each flag that is true before is true after. -/
def Flags.kept (before after : Flags) : Prop :=
  (before.isIncremented = some true → after.isIncremented = some true)
    ∧ (before.isDecremented = some true → after.isDecremented = some true)
    ∧ (before.isReferenced = some true → after.isReferenced = some true)
    ∧ (before.isModified = some true → after.isModified = some true)

instance (before after : Flags) : Decidable (before.kept after) := by
  unfold Flags.kept
  infer_instance

/-- The four flags of an indicator. -/
def StateVariableIndicator.flags (ind : StateVariableIndicator) : Flags :=
  { isIncremented := ind.isIncremented
    isDecremented := ind.isDecremented
    isReferenced := ind.isReferenced
    isModified := ind.isModified }

/-- The four flags of a mapping key. -/
def MappingKey.flags (k : MappingKey) : Flags :=
  { isIncremented := k.isIncremented
    isDecremented := k.isDecremented
    isReferenced := k.isReferenced
    isModified := k.isModified }

/-! ### The shape of an indicator -/

/-- Two states of an indicator agree on whether it is a mapping and on whether it has a table
of mapping keys. -/
def StateVariableIndicator.sameShape (before after : StateVariableIndicator) : Prop :=
  after.isMapping = before.isMapping
    ∧ after.mappingKeys.isSome = before.mappingKeys.isSome

/-! ### The aggregate flags -/

/-- Each aggregate flag of a function indicator that is true before is true after. -/
def FunctionDefinitionIndicator.accumulated (before after : FunctionDefinitionIndicator) :
    Prop :=
  (before.nullifiersRequired = true → after.nullifiersRequired = true)
    ∧ (before.newCommitmentsRequired = true → after.newCommitmentsRequired = true)
    ∧ (before.oldCommitmentAccessRequired = true → after.oldCommitmentAccessRequired = true)
    ∧ (before.initialisationRequired = true → after.initialisationRequired = true)
    ∧ (before.zkSnarkVerificationRequired = true → after.zkSnarkVerificationRequired = true)

instance (before after : FunctionDefinitionIndicator) : Decidable (before.accumulated after) := by
  unfold FunctionDefinitionIndicator.accumulated
  infer_instance

/-- Each aggregate flag of a contract indicator that is true before is true after. -/
def ContractDefinitionIndicator.accumulated (before after : ContractDefinitionIndicator) :
    Prop :=
  (before.nullifiersRequired = true → after.nullifiersRequired = true)
    ∧ (before.newCommitmentsRequired = true → after.newCommitmentsRequired = true)
    ∧ (before.oldCommitmentAccessRequired = true → after.oldCommitmentAccessRequired = true)
    ∧ (before.zkSnarkVerificationRequired = true → after.zkSnarkVerificationRequired = true)

instance (before after : ContractDefinitionIndicator) : Decidable (before.accumulated after) := by
  unfold ContractDefinitionIndicator.accumulated
  infer_instance

/-! ### The recorded paths -/

/-- The two lists of recorded paths, which `StateVariableIndicator` and `MappingKey` both
have. -/
structure Recorded where
  referencingPaths : List NodePath
  modifyingPaths : List NodePath

/-- No two paths of a list have nodes of the same `id`. -/
def distinctNodes (paths : List NodePath) : Prop :=
  (paths.map (fun p => p.node.id)).Nodup

instance (paths : List NodePath) : Decidable (distinctNodes paths) := by
  unfold distinctNodes
  infer_instance

/-- Neither list holds two paths whose nodes have the same `id`. -/
def Recorded.distinct (r : Recorded) : Prop :=
  distinctNodes r.referencingPaths ∧ distinctNodes r.modifyingPaths

/-- Both lists after are the lists before, followed by what was added since. -/
def Recorded.grownTo (before after : Recorded) : Prop :=
  before.referencingPaths <+: after.referencingPaths
    ∧ before.modifyingPaths <+: after.modifyingPaths

/-- The recorded paths of an indicator. -/
def StateVariableIndicator.recorded (ind : StateVariableIndicator) : Recorded :=
  { referencingPaths := ind.referencingPaths, modifyingPaths := ind.modifyingPaths }

/-- The recorded paths of a mapping key. -/
def MappingKey.recorded (k : MappingKey) : Recorded :=
  { referencingPaths := k.referencingPaths, modifyingPaths := k.modifyingPaths }

/-- The recorded paths of the indicator, and of every mapping key in its table, are
distinct. -/
def World.recordedDistinct (w : World) : Prop :=
  w.ind.recorded.distinct
    ∧ ∀ keys, w.ind.mappingKeys = some keys → ∀ kv ∈ keys, kv.2.recorded.distinct

/-- A call of one of the four methods of `StateVariableIndicator` that record a path. -/
inductive RecordingCall where
  | update (path : NodePath)
  | updateProperties (path : NodePath)
  | addReferencingPath (path : NodePath)
  | addModifyingPath (path : NodePath)

/-- A call of one of the three methods of `MappingKey` that record a path. -/
inductive KeyRecordingCall where
  | updateProperties (path : NodePath)
  | addReferencingPath (path : NodePath)
  | addModifyingPath (path : NodePath)

/-- The objects after one call, however it ends. -/
def StateVariableIndicator.call (E : Env) (w : World) : RecordingCall → World
  | .update path => (StateVariableIndicator.update E w path).1
  | .updateProperties path => { w with ind := w.ind.updateProperties path }
  | .addReferencingPath path => { w with ind := w.ind.addReferencingPath path }
  | .addModifyingPath path => { w with ind := w.ind.addModifyingPath path }

/-- The objects after a sequence of calls. -/
def StateVariableIndicator.calls (E : Env) (w : World) (cs : List RecordingCall) : World :=
  cs.foldl (StateVariableIndicator.call E) w

/-- A mapping key and its container after one call on the key. -/
def MappingKey.call (kc : MappingKey × StateVariableIndicator) :
    KeyRecordingCall → MappingKey × StateVariableIndicator
  | .updateProperties path => kc.1.updateProperties kc.2 path
  | .addReferencingPath path => (kc.1.addReferencingPath path, kc.2)
  | .addModifyingPath path => (kc.1.addModifyingPath path, kc.2)

/-- A mapping key and its container after a sequence of calls on the key. -/
def MappingKey.calls (kc : MappingKey × StateVariableIndicator) (cs : List KeyRecordingCall) :
    MappingKey × StateVariableIndicator :=
  cs.foldl MappingKey.call kc

/-- The objects reached from a new indicator: the indicator as the constructor leaves it, a
function indicator, and the binding the indicator was made for. -/
def World.create (referencedBinding : Binding) (path : NodePath) (isMappingIdentifier : Bool)
    (parentIndincator : FunctionDefinitionIndicator) : World :=
  { ind := StateVariableIndicator.create referencedBinding path isMappingIdentifier
    parentIndincator := parentIndincator
    binding := referencedBinding }

/-! ## The constructor of `NodePath` and the path cache

The constructor compares objects by identity (`parent[key] !== container`) and the cache is
keyed by the identity of a node.  Here an object is known by its address, and two references
are identical when the addresses are equal.  The queries above see a path as its node, its
key and its parent path; what follows sees it as the constructor builds it. -/

/-- The address of an object of the tree. -/
abbrev Address := Nat

/-- A `key`: a string or a number. -/
inductive JsKey where
  | string (s : String)
  | number (n : Int)
deriving DecidableEq, Repr

/-- An object of the tree: a node, with its `nodeType` and its properties that hold an object,
or an array of objects. -/
inductive JsObject where
  | node (nodeType : Option String) (properties : List (String × Address))
  | array (elements : List Address)
deriving DecidableEq, Repr

/-- The objects of the tree, by address. -/
abbrev Heap := Address → Option JsObject

namespace JsKey

/-- Whether `!key && key !== 0` is false: a key is there unless it is `undefined` or the
empty string. -/
def present : Option JsKey → Bool
  | none => false
  | some (string s) => s != ""
  | some (number _) => true

/-- The name of the property that a key reads on an object that is not an array. -/
def propertyName : JsKey → String
  | string s => s
  | number n => toString n

/-- The position that a key reads in an array, if it is one. -/
def arrayIndex : JsKey → Option Nat
  | number n => if 0 ≤ n then some n.toNat else none
  | string s =>
    match s.toNat? with
    | some i => if toString i == s then some i else none
    | none => none

end JsKey

/-- The object that `base[key]` refers to; `none` when that value is `undefined` or is not an
object. -/
def Heap.get (h : Heap) (base : Address) (key : JsKey) : Option Address :=
  match h base with
  | some (.node _ properties) => properties.lookup key.propertyName
  | some (.array elements) => key.arrayIndex.bind (fun i => elements[i]?)
  | none => none

/-- The test `Array.isArray(container)`. -/
def Heap.isArray (h : Heap) (a : Address) : Bool :=
  match h a with
  | some (.array _) => true
  | _ => false

/-- The value of `node.nodeType`. -/
def Heap.nodeType (h : Heap) (a : Address) : Option String :=
  match h a with
  | some (.node nodeType _) => nodeType
  | _ => none

/-- The properties that the constructor sets on a path, but for `parentPath`. -/
structure PathFields where
  node : Address
  parent : Address
  key : JsKey
  container : Address
  inList : Bool
  index : Option Int
  containerName : JsKey
  nodeType : Option String
  scope : Option Ref
deriving DecidableEq, Repr

/-- A path as the constructor builds it. -/
inductive PathObject where
  | mk (fields : PathFields) (parentPath : Option PathObject)
deriving Repr

namespace PathObject

def fields : PathObject → PathFields
  | mk f _ => f

def parentPath : PathObject → Option PathObject
  | mk _ p => p

def node (p : PathObject) : Address := p.fields.node

def parent (p : PathObject) : Address := p.fields.parent

def key (p : PathObject) : JsKey := p.fields.key

def container (p : PathObject) : Address := p.fields.container

def inList (p : PathObject) : Bool := p.fields.inList

def index (p : PathObject) : Option Int := p.fields.index

def scope (p : PathObject) : Option Ref := p.fields.scope

end PathObject

/-- The argument of the constructor: each property may be missing. -/
structure ConstructorArgs where
  node : Option Address
  parent : Option Address
  key : Option JsKey
  container : Option Address
  index : Option Int
  parentPath : Option PathObject

/-- The path cache of `cache.mjs`: the path stored for the node at an address. -/
abbrev PathCache := Address → Option PathObject

/-- Every path stored in the first cache is stored, for the same node, in the second. -/
def PathCache.keptIn (before after : PathCache) : Prop :=
  ∀ a p, before a = some p → after a = some p

/-- The class `Scope` of `Scope.mjs`, which is not among the files at hand. -/
structure Scopes where
  /-- The scope that `new Scope(path)` creates, or what it throws. -/
  create : PathObject → Except Exception Ref
  /-- What `scope.update(path)` throws, if it throws. -/
  update : Ref → PathObject → Option Exception

namespace PathObject

/-- The static method `validateConstructorArgs`: the warnings logged when it returns, or the
error it throws. -/
def validateConstructorArgs (h : Heap) (args : ConstructorArgs) :
    Except Exception (List String) :=
  match args.parent with
  | none => .error (.Error "Can't create a path without a parent")
  | some parent =>
    match args.node with
    | none => .error (.Error "Can't create a path without a node")
    | some node =>
      match args.container with
      | none => .error (.Error "Can't create a path without a container")
      | some container =>
        match args.key with
        | none => .error (.Error "Can't create a path without a key")
        | some key =>
          if !JsKey.present (some key) then
            .error (.Error "Can't create a path without a key")
          else if h.get parent key != some container then
            .error (.Error "container !== parent[key]")
          else if h.isArray container then
            match args.index with
            | none => .error (.Error "index must exist for a container of type array")
            | some index =>
              if h.get container (.number index) != some node then
                .error (.Error "parent[key][index] !== node for a container of type 'array'")
              else .ok []
          else
            let log :=
              if args.index.isSome then ["index shouldn't exist for a non-array container"]
              else []
            if node != container then
              .error (.Error "container !== node for a non-array container")
            else .ok log

/-- The method `isScopable()`. -/
def isScopable (nodeType : Option String) : Bool :=
  nodeType == some "SourceUnit" || nodeType == some "ContractDefinition"
    || nodeType == some "FunctionDefinition"

/-- The search `queryAncestors(path => path.scope)` of `getScope()`: the scope of the first
path, from this one upwards, that has one. -/
def nearestScope : PathObject → Option Ref
  | mk f none => f.scope
  | mk f (some p) =>
    match f.scope with
    | some s => some s
    | none => nearestScope p

/-- The method `getScope()`. -/
def getScope (p : PathObject) : Except Exception Ref :=
  match p.scope with
  | some s => .ok s
  | none =>
    match nearestScope p with
    | some s => .ok s
    | none => .error (.Error "Expect every node to be within a scope.")

/-- The method `setScope()`: the path with its scope, or what was thrown. -/
def setScope (S : Scopes) (p : PathObject) : Except Exception PathObject :=
  if p.fields.nodeType == some "SourceUnit" then
    match S.create p with
    | .error e => .error e
    | .ok s => .ok (mk { p.fields with scope := some s } p.parentPath)
  else
    match getScope p with
    | .error e => .error e
    | .ok nearestAncestorScope =>
      let chosen : Except Exception Ref :=
        if isScopable p.fields.nodeType then S.create p else .ok nearestAncestorScope
      match chosen with
      | .error e => .error e
      | .ok s =>
        let p1 := mk { p.fields with scope := some s } p.parentPath
        match S.update nearestAncestorScope p1 with
        | some e => .error e
        | none => .ok p1

/-- The constructor `new NodePath(args)`: the cache after the call, the path returned and the
warnings logged, or what was thrown.  The cache is written last, so that a call that throws
leaves it as it was.  The last case of the inner `match` does not occur: arguments that pass
the validation have a node, a parent, a key and a container. -/
def construct (S : Scopes) (h : Heap) (cache : PathCache) (args : ConstructorArgs) :
    Except Exception (PathCache × PathObject × List String) :=
  match args.node.bind cache with
  | some cached => .ok (cache, cached, [])
  | none =>
    match validateConstructorArgs h args, args.node, args.parent, args.key, args.container with
    | .error e, _, _, _, _ => .error e
    | .ok log, some node, some parent, some key, some container =>
      let inList := h.isArray container
      let this := mk
        { node := node
          parent := parent
          key := key
          container := container
          inList := inList
          index := if inList then args.index else none
          containerName := key
          nodeType := h.nodeType node
          scope := none }
        args.parentPath
      match setScope S this with
      | .error e => .error e
      | .ok path => .ok (fun a => if a = node then some path else cache a, path, log)
    | .ok _, _, _, _, _ => .error (.TypeError "Cannot read properties of undefined")

/-- The static method `getPath(node)`. -/
def getPath (cache : PathCache) (node : Option Address) : Except Exception PathObject :=
  match node.bind cache with
  | some path => .ok path
  | none => .error (.Error "Node not found in pathCache")

end PathObject

/-! ## Containers on the right and on the left (`NodePath.mjs`) -/

namespace NodePath

/-- The list `rhsContainers` of `getRhsAncestor`, in the order of the source. -/
def rhsContainers : List String :=
  ["rightHandSide", "initialValue", "trueExpression", "falseExpression", "indexExpression",
    "subExpression", "rightExpression", "arguments"]

/-- `getRhsAncestor(true)`: the first container name of `rhsContainers` that holds this path
or one of its ancestors; `none` stands for the result `false`. -/
def getRhsAncestorName (p : NodePath) : Option String :=
  rhsContainers.find? (fun container => (p.getAncestorContainedWithin container).isSome)

end NodePath

/-- What `getCorrespondingLhsNode` and `getCorrespondingRhsNode` return: a node, `undefined`
(the property read is not on the parent node), `false` or `null`. -/
inductive NodeOrFalsy where
  | node (n : Node)
  | undefinedValue
  | falseValue
  | nullValue
deriving Repr

/-- The value of a property that holds a node, or `undefined`. -/
def NodeOrFalsy.ofProperty : Option Node → NodeOrFalsy
  | some n => .node n
  | none => .undefinedValue

/-- The value of `property || false` for a property that holds a node. -/
def NodeOrFalsy.orFalse : Option Node → NodeOrFalsy
  | some n => .node n
  | none => .falseValue

namespace NodePath

/-- `getCorrespondingLhsNode()`.  Reading `parent.node` when no ancestor of the type was
found is a `TypeError`, and so is `declarations[0]` on a node without `declarations`. -/
def getCorrespondingLhsNode (p : NodePath) : Except Exception NodeOrFalsy :=
  match p.getRhsAncestorName with
  | none => .ok .nullValue
  | some rhsContainer =>
    if rhsContainer = "rightHandSide" then
      match p.getAncestorOfType "Assignment" with
      | none => .error (.TypeError "Cannot read properties of null (reading node)")
      | some parent => .ok (.ofProperty parent.node.leftHandSide)
    else if rhsContainer = "initialValue" then
      match p.getAncestorOfType "VariableDeclarationStatement" with
      | none => .error (.TypeError "Cannot read properties of null (reading node)")
      | some parent =>
        match parent.node.declarations with
        | none => .error (.TypeError "Cannot read properties of undefined (reading 0)")
        | some declarations => .ok (.ofProperty declarations.head?)
    else if rhsContainer = "subExpression" then .ok (.node p.node)
    else if rhsContainer = "rightExpression" then
      match p.getAncestorOfType "BinaryOperation" with
      | none => .error (.TypeError "Cannot read properties of null (reading node)")
      | some parent => .ok (.ofProperty parent.node.leftExpression)
    else if rhsContainer = "arguments" then
      match p.getAncestorOfType "FunctionCall" with
      | none => .error (.TypeError "Cannot read properties of null (reading node)")
      | some parent => .ok (.orFalse (parent.node.declarations.bind List.head?))
    else if rhsContainer = "trueExpression" ∨ rhsContainer = "falseExpression"
        ∨ rhsContainer = "indexExpression" then .ok .falseValue
    else .ok .nullValue

/-- `getCorrespondingRhsNode()`. -/
def getCorrespondingRhsNode (p : NodePath) : Except Exception NodeOrFalsy :=
  match p.getLhsAncestorName with
  | none => .ok .nullValue
  | some lhsContainer =>
    if lhsContainer = "leftHandSide" then
      match p.getAncestorOfType "Assignment" with
      | none => .error (.TypeError "Cannot read properties of null (reading node)")
      | some parent => .ok (.ofProperty parent.node.rightHandSide)
    else if lhsContainer = "declarations" then
      match p.getAncestorOfType "VariableDeclarationStatement" with
      | none => .error (.TypeError "Cannot read properties of null (reading node)")
      | some parent => .ok (.ofProperty parent.node.initialValue)
    else if lhsContainer = "subExpression" then .ok (.node p.node)
    else if lhsContainer = "leftExpression" then
      match p.getAncestorOfType "BinaryOperation" with
      | none => .error (.TypeError "Cannot read properties of null (reading node)")
      | some parent => .ok (.ofProperty parent.node.rightExpression)
    else .ok .nullValue

end NodePath

/-! ## Paths that reference the same declaration (`NodePath.mjs`) -/

/-- A JavaScript value that is `undefined`, a number or a string. -/
inductive JsPrimitive where
  | undefined
  | number (n : Int)
  | string (s : String)
deriving DecidableEq, Repr

namespace JsPrimitive

/-- `a === b`: two values of different types are never equal. -/
def strictEquals : JsPrimitive → JsPrimitive → Bool
  | undefined, undefined => true
  | number a, number b => a == b
  | string a, string b => a == b
  | _, _ => false

/-- Truthiness of such a value. -/
def isTruthy : JsPrimitive → Bool
  | undefined => false
  | number n => n != 0
  | string s => s != ""

/-- The property name that `object[value]` reads or writes. -/
def propertyName : JsPrimitive → String
  | undefined => "undefined"
  | number n => toString n
  | string s => s

end JsPrimitive

/-- The value of `node.referencedDeclaration`: the parser writes a number. -/
def Node.referencedDeclaration (n : Node) : JsPrimitive :=
  match n.data.referencedDeclaration with
  | some r => .number r
  | none => .undefined

/-- The object `state` of `getAllNodesWhichReferenceTheSame`: its properties by name, each
holding an array of paths.  `Object.keys(state)` are the names. -/
abbrev ReferenceTable := List (String × List NodePath)

/-- The assignment `state[name] = paths`. -/
def ReferenceTable.set (state : ReferenceTable) (name : String) (paths : List NodePath) :
    ReferenceTable :=
  if state.any (fun entry => entry.1 == name) then
    state.map (fun entry => if entry.1 == name then (name, paths) else entry)
  else state ++ [(name, paths)]

namespace NodePath

/-- The callback `visitor1` of `getAllNodesWhichReferenceTheSame`. -/
def getAllNodesWhichReferenceTheSame.visitor1 (state : ReferenceTable) (path : NodePath) :
    ReferenceTable :=
  let refId := path.node.referencedDeclaration
  if refId.isTruthy then state.set refId.propertyName [] else state

/-- The callback `visitor2` of `getAllNodesWhichReferenceTheSame`: for every `refId` of
`Object.keys(state)`, the path is pushed when `path.node.referencedDeclaration === refId`. -/
def getAllNodesWhichReferenceTheSame.visitor2 (state : ReferenceTable) (path : NodePath) :
    ReferenceTable :=
  state.map (fun entry =>
    if path.node.referencedDeclaration.strictEquals (.string entry.1) then
      (entry.1, entry.2 ++ [path])
    else entry)

/-- `getAllNodesWhichReferenceTheSame(beneathNodeType)`.  `traversePathsFast` is the function
of `traverse.mjs`, given by the paths it visits from a path, in the order of the visit. -/
def getAllNodesWhichReferenceTheSame (traversePathsFast : NodePath → List NodePath)
    (p : NodePath) (beneathNodeType : String) : ReferenceTable :=
  let refId := p.node.referencedDeclaration
  let state : ReferenceTable :=
    if refId.isTruthy then ReferenceTable.set [] refId.propertyName []
    else (traversePathsFast p).foldl getAllNodesWhichReferenceTheSame.visitor1 []
  if state.length = 0 then []
  else
    match p.getAncestorOfType beneathNodeType with
    | none => []
    | some rootNodePath =>
      (traversePathsFast rootNodePath).foldl getAllNodesWhichReferenceTheSame.visitor2 state

/-- The callback `visitor1` of `getAllNodesWhichModifyTheSame`. -/
def getAllNodesWhichModifyTheSame.visitor1 (state : ReferenceTable) (path : NodePath) :
    ReferenceTable :=
  let refId := path.node.referencedDeclaration
  if refId.isTruthy && path.containerName == "leftHandSide" then
    state.set refId.propertyName []
  else state

/-- The callback `visitor2` of `getAllNodesWhichModifyTheSame`. -/
def getAllNodesWhichModifyTheSame.visitor2 (state : ReferenceTable) (path : NodePath) :
    ReferenceTable :=
  state.map (fun entry =>
    if path.node.referencedDeclaration.strictEquals (.string entry.1)
        && path.containerName == "leftHandSide" then
      (entry.1, entry.2 ++ [path])
    else entry)

/-- `getAllNodesWhichModifyTheSame(beneathNodeType)`. -/
def getAllNodesWhichModifyTheSame (traversePathsFast : NodePath → List NodePath)
    (p : NodePath) (beneathNodeType : String) : ReferenceTable :=
  let refId := p.node.referencedDeclaration
  let state : ReferenceTable :=
    if refId.isTruthy && p.containerName == "leftHandSide" then
      ReferenceTable.set [] refId.propertyName []
    else (traversePathsFast p).foldl getAllNodesWhichModifyTheSame.visitor1 []
  if state.length = 0 then []
  else
    match p.getAncestorOfType beneathNodeType with
    | none => []
    | some rootNodePath =>
      (traversePathsFast rootNodePath).foldl getAllNodesWhichModifyTheSame.visitor2 state

end NodePath

/-! ## Taint marks (`NodePath.mjs`, `interactsWithSecretVisitor.mjs`) -/

/-- The four marks that the taint pass writes on a path and on a node; `none` is
`undefined`. -/
structure TaintMarks where
  containsSecret : Option Bool := none
  containsPublic : Option Bool := none
  interactsWithSecret : Option Bool := none
  interactsWithPublic : Option Bool := none
deriving DecidableEq, Repr

/-- What the taint pass writes.  The pass reaches one path or one node several times (as an
ancestor, then again in a sweep of the statement), so the marks are kept by object; a node is
known by its `id` and a path by the `id` of its node, the path cache holding one path for a
node.  The two lists hold the calls `indicator.addSecretInteractingPath(path)` and
`indicator.addPublicInteractingPath(path)` in the order they are made, each with the `id` of
the indicator it is made on, a call that throws included.  No class of the sources at hand
defines the two methods: what a call throws is asked of `TaintEnv`, and what it writes on
the indicator is not modelled. -/
structure TaintState where
  pathMarks : Nat → TaintMarks := fun _ => {}
  nodeMarks : Nat → TaintMarks := fun _ => {}
  secretInteractingPaths : List (Nat × NodePath) := []
  publicInteractingPaths : List (Nat × NodePath) := []

namespace TaintState

/-- A write on the path object. -/
def markPath (st : TaintState) (path : NodePath) (f : TaintMarks → TaintMarks) : TaintState :=
  { st with
    pathMarks := Function.update st.pathMarks path.node.id (f (st.pathMarks path.node.id)) }

/-- A write on the node object. -/
def markNode (st : TaintState) (node : Node) (f : TaintMarks → TaintMarks) : TaintState :=
  { st with nodeMarks := Function.update st.nodeMarks node.id (f (st.nodeMarks node.id)) }

/-- The call `indicator.addSecretInteractingPath(path)` is made: it is added to the list of
calls.  Whether it returns is `TaintEnv.addSecretInteractingPath`. -/
def addSecretInteractingPath (st : TaintState) (indicator : Nat) (path : NodePath) :
    TaintState :=
  { st with secretInteractingPaths := st.secretInteractingPaths ++ [(indicator, path)] }

/-- The call `indicator.addPublicInteractingPath(path)` is made: it is added to the list of
calls.  Whether it returns is `TaintEnv.addPublicInteractingPath`. -/
def addPublicInteractingPath (st : TaintState) (indicator : Nat) (path : NodePath) :
    TaintState :=
  { st with publicInteractingPaths := st.publicInteractingPaths ++ [(indicator, path)] }

/-- A loop over paths whose turn can throw: `step` is what a turn writes, whether or not it
throws, and `thrown` what it throws.  The turns run in order, each on what the one before
left, until one throws. -/
def forEach (step : TaintState → NodePath → TaintState) (thrown : NodePath → Option Exception) :
    List NodePath → TaintState → TaintState × Option Exception
  | [], st => (st, none)
  | path :: rest, st =>
    match thrown path with
    | some e => (step st path, some e)
    | none => forEach step thrown rest (step st path)

/-- The paths on which such a loop runs a turn: those up to the first whose turn throws, that
one included. -/
def turnsRun (thrown : NodePath → Option Exception) : List NodePath → List NodePath
  | [] => []
  | path :: rest =>
    match thrown path with
    | some _ => [path]
    | none => path :: turnsRun thrown rest

/-- What such a loop throws: what its first turn that throws does. -/
def loopThrown (thrown : NodePath → Option Exception) : List NodePath → Option Exception
  | [] => none
  | path :: rest =>
    match thrown path with
    | some e => some e
    | none => loopThrown thrown rest

end TaintState

/-- What the taint pass asks of the scope and of the modules that are not at hand. -/
structure TaintEnv where
  /-- `path.scope.getReferencedIndicator(path.node, true)`: the `id` of the indicator found. -/
  getReferencedIndicator : NodePath → Option Nat
  /-- `path.scope.getReferencedBinding(path.node)`. -/
  getReferencedBinding : NodePath → Option Binding
  /-- `traversePathsFast` of `traverse.mjs`: the paths visited from a path, in order. -/
  traversePathsFast : NodePath → List NodePath
  /-- `path.isExternalContractInstance(node)`, answered from the scope and from the exported
  symbols of the source unit. -/
  isExternalContractInstance : NodePath → Option Node → Bool
  /-- What the call `indicator.addSecretInteractingPath(path)` throws, on the indicator of the
  given `id`; `none` when it returns.  On an object without the method, as are those of the
  classes of `Indicator.mjs`, the call throws a `TypeError`. -/
  addSecretInteractingPath : Nat → NodePath → Option Exception
  /-- What the call `indicator.addPublicInteractingPath(path)` throws; `none` when it
  returns. -/
  addPublicInteractingPath : Nat → NodePath → Option Exception

namespace NodePath

/-- What one turn of the loop of `markContainsSecret` writes, on the ancestor `path`: the
marks, then the call made. -/
def markContainsSecret.step (env : TaintEnv) (self : NodePath) (st : TaintState)
    (path : NodePath) : TaintState :=
  let st := st.markPath path (fun m => { m with containsSecret := some true })
  let st := st.markNode path.node (fun m => { m with containsSecret := some true })
  match env.getReferencedIndicator path with
  | some indicator =>
    if self.node.data.referencedDeclaration != some (indicator : Int) then
      st.addSecretInteractingPath indicator self
    else st
  | none => st

/-- What one turn of the loop of `markContainsSecret` throws: what the call
`indicator.addSecretInteractingPath(this)` does, when the turn makes it. -/
def markContainsSecret.thrown (env : TaintEnv) (self : NodePath) (path : NodePath) :
    Option Exception :=
  match env.getReferencedIndicator path with
  | some indicator =>
    if self.node.data.referencedDeclaration != some (indicator : Int) then
      env.addSecretInteractingPath indicator self
    else none
  | none => none

/-- `markContainsSecret()`: the loop runs over the parent path, its parent path, and so on,
until a turn throws. -/
def markContainsSecret (env : TaintEnv) (self : NodePath) (st : TaintState) :
    TaintState × Option Exception :=
  TaintState.forEach (markContainsSecret.step env self) (markContainsSecret.thrown env self)
    self.getAncestry.tail st

/-- What one turn of the loop of `markContainsPublic` writes, on the ancestor `path`. -/
def markContainsPublic.step (env : TaintEnv) (self : NodePath) (st : TaintState)
    (path : NodePath) : TaintState :=
  let st := st.markPath path (fun m => { m with containsPublic := some true })
  let st := st.markNode path.node (fun m => { m with containsPublic := some true })
  match env.getReferencedIndicator path with
  | some indicator =>
    if self.node.data.referencedDeclaration != some (indicator : Int) then
      st.addPublicInteractingPath indicator self
    else st
  | none => st

/-- What one turn of the loop of `markContainsPublic` throws. -/
def markContainsPublic.thrown (env : TaintEnv) (self : NodePath) (path : NodePath) :
    Option Exception :=
  match env.getReferencedIndicator path with
  | some indicator =>
    if self.node.data.referencedDeclaration != some (indicator : Int) then
      env.addPublicInteractingPath indicator self
    else none
  | none => none

/-- `markContainsPublic()`. -/
def markContainsPublic (env : TaintEnv) (self : NodePath) (st : TaintState) :
    TaintState × Option Exception :=
  TaintState.forEach (markContainsPublic.step env self) (markContainsPublic.thrown env self)
    self.getAncestry.tail st

/-- `isExternalFunctionCall()`.  Reading `nodeType` of an `expression` that the node does not
have is a `TypeError`. -/
def isExternalFunctionCall (env : TaintEnv) (p : NodePath) : Except Exception Bool :=
  if p.nodeType != "FunctionCall" then .ok false
  else
    match p.node.expression with
    | none => .error (.TypeError "Cannot read properties of undefined (reading nodeType)")
    | some functionNode =>
      if functionNode.nodeType != "MemberAccess" then .ok false
      else .ok (env.isExternalContractInstance p functionNode.expression)

end NodePath

namespace interactsWithSecretVisitor

/-- What the callback `markSubtreeInteractsWithSecret(thisPath, thisState)` writes, with
`thisState.secretPath` as `secretPath`: the marks, then the call made. -/
def markSubtreeInteractsWithSecret (env : TaintEnv) (secretPath : NodePath) (st : TaintState)
    (thisPath : NodePath) : TaintState :=
  if !(["Identifier", "VariableDeclarationStatement"].contains thisPath.node.nodeType) then st
  else
    let st := st.markPath thisPath (fun m => { m with interactsWithSecret := some true })
    let st := st.markNode thisPath.node (fun m => { m with interactsWithSecret := some true })
    match env.getReferencedIndicator thisPath with
    | some indicator =>
      if secretPath.node.id != thisPath.node.id then
        st.addSecretInteractingPath indicator secretPath
      else st
    | none => st

/-- What the callback `markSubtreeInteractsWithSecret(thisPath, thisState)` throws: what the
call `indicator.addSecretInteractingPath(thisState.secretPath)` does, when it is made. -/
def markSubtreeInteractsWithSecret.thrown (env : TaintEnv) (secretPath : NodePath)
    (thisPath : NodePath) : Option Exception :=
  if !(["Identifier", "VariableDeclarationStatement"].contains thisPath.node.nodeType) then none
  else
    match env.getReferencedIndicator thisPath with
    | some indicator =>
      if secretPath.node.id != thisPath.node.id then
        env.addSecretInteractingPath indicator secretPath
      else none
    | none => none

/-- What the callback `markSubtreeInteractsWithPublic(thisPath, thisState)` writes, with
`thisState.publicPath` as `publicPath`. -/
def markSubtreeInteractsWithPublic (env : TaintEnv) (publicPath : NodePath) (st : TaintState)
    (thisPath : NodePath) : TaintState :=
  if !(["Identifier", "VariableDeclarationStatement"].contains thisPath.node.nodeType) then st
  else
    let st := st.markPath thisPath (fun m => { m with interactsWithPublic := some true })
    let st := st.markNode thisPath.node (fun m => { m with interactsWithPublic := some true })
    match env.getReferencedIndicator thisPath with
    | some indicator =>
      if publicPath.node.id != thisPath.node.id then
        st.addPublicInteractingPath indicator publicPath
      else st
    | none => st

/-- What the callback `markSubtreeInteractsWithPublic(thisPath, thisState)` throws. -/
def markSubtreeInteractsWithPublic.thrown (env : TaintEnv) (publicPath : NodePath)
    (thisPath : NodePath) : Option Exception :=
  if !(["Identifier", "VariableDeclarationStatement"].contains thisPath.node.nodeType) then none
  else
    match env.getReferencedIndicator thisPath with
    | some indicator =>
      if publicPath.node.id != thisPath.node.id then
        env.addPublicInteractingPath indicator publicPath
      else none
    | none => none

/-- The sweep `expressionPath.traversePathsFast(markSubtreeInteractsWithSecret, { secretPath })`:
the callback runs on the paths visited, in order, until a call throws. -/
def sweepSecret (env : TaintEnv) (secretPath statement : NodePath) (st : TaintState) :
    TaintState × Option Exception :=
  TaintState.forEach (markSubtreeInteractsWithSecret env secretPath)
    (markSubtreeInteractsWithSecret.thrown env secretPath) (env.traversePathsFast statement) st

/-- The sweep `expressionPath.traversePathsFast(markSubtreeInteractsWithPublic, { publicPath })`. -/
def sweepPublic (env : TaintEnv) (publicPath statement : NodePath) (st : TaintState) :
    TaintState × Option Exception :=
  TaintState.forEach (markSubtreeInteractsWithPublic env publicPath)
    (markSubtreeInteractsWithPublic.thrown env publicPath) (env.traversePathsFast statement) st

/-- The constant `expressionPath` of `FunctionCall.exit`:
`path.getAncestorOfType('ExpressionStatement') || path.parentPath`. -/
def FunctionCall.expressionPath (path : NodePath) : Option NodePath :=
  match path.getAncestorOfType "ExpressionStatement" with
  | some statement => some statement
  | none => path.parentPath

/-- The handler `FunctionCall.exit(path, state)`: the marks after the call and the exception
that ended it, if any.  `expressionPath` is `null` when there is neither an
`ExpressionStatement` among the path and its ancestors nor a parent path. -/
def FunctionCall.exit (env : TaintEnv) (path : NodePath) (st : TaintState) :
    TaintState × Option Exception :=
  match path.isExternalFunctionCall env with
  | .error e => (st, some e)
  | .ok false => (st, none)
  | .ok true =>
    match path.markContainsPublic env st with
    | (st, some e) => (st, some e)
    | (st, none) =>
      match FunctionCall.expressionPath path with
      | none =>
        (st, some (.TypeError "Cannot read properties of null (reading traversePathsFast)"))
      | some statement => sweepPublic env path statement st

/-- The constant `expressionPath` of `Identifier.exit`:
`path.getAncestorOfType('ExpressionStatement') ||
path.getAncestorOfType('VariableDeclarationStatement')`. -/
def Identifier.expressionPath (path : NodePath) : Option NodePath :=
  match path.getAncestorOfType "ExpressionStatement" with
  | some statement => some statement
  | none => path.getAncestorOfType "VariableDeclarationStatement"

/-- The handler `Identifier.exit(path, state)`: the marks after the call and the exception
that ended it, if any. -/
def Identifier.exit (env : TaintEnv) (path : NodePath) (st : TaintState) :
    TaintState × Option Exception :=
  match env.getReferencedBinding path with
  | none => (st, none)
  | some binding =>
    if truthy binding.isSecret then
      match path.markContainsSecret env st with
      | (st, some e) => (st, some e)
      | (st, none) =>
        match Identifier.expressionPath path with
        | some statement => sweepSecret env path statement st
        | none => (st, none)
    else if truthy binding.stateVariable then
      match path.markContainsPublic env st with
      | (st, some e) => (st, some e)
      | (st, none) =>
        match Identifier.expressionPath path with
        | some statement => sweepPublic env path statement st
        | none => (st, none)
    else (st, none)

end interactsWithSecretVisitor

/-! ## The decorator check (`decoratorVisitor.mjs`) -/

namespace decoratorVisitor

/-- The handler `Identifier.exit(path, state)`.  `varDec` is what
`path.scope.findReferencedBinding(node)` returns; the result is the binding after the call
and the warnings logged, or the exception thrown. -/
def Identifier.exit (node : Node) (varDec : Option Binding) :
    Except Exception (Binding × List String) :=
  match varDec with
  | none => .error (.TypeError "Cannot read properties of null (reading stateVariable)")
  | some varDec =>
    if truthy varDec.stateVariable then
      if !truthy varDec.secretVariable && truthy node.isUnknown then
        .error (.Error ("Identifier " ++ templateString node.name
          ++ " is marked as unknown but is not secret."))
      else
        let warnings :=
          if !truthy varDec.secretVariable && truthy node.isKnown then
            ["PEDANTIC: a conventional smart contract state variable ("
              ++ templateString node.name ++ ") is \x27known\x27 by default"]
          else []
        let varDec :=
          if truthy node.isKnown then { varDec with isKnown := node.isKnown } else varDec
        let varDec :=
          if truthy node.isUnknown then { varDec with isUnknown := node.isUnknown } else varDec
        .ok (varDec, warnings)
    else .ok (varDec, [])

end decoratorVisitor

/-! ## Incrementations (`NodePath.mjs`) -/

/-- The object `{ isIncremented, isDecremented }` that `isIncrementation` and
`isIncrementationOf` return. -/
structure Incrementation where
  isIncremented : Option Bool
  isDecremented : Option Bool
deriving DecidableEq, Repr

namespace NodePath

/-- `isIncrementation(expressionNode = this.node)`. -/
def isIncrementation (p : NodePath) (expressionNode : Option Node) : Incrementation :=
  let expressionNode := expressionNode.getD p.node
  { isIncremented := expressionNode.data.isIncremented
    isDecremented := expressionNode.data.isIncremented }

/-- `isIncrementationOf(lhsNode, expressionNode = this.node)`. -/
def isIncrementationOf (p : NodePath) (lhsNode : Node) (expressionNode : Option Node) :
    Incrementation :=
  let expressionNode := expressionNode.getD p.node
  let incrementsThisNode :=
    expressionNode.data.incrementedDeclaration == lhsNode.data.referencedDeclaration
  if incrementsThisNode then
    { isIncremented := expressionNode.data.isIncremented
      isDecremented := expressionNode.data.isDecremented }
  else { isIncremented := some false, isDecremented := some false }

end NodePath

/-! ## The boilerplate generator of a circuit (`BoilerplateGenerator.mjs`) -/

/-- The boilerplate types: the names of the methods that `_addBP` calls as
`this[bpType](extraParams)`. -/
inductive BpType where
  | PoKoSK
  | nullification
  | oldCommitmentPreimage
  | oldCommitmentExistence
  | newCommitment
  | mapping
  | incrementation
  | decrementation
deriving DecidableEq, Repr

/-- The argument `extraParams` of `_addBP` and of the methods named by a boilerplate type; a
property that it does not have is `none`. -/
structure ExtraParams where
  name : Option String := none
  addendId : Option Nat := none
  subtrahendId : Option Nat := none
deriving DecidableEq, Repr

/-- The properties that `this[bpType](extraParams)` adds to a boilerplate node; `addend` and
`subtrahend` say whether the property of that name (an empty object) is there. -/
structure BpFields where
  mappingName : Option String := none
  mappingKeyName : Option String := none
  startIndex : Option Nat := none
  addend : Bool := false
  subtrahend : Bool := false
deriving DecidableEq, Repr

/-- A node of `nodeType` `Boilerplate`, as `_addBP` builds it.  The three flags are there only
when they are truthy on the generator. -/
structure Boilerplate where
  bpSection : String
  bpType : BpType
  name : Option String
  id : Option Nat
  isWhole : Option Bool
  isPartitioned : Option Bool
  isMapping : Option Bool
  fields : BpFields
deriving DecidableEq, Repr

/-- The properties of a `BoilerplateGenerator` that `assignIndicators`, `refresh` and the
constructor set: those taken from the indicator, the names of a mapping, and the four
sections of `bpSections`. -/
structure BoilerplateGenerator where
  id : Option Nat := none
  name : Option String := none
  isWhole : Option Bool := none
  isPartitioned : Option Bool := none
  isNullified : Option Bool := none
  isAccessed : Option Bool := none
  newCommitmentRequired : Option Bool := none
  isMapping : Option Bool := none
  increments : Option (List Node) := none
  decrements : Option (List Node) := none
  burnedOnly : Option Bool := none
  mappingName : Option String := none
  mappingKeyName : Option String := none
  importStatements : List Boilerplate := []
  parameters : List Boilerplate := []
  preStatements : List Boilerplate := []
  postStatements : List Boilerplate := []
deriving Repr

namespace BoilerplateGenerator

/-- Truthiness of an id: `undefined` and `0` are falsy. -/
def supplied : Option Nat → Bool
  | some n => n != 0
  | none => false

/-- The method `getIndex({ addendId, subtrahendId })`. -/
def getIndex (g : BoilerplateGenerator) (addendId subtrahendId : Option Nat) :
    Except Exception Nat :=
  if supplied addendId && supplied subtrahendId then
    .error (.Error "Expected only one of addend xor subtrahend; got both.")
  else if supplied addendId then
    match g.increments with
    | none => .error (.TypeError "Cannot read properties of undefined (reading findIndex)")
    | some increments =>
      match increments.findIdx? (fun node => addendId == some node.id) with
      | none => .error (.Error "Not found in array.")
      | some index => .ok index
  else if supplied subtrahendId then
    match g.decrements with
    | none => .error (.TypeError "Cannot read properties of undefined (reading findIndex)")
    | some decrements =>
      match decrements.findIdx? (fun node => subtrahendId == some node.id) with
      | none => .error (.Error "Not found in array.")
      | some index =>
        let indicesPerDecrementation := 4
        let startIndex := (g.increments.map List.length).getD 0
        .ok (startIndex + index * indicesPerDecrementation)
  else .error (.Error "This should be unreachable.")

/-- The call `this[bpType](extraParams)`: the method of the class named by the type. -/
def methodOfType (g : BoilerplateGenerator) (bpType : BpType)
    (extraParams : Option ExtraParams) : Except Exception BpFields :=
  match bpType with
  | .PoKoSK | .nullification | .oldCommitmentPreimage | .oldCommitmentExistence
  | .newCommitment => .ok {}
  | .mapping => .ok { mappingName := g.mappingName, mappingKeyName := g.mappingKeyName }
  | .incrementation =>
    match extraParams with
    | none => .error (.TypeError "Cannot destructure property addendId of undefined")
    | some params =>
      match g.getIndex params.addendId none with
      | .error e => .error e
      | .ok startIndex => .ok { startIndex := some startIndex, addend := true }
  | .decrementation =>
    match extraParams with
    | none => .error (.TypeError "Cannot destructure property subtrahendId of undefined")
    | some params =>
      match g.getIndex none params.subtrahendId with
      | .error e => .error e
      | .ok startIndex => .ok { startIndex := some startIndex, subtrahend := true }

/-- The node that `_addBP` adds to the section `bpSection`. -/
def boilerplate (g : BoilerplateGenerator) (bpSection : String) (bpType : BpType)
    (extraParams : Option ExtraParams) (fields : BpFields) : Boilerplate :=
  { bpSection := bpSection
    bpType := bpType
    name :=
      match extraParams.bind ExtraParams.name with
      | some name => if name != "" then some name else g.name
      | none => g.name
    id := g.id
    isWhole := if truthy g.isWhole then g.isWhole else none
    isPartitioned := if truthy g.isPartitioned then g.isPartitioned else none
    isMapping := if truthy g.isMapping then g.isMapping else none
    fields := fields }

/-- The method `_addBP(bpType, extraParams)`: one node is added at the end of each of the four
sections.  The only call that can throw is `this[bpType](extraParams)`, which reads the
generator and writes nothing, so a call that throws has written nothing. -/
def _addBP (g : BoilerplateGenerator) (bpType : BpType) (extraParams : Option ExtraParams) :
    Except Exception BoilerplateGenerator :=
  match g.methodOfType bpType extraParams with
  | .error e => .error e
  | .ok fields =>
    .ok { g with
      importStatements :=
        g.importStatements ++ [g.boilerplate "importStatements" bpType extraParams fields]
      parameters := g.parameters ++ [g.boilerplate "parameters" bpType extraParams fields]
      preStatements :=
        g.preStatements ++ [g.boilerplate "preStatements" bpType extraParams fields]
      postStatements :=
        g.postStatements ++ [g.boilerplate "postStatements" bpType extraParams fields] }

/-- The object `{ name: generated, ...extraParams }`: the name of `extraParams` wins when it
has one. -/
def named (generated : String) (extraParams : ExtraParams) : ExtraParams :=
  { extraParams with
    name :=
      match extraParams.name with
      | some name => some name
      | none => some generated }

/-- The calls of `_addBP` that `addBP.partitioned` makes for the decrement at position `i`:
their arguments, in order. -/
def decrementCalls (name : Option String) (startIndex : Nat) (bpType : BpType)
    (extraParams : ExtraParams) (i : Nat) : List ExtraParams :=
  let j := startIndex + i
  (if [BpType.PoKoSK, .nullification, .oldCommitmentPreimage, .oldCommitmentExistence,
        .mapping].contains bpType then
      [named (templateString name ++ "_" ++ toString j) extraParams,
        named (templateString name ++ "_" ++ toString (j + 1)) extraParams]
    else [])
  ++ (if [BpType.newCommitment, .mapping].contains bpType then
      [named (templateString name ++ "_" ++ toString (j + 2)) extraParams]
    else [])

/-- The calls of `_addBP` that `addBP.partitioned(bpType, extraParams)` makes: one for every
position of `increments`, then those of every position of `decrements`. -/
def partitionedCalls (g : BoilerplateGenerator) (bpType : BpType) (extraParams : ExtraParams) :
    List ExtraParams :=
  let increments := g.increments.getD []
  let decrements := g.decrements.getD []
  let startIndex := (g.increments.map List.length).getD 0
  (List.range increments.length).map
      (fun i => named (templateString g.name ++ "_" ++ toString i) extraParams)
    ++ ((List.range decrements.length).map
        (decrementCalls g.name startIndex bpType extraParams)).flatten

/-- A sequence of calls of `_addBP`: the generator after the calls, and the exception that
ended them, if any. -/
def addAll (bpType : BpType) :
    BoilerplateGenerator → List ExtraParams → BoilerplateGenerator × Option Exception
  | g, [] => (g, none)
  | g, params :: rest =>
    match g._addBP bpType (some params) with
    | .error e => (g, some e)
    | .ok g1 => addAll bpType g1 rest

/-- The method `addBP.partitioned(bpType, extraParams = {})`, bound to the generator.  The
calls read `increments`, `decrements` and `name`, which `_addBP` does not write. -/
def addBP.partitioned (g : BoilerplateGenerator) (bpType : BpType) (extraParams : ExtraParams) :
    BoilerplateGenerator × Option Exception :=
  addAll bpType g (g.partitionedCalls bpType extraParams)

/-- The method `addBP.whole`, which is `_addBP`. -/
def addBP.whole (g : BoilerplateGenerator) (bpType : BpType)
    (extraParams : Option ExtraParams) : BoilerplateGenerator × Option Exception :=
  match g._addBP bpType extraParams with
  | .error e => (g, some e)
  | .ok g1 => (g1, none)

end BoilerplateGenerator

/-! ## Building nodes (`solidity-types.mjs`) -/

/-- A value that `buildNode` takes from `fields` or builds. -/
inductive JsValue where
  | undefined
  | null
  | bool (b : Bool)
  | number (n : Int)
  | string (s : String)
  | array (elements : List JsValue)
  | object (properties : List (String × JsValue))
deriving Repr

namespace JsValue

mutual

/-- How a template literal prints a value. -/
def toTemplate : JsValue → String
  | undefined => "undefined"
  | null => "null"
  | bool b => toString b
  | number n => toString n
  | string s => s
  | array elements => ",".intercalate (elementsToTemplate elements)
  | object _ => "[object Object]"

/-- The strings that `join` puts between commas: an element that is `undefined` or `null`
gives the empty string. -/
def elementsToTemplate : List JsValue → List String
  | [] => []
  | undefined :: rest => "" :: elementsToTemplate rest
  | null :: rest => "" :: elementsToTemplate rest
  | element :: rest => toTemplate element :: elementsToTemplate rest

end

/-- The property `fields.name` that a destructuring reads: `undefined` when `fields` has
none. -/
def get (fields : List (String × JsValue)) (name : String) : JsValue :=
  (fields.lookup name).getD undefined

/-- A destructuring with a default, `{ name = value } = fields`: the default is taken when
the property is `undefined`. -/
def getOr (fields : List (String × JsValue)) (name : String) (value : JsValue) : JsValue :=
  match get fields name with
  | undefined => value
  | found => found

end JsValue

/-- The case `ElementaryTypeName` of `buildNode`. -/
def buildNode.ElementaryTypeName (fields : List (String × JsValue)) : JsValue :=
  .object [("nodeType", .string "ElementaryTypeName"),
    ("typeDescriptions", JsValue.get fields "typeDescriptions")]

/-- The case `Mapping` of `buildNode`. -/
def buildNode.Mapping (fields : List (String × JsValue)) : JsValue :=
  .object [("nodeType", .string "Mapping"),
    ("keyType", JsValue.getOr fields "keyType" (.object [])),
    ("valueType", JsValue.getOr fields "valueType" (.object [])),
    ("typeDescriptions", JsValue.getOr fields "typeDescriptions" (.object []))]

/-- The case `VariableDeclaration` of `buildNode`: the properties read from `fields` are
`name`, `typeString`, `visibility`, `storageLocation`, `isSecret` and `declarationType`. -/
def buildNode.VariableDeclaration (fields : List (String × JsValue)) : JsValue :=
  let typeString := JsValue.get fields "typeString"
  .object [("nodeType", .string "VariableDeclaration"),
    ("name", JsValue.get fields "name"),
    ("visibility", JsValue.get fields "visibility"),
    ("storageLocation", JsValue.get fields "storageLocation"),
    ("typeDescriptions", .object [("typeString", typeString)]),
    ("typeName", buildNode.ElementaryTypeName
      [("typeDescriptions", .object [("typeString", typeString)])]),
    ("isSecret", JsValue.get fields "isSecret"),
    ("declarationType", JsValue.get fields "declarationType")]

/-- The case `MappingDeclaration` of `buildNode`. -/
def buildNode.MappingDeclaration (fields : List (String × JsValue)) : JsValue :=
  let fromType := JsValue.get fields "fromType"
  let toType := JsValue.get fields "toType"
  buildNode.VariableDeclaration
    [("name", JsValue.get fields "name"),
      ("visibility", JsValue.get fields "visibility"),
      ("storageLocation", JsValue.get fields "storageLocation"),
      ("typeName", buildNode.Mapping
        [("keyType", buildNode.ElementaryTypeName
            [("name", fromType), ("typeDescriptions", .object [("typeString", fromType)])]),
          ("valueType", buildNode.ElementaryTypeName
            [("name", toType), ("typeDescriptions", .object [("typeString", toType)])]),
          ("typeDescriptions", .object
            [("typeString", .string
              ("mapping(" ++ fromType.toTemplate ++ " => " ++ toType.toTemplate ++ ")"))])])]

/-- The case `Block` of `buildNode`. -/
def buildNode.Block (fields : List (String × JsValue)) : JsValue :=
  .object [("nodeType", .string "Block"),
    ("preStatements", JsValue.getOr fields "preStatements" (.array [])),
    ("statements", JsValue.getOr fields "statements" (.array [])),
    ("postStatements", JsValue.getOr fields "postStatements" (.array []))]

/-- The case `ParameterList` of `buildNode`. -/
def buildNode.ParameterList (fields : List (String × JsValue)) : JsValue :=
  .object [("nodeType", .string "ParameterList"),
    ("parameters", JsValue.getOr fields "parameters" (.array []))]

/-- The names of the cases of `buildNode` that return `{ nodeType }` alone. -/
def buildNode.bare : List String :=
  ["MsgSender", "ShieldContractConstructorBoilerplate",
    "ShieldContractVerifierInterfaceBoilerplate",
    "requireNewNullifiersNotInNullifiersThenAddThemBoilerplate",
    "requireCommitmentRootInCommitmentRootsBoilerplate", "verifyBoilerplate",
    "insertLeavesBoilerplate"]

/-- `buildNode(nodeType, fields = {})`.  The two cases that ask a boilerplate generator of a
contract (`ContractBoilerplate`, `FunctionBoilerplate`) call `getBoilerplate`, which stands
for `new ContractBP(scope).getBoilerplate(bpSection)` and
`new FunctionBP(scope).getBoilerplate(bpSection)`. -/
def buildNode
    (getBoilerplate : String → List (String × JsValue) → Except Exception JsValue)
    (nodeType : String) (fields : List (String × JsValue)) : Except Exception JsValue :=
  let type : String × JsValue := ("nodeType", .string nodeType)
  if nodeType = "SourceUnit" then
    .ok (.object [type, ("name", JsValue.get fields "name"),
      ("license", JsValue.get fields "license"),
      ("nodes", JsValue.getOr fields "nodes" (.array []))])
  else if nodeType = "File" then
    .ok (.object [type, ("fileName", JsValue.get fields "fileName"),
      ("fileExtension", .string ".zok"), ("nodes", JsValue.getOr fields "nodes" (.array []))])
  else if nodeType = "PragmaDirective" then
    .ok (.object [type, ("literals", JsValue.get fields "literals")])
  else if nodeType = "InheritanceSpecifier" then
    .ok (.object [type, ("baseName", .object [("name", JsValue.get fields "name")])])
  else if nodeType = "ImportStatementList" then
    .ok (.object [type, ("imports", JsValue.getOr fields "imports" (.array []))])
  else if nodeType = "ImportDirective" then
    .ok (.object [type, ("file", JsValue.get fields "file")])
  else if nodeType = "ContractDefinition" then
    .ok (.object [type, ("name", JsValue.get fields "name"),
      ("baseContracts", JsValue.getOr fields "baseContracts" (.array [])),
      ("nodes", JsValue.getOr fields "nodes" (.array [])),
      ("isShieldContract", JsValue.get fields "isShieldContract")])
  else if nodeType = "FunctionDefinition" then
    .ok (.object [type, ("name", JsValue.get fields "name"),
      ("visibility", JsValue.get fields "visibility"),
      ("isConstructor", JsValue.get fields "isConstructor"),
      ("body", JsValue.getOr fields "body" (buildNode.Block [])),
      ("parameters", JsValue.getOr fields "parameters" (buildNode.ParameterList []))])
  else if nodeType = "ParameterList" then .ok (buildNode.ParameterList fields)
  else if nodeType = "Block" then .ok (buildNode.Block fields)
  else if nodeType = "VariableDeclaration" then .ok (buildNode.VariableDeclaration fields)
  else if nodeType = "BinaryOperation" then
    .ok (.object [type,
      ("leftExpression", JsValue.getOr fields "leftExpression" (.object [])),
      ("operator", JsValue.get fields "operator"),
      ("rightExpression", JsValue.getOr fields "rightExpression" (.object []))])
  else if nodeType = "Assignment" then
    .ok (.object [type, ("operator", JsValue.get fields "operator"),
      ("leftHandSide", JsValue.getOr fields "leftHandSide" (.object [])),
      ("rightHandSide", JsValue.getOr fields "rightHandSide" (.object []))])
  else if nodeType = "Mapping" then .ok (buildNode.Mapping fields)
  else if nodeType = "MappingDeclaration" then .ok (buildNode.MappingDeclaration fields)
  else if nodeType = "VariableDeclarationStatement" then
    .ok (.object [type,
      ("declarations", JsValue.getOr fields "declarations" (.array [])),
      ("initialValue", JsValue.getOr fields "initialValue" (.object []))])
  else if nodeType = "ExpressionStatement" then
    .ok (.object [type, ("expression", JsValue.getOr fields "expression" (.object []))])
  else if nodeType = "UnaryOperation" then
    .ok (.object [type, ("operator", JsValue.get fields "operator"),
      ("prefix", JsValue.get fields "prefix"),
      ("subExpression", JsValue.getOr fields "subExpression" (.object []))])
  else if nodeType = "ElementaryTypeName" then .ok (buildNode.ElementaryTypeName fields)
  else if nodeType = "FunctionCall" then
    .ok (.object [type, ("expression", JsValue.getOr fields "expression" (.object [])),
      ("arguments", JsValue.getOr fields "arguments" (.array []))])
  else if nodeType = "IndexAccess" then
    .ok (.object [type,
      ("baseExpression", JsValue.getOr fields "baseExpression" (.object [])),
      ("indexExpression", JsValue.getOr fields "indexExpression" (.object []))])
  else if nodeType = "MemberAccess" then
    .ok (.object [type, ("memberName", JsValue.get fields "memberName"),
      ("expression", JsValue.getOr fields "expression" (.object []))])
  else if nodeType = "Identifier" then
    .ok (.object [type, ("name", JsValue.get fields "name")])
  else if nodeType = "Literal" then
    .ok (.object [type, ("value", JsValue.get fields "value"),
      ("kind", JsValue.get fields "kind")])
  else if nodeType = "ElementaryTypeNameExpression" then
    .ok (.object [type, ("typeName", JsValue.getOr fields "typeName" (.object []))])
  else if nodeType = "ContractBoilerplate" ∨ nodeType = "FunctionBoilerplate" then
    getBoilerplate nodeType fields
  else if buildNode.bare.contains nodeType then .ok (.object [type])
  else .error (.TypeError nodeType)

/-! ## Siblings and return parameters (`NodePath.mjs`) -/

namespace JsKey

/-- The value of `key - 1`, read as an index; `none` when it is `NaN` or not an integer.
`toNumber` is the conversion of a string to a number by the language (`none` when the string
does not denote an integer, as for a name such as `statements`). -/
def minusOne (toNumber : String → Option Int) : JsKey → Option JsKey
  | number n => some (number (n - 1))
  | string s => (toNumber s).map (fun n => number (n - 1))

/-- The value of `key + 1`: a sum for a number, a concatenation for a string. -/
def plusOne : JsKey → JsKey
  | number n => number (n + 1)
  | string s => string (s ++ "1")

end JsKey

namespace PathObject

/-- `getSiblingNode(index)`; the index `none` is `NaN`, and the result `none` is `null` or
`undefined`. -/
def getSiblingNode (h : Heap) (p : PathObject) (index : Option JsKey) : Option Address :=
  if !p.inList then none else index.bind (h.get p.container)

/-- `getPrevSiblingNode()`. -/
def getPrevSiblingNode (h : Heap) (toNumber : String → Option Int) (p : PathObject) :
    Option Address :=
  p.getSiblingNode h (p.key.minusOne toNumber)

/-- `getNextSiblingNode()`. -/
def getNextSiblingNode (h : Heap) (p : PathObject) : Option Address :=
  p.getSiblingNode h (some p.key.plusOne)

/-- The loop of `getAllNextSiblingNodes` and `getAllPrevSiblingNodes`, entered with the first
sibling already looked up at `index`: the siblings found while stepping by `step`, up to the
first position that holds none.  The first argument bounds the number of turns. -/
def collectSiblings (h : Heap) (p : PathObject) (step : Int) : Nat → Int → List Address
  | 0, _ => []
  | turns + 1, index =>
    match p.getSiblingNode h (some (.number index)) with
    | some sibling => sibling :: collectSiblings h p step turns (index + step)
    | none => []

/-- The number of elements of the container, which bounds the turns of the loops: every turn
finds another element. -/
def containerLength (h : Heap) (p : PathObject) : Nat :=
  match h p.container with
  | some (.array elements) => elements.length
  | _ => 0

/-- `getAllNextSiblingNodes()`; `none` is `null`.  An `index` that is `null` counts as 0. -/
def getAllNextSiblingNodes (h : Heap) (p : PathObject) : Option (List Address) :=
  if !p.inList then none
  else some (collectSiblings h p 1 (containerLength h p) (p.index.getD 0 + 1))

/-- `getAllPrevSiblingNodes()`. -/
def getAllPrevSiblingNodes (h : Heap) (p : PathObject) : Option (List Address) :=
  if !p.inList then none
  else some (collectSiblings h p (-1) (containerLength h p) (p.index.getD 0 - 1))

/-- `isFunctionReturnParameterDeclaration()`.  `this.parent` is a node; `stringProperty` gives
the properties of a node that hold a string. -/
def isFunctionReturnParameterDeclaration (h : Heap)
    (stringProperty : Address → String → Option String) (p : PathObject) : Bool :=
  h.nodeType p.parent == some "ParameterList"
    && stringProperty p.parent "containerName" == some "returnParameters"

end PathObject

/-! ## The reasons of a classification (`Indicator.mjs`) -/

/-- A list of reasons that exists and is not empty. -/
def nonEmptyList : Option (List Reason) → Prop
  | some (_ :: _) => True
  | _ => False

instance (reasons : Option (List Reason)) : Decidable (nonEmptyList reasons) := by
  unfold nonEmptyList
  split <;> infer_instance

/-- `isWhole == true` comes with a non-empty list `isWholeReason`, and `isPartitioned == true`
with a non-empty list `isPartitionedReason`. -/
def Classification.reasoned (c : Classification) : Prop :=
  (c.isWhole = some true → nonEmptyList c.isWholeReason)
    ∧ (c.isPartitioned = some true → nonEmptyList c.isPartitionedReason)

/-- Every mapping key in the table of the indicator has the property `Q`. -/
def World.everyKey (w : World) (Q : MappingKey → Prop) : Prop :=
  ∀ keys, w.ind.mappingKeys = some keys → ∀ kv ∈ keys, Q kv.2

/-- The indicator, and every mapping key in its table, has reasons for what it is classified
as. -/
def World.reasoned (w : World) : Prop :=
  w.ind.classification.reasoned ∧ w.everyKey (fun k => k.classification.reasoned)

/-- The two lists of reasons of the mapping key are arrays of its own: neither is an array of
the binding. -/
def MappingKey.ownsReasons (k : MappingKey) : Prop :=
  k.isWholeReasonOfBinding = false ∧ k.isPartitionedReasonOfBinding = false

/-- The lists of reasons of the indicator and of every mapping key in its table are arrays of
their own, as they are for as long as `updateFromBinding` has not been called. -/
def World.ownsReasons (w : World) : Prop :=
  (w.ind.isWholeReasonOfBinding = false ∧ w.ind.isPartitionedReasonOfBinding = false)
    ∧ w.everyKey MappingKey.ownsReasons

/-- A call of one of the four accumulating methods of `StateVariableIndicator`, or of one of
the two that `MappingKey` has, on the key stored under a name. -/
inductive AccumulatingCall where
  | update (path : NodePath)
  | updateProperties (path : NodePath)
  | updateAccessed (path : NodePath)
  | updateIncrementation (path : NodePath) (state : IncrementationState)
  | keyUpdateProperties (keyName : String) (path : NodePath)
  | keyUpdateIncrementation (keyName : String) (path : NodePath) (state : IncrementationState)

/-- The objects after one accumulating call, however it ends. -/
def StateVariableIndicator.accumulate (E : Env) (w : World) : AccumulatingCall → World
  | .update path => (StateVariableIndicator.update E w path).1
  | .updateProperties path => { w with ind := w.ind.updateProperties path }
  | .updateAccessed path => (StateVariableIndicator.updateAccessed E w path).1
  | .updateIncrementation path state =>
    (StateVariableIndicator.updateIncrementation E w path state).1
  | .keyUpdateProperties keyName path =>
    StateVariableIndicator.onKey { w with ind := w.ind.updateProperties path } keyName
      (fun k => k.updateOwnProperties path)
  | .keyUpdateIncrementation keyName path state =>
    StateVariableIndicator.keyUpdateIncrementation w keyName path state

/-- The objects after a sequence of accumulating calls. -/
def StateVariableIndicator.accumulateAll (E : Env) (w : World) (cs : List AccumulatingCall) :
    World :=
  cs.foldl (StateVariableIndicator.accumulate E) w

/-- The exception is one of the two conflicts that `prelimTraversalErrorChecks` documents,
`unknown` with whole and whole with partitioned, and carries a non-empty list of reasons. -/
def Exception.isDocumentedConflict : Exception → Prop
  | .SyntaxUsageError message _ reasons =>
    (message = "Can't mark a whole state as 'unknown'"
        ∨ message = "State cannot be whole and partitioned. The following reasons conflict.")
      ∧ nonEmptyList reasons
  | _ => False

/-! ## Example objects

A secret variable `x`, an identifier of it on the left of an assignment, and the worlds in
which the theorems below are instantiated. -/

namespace Example

def xNode : Node :=
  Node.leaf { id := 5, nodeType := "Identifier", name := some "x", src := "120:1:0" }

def xPath : NodePath := .mk xNode { key := "leftHandSide" } none

def overwritten : Reason := { src := "120:1:0", text := "Overwritten" }

def incremented : Reason := { src := "150:1:0", text := "Incremented and marked as unknown" }

def xBinding : Binding := { id := 3, name := "x", isSecret := some true }

/-- A binding whose `addNullifyingPath` records the path and does not throw, and a scope and
cache that know no node. -/
def env : Env where
  pathCache := fun _ => none
  getReferencedNode := fun _ => none
  isFunctionParameter := fun _ => false
  getMappingKeyName := fun _ _ => .ok "x"
  bindingAddNullifyingPath := fun b p => ({ b with nullifyingPaths := b.nullifyingPaths ++ [p] }, none)

/-- The indicator of `x` as the constructor leaves it. -/
def fresh : StateVariableIndicator := StateVariableIndicator.create xBinding xPath false

/-- The indicator of `x`, known and overwritten. -/
def knownWhole : StateVariableIndicator :=
  { fresh with
    isKnown := some true, isWhole := some true, isWholeReason := some [overwritten],
    isPartitionedReason := some [] }

def balancesNode : Node :=
  Node.leaf { id := 9, nodeType := "Identifier", name := some "balances", src := "200:8:0" }

/-- The key `balances[msg.sender]`, incremented by an unknown amount. -/
def senderKey : MappingKey :=
  { id := 4, node := balancesNode, referencedKeyId := none, referencedKeyName := some "msg",
    referencedKeyNodeType := "msg.sender", referencedKeyIsParam := false, isMsgSender := true,
    isSecret := some true, name := "balances[msg.sender]",
    isUnknown := some true, isPartitioned := some true, isPartitionedReason := some [incremented],
    isIncremented := some true }

/-- The indicator of the secret mapping `balances` with that one key. -/
def balances : StateVariableIndicator :=
  { id := 4, name := "balances", node := balancesNode, isSecret := some true,
    isMapping := some true, mappingKeys := some [("balances[msg.sender]", senderKey)],
    isUnknown := some true, isPartitioned := some true, isPartitionedReason := some [incremented],
    isIncremented := some true }

/-- The objects reached from the fresh indicator of `x`. -/
def world : World := { ind := fresh, parentIndincator := {}, binding := xBinding }

/-- The identifier `x` of `unknown x += amount`. -/
def xUnknownNode : Node :=
  Node.leaf { id := 6, nodeType := "Identifier", name := some "x", src := "150:1:0",
              isUnknown := some true }

/-- The path of that identifier, marked as incremented. -/
def incrementPath : NodePath :=
  .mk xUnknownNode { key := "leftHandSide", isIncremented := some true, isDecremented := some false }
    none

/-- The identifier `x` of `x -= amount`. -/
def xDecrementedNode : Node :=
  Node.leaf { id := 8, nodeType := "Identifier", name := some "x", src := "180:1:0" }

/-- The path of that identifier, marked as decremented. -/
def decrementPath : NodePath :=
  .mk xDecrementedNode { key := "leftHandSide", isIncremented := some true, isDecremented := some true }
    none

/-- The shared state at `x = newVal`, no incrementation having been seen. -/
def assignment : IncrementationState :=
  { incrementedIdentifier := xNode, incrementedPath := none, increments := [], decrements := [] }

/-- The shared state at `x = newVal` after `x += amount` was seen. -/
def assignmentAfterIncrement : IncrementationState :=
  { incrementedIdentifier := xNode, incrementedPath := some incrementPath, increments := [],
    decrements := [] }

/-- The shared state at `unknown x += amount`. -/
def increment : IncrementationState :=
  { incrementedIdentifier := xUnknownNode, incrementedPath := some incrementPath,
    increments := [xUnknownNode], decrements := [] }

/-- The shared state at `x -= amount`. -/
def decrement : IncrementationState :=
  { incrementedIdentifier := xDecrementedNode, incrementedPath := some decrementPath,
    increments := [], decrements := [xDecrementedNode] }

/-- The indicator of `x` after `x -= amount`, with the function indicator and the binding. -/
def decrementedWorld : World :=
  { ind := { fresh with
      isNullified := some true, oldCommitmentAccessRequired := some true,
      nullificationCount := 1, nullifyingPaths := [some decrementPath],
      isIncremented := some true, isDecremented := some true,
      increments := some [], decrements := some [xDecrementedNode] }
    parentIndincator :=
      { nullifiersRequired := true, newCommitmentsRequired := true,
        oldCommitmentAccessRequired := true }
    binding := { xBinding with nullifyingPaths := [some decrementPath] } }

/-- A mapping key that has seen the same decrement. -/
def decrementedKey : MappingKey :=
  { senderKey with
    isUnknown := none, isPartitioned := none, isPartitionedReason := none,
    isNullified := some true, nullificationCount := 1, nullifyingPaths := [some decrementPath],
    isIncremented := some true, isDecremented := some true,
    increments := some [], decrements := some [xDecrementedNode] }

/-- The objects after `x = newVal` followed by `unknown x += amount`. -/
def overwrittenThenIncremented : World :=
  (StateVariableIndicator.updateIncrementation env
    (StateVariableIndicator.updateIncrementation env world xPath assignment).1
    incrementPath increment).1

/-- An indicator of `x` that is whole and partitioned and was marked as not unknown. -/
def wholeAndPartitioned : StateVariableIndicator :=
  { fresh with
    isUnknown := some false
    isWhole := some true, isWholeReason := some [overwritten]
    isPartitioned := some true, isPartitionedReason := some [incremented] }

/-- An indicator of `x` that was declared unknown and is overwritten. -/
def unknownWhole : StateVariableIndicator :=
  { fresh with
    isUnknown := some true
    isWhole := some true, isWholeReason := some [overwritten] }

/-- The objects after `addNullifyingPath` was called once with the path of `x -= amount`. -/
def nullifiedOnce : World :=
  (StateVariableIndicator.addNullifyingPath env world (some decrementPath)).1

/-- The objects after it was called a second time with the same path. -/
def nullifiedTwice : World :=
  (StateVariableIndicator.addNullifyingPath env nullifiedOnce (some decrementPath)).1

/-- The identifier `msg` of `msg.sender`. -/
def msgNode : Node :=
  Node.leaf { id := 20, nodeType := "Identifier", name := some "msg", src := "210:3:0",
              typeDescriptions := { typeIdentifier := some "t_magic_message", typeString := some "msg" } }

/-- The member access `msg.sender`. -/
def senderNode : Node :=
  .mk { id := 21, nodeType := "MemberAccess", memberName := some "sender", src := "210:10:0",
        typeDescriptions := { typeString := some "address" } } { expression := some msgNode }

/-- The identifier `balances` of `balances[msg.sender]`, marked unknown. -/
def balancesIdentifier : Node :=
  Node.leaf { id := 22, nodeType := "Identifier", name := some "balances", src := "201:8:0",
              isUnknown := some true }

/-- The index access `balances[msg.sender]`. -/
def indexAccessNode : Node :=
  .mk { id := 23, nodeType := "IndexAccess", src := "201:20:0" }
    { baseExpression := some balancesIdentifier, indexExpression := some senderNode }

/-- The path of `balances[msg.sender]`, on the left of `+=`. -/
def indexAccessPath : NodePath :=
  .mk indexAccessNode
    { key := "leftHandSide", isIncremented := some true, isDecremented := some false } none

/-- The path of the identifier `balances` in it. -/
def balancesPath : NodePath := .mk balancesIdentifier { key := "baseExpression" } (some indexAccessPath)

/-- The path of `msg.sender` in it. -/
def senderPath : NodePath := .mk senderNode { key := "indexExpression" } (some indexAccessPath)

/-- The path of `msg` in it. -/
def msgPath : NodePath := .mk msgNode { key := "expression" } (some senderPath)

/-- The binding of the secret mapping `balances`. -/
def balancesBinding : Binding := { id := 4, name := "balances", isSecret := some true }

/-- A cache that holds the path of `msg`, a scope that knows no node, and a binding that
names every key `msg`. -/
def mappingEnv : Env where
  pathCache := fun n => if n.id == 20 then some msgPath else none
  getReferencedNode := fun _ => none
  isFunctionParameter := fun _ => false
  getMappingKeyName := fun _ _ => .ok "msg"
  bindingAddNullifyingPath := fun b p => ({ b with nullifyingPaths := b.nullifyingPaths ++ [p] }, none)

/-- The indicator of `balances` as the constructor leaves it, with the function indicator and
the binding. -/
def mappingWorld : World :=
  { ind := StateVariableIndicator.create balancesBinding balancesPath true
    parentIndincator := {}
    binding := balancesBinding }

/-- The identifier `now`, which no declaration of the source binds. -/
def nowNode : Node :=
  Node.leaf { id := 30, nodeType := "Identifier", name := some "now", src := "310:3:0" }

/-- The index access `balances[now]`. -/
def nowAccessNode : Node :=
  .mk { id := 31, nodeType := "IndexAccess", src := "301:13:0" }
    { baseExpression := some balancesIdentifier, indexExpression := some nowNode }

/-- The path of `balances[now]`. -/
def nowAccessPath : NodePath := .mk nowAccessNode { key := "leftHandSide" } none

/-- The path of `now` in it. -/
def nowPath : NodePath := .mk nowNode { key := "indexExpression" } (some nowAccessPath)

/-- A cache that holds the path of `now`, a scope that knows no node, and a binding that
names every key `now`. -/
def nowEnv : Env where
  pathCache := fun n => if n.id == 30 then some nowPath else none
  getReferencedNode := fun _ => none
  isFunctionParameter := fun _ => false
  getMappingKeyName := fun _ _ => .ok "now"
  bindingAddNullifyingPath := fun b p => ({ b with nullifyingPaths := b.nullifyingPaths ++ [p] }, none)

/-- The identifier `toString` of `balances[toString]`, where `toString` is a variable of the
contract. -/
def toStringNode : Node :=
  Node.leaf { id := 60, nodeType := "Identifier", name := some "toString", src := "610:8:0" }

/-- The index access `balances[toString]`. -/
def toStringAccessNode : Node :=
  .mk { id := 61, nodeType := "IndexAccess", src := "601:18:0" }
    { baseExpression := some balancesIdentifier, indexExpression := some toStringNode }

/-- The path of `balances[toString]`. -/
def toStringAccessPath : NodePath := .mk toStringAccessNode { key := "leftHandSide" } none

/-- The path of `toString` in it. -/
def toStringPath : NodePath :=
  .mk toStringNode { key := "indexExpression" } (some toStringAccessPath)

/-- A cache that holds the path of `toString`, a scope that knows no node, and a binding that
names every key `toString`. -/
def toStringEnv : Env where
  pathCache := fun n => if n.id == 60 then some toStringPath else none
  getReferencedNode := fun _ => none
  isFunctionParameter := fun _ => false
  getMappingKeyName := fun _ _ => .ok "toString"
  bindingAddNullifyingPath := fun b p => ({ b with nullifyingPaths := b.nullifyingPaths ++ [p] }, none)

/-- The objects after `addMappingKey` was called with the path of `balances` in
`balances[msg.sender]`. -/
def mappingWorldWithKey : World :=
  match StateVariableIndicator.addMappingKey mappingEnv mappingWorld (some balancesPath) with
  | .ok (w1, _) => w1
  | .error _ => mappingWorld

/-- The key of `balances[msg.sender]` as the constructor leaves it. -/
def msgKey : MappingKey :=
  match MappingKey.create mappingEnv mappingWorld.ind msgPath with
  | .ok k => k
  | .error _ => senderKey

/-- The objects of `{ x = y; }`: the block at 5, its array of statements at 6, the statement
at 1, the assignment at 2 and the two identifiers at 3 and 4. -/
def heap : Heap := fun a =>
  if a = 1 then some (.node (some "ExpressionStatement") [("expression", 2)])
  else if a = 2 then some (.node (some "Assignment") [("leftHandSide", 3), ("rightHandSide", 4)])
  else if a = 3 then some (.node (some "Identifier") [])
  else if a = 4 then some (.node (some "Identifier") [])
  else if a = 5 then some (.node (some "Block") [("statements", 6)])
  else if a = 6 then some (.array [1])
  else none

/-- A class `Scope` whose constructor returns the scope 7 and whose `update` does not
throw. -/
def scopes : Scopes where
  create := fun _ => .ok 7
  update := fun _ _ => none

/-- The path of the statement, first of the statements of the block, in the scope 7. -/
def statementPath : PathObject :=
  .mk { node := 1, parent := 5, key := .string "statements", container := 6, inList := true,
        index := some 0, containerName := .string "statements",
        nodeType := some "ExpressionStatement", scope := some 7 } none

/-- The path of the assignment, as the constructor builds it. -/
def assignmentPath : PathObject :=
  .mk { node := 2, parent := 1, key := .string "expression", container := 2, inList := false,
        index := none, containerName := .string "expression",
        nodeType := some "Assignment", scope := some 7 } (some statementPath)

/-- A cache that holds the path of the statement only. -/
def statementCache : PathCache := fun a => if a = 1 then some statementPath else none

/-- The arguments with which the traversal constructs the path of the assignment. -/
def assignmentArgs : ConstructorArgs :=
  { node := some 2, parent := some 1, key := some (.string "expression"), container := some 2,
    index := none, parentPath := some statementPath }

/-- Arguments for the statement whose container is not `parent[key]`: the block holds its
statements in the array at 6, not in the statement at 1. -/
def mismatchedArgs : ConstructorArgs :=
  { node := some 1, parent := some 5, key := some (.string "statements"), container := some 1,
    index := none, parentPath := none }

/-- The cache after the path of the assignment was constructed. -/
def assignmentCache : PathCache := fun a => if a = 2 then some assignmentPath else statementCache a

/-- Arguments for the assignment that name no parent, key or container. -/
def emptyArgs : ConstructorArgs :=
  { node := some 2, parent := none, key := none, container := none, index := none,
    parentPath := none }

/-- The identifier `x` as the argument of `f(x)`. -/
def argumentNode : Node :=
  Node.leaf { id := 72, nodeType := "Identifier", name := some "x", src := "412:1:0",
              referencedDeclaration := some 5 }

/-- The call `f(x)`. -/
def callNode : Node :=
  .mk { id := 73, nodeType := "FunctionCall", src := "410:4:0" }
    { expression := some (Node.leaf { id := 71, nodeType := "Identifier", name := some "f",
                                      src := "410:1:0" }),
      arguments := some [argumentNode] }

/-- The statement `uint y = f(x);`. -/
def declarationStatementNode : Node :=
  .mk { id := 74, nodeType := "VariableDeclarationStatement", src := "401:13:0" }
    { declarations := some [Node.leaf { id := 70, nodeType := "VariableDeclaration",
                                        name := some "y", src := "401:6:0" }],
      initialValue := some callNode }

def declarationStatementPath : NodePath :=
  .mk declarationStatementNode { key := "statements" } none

/-- The path of `f(x)`, held in `initialValue`. -/
def callPath : NodePath := .mk callNode { key := "initialValue" } (some declarationStatementPath)

/-- The path of `x`, held in `arguments`. -/
def argumentPath : NodePath := .mk argumentNode { key := "arguments" } (some callPath)

def aNode : Node :=
  Node.leaf { id := 80, nodeType := "Identifier", name := some "a", src := "500:1:0" }

def bNode : Node :=
  Node.leaf { id := 81, nodeType := "Identifier", name := some "b", src := "505:1:0" }

def cNode : Node :=
  Node.leaf { id := 82, nodeType := "Identifier", name := some "c", src := "509:1:0" }

/-- The assignment `b = c` of `a = (b = c)`. -/
def innerAssignmentNode : Node :=
  .mk { id := 83, nodeType := "Assignment", src := "505:5:0" }
    { leftHandSide := some bNode, rightHandSide := some cNode }

/-- The assignment `a = (b = c)`. -/
def outerAssignmentNode : Node :=
  .mk { id := 84, nodeType := "Assignment", src := "500:11:0" }
    { leftHandSide := some aNode, rightHandSide := some innerAssignmentNode }

def outerAssignmentPath : NodePath := .mk outerAssignmentNode { key := "expression" } none

/-- The path of `b = c`, held in the `rightHandSide` of the outer assignment. -/
def innerAssignmentPath : NodePath :=
  .mk innerAssignmentNode { key := "rightHandSide" } (some outerAssignmentPath)

/-- The path of `b`, held in the `leftHandSide` of the inner assignment. -/
def bPath : NodePath := .mk bNode { key := "leftHandSide" } (some innerAssignmentPath)

/-- The path of `c`, held in the `rightHandSide` of the inner assignment. -/
def cPath : NodePath := .mk cNode { key := "rightHandSide" } (some innerAssignmentPath)

/-- The identifier `x` on the left of `x = x + 1`; the declaration of `x` has the id 90. -/
def selfLhsNode : Node :=
  Node.leaf { id := 91, nodeType := "Identifier", name := some "x", src := "600:1:0",
              referencedDeclaration := some 90 }

/-- The identifier `x` on the right of `x = x + 1`. -/
def selfRhsNode : Node :=
  Node.leaf { id := 92, nodeType := "Identifier", name := some "x", src := "604:1:0",
              referencedDeclaration := some 90 }

def oneNode : Node := Node.leaf { id := 93, nodeType := "Literal", src := "608:1:0" }

/-- The binary operation `x + 1`. -/
def selfSumNode : Node :=
  .mk { id := 94, nodeType := "BinaryOperation", src := "604:5:0" }
    { leftExpression := some selfRhsNode, rightExpression := some oneNode }

/-- The assignment `x = x + 1`. -/
def selfAssignmentNode : Node :=
  .mk { id := 95, nodeType := "Assignment", src := "600:9:0" }
    { leftHandSide := some selfLhsNode, rightHandSide := some selfSumNode }

/-- The statement `x = x + 1;`. -/
def selfStatementNode : Node :=
  .mk { id := 96, nodeType := "ExpressionStatement", src := "600:10:0" }
    { expression := some selfAssignmentNode }

/-- The block that holds the statement. -/
def selfBlockNode : Node := Node.leaf { id := 97, nodeType := "Block", src := "598:14:0" }

def selfBlockPath : NodePath := .mk selfBlockNode { key := "body" } none

def selfStatementPath : NodePath :=
  .mk selfStatementNode { key := "statements" } (some selfBlockPath)

def selfAssignmentPath : NodePath :=
  .mk selfAssignmentNode { key := "expression" } (some selfStatementPath)

def selfLhsPath : NodePath := .mk selfLhsNode { key := "leftHandSide" } (some selfAssignmentPath)

def selfSumPath : NodePath := .mk selfSumNode { key := "rightHandSide" } (some selfAssignmentPath)

def selfRhsPath : NodePath := .mk selfRhsNode { key := "leftExpression" } (some selfSumPath)

def onePath : NodePath := .mk oneNode { key := "rightExpression" } (some selfSumPath)

/-- The paths of the statement `x = x + 1;`, parents before children. -/
def selfStatementPaths : List NodePath :=
  [selfStatementPath, selfAssignmentPath, selfLhsPath, selfSumPath, selfRhsPath, onePath]

/-- A traversal that visits the paths of the block, parents before children. -/
def selfTraversal (path : NodePath) : List NodePath :=
  if path.node.id == 97 then selfBlockPath :: selfStatementPaths
  else if path.node.id == 96 then selfStatementPaths
  else [path]

/-- The identifier `bank` of `bank.deposit(x);`, an instance of another contract. -/
def bankNode : Node :=
  Node.leaf { id := 101, nodeType := "Identifier", name := some "bank", src := "700:4:0",
              referencedDeclaration := some 100 }

/-- The member access `bank.deposit`. -/
def depositNode : Node :=
  .mk { id := 102, nodeType := "MemberAccess", memberName := some "deposit", src := "700:12:0" }
    { expression := some bankNode }

/-- The argument `x` of the call. -/
def depositArgumentNode : Node :=
  Node.leaf { id := 103, nodeType := "Identifier", name := some "x", src := "713:1:0",
              referencedDeclaration := some 90 }

/-- The call `bank.deposit(x)`. -/
def depositCallNode : Node :=
  .mk { id := 104, nodeType := "FunctionCall", src := "700:15:0" }
    { expression := some depositNode, arguments := some [depositArgumentNode] }

/-- The statement `bank.deposit(x);`. -/
def depositStatementNode : Node :=
  .mk { id := 105, nodeType := "ExpressionStatement", src := "700:16:0" }
    { expression := some depositCallNode }

def depositStatementPath : NodePath := .mk depositStatementNode { key := "statements" } none

def depositCallPath : NodePath :=
  .mk depositCallNode { key := "expression" } (some depositStatementPath)

def depositPath : NodePath := .mk depositNode { key := "expression" } (some depositCallPath)

def bankPath : NodePath := .mk bankNode { key := "expression" } (some depositPath)

def depositArgumentPath : NodePath :=
  .mk depositArgumentNode { key := "arguments" } (some depositCallPath)

/-- A scope in which `x` (declared with the id 90) is a secret state variable and `bank`
(declared with the id 100) is an instance of another contract, each with an indicator; and a
traversal that visits the paths of a statement, parents before children.  The indicators
have the methods `addSecretInteractingPath` and `addPublicInteractingPath`, which return. -/
def taintEnv : TaintEnv :=
  { getReferencedIndicator := fun path =>
      if path.node.nodeType == "Identifier" then
        path.node.data.referencedDeclaration.map Int.toNat
      else none
    getReferencedBinding := fun path =>
      if path.node.data.referencedDeclaration == some 90 then
        some { id := 90, name := "x", isSecret := some true, stateVariable := some true,
               secretVariable := some true }
      else none
    traversePathsFast := fun path =>
      if path.node.id == 105 then
        [depositStatementPath, depositCallPath, depositPath, bankPath, depositArgumentPath]
      else selfTraversal path
    isExternalContractInstance := fun _ node => (node.map Node.id) == some 101
    addSecretInteractingPath := fun _ _ => none
    addPublicInteractingPath := fun _ _ => none }

/-- The `TypeError` of the call `indicator.addSecretInteractingPath(path)` on an object
without that method. -/
def missingSecretMethod : Exception :=
  .TypeError "indicator.addSecretInteractingPath is not a function"

/-- The `TypeError` of the call `indicator.addPublicInteractingPath(path)` on an object
without that method. -/
def missingPublicMethod : Exception :=
  .TypeError "indicator.addPublicInteractingPath is not a function"

/-- The same scope with indicators of the classes of `Indicator.mjs`, which have neither
method. -/
def bareTaintEnv : TaintEnv :=
  { taintEnv with
    addSecretInteractingPath := fun _ _ => some missingSecretMethod
    addPublicInteractingPath := fun _ _ => some missingPublicMethod }

/-- The identifier `k` of `balances[k] = 1;`, a secret variable declared with the id 7. -/
def keyedKeyNode : Node :=
  Node.leaf { id := 150, nodeType := "Identifier", name := some "k", src := "910:1:0",
              referencedDeclaration := some 7 }

/-- The identifier `balances` of `balances[k] = 1;`, declared with the id 4. -/
def keyedBalancesNode : Node :=
  Node.leaf { id := 151, nodeType := "Identifier", name := some "balances", src := "901:8:0",
              referencedDeclaration := some 4 }

/-- The index access `balances[k]`. -/
def keyedAccessNode : Node :=
  .mk { id := 152, nodeType := "IndexAccess", src := "901:11:0" }
    { baseExpression := some keyedBalancesNode, indexExpression := some keyedKeyNode }

/-- The literal `1` of `balances[k] = 1;`. -/
def keyedOneNode : Node := Node.leaf { id := 153, nodeType := "Literal", src := "915:1:0" }

/-- The assignment `balances[k] = 1`. -/
def keyedAssignmentNode : Node :=
  .mk { id := 154, nodeType := "Assignment", src := "901:15:0" }
    { leftHandSide := some keyedAccessNode, rightHandSide := some keyedOneNode }

/-- The statement `balances[k] = 1;`. -/
def keyedStatementNode : Node :=
  .mk { id := 155, nodeType := "ExpressionStatement", src := "901:16:0" }
    { expression := some keyedAssignmentNode }

/-- The path of the statement `balances[k] = 1;`. -/
def keyedStatementPath : NodePath := .mk keyedStatementNode { key := "statements" } none

/-- The path of the assignment in it. -/
def keyedAssignmentPath : NodePath :=
  .mk keyedAssignmentNode { key := "expression" } (some keyedStatementPath)

/-- The path of the index access `balances[k]`. -/
def keyedAccessPath : NodePath :=
  .mk keyedAccessNode { key := "leftHandSide" } (some keyedAssignmentPath)

/-- The path of the identifier `balances` in it. -/
def keyedBalancesPath : NodePath :=
  .mk keyedBalancesNode { key := "baseExpression" } (some keyedAccessPath)

/-- The path of the key `k` in it. -/
def keyedKeyPath : NodePath :=
  .mk keyedKeyNode { key := "indexExpression" } (some keyedAccessPath)

/-- A scope in which an index access resolves to the indicator of the mapping `balances`
(declared with the id 4) and an identifier to the indicator of its declaration, and `k`
(declared with the id 7) is secret; the indicators have the two methods, which return. -/
def keyedTaintEnv : TaintEnv :=
  { getReferencedIndicator := fun path =>
      if path.node.nodeType == "IndexAccess" then some 4
      else if path.node.nodeType == "Identifier" then
        path.node.data.referencedDeclaration.map Int.toNat
      else none
    getReferencedBinding := fun path =>
      if path.node.data.referencedDeclaration == some 7 then
        some { id := 7, name := "k", isSecret := some true, stateVariable := some true,
               secretVariable := some true }
      else none
    traversePathsFast := fun _ =>
      [keyedStatementPath, keyedAssignmentPath, keyedAccessPath, keyedBalancesPath,
        keyedKeyPath]
    isExternalContractInstance := fun _ _ => false
    addSecretInteractingPath := fun _ _ => none
    addPublicInteractingPath := fun _ _ => none }

/-- The same scope with indicators of the classes of `Indicator.mjs`, which have neither
method. -/
def bareKeyedTaintEnv : TaintEnv :=
  { keyedTaintEnv with
    addSecretInteractingPath := fun _ _ => some missingSecretMethod
    addPublicInteractingPath := fun _ _ => some missingPublicMethod }

/-- The identifier `balances`, marked `known`. -/
def knownNode : Node :=
  Node.leaf { id := 110, nodeType := "Identifier", name := some "balances", src := "800:8:0",
              isKnown := some true }

/-- The binding of a public state variable `balances`. -/
def publicBinding : Binding :=
  { id := 4, name := "balances", stateVariable := some true, secretVariable := some false }

/-- The binding of a secret state variable `balances` already seen as `known`. -/
def secretKnownBinding : Binding :=
  { id := 4, name := "balances", isSecret := some true, stateVariable := some true,
    secretVariable := some true, isKnown := some true }

/-- The assignment `x += 1`, marked by the visitor as an incrementation of `x` (declared with
the id 90) that is not a decrementation. -/
def incrementingAssignmentNode : Node :=
  .mk { id := 121, nodeType := "Assignment", src := "900:6:0", isIncremented := some true,
        isDecremented := some false, incrementedDeclaration := some 90 }
    { leftHandSide := some selfLhsNode, rightHandSide := some oneNode }

def incrementingAssignmentPath : NodePath :=
  .mk incrementingAssignmentNode { key := "expression" } none

def sumLeftNode : Node :=
  Node.leaf { id := 131, nodeType := "Identifier", name := some "a", src := "910:1:0",
              referencedDeclaration := some 130 }

def operandBNode : Node :=
  Node.leaf { id := 133, nodeType := "Identifier", name := some "b", src := "914:1:0",
              referencedDeclaration := some 132 }

def operandCNode : Node :=
  Node.leaf { id := 135, nodeType := "Identifier", name := some "c", src := "918:1:0",
              referencedDeclaration := some 134 }

/-- The binary operation `b + c` of `a = b + c`. -/
def operandSumNode : Node :=
  .mk { id := 136, nodeType := "BinaryOperation", src := "914:5:0" }
    { leftExpression := some operandBNode, rightExpression := some operandCNode }

/-- The assignment `a = b + c`. -/
def sumAssignmentNode : Node :=
  .mk { id := 137, nodeType := "Assignment", src := "910:9:0" }
    { leftHandSide := some sumLeftNode, rightHandSide := some operandSumNode }

/-- The statement `a = b + c;`. -/
def sumStatementNode : Node :=
  .mk { id := 138, nodeType := "ExpressionStatement", src := "910:10:0" }
    { expression := some sumAssignmentNode }

def sumStatementPath : NodePath := .mk sumStatementNode { key := "statements" } none

def sumAssignmentPath : NodePath :=
  .mk sumAssignmentNode { key := "expression" } (some sumStatementPath)

def sumLeftPath : NodePath := .mk sumLeftNode { key := "leftHandSide" } (some sumAssignmentPath)

def operandSumPath : NodePath :=
  .mk operandSumNode { key := "rightHandSide" } (some sumAssignmentPath)

/-- The path of `b` in `a = b + c`, held in `leftExpression`. -/
def operandBPath : NodePath := .mk operandBNode { key := "leftExpression" } (some operandSumPath)

/-- The path of `c` in `a = b + c`, held in `rightExpression`. -/
def operandCPath : NodePath :=
  .mk operandCNode { key := "rightExpression" } (some operandSumPath)

/-- Two nodes that increment a partitioned state and two that decrement it. -/
def addendNodes : List Node :=
  [Node.leaf { id := 201, nodeType := "Identifier", name := some "b", src := "950:1:0" },
    Node.leaf { id := 202, nodeType := "Identifier", name := some "c", src := "960:1:0" }]

def subtrahendNodes : List Node :=
  [Node.leaf { id := 203, nodeType := "Identifier", name := some "d", src := "970:1:0" },
    Node.leaf { id := 204, nodeType := "Identifier", name := some "e", src := "980:1:0" }]

/-- The generator of a partitioned state `a` with two increments and two decrements. -/
def generator : BoilerplateGenerator :=
  { id := some 90, name := some "a", isPartitioned := some true, isNullified := some true,
    newCommitmentRequired := some true, increments := some addendNodes,
    decrements := some subtrahendNodes }

/-- The generator of a partitioned state `a` that is decremented twice and never
incremented. -/
def decrementingGenerator : BoilerplateGenerator :=
  { id := some 90, name := some "a", isPartitioned := some true, isNullified := some true,
    newCommitmentRequired := some true, increments := some [],
    decrements := some subtrahendNodes }

/-- The objects of a block of three statements: the block at 10, its array of statements at
11, the statements at 12, 13 and 14. -/
def blockHeap : Heap := fun a =>
  if a = 10 then some (.node (some "Block") [("statements", 11)])
  else if a = 11 then some (.array [12, 13, 14])
  else if a = 12 then some (.node (some "ExpressionStatement") [])
  else if a = 13 then some (.node (some "ExpressionStatement") [])
  else if a = 14 then some (.node (some "ExpressionStatement") [])
  else none

/-- The path of the second statement: the key is the name of the list, the index is 1. -/
def secondStatementPath : PathObject :=
  .mk { node := 13, parent := 10, key := .string "statements", container := 11, inList := true,
        index := some 1, containerName := .string "statements",
        nodeType := some "ExpressionStatement", scope := some 7 } none

/-- A conversion of strings to numbers that knows the strings of decimal digits (the empty
string converts to 0); every other string is taken to `NaN`. -/
def toNumber (s : String) : Option Int :=
  if s.data.all Char.isDigit then
    some (Int.ofNat (s.data.foldl (fun n c => n * 10 + (c.toNat - 48)) 0))
  else none

/-- The objects of a function `f(uint a) returns (uint b)`: the definition at 20, its two
parameter lists at 21 and 22, their arrays at 23 and 24, the two declarations at 25 and 26. -/
def functionHeap : Heap := fun a =>
  if a = 20 then some (.node (some "FunctionDefinition")
    [("parameters", 21), ("returnParameters", 22)])
  else if a = 21 then some (.node (some "ParameterList") [("parameters", 23)])
  else if a = 22 then some (.node (some "ParameterList") [("parameters", 24)])
  else if a = 23 then some (.array [25])
  else if a = 24 then some (.array [26])
  else if a = 25 then some (.node (some "VariableDeclaration") [])
  else if a = 26 then some (.node (some "VariableDeclaration") [])
  else none

/-- The nodes of the parser hold no string under `containerName`. -/
def parserStrings : Address → String → Option String := fun _ _ => none

/-- The path of the list held as `returnParameters`. -/
def returnParametersPath : PathObject :=
  .mk { node := 22, parent := 20, key := .string "returnParameters", container := 22,
        inList := false, index := none, containerName := .string "returnParameters",
        nodeType := some "ParameterList", scope := some 7 } none

/-- The path of the declaration of `b`, which sits in that list. -/
def returnDeclarationPath : PathObject :=
  .mk { node := 26, parent := 22, key := .string "parameters", container := 24, inList := true,
        index := some 0, containerName := .string "parameters",
        nodeType := some "VariableDeclaration", scope := some 7 } (some returnParametersPath)

/-- The identifier `balances` of `balances[msg.sender] -= amount`. -/
def debitBalancesNode : Node :=
  Node.leaf { id := 40, nodeType := "Identifier", name := some "balances", src := "401:8:0" }

/-- The index access `balances[msg.sender]` on the left of `-=`. -/
def debitAccessNode : Node :=
  .mk { id := 41, nodeType := "IndexAccess", src := "401:20:0" }
    { baseExpression := some debitBalancesNode, indexExpression := some senderNode }

/-- The path of that index access, marked as decremented. -/
def debitAccessPath : NodePath :=
  .mk debitAccessNode
    { key := "leftHandSide", isIncremented := some true, isDecremented := some true } none

/-- The path of the identifier `balances` in it. -/
def debitBalancesPath : NodePath :=
  .mk debitBalancesNode { key := "baseExpression" } (some debitAccessPath)

/-- The identifier `amount` of `balances[msg.sender] -= amount`. -/
def debitAmountNode : Node :=
  Node.leaf { id := 42, nodeType := "Identifier", name := some "amount", src := "425:6:0" }

/-- The identifier `balances` of `balances[msg.sender] = amount`. -/
def storeBalancesNode : Node :=
  Node.leaf { id := 50, nodeType := "Identifier", name := some "balances", src := "501:8:0" }

/-- The index access `balances[msg.sender]` on the left of `=`. -/
def storeAccessNode : Node :=
  .mk { id := 51, nodeType := "IndexAccess", src := "501:20:0" }
    { baseExpression := some storeBalancesNode, indexExpression := some senderNode }

/-- The path of that index access, which is not an incrementation. -/
def storeAccessPath : NodePath := .mk storeAccessNode { key := "leftHandSide" } none

/-- The path of the identifier `balances` in it. -/
def storeBalancesPath : NodePath :=
  .mk storeBalancesNode { key := "baseExpression" } (some storeAccessPath)

/-- The shared state at `balances[msg.sender] = amount`. -/
def store : IncrementationState :=
  { incrementedIdentifier := storeAccessNode, incrementedPath := some storeBalancesPath,
    increments := [], decrements := [] }

/-- A reason that an earlier function has left on the binding of `balances`. -/
def accessedReason : Reason := { src := "450:20:0", text := "Accessed" }

/-- The objects of `balances` with the key of `balances[msg.sender]`, after
`updateFromBinding` on a binding that an earlier function has left whole: the indicator, its
key and the binding hold one array `isWholeReason`. -/
def mergedWorld : World :=
  (StateVariableIndicator.updateFromBinding
    { mappingWorldWithKey with
      binding := { balancesBinding with
        isWhole := some true, isWholeReason := some [accessedReason] } }).1

/-- The shared state at `balances[msg.sender] -= amount`. -/
def debit : IncrementationState :=
  { incrementedIdentifier := debitAccessNode, incrementedPath := some debitBalancesPath,
    increments := [], decrements := [debitAmountNode] }

/-- The objects after `updateIncrementation` has seen `balances[msg.sender] -= amount` once. -/
def debitedWorld : World :=
  (StateVariableIndicator.updateIncrementation mappingEnv mappingWorld debitAccessPath debit).1

end Example

/-! # Theorems -/

/-! ## JavaScript values -/

@[simp] theorem truthy_eq_true_iff (a : Option Bool) : truthy a = true ↔ a = some true := by
  cases a with
  | none => simp [truthy]
  | some b => cases b <;> simp [truthy]

@[simp] theorem truthy_eq_false_iff (a : Option Bool) : truthy a = false ↔ a ≠ some true := by
  cases a with
  | none => simp [truthy]
  | some b => cases b <;> simp [truthy]

@[simp] theorem truthy_some_true : truthy (some true) = true := rfl

theorem orAssign_of_true (b : Option Bool) : orAssign (some true) b = some true := by
  simp [orAssign]

/-! ## The consistency check -/

/-- A mapping key that passes its check is neither whole and partitioned nor unknown and
whole. -/
theorem MappingKey.exclusive_of_check_ok (k : MappingKey) (containerNode : Node)
    (log : List String) (h : k.prelimTraversalErrorChecks containerNode = .ok log) :
    ¬ (k.isWhole = some true ∧ k.isPartitioned = some true)
      ∧ ¬ (k.isUnknown = some true ∧ k.isWhole = some true) := by
  unfold MappingKey.prelimTraversalErrorChecks at h
  constructor
  · rintro ⟨hw, hp⟩
    cases hu : truthy k.isUnknown <;> cases hwr : k.isWholeReason
      <;> cases hpr : k.isPartitionedReason
      <;> simp [hw, hp, hu, hwr, hpr] at h
  · rintro ⟨hu, hw⟩
    simp [hu, hw] at h

/-- Every key of a table that passes the check of all its keys passes its own. -/
theorem exclusive_of_checkMappingKeys_ok (containerNode : Node) :
    ∀ (keys : List (String × MappingKey)) (logs : List String),
      checkMappingKeys containerNode keys = .ok logs →
      ∀ kv ∈ keys,
        ¬ (kv.2.isWhole = some true ∧ kv.2.isPartitioned = some true)
          ∧ ¬ (kv.2.isUnknown = some true ∧ kv.2.isWhole = some true)
  | [], _, _ => by simp
  | (n, k) :: rest, logs, h => by
    unfold checkMappingKeys at h
    cases hk : k.prelimTraversalErrorChecks containerNode with
    | error e => simp [hk] at h
    | ok log =>
      cases hr : checkMappingKeys containerNode rest with
      | error e => simp [hk, hr] at h
      | ok restLogs =>
        intro kv hkv
        rcases List.mem_cons.mp hkv with rfl | hmem
        · exact MappingKey.exclusive_of_check_ok k containerNode log hk
        · exact exclusive_of_checkMappingKeys_ok containerNode rest restLogs hr kv hmem

/-- The constructor gives a table of mapping keys to a mapping indicator only. -/
theorem StateVariableIndicator.create_mappingKeys (referencedBinding : Binding)
    (path : NodePath) (isMappingIdentifier : Bool) :
    (StateVariableIndicator.create referencedBinding path isMappingIdentifier).isMapping
        ≠ some true →
      (StateVariableIndicator.create referencedBinding path isMappingIdentifier).mappingKeys
        = none := by
  cases isMappingIdentifier <;> simp [StateVariableIndicator.create]

/-- Claim C1.  A secret indicator, mapping or not, whose table of mapping keys exists only if
it is a mapping (which the constructor ensures and every method keeps), and whose
`prelimTraversalErrorChecks` returns without throwing: the indicator is not whole and partitioned at once, is not unknown
and whole at once, and the same holds for every mapping key stored in `mappingKeys`. -/
theorem prelimTraversalErrorChecks_ok_exclusive (ind : StateVariableIndicator)
    (log : List String)
    (hsecret : ind.isSecret = some true)
    (hkeys : ind.isMapping ≠ some true → ind.mappingKeys = none)
    (hok : ind.prelimTraversalErrorChecks = .ok log) :
    ¬ (ind.isWhole = some true ∧ ind.isPartitioned = some true)
      ∧ ¬ (ind.isUnknown = some true ∧ ind.isWhole = some true)
      ∧ ∀ keys, ind.mappingKeys = some keys → ∀ kv ∈ keys,
          ¬ (kv.2.isWhole = some true ∧ kv.2.isPartitioned = some true)
            ∧ ¬ (kv.2.isUnknown = some true ∧ kv.2.isWhole = some true) := by
  unfold StateVariableIndicator.prelimTraversalErrorChecks at hok
  simp only [hsecret, truthy_some_true, Bool.not_true, Bool.false_eq_true, if_false] at hok
  refine ⟨?_, ?_, ?_⟩
  · rintro ⟨hw, hp⟩
    split at hok
    · simp at hok
    · split at hok
      · simp at hok
      · cases hu : truthy ind.isUnknown <;> cases hwr : ind.isWholeReason
          <;> cases hpr : ind.isPartitionedReason
          <;> simp [hw, hp, hu, hwr, hpr] at hok
  · rintro ⟨hu, hw⟩
    split at hok
    · simp at hok
    · split at hok
      · simp at hok
      · simp [hu, hw] at hok
  · intro keys hk kv hkv
    have hmap : ind.isMapping = some true := by
      by_contra hne
      rw [hkeys hne] at hk
      simp at hk
    simp only [hmap, truthy_some_true, if_true, hk] at hok
    cases hc : checkMappingKeys ind.node keys with
    | error e => simp [hc] at hok
    | ok logs => exact exclusive_of_checkMappingKeys_ok ind.node keys logs hc kv hkv

/-- Witness of C1: the mapping `balances`, whose key `balances[msg.sender]` is partitioned,
passes the check. -/
theorem prelimTraversalErrorChecks_ok_exclusive_witness :
    Example.balances.prelimTraversalErrorChecks = .ok []
      ∧ ¬ (Example.balances.isWhole = some true ∧ Example.balances.isPartitioned = some true)
      ∧ ¬ (Example.balances.isUnknown = some true ∧ Example.balances.isWhole = some true)
      ∧ ∀ keys, Example.balances.mappingKeys = some keys → ∀ kv ∈ keys,
          ¬ (kv.2.isWhole = some true ∧ kv.2.isPartitioned = some true)
            ∧ ¬ (kv.2.isUnknown = some true ∧ kv.2.isWhole = some true) :=
  ⟨rfl, prelimTraversalErrorChecks_ok_exclusive Example.balances [] rfl
    (fun h => absurd rfl h) rfl⟩

/-- Claim C2.  On a non-mapping indicator whose two reason properties are lists,
`prelimTraversalErrorChecks` throws if and only if the indicator is secret and whole, and
unknown or partitioned.  A secret indicator that is known, whole and not incremented, and
neither unknown nor partitioned, returns and logs the pedantic warning with its reasons; an
indicator that is not secret returns and logs nothing. -/
theorem prelimTraversalErrorChecks_throws_iff (ind : StateVariableIndicator)
    (whole partitioned : List Reason)
    (hplain : ind.isMapping ≠ some true)
    (hwhole : ind.isWholeReason = some whole)
    (hpartitioned : ind.isPartitionedReason = some partitioned) :
    ((∃ e, ind.prelimTraversalErrorChecks = .error e) ↔
        (ind.isSecret = some true ∧ ind.isWhole = some true
          ∧ (ind.isUnknown = some true ∨ ind.isPartitioned = some true)))
      ∧ (ind.isSecret = some true → ind.isKnown = some true → ind.isWhole = some true →
          ind.isIncremented ≠ some true → ind.isUnknown ≠ some true →
          ind.isPartitioned ≠ some true →
          ind.prelimTraversalErrorChecks
            = .ok (ind.pedanticWarning :: whole.map Reason.text))
      ∧ (ind.isSecret ≠ some true → ind.prelimTraversalErrorChecks = .ok []) := by
  simp only [← truthy_eq_true_iff, ne_eq] at *
  unfold StateVariableIndicator.prelimTraversalErrorChecks
  simp only [hwhole, hpartitioned]
  cases hs : truthy ind.isSecret <;> cases hw : truthy ind.isWhole
    <;> cases hu : truthy ind.isUnknown <;> cases hp : truthy ind.isPartitioned
    <;> cases hk : truthy ind.isKnown <;> cases hi : truthy ind.isIncremented
    <;> simp [hplain]

/-- Witness of C2: the known, overwritten `x` passes the check with the pedantic warning. -/
theorem prelimTraversalErrorChecks_throws_iff_witness :
    Example.knownWhole.prelimTraversalErrorChecks
      = .ok (Example.knownWhole.pedanticWarning :: [Example.overwritten].map Reason.text) :=
  (prelimTraversalErrorChecks_throws_iff Example.knownWhole [Example.overwritten] []
    (by decide) rfl rfl).2.1 rfl rfl rfl (by decide) (by decide) (by decide)

/-! ## What the methods leave alone -/

namespace StateVariableIndicator

/-- A successful `addMappingKey` changes nothing but the table of mapping keys. -/
theorem addMappingKey_frame (E : Env) (w w1 : World) (referencingPath : Option NodePath)
    (keyName : String) (h : addMappingKey E w referencingPath = .ok (w1, keyName)) :
    w1.parentIndincator = w.parentIndincator ∧ w1.binding = w.binding
      ∧ w1.ind = { w.ind with mappingKeys := w1.ind.mappingKeys } := by
  unfold addMappingKey at h
  repeat' split at h
  all_goals first
    | (simp at h; done)
    | (simp only [Except.ok.injEq, Prod.mk.injEq] at h
       obtain ⟨rfl, _⟩ := h
       simp)

/-- Calling a method on a mapping key changes nothing but the table of mapping keys. -/
theorem onKey_frame (w : World) (keyName : String) (f : MappingKey → MappingKey) :
    (onKey w keyName f).parentIndincator = w.parentIndincator
      ∧ (onKey w keyName f).binding = w.binding
      ∧ (onKey w keyName f).ind = { w.ind with mappingKeys := (onKey w keyName f).ind.mappingKeys } :=
  ⟨rfl, rfl, rfl⟩

/-- A call on what `addMappingKey` returned leaves what the method leaves, or leaves the
objects as they were when it throws. -/
theorem callOnKey_fst (w : World) (keyName method : String) (after : World) :
    (callOnKey w keyName method after).1 = after ∨ (callOnKey w keyName method after).1 = w := by
  unfold callOnKey
  split
  · exact Or.inl rfl
  · exact Or.inr rfl

/-- A call on what `addMappingKey` returned throws exactly when no key is stored under the
name. -/
theorem callOnKey_snd (w : World) (keyName method : String) (after : World) :
    (callOnKey w keyName method after).2 = none ↔ (storedKey w keyName).isSome := by
  unfold callOnKey
  split
  · next h => simp [h]
  · next h => simp [h]

/-- A call on what `addMappingKey` returned that returns has run the method. -/
theorem callOnKey_of_returns (w : World) (keyName method : String) (after : World)
    (h : (callOnKey w keyName method after).2 = none) :
    callOnKey w keyName method after = (after, none) := by
  unfold callOnKey at h ⊢
  split
  · rfl
  · next hs => simp [hs] at h

/-- A reason that shows in the holders of the binding's `isWholeReason` changes nothing of the
indicator but `isWholeReason` and the table of mapping keys. -/
theorem shareWholeReason_frame (w : World) (reasons : Option (List Reason)) :
    (shareWholeReason w reasons).parentIndincator = w.parentIndincator
      ∧ (shareWholeReason w reasons).ind = { w.ind with
          isWholeReason := (shareWholeReason w reasons).ind.isWholeReason
          mappingKeys := (shareWholeReason w reasons).ind.mappingKeys } :=
  ⟨rfl, rfl⟩

/-- The same for `isPartitionedReason`. -/
theorem sharePartitionedReason_frame (w : World) (reasons : Option (List Reason)) :
    (sharePartitionedReason w reasons).parentIndincator = w.parentIndincator
      ∧ (sharePartitionedReason w reasons).ind = { w.ind with
          isPartitionedReason := (sharePartitionedReason w reasons).ind.isPartitionedReason
          mappingKeys := (sharePartitionedReason w reasons).ind.mappingKeys } :=
  ⟨rfl, rfl⟩

/-- The indicator keeps what it has pushed itself: what the other holders of the array are
shown changes the table of mapping keys only. -/
theorem pushedWholeReason_frame (w : World) :
    (pushedWholeReason w).parentIndincator = w.parentIndincator
      ∧ (pushedWholeReason w).ind
          = { w.ind with mappingKeys := (pushedWholeReason w).ind.mappingKeys } := by
  unfold pushedWholeReason
  split
  · next h => exact ⟨rfl, by simp [shareWholeReason, h]⟩
  · exact ⟨rfl, rfl⟩

/-- The same for `isPartitionedReason`. -/
theorem pushedPartitionedReason_frame (w : World) :
    (pushedPartitionedReason w).parentIndincator = w.parentIndincator
      ∧ (pushedPartitionedReason w).ind
          = { w.ind with mappingKeys := (pushedPartitionedReason w).ind.mappingKeys } := by
  unfold pushedPartitionedReason
  split
  · next h => exact ⟨rfl, by simp [sharePartitionedReason, h]⟩
  · exact ⟨rfl, rfl⟩

/-- The call `updateIncrementation` on a mapping key changes nothing of the indicator but
the table of mapping keys and, through an array held in common, the two lists of reasons. -/
theorem keyUpdateIncrementation_frame (w : World) (keyName : String) (path : NodePath)
    (state : IncrementationState) :
    (keyUpdateIncrementation w keyName path state).parentIndincator = w.parentIndincator
      ∧ (keyUpdateIncrementation w keyName path state).ind = { w.ind with
          isWholeReason := (keyUpdateIncrementation w keyName path state).ind.isWholeReason
          isPartitionedReason :=
            (keyUpdateIncrementation w keyName path state).ind.isPartitionedReason
          mappingKeys := (keyUpdateIncrementation w keyName path state).ind.mappingKeys } := by
  unfold keyUpdateIncrementation
  simp only
  repeat' split
  all_goals exact ⟨rfl, rfl⟩

/-- An indicator whose `isWholeReason` is its own array keeps it through the call
`updateIncrementation` on a mapping key. -/
theorem keyUpdateIncrementation_wholeReason (w : World) (keyName : String) (path : NodePath)
    (state : IncrementationState) (h : w.ind.isWholeReasonOfBinding = false) :
    (keyUpdateIncrementation w keyName path state).ind.isWholeReason = w.ind.isWholeReason := by
  unfold keyUpdateIncrementation
  simp only
  repeat' split
  all_goals first
    | rfl
    | (show (if (onKey w keyName _).ind.isWholeReasonOfBinding then _ else _) = _
       rw [show (onKey w keyName _).ind.isWholeReasonOfBinding = false from h]
       rfl)

/-- An indicator whose `isPartitionedReason` is its own array keeps it through the call
`updateIncrementation` on a mapping key. -/
theorem keyUpdateIncrementation_partitionedReason (w : World) (keyName : String)
    (path : NodePath) (state : IncrementationState)
    (h : w.ind.isPartitionedReasonOfBinding = false) :
    (keyUpdateIncrementation w keyName path state).ind.isPartitionedReason
      = w.ind.isPartitionedReason := by
  unfold keyUpdateIncrementation
  simp only
  repeat' split
  all_goals first
    | rfl
    | (show (if (onKey w keyName _).ind.isPartitionedReasonOfBinding then _ else _) = _
       rw [show (onKey w keyName _).ind.isPartitionedReasonOfBinding = false from h]
       rfl)

/-- In the whole case the call `updateIncrementation` on a mapping key pushes no reason onto
an `isPartitionedReason`. -/
theorem keyUpdateIncrementation_whole_partitionedReason (w : World) (keyName : String)
    (path : NodePath) (state : IncrementationState)
    (hc : (!truthy path.isIncremented || truthy state.incrementedIdentifier.isKnown) = true) :
    (keyUpdateIncrementation w keyName path state).ind.isPartitionedReason
      = w.ind.isPartitionedReason := by
  unfold keyUpdateIncrementation
  simp only [hc, if_true]
  repeat' split
  all_goals rfl

/-- The indicator after `addNullifyingPath`, whether or not the call threw: nullified once
more, with the path appended; the function indicator is untouched. -/
theorem addNullifyingPath_shape (E : Env) (w : World) (path : Option NodePath) :
    (addNullifyingPath E w path).1.parentIndincator = w.parentIndincator
      ∧ (addNullifyingPath E w path).1.ind = { w.ind with
          isNullified := some true
          oldCommitmentAccessRequired := some true
          nullificationCount := w.ind.nullificationCount + 1
          nullifyingPaths := w.ind.nullifyingPaths ++ [path]
          mappingKeys := (addNullifyingPath E w path).1.ind.mappingKeys } := by
  unfold addNullifyingPath
  simp only
  split
  · simp
  · split
    · split
      · simp
      · next w2 keyName hk =>
        obtain ⟨hp, _, hi⟩ := addMappingKey_frame E _ w2 path keyName hk
        obtain ⟨hp2, _, hi2⟩ := onKey_frame w2 keyName (fun k => k.addNullifyingPath path)
        rcases callOnKey_fst w2 keyName "addNullifyingPath"
          (onKey w2 keyName (fun k => k.addNullifyingPath path)) with hc | hc
        · rw [hc]
          refine ⟨by rw [hp2, hp], ?_⟩
          rw [hi2, hi]
        · rw [hc]
          refine ⟨hp, ?_⟩
          rw [hi]
    · simp

/-- The two objects after `updateAccessed`, whether or not the call threw. -/
theorem updateAccessed_shape (E : Env) (w : World) (path : NodePath) :
    (updateAccessed E w path).1.parentIndincator = { w.parentIndincator with
          oldCommitmentAccessRequired := true
          initialisationRequired := true }
      ∧ (updateAccessed E w path).1.ind = { w.ind with
          isWhole := some true
          isAccessed := some true
          oldCommitmentAccessRequired := some true
          isWholeReason :=
            some (w.ind.isWholeReason.getD [] ++ [{ src := path.node.src, text := "Accessed" }])
          accessedPaths := some (w.ind.accessedPaths.getD [] ++ [path])
          mappingKeys := (updateAccessed E w path).1.ind.mappingKeys } := by
  unfold updateAccessed
  simp only
  split
  · split
    · exact ⟨(pushedWholeReason_frame _).1, by rw [(pushedWholeReason_frame _).2]⟩
    · next w2 keyName hk =>
      obtain ⟨hp, _, hi⟩ := addMappingKey_frame E _ w2 (some path) keyName hk
      split
      · simp only
        refine ⟨?_, ?_⟩
        · rw [(onKey_frame w2 keyName _).1, hp, (pushedWholeReason_frame _).1]
        · rw [(onKey_frame w2 keyName _).2.2, hi, (pushedWholeReason_frame _).2]
      · next w4 keyName2 hk2 =>
        obtain ⟨hp4, _, hi4⟩ := addMappingKey_frame E _ w4 (some path) keyName2 hk2
        simp only
        refine ⟨?_, ?_⟩
        · rw [(onKey_frame w4 keyName2 _).1, hp4, (onKey_frame w2 keyName _).1, hp,
            (pushedWholeReason_frame _).1]
        · rw [(onKey_frame w4 keyName2 _).2.2, hi4, (onKey_frame w2 keyName _).2.2, hi,
            (pushedWholeReason_frame _).2]
  · exact ⟨(pushedWholeReason_frame _).1, by rw [(pushedWholeReason_frame _).2]⟩

end StateVariableIndicator

namespace StateVariableIndicator

/-- The two objects after the classification step, whether or not it threw. -/
theorem classifyIncrementation_shape (E : Env) (w : World) (path : NodePath)
    (state : IncrementationState) :
    (classifyIncrementation E w path state).1.parentIndincator =
        (if !truthy path.isIncremented || truthy state.incrementedIdentifier.isKnown then
          if state.incrementedPath.isSome && !truthy state.incrementedIdentifier.reinitialisable
          then { w.parentIndincator with
            nullifiersRequired := true
            newCommitmentsRequired := true
            oldCommitmentAccessRequired := true
            initialisationRequired := true }
          else w.parentIndincator
        else if !truthy path.isDecremented then
          { w.parentIndincator with newCommitmentsRequired := true }
        else w.parentIndincator)
      ∧ (classifyIncrementation E w path state).1.ind =
        (if !truthy path.isIncremented || truthy state.incrementedIdentifier.isKnown then
          if state.incrementedPath.isSome && !truthy state.incrementedIdentifier.reinitialisable
          then { w.ind with
            isWhole := some true
            isWholeReason := some (w.ind.isWholeReason.getD []
              ++ [{ src := state.incrementedIdentifier.src, text := "Overwritten" }])
            isNullified := some true
            oldCommitmentAccessRequired := some true
            nullificationCount := w.ind.nullificationCount + 1
            nullifyingPaths := w.ind.nullifyingPaths ++ [state.incrementedPath]
            mappingKeys := (classifyIncrementation E w path state).1.ind.mappingKeys }
          else { w.ind with
            isWhole := some true
            isWholeReason := some (w.ind.isWholeReason.getD []
              ++ [{ src := state.incrementedIdentifier.src, text := "Overwritten" }])
            mappingKeys := (classifyIncrementation E w path state).1.ind.mappingKeys }
        else if !truthy path.isDecremented
            && (truthy state.incrementedIdentifier.isUnknown
                || truthy (state.incrementedIdentifier.baseExpression.bind Node.isUnknown)) then
          { w.ind with
            isPartitioned := some true
            isUnknown := nullishAssign w.ind.isUnknown (some true)
            isPartitionedReason := some (w.ind.isPartitionedReason.getD []
              ++ [{ src := state.incrementedIdentifier.src,
                    text := "Incremented and marked as unknown" }])
            mappingKeys := (classifyIncrementation E w path state).1.ind.mappingKeys }
        else w.ind) := by
  unfold classifyIncrementation
  simp only
  split
  · split
    · constructor
      · rw [(addNullifyingPath_shape E _ state.incrementedPath).1,
          (pushedWholeReason_frame _).1]
      · rw [(addNullifyingPath_shape E _ state.incrementedPath).2,
          (pushedWholeReason_frame _).2]
    · exact ⟨(pushedWholeReason_frame _).1, by rw [(pushedWholeReason_frame _).2]⟩
  · split
    · next h1 h2 =>
      have h3 : (!truthy path.isDecremented) = true := by
        simp only [Bool.and_eq_true] at h2
        exact h2.1
      rw [if_pos h3]
      exact ⟨(pushedPartitionedReason_frame _).1, by rw [(pushedPartitionedReason_frame _).2]⟩
    · split <;> simp

/-- The two objects after the nullification of a decrement, whether or not it threw. -/
theorem nullifyDecrement_shape (E : Env) (w : World) (path : NodePath)
    (state : IncrementationState) :
    (nullifyDecrement E w path state).1.parentIndincator =
        (if truthy path.isDecremented && !truthy state.incrementedIdentifier.isKnown then
          { w.parentIndincator with
            nullifiersRequired := true
            newCommitmentsRequired := true
            oldCommitmentAccessRequired := true }
        else w.parentIndincator)
      ∧ (nullifyDecrement E w path state).1.ind =
        (if truthy path.isDecremented && !truthy state.incrementedIdentifier.isKnown then
          { w.ind with
            isNullified := some true
            oldCommitmentAccessRequired := some true
            nullificationCount := w.ind.nullificationCount + 1
            nullifyingPaths := w.ind.nullifyingPaths ++ [state.incrementedPath]
            mappingKeys := (nullifyDecrement E w path state).1.ind.mappingKeys }
        else w.ind) := by
  unfold nullifyDecrement
  split
  · constructor
    · rw [(addNullifyingPath_shape E _ state.incrementedPath).1]
    · rw [(addNullifyingPath_shape E _ state.incrementedPath).2]
  · simp

/-- The two objects after the last step of `updateIncrementation`, whether or not it threw. -/
theorem recordIncrementation_shape (E : Env) (w : World) (path : NodePath)
    (state : IncrementationState) :
    (recordIncrementation E w path state).1.parentIndincator = w.parentIndincator
      ∧ (recordIncrementation E w path state).1.ind = { w.ind with
          isIncremented := orAssign w.ind.isIncremented path.isIncremented
          isDecremented := orAssign w.ind.isDecremented path.isDecremented
          increments := some (w.ind.increments.getD [] ++ state.increments)
          decrements := some (w.ind.decrements.getD [] ++ state.decrements)
          isWholeReason := (recordIncrementation E w path state).1.ind.isWholeReason
          isPartitionedReason := (recordIncrementation E w path state).1.ind.isPartitionedReason
          mappingKeys := (recordIncrementation E w path state).1.ind.mappingKeys } := by
  unfold recordIncrementation
  simp only
  split
  · split
    · simp
    · next w2 keyName hk =>
      obtain ⟨hp, _, hi⟩ := addMappingKey_frame E _ w2 state.incrementedPath keyName hk
      obtain ⟨hp2, hi2⟩ := keyUpdateIncrementation_frame w2 keyName path state
      rcases callOnKey_fst w2 keyName "updateIncrementation"
        (keyUpdateIncrementation w2 keyName path state) with hc | hc
      · rw [hc]
        refine ⟨by rw [hp2, hp], ?_⟩
        rw [hi2, hi]
      · rw [hc]
        refine ⟨hp, ?_⟩
        rw [hi]
  · simp

/-- The last step of `updateIncrementation` leaves `isWholeReason` as it was on an indicator
that is not a mapping, and on one whose `isWholeReason` is its own array. -/
theorem recordIncrementation_wholeReason (E : Env) (w : World) (path : NodePath)
    (state : IncrementationState)
    (h : w.ind.isMapping ≠ some true ∨ w.ind.isWholeReasonOfBinding = false) :
    (recordIncrementation E w path state).1.ind.isWholeReason = w.ind.isWholeReason := by
  unfold recordIncrementation
  simp only
  split
  · next hm =>
    have hflag : w.ind.isWholeReasonOfBinding = false := by
      rcases h with h | h
      · exact absurd hm (by simp [(truthy_eq_false_iff _).mpr h])
      · exact h
    split
    · rfl
    · next w2 keyName hk =>
      obtain ⟨_, _, hi⟩ := addMappingKey_frame E _ w2 state.incrementedPath keyName hk
      have hflag2 : w2.ind.isWholeReasonOfBinding = false := by rw [hi]; exact hflag
      rcases callOnKey_fst w2 keyName "updateIncrementation"
        (keyUpdateIncrementation w2 keyName path state) with hc | hc
      · rw [hc, keyUpdateIncrementation_wholeReason w2 keyName path state hflag2, hi]
      · rw [hc, hi]
  · rfl

/-- The last step of `updateIncrementation` leaves `isPartitionedReason` as it was on an
indicator that is not a mapping, and on one whose `isPartitionedReason` is its own array. -/
theorem recordIncrementation_partitionedReason (E : Env) (w : World) (path : NodePath)
    (state : IncrementationState)
    (h : w.ind.isMapping ≠ some true ∨ w.ind.isPartitionedReasonOfBinding = false) :
    (recordIncrementation E w path state).1.ind.isPartitionedReason
      = w.ind.isPartitionedReason := by
  unfold recordIncrementation
  simp only
  split
  · next hm =>
    have hflag : w.ind.isPartitionedReasonOfBinding = false := by
      rcases h with h | h
      · exact absurd hm (by simp [(truthy_eq_false_iff _).mpr h])
      · exact h
    split
    · rfl
    · next w2 keyName hk =>
      obtain ⟨_, _, hi⟩ := addMappingKey_frame E _ w2 state.incrementedPath keyName hk
      have hflag2 : w2.ind.isPartitionedReasonOfBinding = false := by rw [hi]; exact hflag
      rcases callOnKey_fst w2 keyName "updateIncrementation"
        (keyUpdateIncrementation w2 keyName path state) with hc | hc
      · rw [hc, keyUpdateIncrementation_partitionedReason w2 keyName path state hflag2, hi]
      · rw [hc, hi]
  · rfl

/-- In the whole case the last step of `updateIncrementation` leaves `isPartitionedReason`
as it was. -/
theorem recordIncrementation_whole_partitionedReason (E : Env) (w : World) (path : NodePath)
    (state : IncrementationState)
    (hc : (!truthy path.isIncremented || truthy state.incrementedIdentifier.isKnown) = true) :
    (recordIncrementation E w path state).1.ind.isPartitionedReason
      = w.ind.isPartitionedReason := by
  unfold recordIncrementation
  simp only
  split
  · split
    · rfl
    · next w2 keyName hk =>
      obtain ⟨_, _, hi⟩ := addMappingKey_frame E _ w2 state.incrementedPath keyName hk
      rcases callOnKey_fst w2 keyName "updateIncrementation"
        (keyUpdateIncrementation w2 keyName path state) with hc2 | hc2
      · rw [hc2, keyUpdateIncrementation_whole_partitionedReason w2 keyName path state hc, hi]
      · rw [hc2, hi]
  · rfl

/-- No step of `updateIncrementation` writes `isMapping` or changes which arrays the indicator
holds. -/
theorem classifyIncrementation_kept (E : Env) (w : World) (path : NodePath)
    (state : IncrementationState) :
    (classifyIncrementation E w path state).1.ind.isMapping = w.ind.isMapping
      ∧ (classifyIncrementation E w path state).1.ind.isWholeReasonOfBinding
          = w.ind.isWholeReasonOfBinding
      ∧ (classifyIncrementation E w path state).1.ind.isPartitionedReasonOfBinding
          = w.ind.isPartitionedReasonOfBinding := by
  rw [(classifyIncrementation_shape E w path state).2]
  split
  · split <;> exact ⟨rfl, rfl, rfl⟩
  · split
    · exact ⟨rfl, rfl, rfl⟩
    · exact ⟨rfl, rfl, rfl⟩

/-- The nullification of a decrement writes neither `isMapping` nor a list of reasons. -/
theorem nullifyDecrement_kept (E : Env) (w : World) (path : NodePath)
    (state : IncrementationState) :
    (nullifyDecrement E w path state).1.ind.isMapping = w.ind.isMapping
      ∧ (nullifyDecrement E w path state).1.ind.isWholeReasonOfBinding
          = w.ind.isWholeReasonOfBinding
      ∧ (nullifyDecrement E w path state).1.ind.isPartitionedReasonOfBinding
          = w.ind.isPartitionedReasonOfBinding
      ∧ (nullifyDecrement E w path state).1.ind.isWholeReason = w.ind.isWholeReason
      ∧ (nullifyDecrement E w path state).1.ind.isPartitionedReason
          = w.ind.isPartitionedReason := by
  rw [(nullifyDecrement_shape E w path state).2]
  split <;> exact ⟨rfl, rfl, rfl, rfl, rfl⟩

/-- The last step of `updateIncrementation` writes neither `isMapping` nor which arrays the
indicator holds. -/
theorem recordIncrementation_kept (E : Env) (w : World) (path : NodePath)
    (state : IncrementationState) :
    (recordIncrementation E w path state).1.ind.isMapping = w.ind.isMapping
      ∧ (recordIncrementation E w path state).1.ind.isWholeReasonOfBinding
          = w.ind.isWholeReasonOfBinding
      ∧ (recordIncrementation E w path state).1.ind.isPartitionedReasonOfBinding
          = w.ind.isPartitionedReasonOfBinding := by
  rw [(recordIncrementation_shape E w path state).2]
  exact ⟨rfl, rfl, rfl⟩

/-- A property of the objects that holds after the classification step and that the two
later steps keep holds after `updateIncrementation`, however the call ends. -/
theorem updateIncrementation_induct (E : Env) (w : World) (path : NodePath)
    (state : IncrementationState) (P : World → Prop)
    (h1 : P (classifyIncrementation E w path state).1)
    (h2 : ∀ w1, P w1 → P (nullifyDecrement E w1 path state).1)
    (h3 : ∀ w2, P w2 → P (recordIncrementation E w2 path state).1) :
    P (updateIncrementation E w path state).1 := by
  unfold updateIncrementation andThen
  split
  · exact h1
  · simp only
    split
    · exact h2 _ h1
    · exact h3 _ (h2 _ h1)

end StateVariableIndicator

/-! ## Incrementation -/

/-- Claim C3 fails on the source: `updateFromBinding` assigns the array `isWholeReason` of the
binding itself to the indicator and to each of its mapping keys.  On the mapping `balances`
whose key `msg` and whose binding hold that one array, `balances[msg.sender] = ...` makes the
indicator push `Overwritten` and then its key push `Overwritten` onto the same array: two
reasons are appended, not one. -/
theorem updateIncrementation_whole_shared_counterexample :
    Example.storeAccessPath.isIncremented ≠ some true
      ∧ Example.mergedWorld.ind.isWholeReason = some [Example.accessedReason]
      ∧ (StateVariableIndicator.updateIncrementation Example.mappingEnv Example.mergedWorld
          Example.storeAccessPath Example.store).2 = none
      ∧ (StateVariableIndicator.updateIncrementation Example.mappingEnv Example.mergedWorld
          Example.storeAccessPath Example.store).1.ind.isWholeReason
        = some [Example.accessedReason, { src := "501:20:0", text := "Overwritten" },
            { src := "501:20:0", text := "Overwritten" }] := by
  refine ⟨by decide, rfl, rfl, rfl⟩

/-- Claim C3, amended.  For every indicator and every `(path, state)` where the path is not
incremented or the incremented identifier is known, `updateIncrementation` leaves the
indicator whole and leaves `isPartitioned` and `isPartitionedReason` as they were; and when
the indicator is not a mapping, or its `isWholeReason` is an array of its own (not the one of
the binding, which `updateFromBinding` assigns), exactly one reason `Overwritten`, carrying
the `src` of the incremented identifier, is appended to `isWholeReason`.  This holds however
the call ends. -/
theorem updateIncrementation_whole (E : Env) (w : World) (path : NodePath)
    (state : IncrementationState)
    (h : path.isIncremented ≠ some true ∨ state.incrementedIdentifier.isKnown = some true) :
    (StateVariableIndicator.updateIncrementation E w path state).1.ind.isWhole = some true
      ∧ (StateVariableIndicator.updateIncrementation E w path state).1.ind.isPartitioned
          = w.ind.isPartitioned
      ∧ (StateVariableIndicator.updateIncrementation E w path state).1.ind.isPartitionedReason
          = w.ind.isPartitionedReason
      ∧ (w.ind.isMapping ≠ some true ∨ w.ind.isWholeReasonOfBinding = false →
          (StateVariableIndicator.updateIncrementation E w path state).1.ind.isWholeReason
            = some (w.ind.isWholeReason.getD []
                ++ [{ src := state.incrementedIdentifier.src, text := "Overwritten" }])) := by
  have hc : (!truthy path.isIncremented || truthy state.incrementedIdentifier.isKnown) = true := by
    rcases h with h | h
    · simp [(truthy_eq_false_iff _).mpr h]
    · simp [h]
  refine StateVariableIndicator.updateIncrementation_induct E w path state
    (fun w1 => w1.ind.isWhole = some true
      ∧ w1.ind.isPartitioned = w.ind.isPartitioned
      ∧ w1.ind.isPartitionedReason = w.ind.isPartitionedReason
      ∧ (w.ind.isMapping ≠ some true ∨ w.ind.isWholeReasonOfBinding = false →
          w1.ind.isWholeReason = some (w.ind.isWholeReason.getD []
            ++ [{ src := state.incrementedIdentifier.src, text := "Overwritten" }]))
      ∧ w1.ind.isMapping = w.ind.isMapping
      ∧ w1.ind.isWholeReasonOfBinding = w.ind.isWholeReasonOfBinding) ?_ ?_ ?_
    |> fun hP => ⟨hP.1, hP.2.1, hP.2.2.1, hP.2.2.2.1⟩
  · beta_reduce
    rw [(StateVariableIndicator.classifyIncrementation_shape E w path state).2, if_pos hc]
    split <;> simp
  · intro w1 hP
    beta_reduce at hP ⊢
    rw [(StateVariableIndicator.nullifyDecrement_shape E w1 path state).2]
    split <;> simpa using hP
  · intro w2 hP
    beta_reduce at hP ⊢
    obtain ⟨p1, p2, p3, p4, p5, p6⟩ := hP
    have hk := StateVariableIndicator.recordIncrementation_kept E w2 path state
    refine ⟨?_, ?_, ?_, ?_, hk.1.trans p5, hk.2.1.trans p6⟩
    · rw [(StateVariableIndicator.recordIncrementation_shape E w2 path state).2]
      exact p1
    · rw [(StateVariableIndicator.recordIncrementation_shape E w2 path state).2]
      exact p2
    · rw [StateVariableIndicator.recordIncrementation_whole_partitionedReason E w2 path state hc]
      exact p3
    · intro hown
      rw [StateVariableIndicator.recordIncrementation_wholeReason E w2 path state
        (by rw [p5, p6]; exact hown)]
      exact p4 hown

/-- Witness of C3: `x = newVal` on the fresh indicator of `x`. -/
theorem updateIncrementation_whole_witness :
    (StateVariableIndicator.updateIncrementation Example.env Example.world Example.xPath
        Example.assignment).1.ind.isWhole = some true
      ∧ (StateVariableIndicator.updateIncrementation Example.env Example.world Example.xPath
        Example.assignment).1.ind.isWholeReason = some [Example.overwritten] :=
  ⟨(updateIncrementation_whole Example.env Example.world Example.xPath Example.assignment
      (Or.inl (by decide))).1,
    (updateIncrementation_whole Example.env Example.world Example.xPath Example.assignment
      (Or.inl (by decide))).2.2.2 (Or.inl (by decide))⟩

/-- Claim C4.  In the whole case (the path is not incremented, or the incremented identifier
is known), when `state.incrementedPath` exists and the incremented identifier is not
reinitialisable, after `updateIncrementation` that path is in `nullifyingPaths` and the
function indicator has `nullifiersRequired`, `newCommitmentsRequired`,
`oldCommitmentAccessRequired` and `initialisationRequired` all true; this holds for every
indicator, mapping or not, however the call ends. -/
theorem updateIncrementation_whole_nullifies (E : Env) (w : World) (path : NodePath)
    (state : IncrementationState) (incrementedPath : NodePath)
    (h : path.isIncremented ≠ some true ∨ state.incrementedIdentifier.isKnown = some true)
    (hpath : state.incrementedPath = some incrementedPath)
    (hreinit : state.incrementedIdentifier.reinitialisable ≠ some true) :
    some incrementedPath
        ∈ (StateVariableIndicator.updateIncrementation E w path state).1.ind.nullifyingPaths
      ∧ (StateVariableIndicator.updateIncrementation E w path state).1.parentIndincator.nullifiersRequired
          = true
      ∧ (StateVariableIndicator.updateIncrementation E w path state).1.parentIndincator.newCommitmentsRequired
          = true
      ∧ (StateVariableIndicator.updateIncrementation E w path state).1.parentIndincator.oldCommitmentAccessRequired
          = true
      ∧ (StateVariableIndicator.updateIncrementation E w path state).1.parentIndincator.initialisationRequired
          = true := by
  have hc : (!truthy path.isIncremented || truthy state.incrementedIdentifier.isKnown) = true := by
    rcases h with h | h
    · simp [(truthy_eq_false_iff _).mpr h]
    · simp [h]
  have hn : (state.incrementedPath.isSome
      && !truthy state.incrementedIdentifier.reinitialisable) = true := by
    simp [hpath, (truthy_eq_false_iff _).mpr hreinit]
  refine StateVariableIndicator.updateIncrementation_induct E w path state
    (fun w1 => some incrementedPath ∈ w1.ind.nullifyingPaths
      ∧ w1.parentIndincator.nullifiersRequired = true
      ∧ w1.parentIndincator.newCommitmentsRequired = true
      ∧ w1.parentIndincator.oldCommitmentAccessRequired = true
      ∧ w1.parentIndincator.initialisationRequired = true) ?_ ?_ ?_
  · beta_reduce
    rw [(StateVariableIndicator.classifyIncrementation_shape E w path state).2,
      (StateVariableIndicator.classifyIncrementation_shape E w path state).1,
      if_pos hc, if_pos hc, if_pos hn, if_pos hn]
    simp [hpath]
  · intro w1 hP
    beta_reduce at hP ⊢
    rw [(StateVariableIndicator.nullifyDecrement_shape E w1 path state).2,
      (StateVariableIndicator.nullifyDecrement_shape E w1 path state).1]
    split
    · simp [hP.1, hP.2.2.2.2]
    · exact hP
  · intro w2 hP
    beta_reduce at hP ⊢
    rw [(StateVariableIndicator.recordIncrementation_shape E w2 path state).2,
      (StateVariableIndicator.recordIncrementation_shape E w2 path state).1]
    simpa using hP

/-- Witness of C4: `x = newVal` after `x += amount`. -/
theorem updateIncrementation_whole_nullifies_witness :
    some Example.incrementPath
        ∈ (StateVariableIndicator.updateIncrementation Example.env Example.world Example.xPath
            Example.assignmentAfterIncrement).1.ind.nullifyingPaths
      ∧ (StateVariableIndicator.updateIncrementation Example.env Example.world Example.xPath
            Example.assignmentAfterIncrement).1.parentIndincator.nullifiersRequired = true :=
  ⟨(updateIncrementation_whole_nullifies Example.env Example.world Example.xPath
      Example.assignmentAfterIncrement Example.incrementPath (Or.inl (by decide)) rfl
      (by decide)).1,
    (updateIncrementation_whole_nullifies Example.env Example.world Example.xPath
      Example.assignmentAfterIncrement Example.incrementPath (Or.inl (by decide)) rfl
      (by decide)).2.1⟩

/-- A call of `updateIncrementation` that returns has run its three steps in turn. -/
theorem StateVariableIndicator.updateIncrementation_of_returns (E : Env) (w : World)
    (path : NodePath) (state : IncrementationState)
    (h : (StateVariableIndicator.updateIncrementation E w path state).2 = none) :
    (StateVariableIndicator.updateIncrementation E w path state).1
      = (StateVariableIndicator.recordIncrementation E
          (StateVariableIndicator.nullifyDecrement E
            (StateVariableIndicator.classifyIncrementation E w path state).1 path state).1
          path state).1 := by
  unfold StateVariableIndicator.updateIncrementation StateVariableIndicator.andThen at h ⊢
  cases h1 : (StateVariableIndicator.classifyIncrementation E w path state).2 with
  | some e => simp [h1] at h
  | none =>
    simp only [h1] at h ⊢
    cases h2 : (StateVariableIndicator.nullifyDecrement E
        (StateVariableIndicator.classifyIncrementation E w path state).1 path state).2 with
    | some e => simp [h2] at h
    | none => simp only [h2]

/-- The classification step throws only where it nullifies: in the whole case, with an
incremented path and an identifier that is not reinitialisable. -/
theorem StateVariableIndicator.classifyIncrementation_throws (E : Env) (w : World)
    (path : NodePath) (state : IncrementationState) (e : Exception)
    (h : (StateVariableIndicator.classifyIncrementation E w path state).2 = some e) :
    (!truthy path.isIncremented || truthy state.incrementedIdentifier.isKnown) = true
      ∧ (state.incrementedPath.isSome
          && !truthy state.incrementedIdentifier.reinitialisable) = true := by
  unfold StateVariableIndicator.classifyIncrementation at h
  simp only at h
  split at h
  · next h1 =>
    split at h
    · next h2 => exact ⟨h1, h2⟩
    · simp at h
  · split at h
    · simp at h
    · split at h <;> simp at h

/-- Claim C5.  On a non-mapping indicator, for a path that is incremented and not
decremented, with the incremented identifier not known and marked unknown (itself or its
base expression), `updateIncrementation` returns, sets `isPartitioned` with the reason
`Incremented and marked as unknown` appended, sets `newCommitmentsRequired` on the function
indicator, and leaves `isWhole`, `nullifyingPaths` and the function indicator's
`nullifiersRequired` as they were. -/
theorem updateIncrementation_partitioned (E : Env) (w : World) (path : NodePath)
    (state : IncrementationState)
    (hplain : w.ind.isMapping ≠ some true)
    (hinc : path.isIncremented = some true)
    (hdec : path.isDecremented ≠ some true)
    (hknown : state.incrementedIdentifier.isKnown ≠ some true)
    (hunknown : state.incrementedIdentifier.isUnknown = some true
      ∨ state.incrementedIdentifier.baseExpression.bind Node.isUnknown = some true) :
    (StateVariableIndicator.updateIncrementation E w path state).2 = none
      ∧ (StateVariableIndicator.updateIncrementation E w path state).1.ind.isPartitioned
          = some true
      ∧ (StateVariableIndicator.updateIncrementation E w path state).1.ind.isPartitionedReason
          = some (w.ind.isPartitionedReason.getD []
              ++ [{ src := state.incrementedIdentifier.src,
                    text := "Incremented and marked as unknown" }])
      ∧ (StateVariableIndicator.updateIncrementation E w path state).1.parentIndincator.newCommitmentsRequired
          = true
      ∧ (StateVariableIndicator.updateIncrementation E w path state).1.ind.isWhole
          = w.ind.isWhole
      ∧ (StateVariableIndicator.updateIncrementation E w path state).1.parentIndincator.nullifiersRequired
          = w.parentIndincator.nullifiersRequired
      ∧ (StateVariableIndicator.updateIncrementation E w path state).1.ind.nullifyingPaths
          = w.ind.nullifyingPaths := by
  have h1 : truthy path.isDecremented = false := (truthy_eq_false_iff _).mpr hdec
  have h2 : truthy state.incrementedIdentifier.isKnown = false :=
    (truthy_eq_false_iff _).mpr hknown
  have h4 : (truthy state.incrementedIdentifier.isUnknown
      || truthy (state.incrementedIdentifier.baseExpression.bind Node.isUnknown)) = true := by
    rcases hunknown with h | h <;> simp [h]
  have hcw : ¬ (!truthy path.isIncremented || truthy state.incrementedIdentifier.isKnown) = true := by
    simp [hinc, h2]
  have hcp : (!truthy path.isDecremented
      && (truthy state.incrementedIdentifier.isUnknown
          || truthy (state.incrementedIdentifier.baseExpression.bind Node.isUnknown))) = true := by
    simp [h1, h4]
  have hcp2 : (!truthy path.isDecremented) = true := by simp [h1]
  have hcd : ¬ (truthy path.isDecremented && !truthy state.incrementedIdentifier.isKnown) = true := by
    simp [h1]
  have r1 : (StateVariableIndicator.classifyIncrementation E w path state).2 = none := by
    cases hr : (StateVariableIndicator.classifyIncrementation E w path state).2 with
    | none => rfl
    | some e =>
      exact absurd (StateVariableIndicator.classifyIncrementation_throws E w path state e hr).1 hcw
  obtain ⟨s1p, s1i⟩ := StateVariableIndicator.classifyIncrementation_shape E w path state
  rw [if_neg hcw, if_pos hcp2] at s1p
  rw [if_neg hcw, if_pos hcp] at s1i
  have k1 := (StateVariableIndicator.classifyIncrementation_kept E w path state).1
  have r2 : (StateVariableIndicator.nullifyDecrement E
      (StateVariableIndicator.classifyIncrementation E w path state).1 path state).2 = none := by
    unfold StateVariableIndicator.nullifyDecrement
    rw [if_neg hcd]
  obtain ⟨s2p, s2i⟩ := StateVariableIndicator.nullifyDecrement_shape E
    (StateVariableIndicator.classifyIncrementation E w path state).1 path state
  rw [if_neg hcd] at s2p s2i
  have r3 : (StateVariableIndicator.recordIncrementation E
      (StateVariableIndicator.nullifyDecrement E
        (StateVariableIndicator.classifyIncrementation E w path state).1 path state).1
      path state).2 = none := by
    unfold StateVariableIndicator.recordIncrementation
    simp only
    rw [s2i, k1, (truthy_eq_false_iff _).mpr hplain]
    rfl
  have hret : (StateVariableIndicator.updateIncrementation E w path state).2 = none := by
    unfold StateVariableIndicator.updateIncrementation StateVariableIndicator.andThen
    simp only [r1, r2]
    exact r3
  obtain ⟨s3p, s3i⟩ := StateVariableIndicator.recordIncrementation_shape E
    (StateVariableIndicator.nullifyDecrement E
      (StateVariableIndicator.classifyIncrementation E w path state).1 path state).1 path state
  have s3r := StateVariableIndicator.recordIncrementation_partitionedReason E
    (StateVariableIndicator.nullifyDecrement E
      (StateVariableIndicator.classifyIncrementation E w path state).1 path state).1 path state
    (Or.inl (by rw [s2i, k1]; exact hplain))
  refine ⟨hret, ?_⟩
  rw [StateVariableIndicator.updateIncrementation_of_returns E w path state hret]
  refine ⟨?_, ?_, ?_, ?_, ?_, ?_⟩
  · rw [s3i, s2i, s1i]
  · rw [s3r, s2i, s1i]
  · rw [s3p, s2p, s1p]
  · rw [s3i, s2i, s1i]
  · rw [s3p, s2p, s1p]
  · rw [s3i, s2i, s1i]

/-- Witness of C5: `unknown x += amount` on the fresh indicator of `x`. -/
theorem updateIncrementation_partitioned_witness :
    (StateVariableIndicator.updateIncrementation Example.env Example.world
        Example.incrementPath Example.increment).2 = none
      ∧ (StateVariableIndicator.updateIncrementation Example.env Example.world
          Example.incrementPath Example.increment).1.ind.isPartitioned = some true :=
  ⟨(updateIncrementation_partitioned Example.env Example.world Example.incrementPath
      Example.increment (by decide) rfl (by decide) (by decide) (Or.inl rfl)).1,
    (updateIncrementation_partitioned Example.env Example.world Example.incrementPath
      Example.increment (by decide) rfl (by decide) (by decide) (Or.inl rfl)).2.1⟩

/-- The classification step only appends to `nullifyingPaths`. -/
theorem StateVariableIndicator.classifyIncrementation_nullifyingPaths (E : Env) (w : World)
    (path : NodePath) (state : IncrementationState) :
    ∃ earlier, (StateVariableIndicator.classifyIncrementation E w path state).1.ind.nullifyingPaths
      = w.ind.nullifyingPaths ++ earlier := by
  rw [(StateVariableIndicator.classifyIncrementation_shape E w path state).2]
  split
  · split
    · exact ⟨[state.incrementedPath], rfl⟩
    · exact ⟨[], by simp⟩
  · split
    · exact ⟨[], by simp⟩
    · exact ⟨[], by simp⟩

/-- Claim C6.  For a path that is decremented, with the incremented identifier not known,
`updateIncrementation` leaves `state.incrementedPath` appended at the end of
`nullifyingPaths` and `nullifiersRequired`, `newCommitmentsRequired` and
`oldCommitmentAccessRequired` true on the function indicator, whichever branch of the
classification was taken; this holds for every indicator, mapping or not, however the
call ends. -/
theorem updateIncrementation_decrement_nullifies (E : Env) (w : World) (path : NodePath)
    (state : IncrementationState)
    (hdec : path.isDecremented = some true)
    (hknown : state.incrementedIdentifier.isKnown ≠ some true) :
    (∃ earlier,
        (StateVariableIndicator.updateIncrementation E w path state).1.ind.nullifyingPaths
          = w.ind.nullifyingPaths ++ earlier ++ [state.incrementedPath])
      ∧ (StateVariableIndicator.updateIncrementation E w path state).1.parentIndincator.nullifiersRequired
          = true
      ∧ (StateVariableIndicator.updateIncrementation E w path state).1.parentIndincator.newCommitmentsRequired
          = true
      ∧ (StateVariableIndicator.updateIncrementation E w path state).1.parentIndincator.oldCommitmentAccessRequired
          = true := by
  have hc : (truthy path.isDecremented && !truthy state.incrementedIdentifier.isKnown) = true := by
    simp [hdec, (truthy_eq_false_iff _).mpr hknown]
  unfold StateVariableIndicator.updateIncrementation StateVariableIndicator.andThen
  split
  · next e he =>
    obtain ⟨h1, h2⟩ := StateVariableIndicator.classifyIncrementation_throws E w path state e he
    simp only
    rw [(StateVariableIndicator.classifyIncrementation_shape E w path state).2,
      (StateVariableIndicator.classifyIncrementation_shape E w path state).1,
      if_pos h1, if_pos h1, if_pos h2, if_pos h2]
    exact ⟨⟨[], by simp⟩, rfl, rfl, rfl⟩
  · obtain ⟨earlier, hearlier⟩ :=
      StateVariableIndicator.classifyIncrementation_nullifyingPaths E w path state
    have hshape := StateVariableIndicator.nullifyDecrement_shape E
      (StateVariableIndicator.classifyIncrementation E w path state).1 path state
    rw [if_pos hc, if_pos hc] at hshape
    simp only
    split
    · rw [hshape.1, hshape.2]
      exact ⟨⟨earlier, by simp [hearlier]⟩, rfl, rfl, rfl⟩
    · rw [(StateVariableIndicator.recordIncrementation_shape E _ path state).2,
        (StateVariableIndicator.recordIncrementation_shape E _ path state).1,
        hshape.1, hshape.2]
      exact ⟨⟨earlier, by simp [hearlier]⟩, rfl, rfl, rfl⟩

/-- Witness of C6: `x -= amount` on the fresh indicator of `x`. -/
theorem updateIncrementation_decrement_nullifies_witness :
    (∃ earlier,
        (StateVariableIndicator.updateIncrementation Example.env Example.world
            Example.decrementPath Example.decrement).1.ind.nullifyingPaths
          = Example.world.ind.nullifyingPaths ++ earlier ++ [some Example.decrementPath])
      ∧ (StateVariableIndicator.updateIncrementation Example.env Example.world
            Example.decrementPath Example.decrement).1.parentIndincator.nullifiersRequired
          = true :=
  ⟨(updateIncrementation_decrement_nullifies Example.env Example.world Example.decrementPath
      Example.decrement rfl (by decide)).1,
    (updateIncrementation_decrement_nullifies Example.env Example.world Example.decrementPath
      Example.decrement rfl (by decide)).2.1⟩

/-- On a non-mapping indicator, `addNullifyingPath` returns whenever the binding's own
`addNullifyingPath` does not throw. -/
theorem StateVariableIndicator.addNullifyingPath_returns (E : Env) (w : World)
    (path : Option NodePath)
    (hplain : w.ind.isMapping ≠ some true)
    (hbinding : ∀ b p, (E.bindingAddNullifyingPath b p).2 = none) :
    (StateVariableIndicator.addNullifyingPath E w path).2 = none := by
  have h3 : truthy w.ind.isMapping = false := (truthy_eq_false_iff _).mpr hplain
  simp [StateVariableIndicator.addNullifyingPath, hbinding, h3]

/-- The classification step does not write `isMapping`. -/
theorem StateVariableIndicator.classifyIncrementation_isMapping (E : Env) (w : World)
    (path : NodePath) (state : IncrementationState) :
    (StateVariableIndicator.classifyIncrementation E w path state).1.ind.isMapping
      = w.ind.isMapping := by
  rw [(StateVariableIndicator.classifyIncrementation_shape E w path state).2]
  split
  · split <;> rfl
  · split <;> rfl

/-- The nullification of a decrement does not write `isMapping`. -/
theorem StateVariableIndicator.nullifyDecrement_isMapping (E : Env) (w : World)
    (path : NodePath) (state : IncrementationState) :
    (StateVariableIndicator.nullifyDecrement E w path state).1.ind.isMapping
      = w.ind.isMapping := by
  rw [(StateVariableIndicator.nullifyDecrement_shape E w path state).2]
  split <;> rfl

/-- On a non-mapping indicator, `updateIncrementation` returns whenever the binding's
`addNullifyingPath` does not throw. -/
theorem StateVariableIndicator.updateIncrementation_returns (E : Env) (w : World)
    (path : NodePath) (state : IncrementationState)
    (hplain : w.ind.isMapping ≠ some true)
    (hbinding : ∀ b p, (E.bindingAddNullifyingPath b p).2 = none) :
    (StateVariableIndicator.updateIncrementation E w path state).2 = none := by
  have r1 : (StateVariableIndicator.classifyIncrementation E w path state).2 = none := by
    unfold StateVariableIndicator.classifyIncrementation
    simp only
    split
    · split
      · exact StateVariableIndicator.addNullifyingPath_returns E _ _
          (by rw [(StateVariableIndicator.pushedWholeReason_frame _).2]; exact hplain) hbinding
      · rfl
    · split
      · rfl
      · split <;> rfl
  have p1 : (StateVariableIndicator.classifyIncrementation E w path state).1.ind.isMapping
      ≠ some true := by
    rw [StateVariableIndicator.classifyIncrementation_isMapping]
    exact hplain
  have r2 : (StateVariableIndicator.nullifyDecrement E
      (StateVariableIndicator.classifyIncrementation E w path state).1 path state).2 = none := by
    unfold StateVariableIndicator.nullifyDecrement
    split
    · exact StateVariableIndicator.addNullifyingPath_returns E _ _ p1 hbinding
    · rfl
  have p2 : (StateVariableIndicator.nullifyDecrement E
      (StateVariableIndicator.classifyIncrementation E w path state).1 path state).1.ind.isMapping
      ≠ some true := by
    rw [StateVariableIndicator.nullifyDecrement_isMapping]
    exact p1
  unfold StateVariableIndicator.updateIncrementation StateVariableIndicator.andThen
  simp only [r1, r2]
  unfold StateVariableIndicator.recordIncrementation
  simp [(truthy_eq_false_iff _).mpr p2]

/-- Claim C7.  `MappingKey.updateIncrementation` and `StateVariableIndicator.updateIncrementation`
classify alike on a non-mapping indicator, and on a mapping one whose two lists of reasons
are arrays of its own: started from equal values of
`isWhole`, `isWholeReason`, `isPartitioned`, `isPartitionedReason`, `isUnknown`,
`isIncremented`, `isDecremented`, `increments`, `decrements`, `isNullified`,
`nullificationCount` and `nullifyingPaths` and given the same `(path, state)`, when the
indicator's call returns, both end with equal values of all those properties. -/
theorem updateIncrementation_same_classification (E : Env) (w : World) (k : MappingKey)
    (path : NodePath) (state : IncrementationState)
    (hown : w.ind.isMapping ≠ some true
      ∨ (w.ind.isWholeReasonOfBinding = false ∧ w.ind.isPartitionedReasonOfBinding = false))
    (hstart : w.ind.classification = k.classification)
    (hreturns : (StateVariableIndicator.updateIncrementation E w path state).2 = none) :
    (StateVariableIndicator.updateIncrementation E w path state).1.ind.classification
      = (k.updateIncrementation path state).classification := by
  simp only [StateVariableIndicator.classification, MappingKey.classification,
    Classification.mk.injEq] at hstart
  obtain ⟨e1, e2, e3, e4, e5, e6, e7, e8, e9, e10, e11, e12⟩ := hstart
  have k1 := StateVariableIndicator.classifyIncrementation_kept E w path state
  have k2 := StateVariableIndicator.nullifyDecrement_kept E
    (StateVariableIndicator.classifyIncrementation E w path state).1 path state
  have hw := StateVariableIndicator.recordIncrementation_wholeReason E
    (StateVariableIndicator.nullifyDecrement E
      (StateVariableIndicator.classifyIncrementation E w path state).1 path state).1 path state
    (by rw [k2.1, k2.2.1, k1.1, k1.2.1]; exact hown.imp id And.left)
  have hp := StateVariableIndicator.recordIncrementation_partitionedReason E
    (StateVariableIndicator.nullifyDecrement E
      (StateVariableIndicator.classifyIncrementation E w path state).1 path state).1 path state
    (by rw [k2.1, k2.2.2.1, k1.1, k1.2.2]; exact hown.imp id And.right)
  rw [StateVariableIndicator.updateIncrementation_of_returns E w path state hreturns,
    StateVariableIndicator.classification,
    (StateVariableIndicator.recordIncrementation_shape E _ path state).2, hw, hp,
    (StateVariableIndicator.nullifyDecrement_shape E _ path state).2,
    (StateVariableIndicator.classifyIncrementation_shape E w path state).2]
  simp only [MappingKey.updateIncrementation, MappingKey.addNullifyingPath,
    MappingKey.classification]
  generalize truthy path.isIncremented = a
  generalize truthy state.incrementedIdentifier.isKnown = b
  generalize state.incrementedPath.isSome = c
  generalize truthy state.incrementedIdentifier.reinitialisable = d
  generalize truthy path.isDecremented = e
  generalize (truthy state.incrementedIdentifier.isUnknown
    || truthy (state.incrementedIdentifier.baseExpression.bind Node.isUnknown)) = f
  cases a <;> cases b <;> cases c <;> cases d <;> cases e <;> cases f
    <;> simp [e1, e2, e3, e4, e5, e6, e7, e8, e9, e10, e11, e12]

/-- Witness of C7: `unknown x += amount` on the indicator of `x` and on a mapping key that
have both seen `x -= amount` before. -/
theorem updateIncrementation_same_classification_witness :
    (StateVariableIndicator.updateIncrementation Example.env Example.decrementedWorld
        Example.incrementPath Example.increment).1.ind.classification
      = (Example.decrementedKey.updateIncrementation Example.incrementPath
          Example.increment).classification :=
  updateIncrementation_same_classification Example.env Example.decrementedWorld
    Example.decrementedKey Example.incrementPath Example.increment (Or.inl (by decide)) rfl
    (StateVariableIndicator.updateIncrementation_returns Example.env Example.decrementedWorld
      Example.incrementPath Example.increment (by decide) (fun _ _ => rfl))

/-! ## Access -/

/-- Counterexample to C8 as stated: after `updateAccessed` on the fresh, non-mapping indicator
of `x`, `initialisationRequired` is still `undefined` on the indicator itself, while it is
true on the function indicator. -/
theorem updateAccessed_initialisationRequired_counterexample :
    Example.world.ind.isMapping ≠ some true
      ∧ (StateVariableIndicator.updateAccessed Example.env Example.world Example.xPath).2 = none
      ∧ (StateVariableIndicator.updateAccessed Example.env Example.world
          Example.xPath).1.ind.initialisationRequired = none
      ∧ (StateVariableIndicator.updateAccessed Example.env Example.world
          Example.xPath).1.parentIndincator.initialisationRequired = true := by
  refine ⟨by decide, rfl, rfl, rfl⟩

/-- Claim C8, amended.  On a non-mapping indicator and for every path, `updateAccessed(path)`
returns and leaves `isWhole` and `isAccessed` true, `oldCommitmentAccessRequired` true on the
indicator and on the function indicator, `initialisationRequired` true on the function
indicator, and the path appended to `accessedPaths`; `initialisationRequired` of the indicator
itself is left as it was. -/
theorem updateAccessed_plain (E : Env) (w : World) (path : NodePath)
    (hplain : w.ind.isMapping ≠ some true) :
    (StateVariableIndicator.updateAccessed E w path).2 = none
      ∧ (StateVariableIndicator.updateAccessed E w path).1.ind.isWhole = some true
      ∧ (StateVariableIndicator.updateAccessed E w path).1.ind.isAccessed = some true
      ∧ (StateVariableIndicator.updateAccessed E w path).1.ind.oldCommitmentAccessRequired
          = some true
      ∧ (StateVariableIndicator.updateAccessed E w path).1.parentIndincator.oldCommitmentAccessRequired
          = true
      ∧ (StateVariableIndicator.updateAccessed E w path).1.parentIndincator.initialisationRequired
          = true
      ∧ (StateVariableIndicator.updateAccessed E w path).1.ind.accessedPaths
          = some (w.ind.accessedPaths.getD [] ++ [path])
      ∧ (StateVariableIndicator.updateAccessed E w path).1.ind.initialisationRequired
          = w.ind.initialisationRequired := by
  have h3 : truthy w.ind.isMapping = false := (truthy_eq_false_iff _).mpr hplain
  simp only [StateVariableIndicator.updateAccessed, h3, Bool.false_eq_true, if_false]
  rw [(StateVariableIndicator.pushedWholeReason_frame _).2,
    (StateVariableIndicator.pushedWholeReason_frame _).1]
  simp

/-- Witness of C8, amended: `updateAccessed` on the fresh indicator of `x`. -/
theorem updateAccessed_plain_witness :
    (StateVariableIndicator.updateAccessed Example.env Example.world Example.xPath).2 = none
      ∧ (StateVariableIndicator.updateAccessed Example.env Example.world
          Example.xPath).1.ind.isWhole = some true :=
  ⟨(updateAccessed_plain Example.env Example.world Example.xPath (by decide)).1,
    (updateAccessed_plain Example.env Example.world Example.xPath (by decide)).2.1⟩

/-! ## Monotonicity of the flags -/

theorem Flags.kept_refl (f : Flags) : f.kept f := ⟨id, id, id, id⟩

theorem Flags.kept_trans {f g h : Flags} (h1 : f.kept g) (h2 : g.kept h) : f.kept h :=
  ⟨fun x => h2.1 (h1.1 x), fun x => h2.2.1 (h1.2.1 x), fun x => h2.2.2.1 (h1.2.2.1 x),
    fun x => h2.2.2.2 (h1.2.2.2 x)⟩

theorem orAssign_kept (a b : Option Bool) (h : a = some true) : orAssign a b = some true := by
  subst h
  rfl

namespace MappingKey

theorem key_addReferencingPath_flags (k : MappingKey) (path : NodePath) :
    k.flags.kept (k.addReferencingPath path).flags := by
  simp [Flags.kept, flags, addReferencingPath]

theorem key_addModifyingPath_flags (k : MappingKey) (path : NodePath) :
    k.flags.kept (k.addModifyingPath path).flags := by
  unfold addModifyingPath
  simp only
  split
  · simp [Flags.kept, flags]
  · split <;> split <;> simp [Flags.kept, flags]

theorem key_addNullifyingPath_flags (k : MappingKey) (path : Option NodePath) :
    k.flags.kept (k.addNullifyingPath path).flags := by
  simp [Flags.kept, flags, addNullifyingPath]

theorem key_updateOwnProperties_flags (k : MappingKey) (path : NodePath) :
    k.flags.kept (k.updateOwnProperties path).flags := by
  unfold updateOwnProperties
  simp only
  split
  · refine Flags.kept_trans ?_ (key_addModifyingPath_flags _ path)
    simp [Flags.kept, flags, addReferencingPath]
  · simp [Flags.kept, flags, addReferencingPath]

theorem key_updateIncrementation_flags (k : MappingKey) (path : NodePath)
    (state : IncrementationState) :
    k.flags.kept (k.updateIncrementation path state).flags := by
  simp only [updateIncrementation, addNullifyingPath, Flags.kept, flags]
  refine ⟨?_, ?_, ?_, ?_⟩
  · intro h
    apply orAssign_kept
    split <;> split <;> try split
    all_goals exact h
  · intro h
    apply orAssign_kept
    split <;> split <;> try split
    all_goals exact h
  · intro h
    split <;> split <;> try split
    all_goals exact h
  · intro h
    split <;> split <;> try split
    all_goals exact h

theorem key_updateFromBinding_flags (k : MappingKey) (binding : Binding) :
    k.flags.kept (k.updateFromBinding binding).flags := by
  simp [Flags.kept, flags, updateFromBinding]

end MappingKey

namespace StateVariableIndicator

theorem flags_of_frame {a b : StateVariableIndicator}
    (h : a = { b with mappingKeys := a.mappingKeys }) : a.flags = b.flags := by
  rw [h]
  rfl

theorem addReferencingPath_flags (ind : StateVariableIndicator) (path : NodePath) :
    ind.flags.kept (ind.addReferencingPath path).flags := by
  simp [Flags.kept, flags, addReferencingPath]

theorem addModifyingPath_flags (ind : StateVariableIndicator) (path : NodePath) :
    ind.flags.kept (ind.addModifyingPath path).flags := by
  unfold addModifyingPath
  simp only
  split
  · simp [Flags.kept, flags]
  · split <;> split <;> simp [Flags.kept, flags]

theorem updateProperties_flags (ind : StateVariableIndicator) (path : NodePath) :
    ind.flags.kept (ind.updateProperties path).flags := by
  unfold updateProperties
  simp only
  split
  · refine Flags.kept_trans ?_ (addModifyingPath_flags _ path)
    simp [Flags.kept, flags, addReferencingPath]
  · simp [Flags.kept, flags, addReferencingPath]

theorem addNullifyingPath_flags (E : Env) (w : World) (path : Option NodePath) :
    w.ind.flags.kept (addNullifyingPath E w path).1.ind.flags := by
  rw [(addNullifyingPath_shape E w path).2]
  exact Flags.kept_refl w.ind.flags

theorem update_flags (E : Env) (w : World) (path : NodePath) :
    w.ind.flags.kept (update E w path).1.ind.flags := by
  unfold update
  split
  · split
    · exact Flags.kept_refl _
    · next w1 keyName hk =>
      obtain ⟨_, _, hi⟩ := addMappingKey_frame E w w1 (some path) keyName hk
      rw [← flags_of_frame hi]
      rcases callOnKey_fst w1 keyName "updateProperties"
        (onKey { w1 with ind := w1.ind.updateProperties path } keyName
          (fun k => k.updateOwnProperties path)) with hc | hc
      · rw [hc]
        exact updateProperties_flags w1.ind path
      · rw [hc]
        exact Flags.kept_refl _
  · exact updateProperties_flags w.ind path

theorem updateFromBinding_flags (w : World) :
    w.ind.flags.kept (updateFromBinding w).1.ind.flags := by
  unfold updateFromBinding
  simp only
  split
  · split <;> exact Flags.kept_refl _
  · exact Flags.kept_refl _

theorem updateAccessed_flags (E : Env) (w : World) (path : NodePath) :
    w.ind.flags.kept (updateAccessed E w path).1.ind.flags := by
  rw [(updateAccessed_shape E w path).2]
  exact Flags.kept_refl _

theorem updateIncrementation_flags (E : Env) (w : World) (path : NodePath)
    (state : IncrementationState) :
    w.ind.flags.kept (updateIncrementation E w path state).1.ind.flags := by
  refine updateIncrementation_induct E w path state (fun w1 => w.ind.flags.kept w1.ind.flags)
    ?_ ?_ ?_
  · beta_reduce
    rw [(classifyIncrementation_shape E w path state).2]
    split
    · split <;> exact Flags.kept_refl _
    · split <;> exact Flags.kept_refl _
  · intro w1 hP
    rw [(nullifyDecrement_shape E w1 path state).2]
    split
    · exact hP
    · exact hP
  · intro w2 hP
    refine Flags.kept_trans hP ?_
    rw [(recordIncrementation_shape E w2 path state).2]
    exact ⟨fun h => orAssign_kept _ _ h, fun h => orAssign_kept _ _ h, fun h => h, fun h => h⟩

end StateVariableIndicator

/-- Claim C9.  On a `StateVariableIndicator` and on a `MappingKey`, each of the flags
`isIncremented`, `isDecremented`, `isReferenced` and `isModified` that is true before one of
`update`, `updateProperties`, `updateAccessed`, `updateIncrementation`, `updateFromBinding`,
`addReferencingPath`, `addModifyingPath` and `addNullifyingPath` is true after it, for every
argument and however the call ends. -/
theorem flags_kept_by_every_method (E : Env) (w : World) (k : MappingKey) (path : NodePath)
    (nullifying : Option NodePath) (state : IncrementationState) :
    (w.ind.flags.kept (StateVariableIndicator.update E w path).1.ind.flags
      ∧ w.ind.flags.kept (w.ind.updateProperties path).flags
      ∧ w.ind.flags.kept (StateVariableIndicator.updateAccessed E w path).1.ind.flags
      ∧ w.ind.flags.kept (StateVariableIndicator.updateIncrementation E w path state).1.ind.flags
      ∧ w.ind.flags.kept (StateVariableIndicator.updateFromBinding w).1.ind.flags
      ∧ w.ind.flags.kept (w.ind.addReferencingPath path).flags
      ∧ w.ind.flags.kept (w.ind.addModifyingPath path).flags
      ∧ w.ind.flags.kept (StateVariableIndicator.addNullifyingPath E w nullifying).1.ind.flags)
    ∧ (k.flags.kept (k.updateProperties w.ind path).1.flags
      ∧ w.ind.flags.kept (k.updateProperties w.ind path).2.flags
      ∧ k.flags.kept (k.updateIncrementation path state).flags
      ∧ k.flags.kept (k.updateFromBinding w.binding).flags
      ∧ k.flags.kept (k.addReferencingPath path).flags
      ∧ k.flags.kept (k.addModifyingPath path).flags
      ∧ k.flags.kept (k.addNullifyingPath nullifying).flags) :=
  ⟨⟨StateVariableIndicator.update_flags E w path,
      StateVariableIndicator.updateProperties_flags w.ind path,
      StateVariableIndicator.updateAccessed_flags E w path,
      StateVariableIndicator.updateIncrementation_flags E w path state,
      StateVariableIndicator.updateFromBinding_flags w,
      StateVariableIndicator.addReferencingPath_flags w.ind path,
      StateVariableIndicator.addModifyingPath_flags w.ind path,
      StateVariableIndicator.addNullifyingPath_flags E w nullifying⟩,
    ⟨MappingKey.key_updateOwnProperties_flags k path,
      StateVariableIndicator.updateProperties_flags w.ind path,
      MappingKey.key_updateIncrementation_flags k path state,
      MappingKey.key_updateFromBinding_flags k w.binding,
      MappingKey.key_addReferencingPath_flags k path,
      MappingKey.key_addModifyingPath_flags k path,
      MappingKey.key_addNullifyingPath_flags k nullifying⟩⟩

/-! ## The reasons carried by the error -/

/-- Counterexample to C10 as stated: after `x = newVal` and `unknown x += amount` the secret,
non-mapping indicator of `x` is whole and partitioned (and unknown, which the partitioned
branch sets); the check throws the error of an unknown whole state, whose reasons are those of
`isWholeReason` alone: the entry of `isPartitionedReason` is not among them. -/
theorem prelimTraversalErrorChecks_reasons_counterexample :
    Example.overwrittenThenIncremented.ind.isSecret = some true
      ∧ Example.overwrittenThenIncremented.ind.isMapping ≠ some true
      ∧ Example.overwrittenThenIncremented.ind.isWhole = some true
      ∧ Example.overwrittenThenIncremented.ind.isPartitioned = some true
      ∧ Example.overwrittenThenIncremented.ind.isWholeReason = some [Example.overwritten]
      ∧ Example.overwrittenThenIncremented.ind.isPartitionedReason = some [Example.incremented]
      ∧ Example.overwrittenThenIncremented.ind.prelimTraversalErrorChecks
          = .error (.SyntaxUsageError "Can't mark a whole state as 'unknown'" Example.xNode
              (some [Example.overwritten]))
      ∧ Example.incremented ∉ [Example.overwritten] := by
  refine ⟨rfl, by decide, rfl, rfl, rfl, rfl, rfl, by decide⟩

/-- Claim C10, amended.  On a secret non-mapping indicator that is whole and partitioned and
whose two reason properties are lists, `prelimTraversalErrorChecks` throws.  When the
indicator is not unknown, the error is the one of a whole and partitioned state and its
reasons are the entries of `isWholeReason` followed by those of `isPartitionedReason`.  When
it is unknown, the error is the one of an unknown whole state and its reasons are the
entries of `isWholeReason`. -/
theorem prelimTraversalErrorChecks_whole_partitioned (ind : StateVariableIndicator)
    (whole partitioned : List Reason)
    (hsecret : ind.isSecret = some true)
    (hplain : ind.isMapping ≠ some true)
    (hw : ind.isWhole = some true)
    (hp : ind.isPartitioned = some true)
    (hwhole : ind.isWholeReason = some whole)
    (hpartitioned : ind.isPartitionedReason = some partitioned) :
    (ind.isUnknown ≠ some true →
        ind.prelimTraversalErrorChecks
          = .error (.SyntaxUsageError
              "State cannot be whole and partitioned. The following reasons conflict."
              ind.node (some (whole ++ partitioned))))
      ∧ (ind.isUnknown = some true →
        ind.prelimTraversalErrorChecks
          = .error (.SyntaxUsageError "Can't mark a whole state as 'unknown'" ind.node
              (some whole))) := by
  have h3 : truthy ind.isMapping = false := (truthy_eq_false_iff _).mpr hplain
  unfold StateVariableIndicator.prelimTraversalErrorChecks
  simp only [hsecret, hw, hp, hwhole, hpartitioned, h3, truthy_some_true]
  constructor
  · intro hu
    have h4 : truthy ind.isUnknown = false := (truthy_eq_false_iff _).mpr hu
    cases hk : truthy ind.isKnown <;> cases hi : truthy ind.isIncremented <;> simp [h4]
  · intro hu
    cases hk : truthy ind.isKnown <;> cases hi : truthy ind.isIncremented <;> simp [hu]

/-- Witness of C10, amended: an indicator of `x` that is whole and partitioned and not
unknown. -/
theorem prelimTraversalErrorChecks_whole_partitioned_witness :
    Example.wholeAndPartitioned.prelimTraversalErrorChecks
      = .error (.SyntaxUsageError
          "State cannot be whole and partitioned. The following reasons conflict."
          Example.wholeAndPartitioned.node
          (some ([Example.overwritten] ++ [Example.incremented]))) :=
  (prelimTraversalErrorChecks_whole_partitioned Example.wholeAndPartitioned
    [Example.overwritten] [Example.incremented] rfl (by decide) rfl rfl rfl rfl).1 (by decide)

/-! ## Ancestors -/

/-- The path that `findAncestor` returns satisfies the callback. -/
theorem NodePath.findAncestor_sat (callback : NodePath → Bool) :
    ∀ (p a : NodePath), NodePath.findAncestor callback p = some a → callback a = true
  | .mk n d none, a, h => by
    unfold NodePath.findAncestor at h
    split at h
    · next hc =>
      simp only [Option.some.injEq] at h
      rw [← h]
      exact hc
    · simp at h
  | .mk n d (some q), a, h => by
    unfold NodePath.findAncestor at h
    split at h
    · next hc =>
      simp only [Option.some.injEq] at h
      rw [← h]
      exact hc
    · exact NodePath.findAncestor_sat callback q a h

/-- The recursive call of `getMappingKeyIdentifier`, on the ancestor that is an
`IndexAccess`, returns the key of that ancestor. -/
theorem NodePath.getMappingKeyIdentifier_ancestor (p a : NodePath)
    (h : p.getAncestorOfType "IndexAccess" = some a) :
    a.getMappingKeyIdentifier = .ok a.mappingKeyOfIndexAccess := by
  have hsat := NodePath.findAncestor_sat _ p a h
  simp only [beq_iff_eq] at hsat
  simp [NodePath.getMappingKeyIdentifier, hsat]

/-! ## The shape of an indicator is kept -/

namespace StateVariableIndicator

theorem sameShape_refl (ind : StateVariableIndicator) : ind.sameShape ind := ⟨rfl, rfl⟩

theorem sameShape_trans {a b c : StateVariableIndicator} (h1 : a.sameShape b)
    (h2 : b.sameShape c) : a.sameShape c :=
  ⟨h2.1.trans h1.1, h2.2.trans h1.2⟩

theorem addMappingKey_sameShape (E : Env) (w w1 : World) (referencingPath : Option NodePath)
    (keyName : String) (h : addMappingKey E w referencingPath = .ok (w1, keyName)) :
    w.ind.sameShape w1.ind := by
  unfold addMappingKey at h
  repeat' split at h
  all_goals first
    | (simp at h; done)
    | (simp only [Except.ok.injEq, Prod.mk.injEq] at h
       obtain ⟨rfl, _⟩ := h
       simp_all [sameShape])

theorem onKey_sameShape (w : World) (keyName : String) (f : MappingKey → MappingKey) :
    w.ind.sameShape (onKey w keyName f).ind := by
  simp [sameShape, onKey]

theorem callOnKey_sameShape {w after : World} {a : StateVariableIndicator}
    (keyName method : String) (h1 : a.sameShape w.ind) (h2 : a.sameShape after.ind) :
    a.sameShape (callOnKey w keyName method after).1.ind := by
  rcases callOnKey_fst w keyName method after with hc | hc
  · rw [hc]
    exact h2
  · rw [hc]
    exact h1

theorem shareWholeReason_sameShape (w : World) (reasons : Option (List Reason)) :
    w.ind.sameShape (shareWholeReason w reasons).ind := by
  simp [sameShape, shareWholeReason]

theorem sharePartitionedReason_sameShape (w : World) (reasons : Option (List Reason)) :
    w.ind.sameShape (sharePartitionedReason w reasons).ind := by
  simp [sameShape, sharePartitionedReason]

theorem pushedWholeReason_sameShape (w : World) : w.ind.sameShape (pushedWholeReason w).ind := by
  unfold pushedWholeReason
  split
  · exact shareWholeReason_sameShape w _
  · exact ⟨rfl, rfl⟩

theorem pushedPartitionedReason_sameShape (w : World) :
    w.ind.sameShape (pushedPartitionedReason w).ind := by
  unfold pushedPartitionedReason
  split
  · exact sharePartitionedReason_sameShape w _
  · exact ⟨rfl, rfl⟩

theorem sameShape_pushedWholeReason {a : StateVariableIndicator} (w : World)
    (h : a.sameShape w.ind) : a.sameShape (pushedWholeReason w).ind :=
  sameShape_trans h (pushedWholeReason_sameShape w)

theorem sameShape_pushedPartitionedReason {a : StateVariableIndicator} (w : World)
    (h : a.sameShape w.ind) : a.sameShape (pushedPartitionedReason w).ind :=
  sameShape_trans h (pushedPartitionedReason_sameShape w)

theorem keyUpdateIncrementation_sameShape (w : World) (keyName : String) (path : NodePath)
    (state : IncrementationState) :
    w.ind.sameShape (keyUpdateIncrementation w keyName path state).ind := by
  have h1 := onKey_sameShape w keyName (fun k => k.updateIncrementation path state)
  unfold keyUpdateIncrementation
  simp only
  repeat' split
  all_goals first
    | exact h1
    | exact sameShape_trans h1 (shareWholeReason_sameShape _ _)
    | exact sameShape_trans h1 (sharePartitionedReason_sameShape _ _)

theorem addNullifyingPath_sameShape (E : Env) (w : World) (path : Option NodePath) :
    w.ind.sameShape (addNullifyingPath E w path).1.ind := by
  unfold addNullifyingPath
  simp only
  split
  · exact ⟨rfl, rfl⟩
  · split
    · split
      · exact ⟨rfl, rfl⟩
      · next w2 keyName hk =>
        have h1 := addMappingKey_sameShape E _ w2 path keyName hk
        have h2 := onKey_sameShape w2 keyName (fun k => k.addNullifyingPath path)
        have h3 : w.ind.sameShape w2.ind := sameShape_trans ⟨rfl, rfl⟩ h1
        exact callOnKey_sameShape keyName _ h3 (sameShape_trans h3 h2)
    · exact ⟨rfl, rfl⟩

theorem update_sameShape (E : Env) (w : World) (path : NodePath) :
    w.ind.sameShape (update E w path).1.ind := by
  have hprop : ∀ ind : StateVariableIndicator, ind.sameShape (ind.updateProperties path) := by
    intro ind
    unfold updateProperties addModifyingPath addReferencingPath
    simp only
    repeat' split
    all_goals exact ⟨rfl, rfl⟩
  unfold update
  split
  · split
    · exact sameShape_refl _
    · next w1 keyName hk =>
      have h1 := addMappingKey_sameShape E w w1 (some path) keyName hk
      refine callOnKey_sameShape keyName _ h1 ?_
      refine sameShape_trans h1 (sameShape_trans (hprop w1.ind) ?_)
      exact onKey_sameShape _ keyName _
  · exact hprop w.ind

theorem updateFromBinding_sameShape (w : World) :
    w.ind.sameShape (updateFromBinding w).1.ind := by
  unfold updateFromBinding
  simp only
  split
  · split
    · exact ⟨rfl, rfl⟩
    · next keys hkeys =>
      simp [sameShape, hkeys]
  · exact ⟨rfl, rfl⟩

theorem updateAccessed_sameShape (E : Env) (w : World) (path : NodePath) :
    w.ind.sameShape (updateAccessed E w path).1.ind := by
  have h0 : w.ind.sameShape (pushedWholeReason { w with
      ind := { w.ind with
        isWhole := some true
        isAccessed := some true
        oldCommitmentAccessRequired := some true
        isWholeReason :=
          some (w.ind.isWholeReason.getD [] ++ [{ src := path.node.src, text := "Accessed" }])
        accessedPaths := some (w.ind.accessedPaths.getD [] ++ [path]) }
      parentIndincator := { w.parentIndincator with
        oldCommitmentAccessRequired := true
        initialisationRequired := true } }).ind :=
    sameShape_pushedWholeReason _ ⟨rfl, rfl⟩
  unfold updateAccessed
  simp only
  split
  · split
    · exact h0
    · next w2 keyName hk =>
      have h1 := addMappingKey_sameShape E _ w2 (some path) keyName hk
      have h2 : w.ind.sameShape w2.ind := sameShape_trans h0 h1
      have h3 := sameShape_trans h2 (onKey_sameShape w2 keyName
        (fun k => { k with accessedPaths := nullishAssign k.accessedPaths (some []) }))
      split
      · exact h3
      · next w4 keyName2 hk2 =>
        have h4 := addMappingKey_sameShape E _ w4 (some path) keyName2 hk2
        exact sameShape_trans (sameShape_trans h3 h4) (onKey_sameShape w4 keyName2 _)
  · exact h0

theorem updateIncrementation_sameShape (E : Env) (w : World) (path : NodePath)
    (state : IncrementationState) :
    w.ind.sameShape (updateIncrementation E w path state).1.ind := by
  refine updateIncrementation_induct E w path state (fun w1 => w.ind.sameShape w1.ind)
    ?_ ?_ ?_
  · unfold classifyIncrementation
    simp only
    split
    · split
      · refine sameShape_trans ?_ (addNullifyingPath_sameShape E _ _)
        exact sameShape_pushedWholeReason _ ⟨rfl, rfl⟩
      · exact sameShape_pushedWholeReason _ ⟨rfl, rfl⟩
    · split
      · exact sameShape_pushedPartitionedReason _ ⟨rfl, rfl⟩
      · split <;> exact ⟨rfl, rfl⟩
  · intro w1 hP
    refine sameShape_trans hP ?_
    unfold nullifyDecrement
    split
    · exact sameShape_trans ⟨rfl, rfl⟩ (addNullifyingPath_sameShape E _ _)
    · exact ⟨rfl, rfl⟩
  · intro w2 hP
    refine sameShape_trans hP ?_
    unfold recordIncrementation
    simp only
    split
    · split
      · exact ⟨rfl, rfl⟩
      · next w3 keyName hk =>
        have h1 := addMappingKey_sameShape E _ w3 state.incrementedPath keyName hk
        have h2 : w2.ind.sameShape w3.ind := sameShape_trans ⟨rfl, rfl⟩ h1
        exact callOnKey_sameShape keyName _ h2
          (sameShape_trans h2 (keyUpdateIncrementation_sameShape w3 keyName path state))
    · exact ⟨rfl, rfl⟩

/-- A table of mapping keys exists only on a mapping indicator: this holds of a new indicator
and is kept by every method, however the call ends. -/
theorem keys_only_on_mapping_kept (E : Env) (w : World) (path : NodePath)
    (nullifying : Option NodePath) (state : IncrementationState)
    (h : w.ind.isMapping ≠ some true → w.ind.mappingKeys = none) :
    ∀ after ∈ [(update E w path).1.ind, w.ind.updateProperties path,
        (updateAccessed E w path).1.ind, (updateIncrementation E w path state).1.ind,
        (updateFromBinding w).1.ind, w.ind.addReferencingPath path,
        w.ind.addModifyingPath path, (addNullifyingPath E w nullifying).1.ind],
      after.isMapping ≠ some true → after.mappingKeys = none := by
  have key : ∀ after : StateVariableIndicator, w.ind.sameShape after →
      after.isMapping ≠ some true → after.mappingKeys = none := by
    intro after hs hne
    rw [hs.1] at hne
    have := h hne
    rw [← Option.not_isSome_iff_eq_none, hs.2, this]
    simp
  have hprop : ∀ ind : StateVariableIndicator, ind.sameShape (ind.updateProperties path) := by
    intro ind
    unfold updateProperties addModifyingPath addReferencingPath
    simp only
    repeat' split
    all_goals exact ⟨rfl, rfl⟩
  intro after hmem
  simp only [List.mem_cons, List.mem_singleton, List.not_mem_nil, or_false] at hmem
  rcases hmem with rfl | rfl | rfl | rfl | rfl | rfl | rfl | rfl
  · exact key _ (update_sameShape E w path)
  · exact key _ (hprop w.ind)
  · exact key _ (updateAccessed_sameShape E w path)
  · exact key _ (updateIncrementation_sameShape E w path state)
  · exact key _ (updateFromBinding_sameShape w)
  · exact key _ ⟨rfl, rfl⟩
  · refine key _ ?_
    unfold addModifyingPath
    simp only
    repeat' split
    all_goals exact ⟨rfl, rfl⟩
  · exact key _ (addNullifyingPath_sameShape E w nullifying)

end StateVariableIndicator

/-- Counterexample to C11 as stated: the indicator of `x`, declared unknown and overwritten,
is secret, unknown and whole; the check throws the error of an unknown whole state, and the
reasons it carries are the one entry of `isWholeReason`, the reason `Overwritten`: there is
no reason for the unknown decorator among them. -/
theorem prelimTraversalErrorChecks_unknown_reasons_counterexample :
    Example.unknownWhole.isSecret = some true
      ∧ Example.unknownWhole.isUnknown = some true
      ∧ Example.unknownWhole.isWhole = some true
      ∧ Example.unknownWhole.prelimTraversalErrorChecks
          = .error (.SyntaxUsageError "Can't mark a whole state as 'unknown'" Example.xNode
              (some [Example.overwritten]))
      ∧ ∀ r ∈ [Example.overwritten], r.text = "Overwritten" := by
  refine ⟨rfl, rfl, rfl, rfl, ?_⟩
  intro r hr
  rw [List.mem_singleton.mp hr]
  rfl

/-- Claim C11, amended.  On a secret indicator that is unknown and whole, whose
`isWholeReason` is a list and whose mapping keys, if it is a mapping, all pass their own
check, `prelimTraversalErrorChecks` throws the error `Can't mark a whole state as 'unknown'`,
and the reasons carried by that error are the entries of `isWholeReason`, nothing else. -/
theorem prelimTraversalErrorChecks_unknown_whole (ind : StateVariableIndicator)
    (whole : List Reason)
    (hsecret : ind.isSecret = some true)
    (hunknown : ind.isUnknown = some true)
    (hw : ind.isWhole = some true)
    (hwhole : ind.isWholeReason = some whole)
    (hkeys : ind.isMapping = some true →
      ∃ keys logs, ind.mappingKeys = some keys ∧ checkMappingKeys ind.node keys = .ok logs) :
    ind.prelimTraversalErrorChecks
      = .error (.SyntaxUsageError "Can't mark a whole state as 'unknown'" ind.node
          (some whole)) := by
  unfold StateVariableIndicator.prelimTraversalErrorChecks
  simp only [hsecret, hunknown, hw, hwhole, truthy_some_true]
  by_cases hm : ind.isMapping = some true
  · obtain ⟨keys, logs, hk, hc⟩ := hkeys hm
    cases hkn : truthy ind.isKnown <;> cases hi : truthy ind.isIncremented
      <;> simp [hm, hk, hc]
  · have h3 : truthy ind.isMapping = false := (truthy_eq_false_iff _).mpr hm
    cases hkn : truthy ind.isKnown <;> cases hi : truthy ind.isIncremented <;> simp [h3]

/-- Witness of C11, amended: the indicator of `x`, declared unknown and overwritten. -/
theorem prelimTraversalErrorChecks_unknown_whole_witness :
    Example.unknownWhole.prelimTraversalErrorChecks
      = .error (.SyntaxUsageError "Can't mark a whole state as 'unknown'"
          Example.unknownWhole.node (some [Example.overwritten])) :=
  prelimTraversalErrorChecks_unknown_whole Example.unknownWhole [Example.overwritten]
    rfl rfl rfl rfl (fun h => absurd h (by decide))

/-! ## Nullifying paths -/

/-- Claim C13 fails on the source: a second `addNullifyingPath` with the same path is not a
no-op, neither on the indicator of `x` nor on a mapping key: the path is in
`nullifyingPaths` twice and `nullificationCount` has gone from 1 to 2. -/
theorem addNullifyingPath_twice_counterexample :
    (Example.nullifiedOnce.ind.nullifyingPaths = [some Example.decrementPath]
        ∧ Example.nullifiedOnce.ind.nullificationCount = 1
        ∧ Example.nullifiedTwice.ind.nullifyingPaths
            = [some Example.decrementPath, some Example.decrementPath]
        ∧ Example.nullifiedTwice.ind.nullificationCount = 2)
      ∧ ((Example.senderKey.addNullifyingPath (some Example.decrementPath)).nullifyingPaths
            = [some Example.decrementPath]
        ∧ (Example.senderKey.addNullifyingPath (some Example.decrementPath)).nullificationCount
            = 1
        ∧ ((Example.senderKey.addNullifyingPath (some Example.decrementPath)).addNullifyingPath
            (some Example.decrementPath)).nullifyingPaths
            = [some Example.decrementPath, some Example.decrementPath]
        ∧ ((Example.senderKey.addNullifyingPath (some Example.decrementPath)).addNullifyingPath
            (some Example.decrementPath)).nullificationCount = 2) :=
  ⟨⟨rfl, rfl, rfl, rfl⟩, ⟨rfl, rfl, rfl, rfl⟩⟩

/-- Claim C13 does not hold of the source.  `addNullifyingPath(p)` pushes without the test
`some(q => q.node.id === p.node.id)` that guards the push in `addReferencingPath` and in
`addModifyingPath`: on a `StateVariableIndicator` and on a `MappingKey`, every call appends
`p` to `nullifyingPaths`, adds one to `nullificationCount` and sets `isNullified`, whether or
not `p` was already in `nullifyingPaths`, and however the call ends.  So a second call with
the same path leaves the path in the list twice. -/
theorem addNullifyingPath_appends (E : Env) (w : World) (k : MappingKey)
    (path : Option NodePath) :
    ((StateVariableIndicator.addNullifyingPath E w path).1.ind.nullifyingPaths
          = w.ind.nullifyingPaths ++ [path]
        ∧ (StateVariableIndicator.addNullifyingPath E w path).1.ind.nullificationCount
          = w.ind.nullificationCount + 1
        ∧ (StateVariableIndicator.addNullifyingPath E w path).1.ind.isNullified = some true)
      ∧ ((k.addNullifyingPath path).nullifyingPaths = k.nullifyingPaths ++ [path]
        ∧ (k.addNullifyingPath path).nullificationCount = k.nullificationCount + 1
        ∧ (k.addNullifyingPath path).isNullified = some true) := by
  refine ⟨?_, rfl, rfl, rfl⟩
  rw [(StateVariableIndicator.addNullifyingPath_shape E w path).2]
  exact ⟨rfl, rfl, rfl⟩

/-! ## The aggregate flags are only accumulated -/

theorem FunctionDefinitionIndicator.accumulated_refl (f : FunctionDefinitionIndicator) :
    f.accumulated f :=
  ⟨fun h => h, fun h => h, fun h => h, fun h => h, fun h => h⟩

theorem FunctionDefinitionIndicator.accumulated_trans {f g h : FunctionDefinitionIndicator}
    (h1 : f.accumulated g) (h2 : g.accumulated h) : f.accumulated h :=
  ⟨fun x => h2.1 (h1.1 x), fun x => h2.2.1 (h1.2.1 x), fun x => h2.2.2.1 (h1.2.2.1 x),
    fun x => h2.2.2.2.1 (h1.2.2.2.1 x), fun x => h2.2.2.2.2 (h1.2.2.2.2 x)⟩

namespace StateVariableIndicator

theorem update_parent (E : Env) (w : World) (path : NodePath) :
    (update E w path).1.parentIndincator = w.parentIndincator := by
  unfold update
  split
  · split
    · rfl
    · next w1 keyName hk =>
      have h1 := (addMappingKey_frame E w w1 (some path) keyName hk).1
      rcases callOnKey_fst w1 keyName "updateProperties"
        (onKey { w1 with ind := w1.ind.updateProperties path } keyName
          (fun k => k.updateOwnProperties path)) with hc | hc
      · rw [hc]
        exact h1
      · rw [hc]
        exact h1
  · rfl

theorem updateAccessed_parent (E : Env) (w : World) (path : NodePath) :
    (updateAccessed E w path).1.parentIndincator = { w.parentIndincator with
      oldCommitmentAccessRequired := true
      initialisationRequired := true } := by
  exact (updateAccessed_shape E w path).1

theorem updateFromBinding_parent (w : World) :
    (updateFromBinding w).1.parentIndincator = { w.parentIndincator with
      onChainKeyRegistry :=
        nullishAssign w.parentIndincator.onChainKeyRegistry w.binding.onChainKeyRegistry } := by
  unfold updateFromBinding
  simp only
  split
  · split <;> rfl
  · rfl

theorem updateIncrementation_accumulated (E : Env) (w : World) (path : NodePath)
    (state : IncrementationState) :
    w.parentIndincator.accumulated (updateIncrementation E w path state).1.parentIndincator := by
  refine updateIncrementation_induct E w path state
    (fun w1 => w.parentIndincator.accumulated w1.parentIndincator) ?_ ?_ ?_
  · beta_reduce
    rw [(classifyIncrementation_shape E w path state).1]
    split
    · split
      · exact ⟨fun _ => rfl, fun _ => rfl, fun _ => rfl, fun _ => rfl, fun h => h⟩
      · exact FunctionDefinitionIndicator.accumulated_refl _
    · split
      · exact ⟨fun h => h, fun _ => rfl, fun h => h, fun h => h, fun h => h⟩
      · exact FunctionDefinitionIndicator.accumulated_refl _
  · intro w1 hP
    refine FunctionDefinitionIndicator.accumulated_trans hP ?_
    rw [(nullifyDecrement_shape E w1 path state).1]
    split
    · exact ⟨fun _ => rfl, fun _ => rfl, fun _ => rfl, fun h => h, fun h => h⟩
    · exact FunctionDefinitionIndicator.accumulated_refl _
  · intro w2 hP
    refine FunctionDefinitionIndicator.accumulated_trans hP ?_
    rw [(recordIncrementation_shape E w2 path state).1]
    exact FunctionDefinitionIndicator.accumulated_refl _

end StateVariableIndicator

/-- Claim C14.  No method of `StateVariableIndicator` that reaches the function indicator
(`update`, `updateAccessed`, `updateIncrementation`, `updateFromBinding`,
`addNullifyingPath`; `addReferencingPath` and `addModifyingPath` write the indicator alone)
and no `FunctionDefinitionIndicator.update` or `ContractDefinitionIndicator.update` turns an
aggregate flag from true to false, however the call ends; and
`ContractDefinitionIndicator.update` sets `newCommitmentsRequired` and
`zkSnarkVerificationRequired` when `path.node.isSecret` is truthy and changes nothing
otherwise. -/
theorem aggregate_flags_accumulated (E : Env) (w : World) (f : FunctionDefinitionIndicator)
    (c : ContractDefinitionIndicator) (path : NodePath) (nullifying : Option NodePath)
    (state : IncrementationState) :
    (w.parentIndincator.accumulated (StateVariableIndicator.update E w path).1.parentIndincator
      ∧ w.parentIndincator.accumulated
          (StateVariableIndicator.updateAccessed E w path).1.parentIndincator
      ∧ w.parentIndincator.accumulated
          (StateVariableIndicator.updateIncrementation E w path state).1.parentIndincator
      ∧ w.parentIndincator.accumulated
          (StateVariableIndicator.updateFromBinding w).1.parentIndincator
      ∧ w.parentIndincator.accumulated
          (StateVariableIndicator.addNullifyingPath E w nullifying).1.parentIndincator)
      ∧ f.accumulated (f.update path)
      ∧ c.accumulated (c.update path)
      ∧ c.update path =
          (if truthy path.node.data.isSecret then
            { c with newCommitmentsRequired := true, zkSnarkVerificationRequired := true }
          else c) := by
  refine ⟨⟨?_, ?_, ?_, ?_, ?_⟩, ?_, ?_, rfl⟩
  · rw [StateVariableIndicator.update_parent]
    exact FunctionDefinitionIndicator.accumulated_refl _
  · rw [StateVariableIndicator.updateAccessed_parent]
    exact ⟨fun h => h, fun h => h, fun _ => rfl, fun _ => rfl, fun h => h⟩
  · exact StateVariableIndicator.updateIncrementation_accumulated E w path state
  · rw [StateVariableIndicator.updateFromBinding_parent]
    exact ⟨fun h => h, fun h => h, fun h => h, fun h => h, fun h => h⟩
  · rw [(StateVariableIndicator.addNullifyingPath_shape E w nullifying).1]
    exact FunctionDefinitionIndicator.accumulated_refl _
  · unfold FunctionDefinitionIndicator.update
    split
    · exact ⟨fun h => h, fun h => h, fun h => h, fun h => h, fun h => h⟩
    · exact FunctionDefinitionIndicator.accumulated_refl _
  · unfold ContractDefinitionIndicator.update
    split
    · exact ⟨fun h => h, fun _ => rfl, fun h => h, fun _ => rfl⟩
    · exact ⟨fun h => h, fun h => h, fun h => h, fun h => h⟩

/-! ## Mapping keys -/

/-- Claim C15.  `new MappingKey(container, keyPath)`: when the key path is the `msg`
identifier of `msg.sender`, the key is constructed, is named `N[msg.sender]` for the
container's name `N`, and has `isMsgSender` true; when it is another key path, whose node
is named `k`, a key that is constructed is named `N[k]` and has `isMsgSender` false. -/
theorem create_name (E : Env) (container : StateVariableIndicator) (keyPath : NodePath) :
    (keyPath.isMsg none = true →
        ∃ k, MappingKey.create E container keyPath = .ok k
          ∧ k.name = container.name ++ "[msg.sender]" ∧ k.isMsgSender = true)
      ∧ (keyPath.isMsg none = false →
        ∀ k keyName, MappingKey.create E container keyPath = .ok k →
          keyPath.node.name = some keyName →
          k.name = container.name ++ "[" ++ keyName ++ "]" ∧ k.isMsgSender = false) := by
  constructor
  · intro h
    simp [MappingKey.create, h]
  · intro h k keyName hk hname
    unfold MappingKey.create at hk
    simp only [h, Bool.false_eq_true, if_false] at hk
    cases hr : E.getReferencedNode keyPath with
    | none => simp [hr] at hk
    | some r =>
      simp only [hr, Except.ok.injEq] at hk
      subst hk
      simp [hname, templateString]

/-- Witness of C15: the key of `balances[msg.sender]` is named `balances[msg.sender]`. -/
theorem create_name_witness :
    ∃ k, MappingKey.create Example.mappingEnv Example.mappingWorld.ind Example.msgPath = .ok k
      ∧ k.name = "balances[msg.sender]" ∧ k.isMsgSender = true :=
  (create_name Example.mappingEnv Example.mappingWorld.ind Example.msgPath).1 (by decide)

/-- When `addMappingKey` returns: a key node is extracted, it has a path in the cache and is
an `Identifier`, the binding names the key, the indicator has a table of mapping keys, and
either the table has an entry of that name and nothing is written, or it has none but
inherits a member of that name and nothing is written, or it has none, the constructor of
`MappingKey` returns, and the new key is added at the end of the table. -/
theorem StateVariableIndicator.addMappingKey_ok_iff (E : Env) (w w1 : World)
    (referencingPath : Option NodePath) (keyName : String) :
    StateVariableIndicator.addMappingKey E w referencingPath = .ok (w1, keyName) ↔
      ∃ rp keyNode keyPath keys,
        referencingPath = some rp
          ∧ rp.getMappingKeyIdentifier = .ok (some keyNode)
          ∧ E.pathCache keyNode = some keyPath
          ∧ keyNode.nodeType = "Identifier"
          ∧ E.getMappingKeyName w.binding rp = .ok keyName
          ∧ w.ind.mappingKeys = some keys
          ∧ ((∃ k, keys.lookup keyName = some k ∧ w1 = w)
            ∨ (keys.lookup keyName = none ∧ keyName ∈ objectPrototypeNames ∧ w1 = w)
            ∨ (keys.lookup keyName = none ∧ keyName ∉ objectPrototypeNames
              ∧ ∃ k, MappingKey.create E w.ind keyPath = .ok k
                ∧ w1 = { w with
                    ind := { w.ind with mappingKeys := some (keys ++ [(keyName, k)]) } })) := by
  constructor
  · intro h
    unfold StateVariableIndicator.addMappingKey at h
    cases referencingPath with
    | none => simp at h
    | some rp =>
      simp only at h
      cases h1 : rp.getMappingKeyIdentifier with
      | error e => simp [h1] at h
      | ok keyNode =>
        simp only [h1] at h
        cases keyNode with
        | none => simp at h
        | some kn =>
          simp only [Option.some_bind, Option.map_some'] at h
          cases h2 : E.pathCache kn with
          | none => simp [h2] at h
          | some keyPath =>
            simp only [h2] at h
            by_cases h3 : kn.nodeType = "Identifier"
            · simp only [h3, bne_self_eq_false, Bool.false_eq_true, if_false] at h
              cases h4 : E.getMappingKeyName w.binding rp with
              | error e => simp [h4] at h
              | ok name =>
                simp only [h4] at h
                cases h5 : w.ind.mappingKeys with
                | none => simp [h5] at h
                | some keys =>
                  simp only [h5] at h
                  cases h6 : keys.lookup name with
                  | some k =>
                    simp only [h6, Except.ok.injEq, Prod.mk.injEq] at h
                    obtain ⟨rfl, rfl⟩ := h
                    exact ⟨rp, kn, keyPath, keys, rfl, h1, h2, h3, h4, rfl,
                      Or.inl ⟨k, h6, rfl⟩⟩
                  | none =>
                    simp only [h6, List.elem_eq_mem, decide_eq_true_eq] at h
                    by_cases hin : name ∈ objectPrototypeNames
                    · simp only [hin, if_true, Except.ok.injEq, Prod.mk.injEq] at h
                      obtain ⟨rfl, rfl⟩ := h
                      exact ⟨rp, kn, keyPath, keys, rfl, h1, h2, h3, h4, rfl,
                        Or.inr (Or.inl ⟨h6, hin, rfl⟩)⟩
                    · simp only [hin, if_false] at h
                      cases h7 : MappingKey.create E w.ind keyPath with
                      | error e => simp [h7] at h
                      | ok k =>
                        simp only [h7, Except.ok.injEq, Prod.mk.injEq] at h
                        obtain ⟨rfl, rfl⟩ := h
                        exact ⟨rp, kn, keyPath, keys, rfl, h1, h2, h3, h4, rfl,
                          Or.inr (Or.inr ⟨h6, hin, k, h7, rfl⟩)⟩
            · have h3b : (some kn.nodeType != some "Identifier") = true := by
                simp [h3]
              simp [h3b] at h
  · rintro ⟨rp, kn, keyPath, keys, rfl, h1, h2, h3, h4, h5, h6⟩
    unfold StateVariableIndicator.addMappingKey
    simp only [h1, Option.some_bind, h2, Option.map_some', h3, bne_self_eq_false,
      Bool.false_eq_true, if_false, h4, h5, List.elem_eq_mem, decide_eq_true_eq]
    rcases h6 with ⟨k, h6, rfl⟩ | ⟨h6, hin, rfl⟩ | ⟨h6, hin, k, h7, rfl⟩
    · simp [h6]
    · simp [h6, hin]
    · simp [h6, hin, h7]

/-- Counterexample to C16 as stated: for `balances[now]` the key node `now` is an
`Identifier` and has a path in the cache, and yet `addMappingKey` throws: the key is new,
the scope resolves no declaration for `now`, and the constructor of `MappingKey` reads a
property of `null`. -/
theorem addMappingKey_throws_counterexample :
    Example.nowAccessPath.getMappingKeyIdentifier = .ok (some Example.nowNode)
      ∧ Example.nowEnv.pathCache Example.nowNode = some Example.nowPath
      ∧ Example.nowNode.nodeType = "Identifier"
      ∧ StateVariableIndicator.addMappingKey Example.nowEnv Example.mappingWorld
          (some Example.nowAccessPath)
        = .error (.TypeError "Cannot read properties of null (reading name)") := by
  refine ⟨rfl, rfl, rfl, rfl⟩

/-- Claim C16, amended.  `addMappingKey(referencingPath)` throws whenever the key node
extracted from `referencingPath` has no path in the path cache or has a `nodeType` other
than `Identifier`.  With a key name that is not the name of a member of `Object.prototype`,
it returns exactly when a key node is extracted that has a path in the cache and is an
`Identifier`, the binding names the key, the indicator has a table `mappingKeys`, and the
table has an entry of that name or the constructor of `MappingKey` returns; so it also throws
where no `IndexAccess` encloses the path, where the binding's `getMappingKeyName` throws,
where the table is missing and where the constructor throws.  When it returns, the name
returned is the binding's key name, and the table is unchanged except possibly for the entry
of that name: an entry that exists is kept, one that is missing is added at the end.

The last part is what the source does with a key name such as `toString`, which the amended
claim leaves out: the table is a plain object, the test `!!this.mappingKeys[keyName]` finds
the member inherited from `Object.prototype`, and the call returns without running the
constructor and without adding an entry. -/
theorem addMappingKey_throws_or_adds (E : Env) (w : World) (rp : NodePath) :
    (∀ keyNode, rp.getMappingKeyIdentifier = .ok keyNode →
        (keyNode.bind E.pathCache = none ∨ keyNode.map Node.nodeType ≠ some "Identifier") →
        ∃ e, StateVariableIndicator.addMappingKey E w (some rp) = .error e)
      ∧ ((∃ w1 keyName, StateVariableIndicator.addMappingKey E w (some rp) = .ok (w1, keyName)
            ∧ keyName ∉ objectPrototypeNames) ↔
        ∃ keyNode keyPath keyName keys,
          rp.getMappingKeyIdentifier = .ok (some keyNode)
            ∧ E.pathCache keyNode = some keyPath
            ∧ keyNode.nodeType = "Identifier"
            ∧ E.getMappingKeyName w.binding rp = .ok keyName
            ∧ w.ind.mappingKeys = some keys
            ∧ keyName ∉ objectPrototypeNames
            ∧ ((keys.lookup keyName).isSome
              ∨ ∃ k, MappingKey.create E w.ind keyPath = .ok k))
      ∧ (∀ w1 keyName,
          StateVariableIndicator.addMappingKey E w (some rp) = .ok (w1, keyName) →
          E.getMappingKeyName w.binding rp = .ok keyName
            ∧ ∃ keys keys1,
              w.ind.mappingKeys = some keys ∧ w1.ind.mappingKeys = some keys1
                ∧ (∀ m, m ≠ keyName → keys1.lookup m = keys.lookup m)
                ∧ (keyName ∉ objectPrototypeNames → (keys1.lookup keyName).isSome)
                ∧ ((keys.lookup keyName).isSome → keys1 = keys)
                ∧ keys <+: keys1)
      ∧ (∀ keyNode keyPath keyName keys,
          rp.getMappingKeyIdentifier = .ok (some keyNode) →
          E.pathCache keyNode = some keyPath →
          keyNode.nodeType = "Identifier" →
          E.getMappingKeyName w.binding rp = .ok keyName →
          w.ind.mappingKeys = some keys →
          keys.lookup keyName = none →
          keyName ∈ objectPrototypeNames →
          StateVariableIndicator.addMappingKey E w (some rp) = .ok (w, keyName)) := by
  refine ⟨?_, ?_, ?_, ?_⟩
  · intro keyNode hkey hbad
    cases hres : StateVariableIndicator.addMappingKey E w (some rp) with
    | error e => exact ⟨e, rfl⟩
    | ok r =>
      obtain ⟨w1, keyName⟩ := r
      obtain ⟨rp1, kn, keyPath, keys, hrp, h1, h2, h3, _⟩ :=
        (StateVariableIndicator.addMappingKey_ok_iff E w w1 (some rp) keyName).mp hres
      cases hrp
      rw [hkey] at h1
      cases h1
      rcases hbad with hbad | hbad
      · simp [h2] at hbad
      · simp [h3] at hbad
  · constructor
    · rintro ⟨w1, keyName, hres, hout⟩
      obtain ⟨rp1, kn, keyPath, keys, hrp, h1, h2, h3, h4, h5, h6⟩ :=
        (StateVariableIndicator.addMappingKey_ok_iff E w w1 (some rp) keyName).mp hres
      cases hrp
      refine ⟨kn, keyPath, keyName, keys, h1, h2, h3, h4, h5, hout, ?_⟩
      rcases h6 with ⟨k, h6, _⟩ | ⟨_, hin, _⟩ | ⟨_, _, k, h7, _⟩
      · exact Or.inl (by simp [h6])
      · exact absurd hin hout
      · exact Or.inr ⟨k, h7⟩
    · rintro ⟨kn, keyPath, keyName, keys, h1, h2, h3, h4, h5, hout, h6⟩
      cases hl : keys.lookup keyName with
      | some k =>
        exact ⟨w, keyName, (StateVariableIndicator.addMappingKey_ok_iff E w w (some rp)
          keyName).mpr ⟨rp, kn, keyPath, keys, rfl, h1, h2, h3, h4, h5, Or.inl ⟨k, hl, rfl⟩⟩,
          hout⟩
      | none =>
        rcases h6 with h6 | ⟨k, h7⟩
        · simp [hl] at h6
        · exact ⟨_, keyName, (StateVariableIndicator.addMappingKey_ok_iff E w _ (some rp)
            keyName).mpr ⟨rp, kn, keyPath, keys, rfl, h1, h2, h3, h4, h5,
              Or.inr (Or.inr ⟨hl, hout, k, h7, rfl⟩)⟩, hout⟩
  · intro w1 keyName hres
    obtain ⟨rp1, kn, keyPath, keys, hrp, h1, h2, h3, h4, h5, h6⟩ :=
      (StateVariableIndicator.addMappingKey_ok_iff E w w1 (some rp) keyName).mp hres
    cases hrp
    refine ⟨h4, keys, ?_⟩
    rcases h6 with ⟨k, h6, rfl⟩ | ⟨h6, hin, rfl⟩ | ⟨h6, hout, k, h7, rfl⟩
    · exact ⟨keys, h5, h5, fun _ _ => rfl, fun _ => by simp [h6], fun _ => rfl,
        List.prefix_refl _⟩
    · exact ⟨keys, h5, h5, fun _ _ => rfl, fun hout => absurd hin hout, fun _ => rfl,
        List.prefix_refl _⟩
    · refine ⟨keys ++ [(keyName, k)], h5, rfl, ?_, ?_, ?_, List.prefix_append _ _⟩
      · intro m hm
        have hne : (m == keyName) = false := by simpa using hm
        simp [List.lookup_append, List.lookup_cons, hne]
      · intro _
        simp [List.lookup_append, List.lookup_cons, h6]
      · intro hsome
        simp [h6] at hsome
  · intro kn keyPath keyName keys h1 h2 h3 h4 h5 h6 hin
    exact (StateVariableIndicator.addMappingKey_ok_iff E w w (some rp) keyName).mpr
      ⟨rp, kn, keyPath, keys, rfl, h1, h2, h3, h4, h5, Or.inr (Or.inl ⟨h6, hin, rfl⟩)⟩

/-- Witness of C16, amended: for `balances[msg.sender]`, on the new indicator of `balances`,
`addMappingKey` returns the name `msg` and the table then has an entry of that name; for
`balances[toString]` it returns and leaves the table empty. -/
theorem addMappingKey_throws_or_adds_witness :
    (Example.mappingEnv.getMappingKeyName Example.mappingWorld.binding Example.balancesPath
        = .ok "msg"
      ∧ ∃ keys keys1,
        Example.mappingWorld.ind.mappingKeys = some keys
          ∧ Example.mappingWorldWithKey.ind.mappingKeys = some keys1
          ∧ (∀ m, m ≠ "msg" → keys1.lookup m = keys.lookup m)
          ∧ ("msg" ∉ objectPrototypeNames → (keys1.lookup "msg").isSome)
          ∧ ((keys.lookup "msg").isSome → keys1 = keys)
          ∧ keys <+: keys1)
      ∧ StateVariableIndicator.addMappingKey Example.toStringEnv Example.mappingWorld
          (some Example.toStringAccessPath) = .ok (Example.mappingWorld, "toString") :=
  ⟨(addMappingKey_throws_or_adds Example.mappingEnv Example.mappingWorld
      Example.balancesPath).2.2.1 Example.mappingWorldWithKey "msg" rfl,
    (addMappingKey_throws_or_adds Example.toStringEnv Example.mappingWorld
      Example.toStringAccessPath).2.2.2 Example.toStringNode Example.toStringPath "toString" []
      rfl rfl rfl rfl rfl rfl (by decide)⟩

/-! ## The search for an ancestor -/

/-- The search `findAncestor` is the search for the first path of the ancestry that satisfies
the callback. -/
theorem NodePath.findAncestor_eq_find (callback : NodePath → Bool) :
    ∀ p : NodePath, NodePath.findAncestor callback p = (NodePath.getAncestry p).find? callback
  | .mk n d none => by
    unfold NodePath.findAncestor NodePath.getAncestry
    cases h : callback (.mk n d none) <;> simp [List.find?_cons, h]
  | .mk n d (some q) => by
    unfold NodePath.findAncestor NodePath.getAncestry
    cases h : callback (.mk n d (some q))
    · simp [List.find?_cons, h, NodePath.findAncestor_eq_find callback q]
    · simp [List.find?_cons, h]

/-- The search `findAncestorFromParent` is `findAncestor` on the parent path. -/
theorem NodePath.findAncestorFromParent_eq (callback : NodePath → Bool) :
    ∀ p : NodePath, NodePath.findAncestorFromParent callback p
      = p.parentPath.bind (NodePath.findAncestor callback)
  | .mk n d none => by
    simp [NodePath.findAncestorFromParent, NodePath.parentPath]
  | .mk n d (some (.mk n1 d1 none)) => by
    simp [NodePath.findAncestorFromParent, NodePath.parentPath, NodePath.findAncestor]
  | .mk n d (some (.mk n1 d1 (some q))) => by
    have ih := NodePath.findAncestorFromParent_eq callback (.mk n1 d1 (some q))
    simp only [NodePath.parentPath, Option.some_bind] at ih
    unfold NodePath.findAncestorFromParent NodePath.findAncestor
    simp only [NodePath.parentPath, Option.some_bind]
    split
    · rfl
    · rw [ih]

/-- The ancestry of a path starts with the path, followed by the ancestry of its parent
path. -/
theorem NodePath.getAncestry_eq (p : NodePath) :
    NodePath.getAncestry p
      = p :: (match p.parentPath with
              | none => []
              | some q => NodePath.getAncestry q) := by
  cases p with
  | mk n d pp =>
    cases pp with
    | none => simp [NodePath.getAncestry, NodePath.parentPath]
    | some q => simp [NodePath.getAncestry, NodePath.parentPath]

/-- Claim C20.  For every path `p` and every predicate, `p.findAncestor(predicate)` returns
the first path of the sequence `p`, `p.parentPath`, `p.parentPath.parentPath`, ... that
satisfies the predicate: it returns `a` exactly when `a` is in the sequence, satisfies the
predicate, and no path before it does; it returns `null` exactly when no path of the sequence
satisfies the predicate; and `findAncestorFromParent` is the same search started at
`p.parentPath`. -/
theorem findAncestor_first (callback : NodePath → Bool) (p : NodePath) :
    (∀ a, NodePath.findAncestor callback p = some a ↔
        ∃ before after, NodePath.getAncestry p = before ++ a :: after
          ∧ callback a = true ∧ ∀ q ∈ before, callback q = false)
      ∧ (NodePath.findAncestor callback p = none ↔
          ∀ q ∈ NodePath.getAncestry p, callback q = false)
      ∧ NodePath.findAncestorFromParent callback p
          = p.parentPath.bind (NodePath.findAncestor callback)
      ∧ NodePath.findAncestorFromParent callback p
          = (NodePath.getAncestry p).tail.find? callback := by
  refine ⟨?_, ?_, NodePath.findAncestorFromParent_eq callback p, ?_⟩
  · intro a
    rw [NodePath.findAncestor_eq_find, List.find?_eq_some]
    constructor
    · rintro ⟨ha, before, after, heq, hbefore⟩
      exact ⟨before, after, heq, ha, fun q hq => by simpa using hbefore q hq⟩
    · rintro ⟨before, after, heq, ha, hbefore⟩
      exact ⟨ha, before, after, heq, fun q hq => by simpa using hbefore q hq⟩
  · rw [NodePath.findAncestor_eq_find, List.find?_eq_none]
    simp
  · rw [NodePath.findAncestorFromParent_eq, NodePath.getAncestry_eq]
    cases h : p.parentPath with
    | none => simp
    | some q => simp [NodePath.findAncestor_eq_find]

/-! ## The recorded paths are deduplicated -/

theorem distinctNodes_push (paths : List NodePath) (path : NodePath)
    (h : distinctNodes paths) :
    distinctNodes
      (if paths.any (fun p => p.node.id == path.node.id) then paths else paths ++ [path]) := by
  split
  · exact h
  · next hany =>
    unfold distinctNodes at h ⊢
    rw [List.map_append, List.nodup_append]
    refine ⟨h, by simp, ?_⟩
    intro a ha hb
    simp only [List.map_cons, List.map_nil, List.mem_singleton] at hb
    subst hb
    obtain ⟨p, hp, hpid⟩ := List.mem_map.mp ha
    apply hany
    rw [List.any_eq_true]
    exact ⟨p, hp, by simpa using hpid⟩

theorem prefix_push (paths : List NodePath) (path : NodePath) :
    paths <+: (if paths.any (fun p => p.node.id == path.node.id) then paths
      else paths ++ [path]) := by
  split
  · exact List.prefix_refl _
  · exact List.prefix_append _ _

theorem Recorded.grownTo_refl (r : Recorded) : r.grownTo r :=
  ⟨List.prefix_refl _, List.prefix_refl _⟩

theorem Recorded.grownTo_trans {a b c : Recorded} (h1 : a.grownTo b) (h2 : b.grownTo c) :
    a.grownTo c :=
  ⟨h1.1.trans h2.1, h1.2.trans h2.2⟩

namespace MappingKey

theorem key_addReferencingPath_recorded (k : MappingKey) (path : NodePath) :
    (k.recorded.distinct → (k.addReferencingPath path).recorded.distinct)
      ∧ k.recorded.grownTo (k.addReferencingPath path).recorded :=
  ⟨fun h => ⟨distinctNodes_push _ path h.1, h.2⟩,
    ⟨prefix_push _ path, List.prefix_refl _⟩⟩

theorem key_addModifyingPath_lists (k : MappingKey) (path : NodePath) :
    (k.addModifyingPath path).referencingPaths = k.referencingPaths
      ∧ (k.addModifyingPath path).modifyingPaths
        = (if k.modifyingPaths.any (fun p => p.node.id == path.node.id) then k.modifyingPaths
          else k.modifyingPaths ++ [path]) := by
  unfold addModifyingPath
  simp only
  split
  · exact ⟨rfl, rfl⟩
  · split <;> split <;> exact ⟨rfl, rfl⟩

theorem key_addModifyingPath_recorded (k : MappingKey) (path : NodePath) :
    (k.recorded.distinct → (k.addModifyingPath path).recorded.distinct)
      ∧ k.recorded.grownTo (k.addModifyingPath path).recorded := by
  obtain ⟨h1, h2⟩ := key_addModifyingPath_lists k path
  refine ⟨fun h => ⟨?_, ?_⟩, ⟨?_, ?_⟩⟩
  · show distinctNodes (k.addModifyingPath path).referencingPaths
    rw [h1]
    exact h.1
  · show distinctNodes (k.addModifyingPath path).modifyingPaths
    rw [h2]
    exact distinctNodes_push _ path h.2
  · show k.referencingPaths <+: (k.addModifyingPath path).referencingPaths
    rw [h1]
  · show k.modifyingPaths <+: (k.addModifyingPath path).modifyingPaths
    rw [h2]
    exact prefix_push _ path

theorem key_updateOwnProperties_recorded (k : MappingKey) (path : NodePath) :
    (k.recorded.distinct → (k.updateOwnProperties path).recorded.distinct)
      ∧ k.recorded.grownTo (k.updateOwnProperties path).recorded := by
  have h1 := key_addReferencingPath_recorded k path
  unfold updateOwnProperties
  simp only
  split
  · have h2 := key_addModifyingPath_recorded
      { k.addReferencingPath path with
        isUnknown := nullishAssign (k.addReferencingPath path).isUnknown path.node.isUnknown
        isKnown := nullishAssign (k.addReferencingPath path).isKnown path.node.isKnown
        reinitialisable :=
          nullishAssign (k.addReferencingPath path).reinitialisable path.node.reinitialisable }
      path
    exact ⟨fun h => h2.1 (h1.1 h), Recorded.grownTo_trans h1.2 h2.2⟩
  · exact h1

end MappingKey

namespace StateVariableIndicator

theorem addReferencingPath_recorded (ind : StateVariableIndicator) (path : NodePath) :
    (ind.recorded.distinct → (ind.addReferencingPath path).recorded.distinct)
      ∧ ind.recorded.grownTo (ind.addReferencingPath path).recorded :=
  ⟨fun h => ⟨distinctNodes_push _ path h.1, h.2⟩,
    ⟨prefix_push _ path, List.prefix_refl _⟩⟩

theorem addModifyingPath_lists (ind : StateVariableIndicator) (path : NodePath) :
    (ind.addModifyingPath path).referencingPaths = ind.referencingPaths
      ∧ (ind.addModifyingPath path).mappingKeys = ind.mappingKeys
      ∧ (ind.addModifyingPath path).modifyingPaths
        = (if ind.modifyingPaths.any (fun p => p.node.id == path.node.id) then
            ind.modifyingPaths
          else ind.modifyingPaths ++ [path]) := by
  unfold addModifyingPath
  simp only
  split
  · exact ⟨rfl, rfl, rfl⟩
  · split <;> split <;> exact ⟨rfl, rfl, rfl⟩

theorem addModifyingPath_recorded (ind : StateVariableIndicator) (path : NodePath) :
    (ind.recorded.distinct → (ind.addModifyingPath path).recorded.distinct)
      ∧ ind.recorded.grownTo (ind.addModifyingPath path).recorded := by
  obtain ⟨h1, _, h2⟩ := addModifyingPath_lists ind path
  refine ⟨fun h => ⟨?_, ?_⟩, ⟨?_, ?_⟩⟩
  · show distinctNodes (ind.addModifyingPath path).referencingPaths
    rw [h1]
    exact h.1
  · show distinctNodes (ind.addModifyingPath path).modifyingPaths
    rw [h2]
    exact distinctNodes_push _ path h.2
  · show ind.referencingPaths <+: (ind.addModifyingPath path).referencingPaths
    rw [h1]
  · show ind.modifyingPaths <+: (ind.addModifyingPath path).modifyingPaths
    rw [h2]
    exact prefix_push _ path

theorem updateProperties_recorded (ind : StateVariableIndicator) (path : NodePath) :
    (ind.recorded.distinct → (ind.updateProperties path).recorded.distinct)
      ∧ ind.recorded.grownTo (ind.updateProperties path).recorded := by
  have h1 := addReferencingPath_recorded ind path
  unfold updateProperties
  simp only
  split
  · have h2 := addModifyingPath_recorded
      { ind.addReferencingPath path with
        isUnknown := nullishAssign (ind.addReferencingPath path).isUnknown path.node.isUnknown
        isKnown := nullishAssign (ind.addReferencingPath path).isKnown path.node.isKnown
        reinitialisable :=
          nullishAssign (ind.addReferencingPath path).reinitialisable
            path.node.reinitialisable }
      path
    exact ⟨fun h => h2.1 (h1.1 h), Recorded.grownTo_trans h1.2 h2.2⟩
  · exact h1

theorem updateProperties_mappingKeys (ind : StateVariableIndicator) (path : NodePath) :
    (ind.updateProperties path).mappingKeys = ind.mappingKeys := by
  unfold updateProperties
  simp only
  split
  · rw [(addModifyingPath_lists _ path).2.1]
    rfl
  · rfl

end StateVariableIndicator

/-- A key that the constructor returns has recorded no path. -/
theorem MappingKey.create_recorded (E : Env) (container : StateVariableIndicator)
    (keyPath : NodePath) (k : MappingKey)
    (h : MappingKey.create E container keyPath = .ok k) :
    k.referencingPaths = [] ∧ k.modifyingPaths = [] := by
  unfold MappingKey.create at h
  simp only at h
  split at h
  · simp at h
  · simp only [Except.ok.injEq] at h
    subst h
    exact ⟨rfl, rfl⟩

/-- An entry of the table after a method was called on one key is an entry of the table
before, or the image of one. -/
theorem mem_modifyKey (f : MappingKey → MappingKey) (keyName : String) :
    ∀ (keys : List (String × MappingKey)) (kv : String × MappingKey),
      kv ∈ modifyKey keys keyName f → kv ∈ keys ∨ ∃ k, (keyName, k) ∈ keys ∧ kv = (keyName, f k)
  | [], kv, h => by simp [modifyKey] at h
  | (n, k) :: rest, kv, h => by
    unfold modifyKey at h
    split at h
    · next hn =>
      have hn2 : n = keyName := by simpa using hn
      rcases List.mem_cons.mp h with h | h
      · exact Or.inr ⟨k, by simp [hn2], by rw [h, hn2]⟩
      · exact Or.inl (List.mem_cons_of_mem _ h)
    · rcases List.mem_cons.mp h with h | h
      · exact Or.inl (by simp [h])
      · rcases mem_modifyKey f keyName rest kv h with h2 | ⟨k2, h2, h3⟩
        · exact Or.inl (List.mem_cons_of_mem _ h2)
        · exact Or.inr ⟨k2, List.mem_cons_of_mem _ h2, h3⟩

namespace StateVariableIndicator

/-- The table after `updateProperties` was called on one of its keys holds keys with distinct
recorded paths, if it did before. -/
theorem modifyKey_distinct (keys : List (String × MappingKey)) (keyName : String)
    (path : NodePath) (h : ∀ kv ∈ keys, kv.2.recorded.distinct) :
    ∀ kv ∈ modifyKey keys keyName (fun k => k.updateOwnProperties path),
      kv.2.recorded.distinct := by
  intro kv hkv
  rcases mem_modifyKey _ keyName keys kv hkv with hmem | ⟨k, hmem, rfl⟩
  · exact h kv hmem
  · exact (MappingKey.key_updateOwnProperties_recorded k path).1 (h (keyName, k) hmem)

theorem update_recorded (E : Env) (w : World) (path : NodePath) :
    (w.recordedDistinct → (update E w path).1.recordedDistinct)
      ∧ w.ind.recorded.grownTo (update E w path).1.ind.recorded := by
  unfold update
  split
  · cases hres : addMappingKey E w (some path) with
    | error e => exact ⟨fun h => h, Recorded.grownTo_refl _⟩
    | ok r =>
      obtain ⟨w1, keyName⟩ := r
      obtain ⟨rp, kn, keyPath, keys, hrp, _, _, _, _, h5, h6⟩ :=
        (addMappingKey_ok_iff E w w1 (some path) keyName).mp hres
      simp only
      have hfirst : (w.recordedDistinct → w1.recordedDistinct)
          ∧ w1.ind.recorded = w.ind.recorded := by
        rcases h6 with ⟨k, _, rfl⟩ | ⟨_, _, rfl⟩ | ⟨_, _, k, hcreate, rfl⟩
        · exact ⟨fun h => h, rfl⟩
        · exact ⟨fun h => h, rfl⟩
        · refine ⟨fun h => ⟨h.1, ?_⟩, rfl⟩
          intro keys1 hkeys1 kv hkv
          simp only [Option.some.injEq] at hkeys1
          subst hkeys1
          rcases List.mem_append.mp hkv with hmem | hmem
          · exact h.2 keys h5 kv hmem
          · rw [List.mem_singleton.mp hmem]
            obtain ⟨hr, hm⟩ := MappingKey.create_recorded E _ keyPath k hcreate
            simp [Recorded.distinct, MappingKey.recorded, distinctNodes, hr, hm]
      have hsecond : (w1.recordedDistinct →
            (onKey { w1 with ind := w1.ind.updateProperties path } keyName
              (fun k => k.updateOwnProperties path)).recordedDistinct)
          ∧ w1.ind.recorded.grownTo
            (onKey { w1 with ind := w1.ind.updateProperties path } keyName
              (fun k => k.updateOwnProperties path)).ind.recorded := by
        have hstep := updateProperties_recorded w1.ind path
        refine ⟨fun h => ⟨hstep.1 h.1, ?_⟩, hstep.2⟩
        intro keys1 hkeys1 kv hkv
        cases hk1 : w1.ind.mappingKeys with
        | none => simp [onKey, updateProperties_mappingKeys, hk1] at hkeys1
        | some keys0 =>
          simp only [onKey, updateProperties_mappingKeys, hk1, Option.map_some',
            Option.some.injEq] at hkeys1
          subst hkeys1
          exact modifyKey_distinct keys0 keyName path (h.2 keys0 hk1) kv hkv
      rcases callOnKey_fst w1 keyName "updateProperties"
        (onKey { w1 with ind := w1.ind.updateProperties path } keyName
          (fun k => k.updateOwnProperties path)) with hc | hc
      · rw [hc]
        exact ⟨fun h => hsecond.1 (hfirst.1 h), by rw [← hfirst.2]; exact hsecond.2⟩
      · rw [hc]
        exact ⟨hfirst.1, by rw [hfirst.2]; exact Recorded.grownTo_refl _⟩
  · have hstep := updateProperties_recorded w.ind path
    refine ⟨fun h => ⟨hstep.1 h.1, ?_⟩, hstep.2⟩
    intro keys1 hkeys1
    simp only [updateProperties_mappingKeys] at hkeys1
    exact h.2 keys1 hkeys1

theorem call_recorded (E : Env) (w : World) (c : RecordingCall) :
    (w.recordedDistinct → (call E w c).recordedDistinct)
      ∧ w.ind.recorded.grownTo (call E w c).ind.recorded := by
  cases c with
  | update path => exact update_recorded E w path
  | updateProperties path =>
    have hstep := updateProperties_recorded w.ind path
    refine ⟨fun h => ⟨hstep.1 h.1, ?_⟩, hstep.2⟩
    intro keys1 hkeys1
    simp only [call, updateProperties_mappingKeys] at hkeys1
    exact h.2 keys1 hkeys1
  | addReferencingPath path =>
    have hstep := addReferencingPath_recorded w.ind path
    exact ⟨fun h => ⟨hstep.1 h.1, h.2⟩, hstep.2⟩
  | addModifyingPath path =>
    have hstep := addModifyingPath_recorded w.ind path
    refine ⟨fun h => ⟨hstep.1 h.1, ?_⟩, hstep.2⟩
    intro keys1 hkeys1
    simp only [call, (addModifyingPath_lists w.ind path).2.1] at hkeys1
    exact h.2 keys1 hkeys1

theorem calls_recorded (E : Env) :
    ∀ (cs : List RecordingCall) (w : World),
      (w.recordedDistinct → (calls E w cs).recordedDistinct)
        ∧ w.ind.recorded.grownTo (calls E w cs).ind.recorded
  | [], w => ⟨fun h => h, Recorded.grownTo_refl _⟩
  | c :: cs, w => by
    have h1 := call_recorded E w c
    have h2 := calls_recorded E cs (call E w c)
    exact ⟨fun h => h2.1 (h1.1 h), Recorded.grownTo_trans h1.2 h2.2⟩

theorem calls_append (E : Env) (w : World) (cs later : List RecordingCall) :
    calls E w (cs ++ later) = calls E (calls E w cs) later := by
  simp [calls, List.foldl_append]

end StateVariableIndicator

namespace MappingKey

theorem key_call_recorded (kc : MappingKey × StateVariableIndicator) (c : KeyRecordingCall) :
    (kc.1.recorded.distinct → (call kc c).1.recorded.distinct)
      ∧ kc.1.recorded.grownTo (call kc c).1.recorded := by
  cases c with
  | updateProperties path => exact key_updateOwnProperties_recorded kc.1 path
  | addReferencingPath path => exact key_addReferencingPath_recorded kc.1 path
  | addModifyingPath path => exact key_addModifyingPath_recorded kc.1 path

theorem key_calls_recorded :
    ∀ (cs : List KeyRecordingCall) (kc : MappingKey × StateVariableIndicator),
      (kc.1.recorded.distinct → (calls kc cs).1.recorded.distinct)
        ∧ kc.1.recorded.grownTo (calls kc cs).1.recorded
  | [], kc => ⟨fun h => h, Recorded.grownTo_refl _⟩
  | c :: cs, kc => by
    have h1 := key_call_recorded kc c
    have h2 := key_calls_recorded cs (call kc c)
    exact ⟨fun h => h2.1 (h1.1 h), Recorded.grownTo_trans h1.2 h2.2⟩

theorem key_calls_append (kc : MappingKey × StateVariableIndicator)
    (cs later : List KeyRecordingCall) :
    calls kc (cs ++ later) = calls (calls kc cs) later := by
  simp [calls, List.foldl_append]

end MappingKey

/-- Claim C12.  Starting from a new `StateVariableIndicator`, after any sequence of calls of
`update`, `updateProperties`, `addReferencingPath` and `addModifyingPath` (however each call
ends), `referencingPaths` holds no two paths whose nodes have the same `id`, nor does
`modifyingPaths`, nor do those lists of any mapping key in the table; and both lists keep
the order of first insertion: after further calls each list is the list it was, followed by
what was added since.  The same holds of a new `MappingKey` under any sequence of calls of
its `updateProperties`, `addReferencingPath` and `addModifyingPath`. -/
theorem recorded_paths_distinct (E : Env) (referencedBinding : Binding) (path : NodePath)
    (isMappingIdentifier : Bool) (parentIndincator : FunctionDefinitionIndicator)
    (cs later : List RecordingCall)
    (container : StateVariableIndicator) (keyPath : NodePath) (k : MappingKey)
    (keyCalls keyLater : List KeyRecordingCall)
    (hk : MappingKey.create E container keyPath = .ok k) :
    ((StateVariableIndicator.calls E
          (World.create referencedBinding path isMappingIdentifier parentIndincator)
          cs).recordedDistinct
      ∧ (StateVariableIndicator.calls E
          (World.create referencedBinding path isMappingIdentifier parentIndincator)
          cs).ind.recorded.grownTo
        (StateVariableIndicator.calls E
          (World.create referencedBinding path isMappingIdentifier parentIndincator)
          (cs ++ later)).ind.recorded)
      ∧ ((MappingKey.calls (k, container) keyCalls).1.recorded.distinct
        ∧ (MappingKey.calls (k, container) keyCalls).1.recorded.grownTo
          (MappingKey.calls (k, container) (keyCalls ++ keyLater)).1.recorded) := by
  refine ⟨⟨?_, ?_⟩, ⟨?_, ?_⟩⟩
  · refine (StateVariableIndicator.calls_recorded E cs _).1 ⟨?_, ?_⟩
    · simp [World.create, StateVariableIndicator.create, Recorded.distinct,
        StateVariableIndicator.recorded, distinctNodes]
    · intro keys hkeys kv hkv
      cases isMappingIdentifier
      · simp [World.create, StateVariableIndicator.create] at hkeys
      · simp only [World.create, StateVariableIndicator.create, if_true,
          Option.some.injEq] at hkeys
        subst hkeys
        simp at hkv
  · rw [StateVariableIndicator.calls_append]
    exact (StateVariableIndicator.calls_recorded E later _).2
  · refine (MappingKey.key_calls_recorded keyCalls (k, container)).1 ?_
    obtain ⟨hr, hm⟩ := MappingKey.create_recorded E container keyPath k hk
    simp [Recorded.distinct, MappingKey.recorded, distinctNodes, hr, hm]
  · rw [MappingKey.key_calls_append]
    exact (MappingKey.key_calls_recorded keyLater _).2

/-- Witness of C12: `update` called twice with the path of `balances` in
`balances[msg.sender]` on the new indicator of `balances`, and `updateProperties` called
twice with it on the new key of `msg.sender`. -/
theorem recorded_paths_distinct_witness :
    (StateVariableIndicator.calls Example.mappingEnv
        (World.create Example.balancesBinding Example.balancesPath true {})
        [.update Example.balancesPath, .update Example.balancesPath]).recordedDistinct
      ∧ (MappingKey.calls (Example.msgKey, Example.mappingWorld.ind)
          [.updateProperties Example.balancesPath,
            .updateProperties Example.balancesPath]).1.recorded.distinct :=
  ⟨(recorded_paths_distinct Example.mappingEnv Example.balancesBinding Example.balancesPath
      true {} [.update Example.balancesPath, .update Example.balancesPath] []
      Example.mappingWorld.ind Example.msgPath Example.msgKey
      [.updateProperties Example.balancesPath, .updateProperties Example.balancesPath] []
      rfl).1.1,
    (recorded_paths_distinct Example.mappingEnv Example.balancesBinding Example.balancesPath
      true {} [.update Example.balancesPath, .update Example.balancesPath] []
      Example.mappingWorld.ind Example.msgPath Example.msgKey
      [.updateProperties Example.balancesPath, .updateProperties Example.balancesPath] []
      rfl).2.1⟩

/-! ## The constructor of `NodePath` -/

namespace PathObject

/-- The method `setScope` writes the scope of the path and nothing else. -/
theorem setScope_fields (S : Scopes) (p q : PathObject) (h : setScope S p = .ok q) :
    q.fields = { p.fields with scope := q.fields.scope } ∧ q.parentPath = p.parentPath := by
  unfold setScope at h
  split at h
  · split at h
    · simp at h
    · simp only [Except.ok.injEq] at h
      subst h
      exact ⟨rfl, rfl⟩
  · split at h
    · simp at h
    · simp only at h
      split at h
      · simp at h
      · split at h
        · simp at h
        · simp only [Except.ok.injEq] at h
          subst h
          exact ⟨rfl, rfl⟩

/-- When `validateConstructorArgs` returns. -/
theorem validateConstructorArgs_returns_iff (h : Heap) (args : ConstructorArgs) :
    (∃ log, validateConstructorArgs h args = .ok log) ↔
      ∃ parent node container key,
        args.parent = some parent ∧ args.node = some node
          ∧ args.container = some container ∧ args.key = some key
          ∧ JsKey.present (some key) = true
          ∧ h.get parent key = some container
          ∧ ((h.isArray container = true
              ∧ ∃ index, args.index = some index
                ∧ h.get container (.number index) = some node)
            ∨ (h.isArray container = false ∧ container = node)) := by
  unfold validateConstructorArgs
  cases hp : args.parent with
  | none => simp
  | some parent =>
    cases hn : args.node with
    | none => simp
    | some node =>
      cases hc : args.container with
      | none => simp
      | some container =>
        cases hk : args.key with
        | none => simp
        | some key =>
          simp only [Option.some.injEq, exists_and_left, exists_eq_left']
          cases hpres : JsKey.present (some key)
          · simp
          · by_cases hget : h.get parent key = some container
            · cases harr : h.isArray container
              · by_cases heq : node = container
                · simp [hget, heq]
                · have heq2 : ¬ container = node := fun x => heq x.symm
                  simp [hget, heq, heq2]
              · cases hi : args.index with
                | none => simp [hget]
                | some index =>
                  by_cases hat : h.get container (.number index) = some node
                  · simp [hget, hat]
                  · simp [hget, hat]
            · simp [hget]

end PathObject

namespace PathObject

/-- A construction that misses the cache and returns has validated its arguments, has built
the path from them, and has stored it in the cache under its node. -/
theorem construct_fresh (S : Scopes) (h : Heap) (cache cache1 : PathCache)
    (args : ConstructorArgs) (p : PathObject) (log : List String)
    (hmiss : args.node.bind cache = none)
    (hres : construct S h cache args = .ok (cache1, p, log)) :
    ∃ node parent key container,
      args.node = some node ∧ args.parent = some parent ∧ args.key = some key
        ∧ args.container = some container
        ∧ validateConstructorArgs h args = .ok log
        ∧ (p.node = node ∧ p.parent = parent ∧ p.key = key ∧ p.container = container
          ∧ p.inList = h.isArray container
          ∧ p.index = (if h.isArray container then args.index else none)
          ∧ p.fields.containerName = key ∧ p.fields.nodeType = h.nodeType node)
        ∧ p.parentPath = args.parentPath
        ∧ cache1 = (fun a => if a = node then some p else cache a) := by
  unfold construct at hres
  simp only [hmiss] at hres
  split at hres
  · simp at hres
  · next log1 node parent key container hv hn hp hk hc =>
    split at hres
    · simp at hres
    · next path hs =>
      simp only [Except.ok.injEq, Prod.mk.injEq] at hres
      obtain ⟨rfl, rfl, rfl⟩ := hres
      obtain ⟨hf, hpp⟩ := setScope_fields S _ path hs
      exact ⟨node, parent, key, container, hn, hp, hk, hc, hv,
        ⟨congrArg PathFields.node hf, congrArg PathFields.parent hf,
          congrArg PathFields.key hf, congrArg PathFields.container hf,
          congrArg PathFields.inList hf, congrArg PathFields.index hf,
          congrArg PathFields.containerName hf, congrArg PathFields.nodeType hf⟩,
        hpp, rfl⟩
  · simp at hres

end PathObject

/-- Claim C19.  `validateConstructorArgs` returns if and only if parent, node and container
are there, the key is there (the key 0 is, the empty string is not), `parent[key]` is the
container, and either the container is an array, the index is there and `container[index]` is
the node, or the container is not an array and is the node itself.  So every path that the
constructor has newly built has `parent[key] == container`, has `container[index] == node`
when it is `inList`, and has its node as container when it is not. -/
theorem validateConstructorArgs_iff (S : Scopes) (h : Heap) (cache : PathCache)
    (args : ConstructorArgs) :
    ((∃ log, PathObject.validateConstructorArgs h args = .ok log) ↔
        ∃ parent node container key,
          args.parent = some parent ∧ args.node = some node
            ∧ args.container = some container ∧ args.key = some key
            ∧ JsKey.present (some key) = true
            ∧ h.get parent key = some container
            ∧ ((h.isArray container = true
                ∧ ∃ index, args.index = some index
                  ∧ h.get container (.number index) = some node)
              ∨ (h.isArray container = false ∧ container = node)))
      ∧ JsKey.present (some (.number 0)) = true
      ∧ (∀ cache1 p log, args.node.bind cache = none →
          PathObject.construct S h cache args = .ok (cache1, p, log) →
          h.get p.parent p.key = some p.container
            ∧ (p.inList = true →
                ∃ index, p.index = some index
                  ∧ h.get p.container (.number index) = some p.node)
            ∧ (p.inList = false → p.container = p.node)) := by
  refine ⟨PathObject.validateConstructorArgs_returns_iff h args, rfl, ?_⟩
  intro cache1 p log hmiss hres
  obtain ⟨node, parent, key, container, hn, hp, hk, hc, hv, hf, _, _⟩ :=
    PathObject.construct_fresh S h cache cache1 args p log hmiss hres
  obtain ⟨parent1, node1, container1, key1, hp1, hn1, hc1, hk1, _, hget, hcases⟩ :=
    (PathObject.validateConstructorArgs_returns_iff h args).mp ⟨log, hv⟩
  rw [hp] at hp1
  rw [hn] at hn1
  rw [hc] at hc1
  rw [hk] at hk1
  cases hp1
  cases hn1
  cases hc1
  cases hk1
  obtain ⟨f1, f2, f3, f4, f5, f6, _, _⟩ := hf
  rw [f1, f2, f3, f4, f5, f6]
  refine ⟨hget, ?_, ?_⟩
  · intro harr
    rcases hcases with ⟨_, index, hi, hat⟩ | ⟨hnot, _⟩
    · exact ⟨index, by simp [harr, hi], hat⟩
    · rw [hnot] at harr
      cases harr
  · intro harr
    rcases hcases with ⟨hyes, _⟩ | ⟨_, heq⟩
    · rw [hyes] at harr
      cases harr
    · exact heq

/-- Claim C17.  Path identity.  When a construction for a node returns a path, the cache
holds that path for the node, and the construction has kept every path the cache held.  From
then on, in every cache that has kept those paths, every construction for the same node, with
any other arguments, returns that same path and leaves the cache as it is, and
`getPath(node)` returns that path.  And `getPath` throws for a node for which the cache holds
no path. -/
theorem path_identity (S : Scopes) (h : Heap) (cache cache1 : PathCache)
    (args : ConstructorArgs) (node : Address) (p : PathObject) (log : List String)
    (hnode : args.node = some node)
    (hres : PathObject.construct S h cache args = .ok (cache1, p, log)) :
    cache1 node = some p
      ∧ cache.keptIn cache1
      ∧ (∀ later : PathCache, cache1.keptIn later →
          ∀ (S2 : Scopes) (h2 : Heap) (args2 : ConstructorArgs), args2.node = some node →
            PathObject.construct S2 h2 later args2 = .ok (later, p, [])
              ∧ PathObject.getPath later (some node) = .ok p)
      ∧ (∀ (c : PathCache) (n : Address), c n = none →
          PathObject.getPath c (some n) = .error (.Error "Node not found in pathCache")) := by
  have hstored : cache1 node = some p ∧ cache.keptIn cache1 := by
    cases hhit : args.node.bind cache with
    | some cached =>
      unfold PathObject.construct at hres
      simp only [hhit, Except.ok.injEq, Prod.mk.injEq] at hres
      obtain ⟨rfl, rfl, _⟩ := hres
      rw [hnode] at hhit
      exact ⟨hhit, fun _ _ hq => hq⟩
    | none =>
      obtain ⟨node1, _, _, _, hn, _, _, _, _, _, _, hc⟩ :=
        PathObject.construct_fresh S h cache cache1 args p log hhit hres
      rw [hnode] at hn hhit
      cases hn
      subst hc
      refine ⟨by simp, ?_⟩
      intro a q hq
      have hne : a ≠ node := by
        intro heq
        subst heq
        simp only [Option.some_bind] at hhit
        rw [hhit] at hq
        cases hq
      simp [hne, hq]
  refine ⟨hstored.1, hstored.2, ?_, ?_⟩
  · intro later hkept S2 h2 args2 hnode2
    have hl : later node = some p := hkept node p hstored.1
    constructor
    · unfold PathObject.construct
      simp [hnode2, hl]
    · simp [PathObject.getPath, hl]
  · intro c n hc
    simp [PathObject.getPath, hc]

/-- Witness of C17: the path of the assignment is constructed once, and a second
construction for the assignment, with arguments that name no parent, returns it. -/
theorem path_identity_witness :
    PathObject.construct Example.scopes Example.heap Example.statementCache
        Example.assignmentArgs
      = .ok (Example.assignmentCache, Example.assignmentPath, [])
    ∧ PathObject.construct Example.scopes Example.heap Example.assignmentCache
        Example.emptyArgs
      = .ok (Example.assignmentCache, Example.assignmentPath, [])
    ∧ PathObject.getPath Example.assignmentCache (some 2) = .ok Example.assignmentPath :=
  ⟨rfl,
    ((path_identity Example.scopes Example.heap Example.statementCache
      Example.assignmentCache Example.assignmentArgs 2 Example.assignmentPath [] rfl
      rfl).2.2.1 Example.assignmentCache (fun _ _ hq => hq) Example.scopes Example.heap
      Example.emptyArgs rfl).1,
    ((path_identity Example.scopes Example.heap Example.statementCache
      Example.assignmentCache Example.assignmentArgs 2 Example.assignmentPath [] rfl
      rfl).2.2.1 Example.assignmentCache (fun _ _ hq => hq) Example.scopes Example.heap
      Example.emptyArgs rfl).2⟩

/-- Counterexample to C18 as stated: the block holds its statements in the array at 6, so
for the statement the declared container 1 is not `parent[key]`; but the cache holds a path
for the statement, and the constructor returns that path instead of throwing. -/
theorem construct_mismatch_counterexample :
    Example.heap.get 5 (.string "statements") = some 6
      ∧ Example.mismatchedArgs.container = some 1
      ∧ PathObject.construct Example.scopes Example.heap Example.statementCache
          Example.mismatchedArgs
        = .ok (Example.statementCache, Example.statementPath, []) :=
  ⟨rfl, rfl, rfl⟩

/-- Claim C18, amended.  For a node for which the cache holds no path, constructing a
`NodePath` whose declared container is not `parent[key]` fails: for every node, parent, key
and container with `parent[key]` not identical to the container, whatever the index and the
parent path, the constructor throws and returns no path. -/
theorem construct_rejects_mismatch (S : Scopes) (h : Heap) (cache : PathCache)
    (node parent container : Address) (key : JsKey) (index : Option Int)
    (parentPath : Option PathObject)
    (hmiss : cache node = none)
    (hbad : h.get parent key ≠ some container) :
    ∃ e, PathObject.construct S h cache
        { node := some node, parent := some parent, key := some key,
          container := some container, index := index, parentPath := parentPath }
      = .error e := by
  have hv : ∃ e, PathObject.validateConstructorArgs h
      { node := some node, parent := some parent, key := some key,
        container := some container, index := index, parentPath := parentPath }
      = .error e := by
    cases hres : PathObject.validateConstructorArgs h
      { node := some node, parent := some parent, key := some key,
        container := some container, index := index, parentPath := parentPath } with
    | error e => exact ⟨e, rfl⟩
    | ok log =>
      obtain ⟨parent1, node1, container1, key1, hp1, _, hc1, hk1, _, hget, _⟩ :=
        (PathObject.validateConstructorArgs_returns_iff h _).mp ⟨log, hres⟩
      simp only [Option.some.injEq] at hp1 hc1 hk1
      subst hp1 hc1 hk1
      exact absurd hget hbad
  obtain ⟨e, he⟩ := hv
  refine ⟨e, ?_⟩
  unfold PathObject.construct
  simp [hmiss, he]

/-- Witness of C18, amended: the same arguments, with a cache that holds no path. -/
theorem construct_rejects_mismatch_witness :
    ∃ e, PathObject.construct Example.scopes Example.heap (fun _ => none)
        Example.mismatchedArgs = .error e :=
  construct_rejects_mismatch Example.scopes Example.heap (fun _ => none) 1 5 1
    (.string "statements") none none rfl (by decide)

/-! ## Containers on the right and on the left -/

/-- A path or one of its ancestors is held in a container exactly when
`getAncestorContainedWithin` finds a path. -/
theorem NodePath.getAncestorContainedWithin_isSome (p : NodePath) (container : String) :
    (p.getAncestorContainedWithin container).isSome = true
      ↔ ∃ q ∈ p.getAncestry, q.containerName = container := by
  unfold NodePath.getAncestorContainedWithin
  rw [NodePath.findAncestor_eq_find, List.find?_isSome]
  simp

/-- The first match of a list of container names, as `List.find?` gives it. -/
theorem NodePath.find_container_iff (p : NodePath) (containers : List String) (c : String) :
    containers.find? (fun container => (p.getAncestorContainedWithin container).isSome) = some c
      ↔ ∃ earlier later, containers = earlier ++ c :: later
          ∧ (∃ q ∈ p.getAncestry, q.containerName = c)
          ∧ ∀ e ∈ earlier, ∀ q ∈ p.getAncestry, q.containerName ≠ e := by
  rw [List.find?_eq_some]
  constructor
  · rintro ⟨hc, earlier, later, heq, hearlier⟩
    refine ⟨earlier, later, heq, (p.getAncestorContainedWithin_isSome c).mp hc, ?_⟩
    intro e he q hq hqe
    have := hearlier e he
    rw [(p.getAncestorContainedWithin_isSome e).mpr ⟨q, hq, hqe⟩] at this
    simp at this
  · rintro ⟨earlier, later, heq, hc, hearlier⟩
    refine ⟨(p.getAncestorContainedWithin_isSome c).mpr hc, earlier, later, heq, ?_⟩
    intro e he
    cases h : (p.getAncestorContainedWithin e).isSome
    · rfl
    · obtain ⟨q, hq, hqe⟩ := (p.getAncestorContainedWithin_isSome e).mp h
      exact absurd hqe (hearlier e he q hq)

theorem NodePath.find_container_none_iff (p : NodePath) (containers : List String) :
    containers.find? (fun container => (p.getAncestorContainedWithin container).isSome) = none
      ↔ ∀ c ∈ containers, ∀ q ∈ p.getAncestry, q.containerName ≠ c := by
  rw [List.find?_eq_none]
  constructor
  · intro h c hc q hq hqc
    exact h c hc ((p.getAncestorContainedWithin_isSome c).mpr ⟨q, hq, hqc⟩)
  · intro h c hc hsome
    obtain ⟨q, hq, hqc⟩ := (p.getAncestorContainedWithin_isSome c).mp hsome
    exact h c hc q hq hqc

/-- Claim C21.  For every path, `getRhsAncestor(true)` returns the first name `c` of
`rhsContainers` (in the order of the list) such that the path or one of its ancestors is held
in a container named `c`, and `false` (here `none`) exactly when no name of the list is
matched; `getLhsAncestor(true)` does the same over `lhsContainers`.  The two lists are the
ones of the source.  The winner is decided by the order of the list and not by nearness: for
the `x` of `uint y = f(x);`, held in `arguments` and nested in the `initialValue` of the
statement, the result is `initialValue`. -/
theorem getRhsAncestor_first_listed (p : NodePath) :
    (∀ c, p.getRhsAncestorName = some c ↔
        ∃ earlier later, NodePath.rhsContainers = earlier ++ c :: later
          ∧ (∃ q ∈ p.getAncestry, q.containerName = c)
          ∧ ∀ e ∈ earlier, ∀ q ∈ p.getAncestry, q.containerName ≠ e)
      ∧ (p.getRhsAncestorName = none ↔
          ∀ c ∈ NodePath.rhsContainers, ∀ q ∈ p.getAncestry, q.containerName ≠ c)
      ∧ (∀ c, p.getLhsAncestorName = some c ↔
          ∃ earlier later, NodePath.lhsContainers = earlier ++ c :: later
            ∧ (∃ q ∈ p.getAncestry, q.containerName = c)
            ∧ ∀ e ∈ earlier, ∀ q ∈ p.getAncestry, q.containerName ≠ e)
      ∧ (p.getLhsAncestorName = none ↔
          ∀ c ∈ NodePath.lhsContainers, ∀ q ∈ p.getAncestry, q.containerName ≠ c)
      ∧ NodePath.rhsContainers
          = ["rightHandSide", "initialValue", "trueExpression", "falseExpression",
              "indexExpression", "subExpression", "rightExpression", "arguments"]
      ∧ NodePath.lhsContainers
          = ["leftHandSide", "declarations", "subExpression", "leftExpression"]
      ∧ Example.argumentPath.containerName = "arguments"
      ∧ Example.argumentPath.parentPath = some Example.callPath
      ∧ Example.callPath.containerName = "initialValue"
      ∧ Example.argumentPath.getRhsAncestorName = some "initialValue" :=
  ⟨fun c => p.find_container_iff NodePath.rhsContainers c,
    p.find_container_none_iff NodePath.rhsContainers,
    fun c => p.find_container_iff NodePath.lhsContainers c,
    p.find_container_none_iff NodePath.lhsContainers,
    rfl, rfl, rfl, rfl, rfl, by decide⟩

/-! ## The node on the other side -/

/-- A search that fails on the paths below `a` and succeeds on `a` finds `a`. -/
theorem NodePath.findAncestor_of_split (callback : NodePath → Bool) (p a : NodePath)
    (below : List NodePath) (hsplit : p.getAncestry = below ++ a.getAncestry)
    (hbelow : ∀ q ∈ below, callback q = false) (ha : callback a = true) :
    NodePath.findAncestor callback p = some a := by
  rw [NodePath.findAncestor_eq_find, hsplit, NodePath.getAncestry_eq a, List.find?_append]
  have h1 : List.find? callback below = none := by
    rw [List.find?_eq_none]
    intro q hq
    simp [hbelow q hq]
  rw [h1]
  simp [List.find?_cons, ha]

/-- A match of the first name of a list of containers is the result for the list. -/
theorem NodePath.getRhsAncestorName_rightHandSide (p m : NodePath)
    (h : p.getAncestorContainedWithin "rightHandSide" = some m) :
    p.getRhsAncestorName = some "rightHandSide" := by
  simp [NodePath.getRhsAncestorName, NodePath.rhsContainers, List.find?_cons, h]

theorem NodePath.getLhsAncestorName_leftHandSide (p m : NodePath)
    (h : p.getAncestorContainedWithin "leftHandSide" = some m) :
    p.getLhsAncestorName = some "leftHandSide" := by
  simp [NodePath.getLhsAncestorName, NodePath.lhsContainers, List.find?_cons, h]

/-- Claim C22, as stated, fails for the `b` of `a = (b = c)`.  The matched `rightHandSide`
ancestor of `b` is the path of `b = c`, which the outer assignment holds as its
`rightHandSide`, and the `leftHandSide` of that assignment is `a`; the source returns the
`leftHandSide` of the nearest `Assignment` from `b` upwards, which is `b` itself. -/
theorem getCorrespondingLhsNode_nested_counterexample :
    Example.bPath.getRhsAncestorName = some "rightHandSide"
      ∧ Example.bPath.getAncestorContainedWithin "rightHandSide"
          = some Example.innerAssignmentPath
      ∧ Example.innerAssignmentPath.parentPath = some Example.outerAssignmentPath
      ∧ Example.outerAssignmentPath.nodeType = "Assignment"
      ∧ Example.outerAssignmentPath.node.rightHandSide = some Example.innerAssignmentPath.node
      ∧ Example.outerAssignmentPath.node.leftHandSide = some Example.aNode
      ∧ Example.bPath.getCorrespondingLhsNode = .ok (.node Example.bNode)
      ∧ Example.bNode.id ≠ Example.aNode.id :=
  ⟨by decide, rfl, rfl, rfl, rfl, rfl, rfl, by decide⟩

/-- Claim C22, amended.  When the matched container is `rightHandSide`,
`getCorrespondingLhsNode()` returns the `leftHandSide` of the nearest path of type
`Assignment` among the path and its ancestors, and throws a `TypeError` when there is none.
That assignment is the one holding the matched `rightHandSide` ancestor `m` whenever the
parent `a` of `m` is an `Assignment` and no path from the given one up to `m` is an
`Assignment`.  Likewise `getCorrespondingRhsNode()` returns the `rightHandSide` of the nearest
`Assignment` when the matched container is `leftHandSide`. -/
theorem getCorrespondingLhsNode_nearest_assignment (p : NodePath) :
    (p.getRhsAncestorName = some "rightHandSide" →
        p.getCorrespondingLhsNode =
          match p.getAncestorOfType "Assignment" with
          | some parent => .ok (.ofProperty parent.node.leftHandSide)
          | none => .error (.TypeError "Cannot read properties of null (reading node)"))
      ∧ (∀ (below : List NodePath) (m a : NodePath), p.getAncestorContainedWithin "rightHandSide" = some m →
          p.getAncestry = below ++ m :: a.getAncestry →
          (∀ q ∈ below, q.nodeType ≠ "Assignment") → m.nodeType ≠ "Assignment" →
          a.nodeType = "Assignment" →
          p.getCorrespondingLhsNode = .ok (.ofProperty a.node.leftHandSide))
      ∧ (p.getLhsAncestorName = some "leftHandSide" →
        p.getCorrespondingRhsNode =
          match p.getAncestorOfType "Assignment" with
          | some parent => .ok (.ofProperty parent.node.rightHandSide)
          | none => .error (.TypeError "Cannot read properties of null (reading node)"))
      ∧ (∀ (below : List NodePath) (m a : NodePath), p.getAncestorContainedWithin "leftHandSide" = some m →
          p.getAncestry = below ++ m :: a.getAncestry →
          (∀ q ∈ below, q.nodeType ≠ "Assignment") → m.nodeType ≠ "Assignment" →
          a.nodeType = "Assignment" →
          p.getCorrespondingRhsNode = .ok (.ofProperty a.node.rightHandSide)) := by
  have hnear : ∀ below m a, p.getAncestry = below ++ m :: a.getAncestry →
      (∀ q ∈ below, q.nodeType ≠ "Assignment") → m.nodeType ≠ "Assignment" →
      a.nodeType = "Assignment" → p.getAncestorOfType "Assignment" = some a := by
    intro below m a hsplit hbelow hm ha
    refine NodePath.findAncestor_of_split _ p a (below ++ [m]) (by simp [hsplit]) ?_ ?_
    · intro q hq
      rcases List.mem_append.mp hq with hq | hq
      · simpa [NodePath.nodeType] using hbelow q hq
      · simp only [List.mem_singleton] at hq
        subst hq
        simpa [NodePath.nodeType] using hm
    · simpa [NodePath.nodeType] using ha
  have hl : p.getRhsAncestorName = some "rightHandSide" →
      p.getCorrespondingLhsNode =
        match p.getAncestorOfType "Assignment" with
        | some parent => .ok (.ofProperty parent.node.leftHandSide)
        | none => .error (.TypeError "Cannot read properties of null (reading node)") := by
    intro h
    simp only [NodePath.getCorrespondingLhsNode, h, if_true]
    cases p.getAncestorOfType "Assignment" <;> rfl
  have hr : p.getLhsAncestorName = some "leftHandSide" →
      p.getCorrespondingRhsNode =
        match p.getAncestorOfType "Assignment" with
        | some parent => .ok (.ofProperty parent.node.rightHandSide)
        | none => .error (.TypeError "Cannot read properties of null (reading node)") := by
    intro h
    simp only [NodePath.getCorrespondingRhsNode, h, if_true]
    cases p.getAncestorOfType "Assignment" <;> rfl
  refine ⟨hl, ?_, hr, ?_⟩
  · intro below m a hm hsplit hbelow hmt ha
    rw [hl (p.getRhsAncestorName_rightHandSide m hm), hnear below m a hsplit hbelow hmt ha]
  · intro below m a hm hsplit hbelow hmt ha
    rw [hr (p.getLhsAncestorName_leftHandSide m hm), hnear below m a hsplit hbelow hmt ha]

theorem getCorrespondingLhsNode_nearest_assignment_witness :
    Example.cPath.getCorrespondingLhsNode = .ok (.node Example.bNode)
      ∧ Example.bPath.getCorrespondingRhsNode = .ok (.node Example.cNode)
      ∧ Example.innerAssignmentPath.getCorrespondingLhsNode = .ok (.node Example.bNode) :=
  ⟨(getCorrespondingLhsNode_nearest_assignment Example.cPath).2.1 [] Example.cPath
      Example.innerAssignmentPath rfl rfl (by simp) (by decide) rfl,
    (getCorrespondingLhsNode_nearest_assignment Example.bPath).2.2.2 [] Example.bPath
      Example.innerAssignmentPath rfl rfl (by simp) (by decide) rfl,
    (getCorrespondingLhsNode_nearest_assignment Example.innerAssignmentPath).1 (by decide)⟩

/-! ## Modifications and mapping keys -/

/-- A name returned by `getLhsAncestor(true)` is a name of the list, hence not empty. -/
theorem NodePath.getLhsAncestorName_mem (p : NodePath) (name : String)
    (h : p.getLhsAncestorName = some name) : name ∈ NodePath.lhsContainers := by
  unfold NodePath.getLhsAncestorName at h
  exact List.mem_of_find?_eq_some h

/-- Claim C23, as stated, fails for the `msg` of `balances[msg.sender] += 1`.  The identifier
lies inside the index expression (its parent `msg.sender` is held in `indexExpression`), yet
`isModification()` is truthy: the source tests the `containerName` of the identifier only,
and that one is `expression`. -/
theorem isModification_index_counterexample :
    Example.msgPath.nodeType = "Identifier"
      ∧ Example.msgPath.parentPath = some Example.senderPath
      ∧ Example.senderPath.containerName = "indexExpression"
      ∧ Example.senderPath ∈ Example.msgPath.getAncestry
      ∧ Example.msgPath.isModification = true :=
  ⟨rfl, rfl, rfl, List.mem_cons_of_mem _ (List.mem_cons_self _ _), by decide⟩

/-- Claim C23, amended.  For every path, `isModification()` is truthy exactly when the node is
an `Identifier`, the path itself is not held in an `indexExpression` container (the containers
of its ancestors are not looked at), there is no `FunctionCall` among the path and its
ancestors, and `getLhsAncestor(true)` is not `false`, that is, the path or one of its ancestors
is held in a container of `lhsContainers`.  For every other node type the result is `false`. -/
theorem isModification_iff (p : NodePath) :
    (p.isModification = true ↔
        p.nodeType = "Identifier" ∧ p.containerName ≠ "indexExpression"
          ∧ p.getAncestorOfType "FunctionCall" = none ∧ p.getLhsAncestorName ≠ none)
      ∧ (p.getAncestorOfType "FunctionCall" = none ↔
          ∀ q ∈ p.getAncestry, q.nodeType ≠ "FunctionCall")
      ∧ (p.getLhsAncestorName ≠ none ↔
          ∃ c ∈ NodePath.lhsContainers, ∃ q ∈ p.getAncestry, q.containerName = c)
      ∧ (p.nodeType ≠ "Identifier" → p.isModification = false) := by
  refine ⟨?_, ?_, ?_, ?_⟩
  · unfold NodePath.isModification
    by_cases hid : p.nodeType = "Identifier"
    · simp only [hid, beq_self_eq_true, if_true, Bool.and_eq_true, bne_iff_ne, ne_eq,
        Option.isNone_iff_eq_none, true_and]
      cases hl : p.getLhsAncestorName with
      | none => simp
      | some name =>
        have hne : name ≠ "" := by
          have hmem := p.getLhsAncestorName_mem name hl
          intro h
          subst h
          revert hmem
          decide
        simp [hne]
    · simp [hid]
  · unfold NodePath.getAncestorOfType
    rw [NodePath.findAncestor_eq_find, List.find?_eq_none]
    simp [NodePath.nodeType]
  · rw [ne_eq, NodePath.getLhsAncestorName, NodePath.find_container_none_iff]
    push_neg
    rfl
  · intro hid
    simp [NodePath.isModification, hid]

theorem isModification_iff_witness :
    Example.xPath.isModification = true ∧ Example.senderPath.isModification = false :=
  ⟨(isModification_iff Example.xPath).1.mpr ⟨rfl, by decide, rfl, by decide⟩,
    (isModification_iff Example.senderPath).2.2.2 (by decide)⟩

/-- Claim C24.  On a path whose node is an `IndexAccess`, `getMappingKeyIdentifier()` returns
the `indexExpression` of the node, except that for an index expression that is `msg.sender`
it returns the `expression` of that member access, the `msg` identifier.  On any path it
returns the result for the nearest path, from the given one upwards, whose node is an
`IndexAccess`; it throws when there is none. -/
theorem getMappingKeyIdentifier_nearest (p : NodePath) :
    (p.nodeType = "IndexAccess" →
        (p.isMsgSender p.node.indexExpression = false →
          p.getMappingKeyIdentifier = .ok p.node.indexExpression)
        ∧ (∀ sender msg : Node, p.node.indexExpression = some sender →
            sender.nodeType = "MemberAccess" → sender.data.memberName = some "sender" →
            sender.data.typeDescriptions.typeString = some "address" →
            sender.expression = some msg → NodePath.isMsgNode msg = true →
            p.getMappingKeyIdentifier = .ok (some msg))
        ∧ (p.isMsgSender p.node.indexExpression = true →
            ∃ sender msg : Node, p.node.indexExpression = some sender
              ∧ sender.expression = some msg ∧ msg.nodeType = "Identifier"
              ∧ msg.name = some "msg" ∧ p.getMappingKeyIdentifier = .ok (some msg)))
      ∧ (∀ (below : List NodePath) (a : NodePath) (above : List NodePath),
          p.getAncestry = below ++ a :: above → a.nodeType = "IndexAccess" →
          (∀ q ∈ below, q.nodeType ≠ "IndexAccess") →
          p.getMappingKeyIdentifier = a.getMappingKeyIdentifier)
      ∧ ((∀ q ∈ p.getAncestry, q.nodeType ≠ "IndexAccess") →
          ∃ e, p.getMappingKeyIdentifier = .error e) := by
  refine ⟨?_, ?_, ?_⟩
  · intro hp
    have hp1 : p.node.nodeType = "IndexAccess" := hp
    refine ⟨?_, ?_, ?_⟩
    · intro h
      simp [NodePath.getMappingKeyIdentifier, NodePath.mappingKeyOfIndexAccess, hp1, h]
    · intro sender msg h1 h2 h3 h4 h5 h6
      have hs : p.isMsgSender (some sender) = true := by
        simp [NodePath.isMsgSender, NodePath.isMsg, h2, h3, h4, h5, h6]
      simp [NodePath.getMappingKeyIdentifier, NodePath.mappingKeyOfIndexAccess, hp1, h1, hs, h5]
    · intro h
      cases hie : p.node.indexExpression with
      | none =>
        rw [hie] at h
        simp [NodePath.isMsgSender, hp1] at h
      | some sender =>
        rw [hie] at h
        simp only [NodePath.isMsgSender, Option.getD_some, Bool.and_eq_true, beq_iff_eq] at h
        obtain ⟨⟨⟨h2, h3⟩, h4⟩, h5⟩ := h
        cases hex : sender.expression with
        | none =>
          rw [hex] at h5
          simp [NodePath.isMsg, NodePath.isMsgNode, hp1] at h5
        | some msg =>
          rw [hex] at h5
          have h6 : NodePath.isMsgNode msg = true := h5
          have h7 := h6
          simp only [NodePath.isMsgNode, Bool.and_eq_true, beq_iff_eq] at h7
          refine ⟨sender, msg, rfl, hex, h7.1.1.1, h7.1.1.2, ?_⟩
          have hs : p.isMsgSender (some sender) = true := by
            simp [NodePath.isMsgSender, NodePath.isMsg, h2, h3, h4, hex, h6]
          simp [NodePath.getMappingKeyIdentifier, NodePath.mappingKeyOfIndexAccess, hp1, hie,
            hs, hex]
  · intro below a above hsplit ha hbelow
    have ha1 : a.node.nodeType = "IndexAccess" := ha
    have hfind : p.getAncestorOfType "IndexAccess" = some a := by
      unfold NodePath.getAncestorOfType
      rw [NodePath.findAncestor_eq_find, hsplit, List.find?_append]
      have h1 : List.find? (fun q : NodePath => q.node.nodeType == "IndexAccess") below
          = none := by
        rw [List.find?_eq_none]
        intro q hq
        simpa [NodePath.nodeType] using hbelow q hq
      rw [h1]
      simp [List.find?_cons, ha1]
    by_cases hp : p.node.nodeType = "IndexAccess"
    · have hsat : NodePath.findAncestor (fun q => q.node.nodeType == "IndexAccess") p
          = some p := by
        rw [NodePath.findAncestor_eq_find, NodePath.getAncestry_eq]
        simp [List.find?_cons, hp]
      have hpa : p = a := by
        unfold NodePath.getAncestorOfType at hfind
        rw [hsat] at hfind
        exact Option.some.inj hfind
      rw [hpa]
    · simp [NodePath.getMappingKeyIdentifier, hp, hfind, ha1]
  · intro hnone
    have hp : p.node.nodeType ≠ "IndexAccess" := by
      have := hnone p (by rw [NodePath.getAncestry_eq]; simp)
      exact this
    have hfind : p.getAncestorOfType "IndexAccess" = none := by
      unfold NodePath.getAncestorOfType
      rw [NodePath.findAncestor_eq_find, List.find?_eq_none]
      intro q hq
      simpa [NodePath.nodeType] using hnone q hq
    exact ⟨_, by simp [NodePath.getMappingKeyIdentifier, hp, hfind]; rfl⟩

theorem getMappingKeyIdentifier_nearest_witness :
    Example.balancesPath.getMappingKeyIdentifier = .ok (some Example.msgNode)
      ∧ Example.indexAccessPath.getMappingKeyIdentifier = .ok (some Example.msgNode)
      ∧ Example.nowAccessPath.getMappingKeyIdentifier = .ok (some Example.nowNode) :=
  ⟨((getMappingKeyIdentifier_nearest Example.balancesPath).2.1 [Example.balancesPath]
        Example.indexAccessPath [] rfl rfl (by decide)).trans
      (((getMappingKeyIdentifier_nearest Example.indexAccessPath).1 rfl).2.1
        Example.senderNode Example.msgNode rfl rfl rfl rfl rfl rfl),
    ((getMappingKeyIdentifier_nearest Example.indexAccessPath).1 rfl).2.1
        Example.senderNode Example.msgNode rfl rfl rfl rfl rfl rfl,
    ((getMappingKeyIdentifier_nearest Example.nowAccessPath).1 rfl).1 rfl⟩

/-! ## Paths that reference the same declaration -/

/-- A `referencedDeclaration` is a number or `undefined`: it is never `===` to a string. -/
theorem Node.referencedDeclaration_ne_string (n : Node) (s : String) :
    n.referencedDeclaration.strictEquals (.string s) = false := by
  unfold Node.referencedDeclaration
  cases n.data.referencedDeclaration <;> rfl

theorem NodePath.reference_visitor2_eq (state : ReferenceTable) (path : NodePath) :
    NodePath.getAllNodesWhichReferenceTheSame.visitor2 state path = state := by
  unfold NodePath.getAllNodesWhichReferenceTheSame.visitor2
  simp [Node.referencedDeclaration_ne_string]

theorem NodePath.modify_visitor2_eq (state : ReferenceTable) (path : NodePath) :
    NodePath.getAllNodesWhichModifyTheSame.visitor2 state path = state := by
  unfold NodePath.getAllNodesWhichModifyTheSame.visitor2
  simp [Node.referencedDeclaration_ne_string]

theorem NodePath.reference_visitor2_foldl (paths : List NodePath) (state : ReferenceTable) :
    paths.foldl NodePath.getAllNodesWhichReferenceTheSame.visitor2 state = state := by
  induction paths with
  | nil => rfl
  | cons path rest ih => rw [List.foldl_cons, NodePath.reference_visitor2_eq, ih]

theorem NodePath.modify_visitor2_foldl (paths : List NodePath) (state : ReferenceTable) :
    paths.foldl NodePath.getAllNodesWhichModifyTheSame.visitor2 state = state := by
  induction paths with
  | nil => rfl
  | cons path rest ih => rw [List.foldl_cons, NodePath.modify_visitor2_eq, ih]

/-- Writing an empty array keeps a table of empty arrays. -/
theorem ReferenceTable.set_empty (state : ReferenceTable) (name : String)
    (h : ∀ entry ∈ state, entry.2 = []) : ∀ entry ∈ state.set name [], entry.2 = [] := by
  unfold ReferenceTable.set
  split
  · intro entry hentry
    simp only [List.mem_map] at hentry
    obtain ⟨e, he, rfl⟩ := hentry
    split
    · rfl
    · exact h e he
  · intro entry hentry
    rcases List.mem_append.mp hentry with hentry | hentry
    · exact h entry hentry
    · simp only [List.mem_singleton] at hentry
      rw [hentry]

theorem NodePath.reference_visitor1_foldl (paths : List NodePath) :
    ∀ state : ReferenceTable, (∀ entry ∈ state, entry.2 = []) →
      ∀ entry ∈ paths.foldl NodePath.getAllNodesWhichReferenceTheSame.visitor1 state,
        entry.2 = [] := by
  induction paths with
  | nil => intro state h; exact h
  | cons path rest ih =>
    intro state h
    rw [List.foldl_cons]
    apply ih
    unfold NodePath.getAllNodesWhichReferenceTheSame.visitor1
    simp only
    split
    · exact ReferenceTable.set_empty state _ h
    · exact h

theorem NodePath.modify_visitor1_foldl (paths : List NodePath) :
    ∀ state : ReferenceTable, (∀ entry ∈ state, entry.2 = []) →
      ∀ entry ∈ paths.foldl NodePath.getAllNodesWhichModifyTheSame.visitor1 state,
        entry.2 = [] := by
  induction paths with
  | nil => intro state h; exact h
  | cons path rest ih =>
    intro state h
    rw [List.foldl_cons]
    apply ih
    unfold NodePath.getAllNodesWhichModifyTheSame.visitor1
    simp only
    split
    · exact ReferenceTable.set_empty state _ h
    · exact h

/-- Claim C25 does not hold of the source: every array of paths that
`getAllNodesWhichReferenceTheSame()` or `getAllNodesWhichModifyTheSame()` returns is empty.
The names of `Object.keys(state)` are strings and `node.referencedDeclaration` is a number,
so the test `path.node.referencedDeclaration === refId` of the second visit never holds and
no path is pushed.  For a path that references the declaration `r` and has an ancestor of the
type asked for, the result is the object with the one entry `r`, holding the empty array. -/
theorem getAllNodesWhichReferenceTheSame_lists_empty
    (traversePathsFast : NodePath → List NodePath) (p : NodePath) (beneathNodeType : String) :
    (∀ entry ∈ p.getAllNodesWhichReferenceTheSame traversePathsFast beneathNodeType,
        entry.2 = [])
      ∧ (∀ entry ∈ p.getAllNodesWhichModifyTheSame traversePathsFast beneathNodeType,
          entry.2 = [])
      ∧ (∀ (r : Int) (root : NodePath), p.node.data.referencedDeclaration = some r → r ≠ 0 →
          p.getAncestorOfType beneathNodeType = some root →
          p.getAllNodesWhichReferenceTheSame traversePathsFast beneathNodeType
            = [(toString r, [])])
      ∧ (∀ (r : Int) (root : NodePath), p.node.data.referencedDeclaration = some r → r ≠ 0 →
          p.containerName = "leftHandSide" →
          p.getAncestorOfType beneathNodeType = some root →
          p.getAllNodesWhichModifyTheSame traversePathsFast beneathNodeType
            = [(toString r, [])]) := by
  have key : ∀ state : ReferenceTable, (∀ entry ∈ state, entry.2 = []) →
      ∀ entry ∈ (if state.length = 0 then ([] : ReferenceTable)
        else match p.getAncestorOfType beneathNodeType with
          | none => []
          | some _ => state), entry.2 = [] := by
    intro state h
    split
    · simp
    · split
      · simp
      · exact h
  refine ⟨?_, ?_, ?_, ?_⟩
  · unfold NodePath.getAllNodesWhichReferenceTheSame
    simp only [NodePath.reference_visitor2_foldl]
    refine key _ ?_
    split
    · exact ReferenceTable.set_empty [] _ (by simp)
    · exact NodePath.reference_visitor1_foldl _ [] (by simp)
  · unfold NodePath.getAllNodesWhichModifyTheSame
    simp only [NodePath.modify_visitor2_foldl]
    refine key _ ?_
    split
    · exact ReferenceTable.set_empty [] _ (by simp)
    · exact NodePath.modify_visitor1_foldl _ [] (by simp)
  · intro r root hr hr0 hroot
    have hv : p.node.referencedDeclaration = .number r := by
      simp [Node.referencedDeclaration, hr]
    simp [NodePath.getAllNodesWhichReferenceTheSame, NodePath.reference_visitor2_foldl, hv,
      JsPrimitive.isTruthy, JsPrimitive.propertyName, ReferenceTable.set, hr0, hroot]
  · intro r root hr hr0 hlhs hroot
    have hv : p.node.referencedDeclaration = .number r := by
      simp [Node.referencedDeclaration, hr]
    simp [NodePath.getAllNodesWhichModifyTheSame, NodePath.modify_visitor2_foldl, hv,
      JsPrimitive.isTruthy, JsPrimitive.propertyName, ReferenceTable.set, hr0, hroot, hlhs]

theorem getAllNodesWhichReferenceTheSame_lists_empty_witness :
    Example.selfLhsPath.node.data.referencedDeclaration = some 90
      ∧ Example.selfLhsPath.getAncestorOfType "Block" = some Example.selfBlockPath
      ∧ Example.selfLhsPath ∈ Example.selfTraversal Example.selfBlockPath
      ∧ Example.selfLhsPath.getAllNodesWhichReferenceTheSame Example.selfTraversal "Block"
          = [("90", [])]
      ∧ Example.selfLhsPath.getAllNodesWhichModifyTheSame Example.selfTraversal "Block"
          = [("90", [])] :=
  ⟨rfl, rfl, List.mem_cons_of_mem _ (List.mem_cons_of_mem _ (List.mem_cons_of_mem _
      (List.mem_cons_self _ _))),
    (getAllNodesWhichReferenceTheSame_lists_empty Example.selfTraversal Example.selfLhsPath
      "Block").2.2.1 90 Example.selfBlockPath rfl (by decide) rfl,
    (getAllNodesWhichReferenceTheSame_lists_empty Example.selfTraversal Example.selfLhsPath
      "Block").2.2.2 90 Example.selfBlockPath rfl (by decide) rfl rfl⟩

/-! ## Taint marks -/

/-- A loop whose every turn adds calls to a list adds, in all, the calls of its turns. -/
theorem TaintState.foldl_calls (step : TaintState → NodePath → TaintState)
    (calls : TaintState → List (Nat × NodePath)) (turn : NodePath → List (Nat × NodePath))
    (hstep : ∀ st a, calls (step st a) = calls st ++ turn a) :
    ∀ (paths : List NodePath) (st : TaintState),
      ∃ added, calls (paths.foldl step st) = calls st ++ added
        ∧ ∀ x, x ∈ added ↔ ∃ a ∈ paths, x ∈ turn a := by
  intro paths
  induction paths with
  | nil => intro st; exact ⟨[], by simp, by simp⟩
  | cons a rest ih =>
    intro st
    obtain ⟨added, h1, h2⟩ := ih (step st a)
    refine ⟨turn a ++ added, ?_, ?_⟩
    · rw [List.foldl_cons, h1, hstep, List.append_assoc]
    · intro x
      simp only [List.mem_append, h2, List.mem_cons, exists_eq_or_imp]

/-- A loop whose turns leave a component alone leaves it alone. -/
theorem TaintState.foldl_frame {α : Type} (step : TaintState → NodePath → TaintState)
    (component : TaintState → α) (hstep : ∀ st a, component (step st a) = component st) :
    ∀ (paths : List NodePath) (st : TaintState),
      component (paths.foldl step st) = component st := by
  intro paths
  induction paths with
  | nil => intro st; rfl
  | cons a rest ih => intro st; rw [List.foldl_cons, ih, hstep]

/-- A loop whose turn on a path `a` with `hit a` writes `set` on the marks of `a`, and
nothing else, writes `set` on the marks of the paths it hits. -/
theorem TaintState.foldl_marks (step : TaintState → NodePath → TaintState)
    (marks : TaintState → Nat → TaintMarks) (set : TaintMarks → TaintMarks)
    (hit : NodePath → Bool) (hset : ∀ m, set (set m) = set m)
    (hstep : ∀ st a, marks (step st a)
      = if hit a then Function.update (marks st) a.node.id (set (marks st a.node.id))
        else marks st) :
    ∀ (paths : List NodePath) (st : TaintState) (k : Nat),
      marks (paths.foldl step st) k
        = if paths.any (fun a => hit a && a.node.id == k) then set (marks st k)
          else marks st k := by
  intro paths
  induction paths with
  | nil => intro st k; simp
  | cons a rest ih =>
    intro st k
    rw [List.foldl_cons, ih, hstep]
    by_cases hhit : hit a = true
    · by_cases hk : a.node.id = k
      · subst hk
        simp [hhit, hset]
      · have hk1 : k ≠ a.node.id := fun h => hk h.symm
        simp [hhit, hk, Function.update_noteq hk1]
    · simp [hhit]

namespace TaintState

/-- A loop whose turns can throw runs its turns on the paths of `turnsRun`, and throws what
`loopThrown` says. -/
theorem forEach_eq (step : TaintState → NodePath → TaintState)
    (thrown : NodePath → Option Exception) :
    ∀ (paths : List NodePath) (st : TaintState),
      forEach step thrown paths st
        = ((turnsRun thrown paths).foldl step st, loopThrown thrown paths)
  | [], st => rfl
  | a :: rest, st => by
    unfold forEach turnsRun loopThrown
    cases h : thrown a with
    | some e => rfl
    | none =>
      simp only
      rw [forEach_eq step thrown rest (step st a)]
      rfl

/-- The turns that run are turns of the loop. -/
theorem mem_of_mem_turnsRun (thrown : NodePath → Option Exception) (b : NodePath) :
    ∀ paths : List NodePath, b ∈ turnsRun thrown paths → b ∈ paths
  | [], h => by simp [turnsRun] at h
  | a :: rest, h => by
    unfold turnsRun at h
    cases ha : thrown a with
    | some e =>
      simp only [ha, List.mem_singleton] at h
      rw [h]
      exact List.mem_cons_self _ _
    | none =>
      simp only [ha] at h
      rcases List.mem_cons.mp h with h | h
      · rw [h]
        exact List.mem_cons_self _ _
      · exact List.mem_cons_of_mem _ (mem_of_mem_turnsRun thrown b rest h)

/-- A loop no turn of which throws runs all its turns and returns. -/
theorem turnsRun_of_returns (thrown : NodePath → Option Exception) :
    ∀ paths : List NodePath, (∀ a ∈ paths, thrown a = none) →
      turnsRun thrown paths = paths ∧ loopThrown thrown paths = none
  | [], _ => ⟨rfl, rfl⟩
  | a :: rest, h => by
    have ha : thrown a = none := h a (List.mem_cons_self _ _)
    obtain ⟨h1, h2⟩ := turnsRun_of_returns thrown rest
      (fun b hb => h b (List.mem_cons_of_mem _ hb))
    unfold turnsRun loopThrown
    simp only [ha, h1, h2, and_self]

/-- A loop that throws has run the turns up to the first that throws, that one included. -/
theorem loopThrown_eq_some (thrown : NodePath → Option Exception) (e : Exception) :
    ∀ paths : List NodePath, loopThrown thrown paths = some e →
      ∃ before a after, paths = before ++ a :: after
        ∧ (∀ b ∈ before, thrown b = none) ∧ thrown a = some e
        ∧ turnsRun thrown paths = before ++ [a]
  | [], h => by simp [loopThrown] at h
  | a :: rest, h => by
    unfold loopThrown at h
    cases ha : thrown a with
    | some e1 =>
      simp only [ha, Option.some.injEq] at h
      subst h
      refine ⟨[], a, rest, rfl, by simp, ha, ?_⟩
      unfold turnsRun
      simp [ha]
    | none =>
      simp only [ha] at h
      obtain ⟨before, b, after, h1, h2, h3, h4⟩ := loopThrown_eq_some thrown e rest h
      refine ⟨a :: before, b, after, by rw [h1]; rfl, ?_, h3, ?_⟩
      · intro c hc
        rcases List.mem_cons.mp hc with hc | hc
        · rw [hc]
          exact ha
        · exact h2 c hc
      · unfold turnsRun
        simp [ha, h4]

/-- A loop that returns has run all its turns. -/
theorem loopThrown_eq_none (thrown : NodePath → Option Exception) :
    ∀ paths : List NodePath, loopThrown thrown paths = none →
      turnsRun thrown paths = paths ∧ ∀ a ∈ paths, thrown a = none
  | [], _ => ⟨rfl, by simp⟩
  | a :: rest, h => by
    unfold loopThrown at h
    cases ha : thrown a with
    | some e1 => simp [ha] at h
    | none =>
      simp only [ha] at h
      obtain ⟨h1, h2⟩ := loopThrown_eq_none thrown rest h
      refine ⟨?_, ?_⟩
      · unfold turnsRun
        simp [ha, h1]
      · intro b hb
        rcases List.mem_cons.mp hb with hb | hb
        · rw [hb]
          exact ha
        · exact h2 b hb

end TaintState

namespace NodePath

/-- The calls that one turn of `markContainsSecret` or `markContainsPublic` makes. -/
theorem markContainsSecret_step_calls (env : TaintEnv) (self : NodePath) (st : TaintState)
    (a : NodePath) :
    (markContainsSecret.step env self st a).secretInteractingPaths
        = st.secretInteractingPaths
          ++ (match env.getReferencedIndicator a with
              | some i =>
                if self.node.data.referencedDeclaration != some (i : Int) then [(i, self)]
                else []
              | none => [])
      ∧ (markContainsSecret.step env self st a).publicInteractingPaths
        = st.publicInteractingPaths
      ∧ (markContainsSecret.step env self st a).pathMarks
        = Function.update st.pathMarks a.node.id
            { st.pathMarks a.node.id with containsSecret := some true }
      ∧ (markContainsSecret.step env self st a).nodeMarks
        = Function.update st.nodeMarks a.node.id
            { st.nodeMarks a.node.id with containsSecret := some true } := by
  unfold markContainsSecret.step
  cases env.getReferencedIndicator a with
  | none =>
    simp [TaintState.markPath, TaintState.markNode]
  | some i =>
    by_cases h : self.node.data.referencedDeclaration = some (i : Int) <;>
      simp [TaintState.markPath, TaintState.markNode, TaintState.addSecretInteractingPath, h]

theorem markContainsPublic_step_calls (env : TaintEnv) (self : NodePath) (st : TaintState)
    (a : NodePath) :
    (markContainsPublic.step env self st a).publicInteractingPaths
        = st.publicInteractingPaths
          ++ (match env.getReferencedIndicator a with
              | some i =>
                if self.node.data.referencedDeclaration != some (i : Int) then [(i, self)]
                else []
              | none => [])
      ∧ (markContainsPublic.step env self st a).secretInteractingPaths
        = st.secretInteractingPaths
      ∧ (markContainsPublic.step env self st a).pathMarks
        = Function.update st.pathMarks a.node.id
            { st.pathMarks a.node.id with containsPublic := some true }
      ∧ (markContainsPublic.step env self st a).nodeMarks
        = Function.update st.nodeMarks a.node.id
            { st.nodeMarks a.node.id with containsPublic := some true } := by
  unfold markContainsPublic.step
  cases env.getReferencedIndicator a with
  | none =>
    simp [TaintState.markPath, TaintState.markNode]
  | some i =>
    by_cases h : self.node.data.referencedDeclaration = some (i : Int) <;>
      simp [TaintState.markPath, TaintState.markNode, TaintState.addPublicInteractingPath, h]

/-- Membership in the calls of one turn. -/
theorem mem_turn_calls (env : TaintEnv) (self a : NodePath) (i : Nat) (q : NodePath) :
    (i, q) ∈ (match env.getReferencedIndicator a with
              | some i =>
                if self.node.data.referencedDeclaration != some (i : Int) then [(i, self)]
                else []
              | none => [])
      ↔ q = self ∧ env.getReferencedIndicator a = some i
          ∧ self.node.data.referencedDeclaration ≠ some (i : Int) := by
  cases env.getReferencedIndicator a with
  | none => simp
  | some j =>
    by_cases h : self.node.data.referencedDeclaration = some (j : Int)
    · simp only [h, bne_self_eq_false, Bool.false_eq_true, if_false, List.not_mem_nil,
        Option.some.injEq, false_iff, not_and, not_not]
      intro _ hj
      rw [hj]
    · simp only [bne_iff_ne, ne_eq, h, not_false_eq_true, if_true, List.mem_singleton,
        Prod.mk.injEq, Option.some.injEq]
      constructor
      · rintro ⟨rfl, rfl⟩
        exact ⟨rfl, rfl, h⟩
      · rintro ⟨rfl, rfl, _⟩
        exact ⟨rfl, rfl⟩

/-- The marks and the calls of the turns of `markContainsSecret` on a list of ancestors. -/
theorem markContainsSecret_effect (env : TaintEnv) (p : NodePath) (ancestors : List NodePath)
    (st : TaintState) :
    (∀ k, (ancestors.foldl (markContainsSecret.step env p) st).pathMarks k
        = if ancestors.any (fun a => a.node.id == k) then
            { st.pathMarks k with containsSecret := some true }
          else st.pathMarks k)
      ∧ (∀ k, (ancestors.foldl (markContainsSecret.step env p) st).nodeMarks k
        = if ancestors.any (fun a => a.node.id == k) then
            { st.nodeMarks k with containsSecret := some true }
          else st.nodeMarks k)
      ∧ (∃ added, (ancestors.foldl (markContainsSecret.step env p) st).secretInteractingPaths
            = st.secretInteractingPaths ++ added
          ∧ ∀ i q, (i, q) ∈ added ↔
              q = p ∧ ∃ a ∈ ancestors, env.getReferencedIndicator a = some i
                ∧ p.node.data.referencedDeclaration ≠ some (i : Int))
      ∧ (ancestors.foldl (markContainsSecret.step env p) st).publicInteractingPaths
          = st.publicInteractingPaths := by
  refine ⟨?_, ?_, ?_, ?_⟩
  · intro k
    have := TaintState.foldl_marks (markContainsSecret.step env p) TaintState.pathMarks
      (fun m => { m with containsSecret := some true }) (fun _ => true) (fun _ => rfl)
      (fun st a => by simp [(markContainsSecret_step_calls env p st a).2.2.1])
      ancestors st k
    simpa using this
  · intro k
    have := TaintState.foldl_marks (markContainsSecret.step env p) TaintState.nodeMarks
      (fun m => { m with containsSecret := some true }) (fun _ => true) (fun _ => rfl)
      (fun st a => by simp [(markContainsSecret_step_calls env p st a).2.2.2])
      ancestors st k
    simpa using this
  · obtain ⟨added, h1, h2⟩ := TaintState.foldl_calls (markContainsSecret.step env p)
      TaintState.secretInteractingPaths _
      (fun st a => (markContainsSecret_step_calls env p st a).1) ancestors st
    refine ⟨added, h1, ?_⟩
    intro i q
    rw [h2]
    simp only [mem_turn_calls]
    constructor
    · rintro ⟨a, ha, hq, hi, hne⟩
      exact ⟨hq, a, ha, hi, hne⟩
    · rintro ⟨hq, a, ha, hi, hne⟩
      exact ⟨a, ha, hq, hi, hne⟩
  · exact TaintState.foldl_frame (markContainsSecret.step env p)
      TaintState.publicInteractingPaths
      (fun st a => (markContainsSecret_step_calls env p st a).2.1) ancestors st

/-- A turn of `markContainsSecret` throws what the call it makes throws. -/
theorem markContainsSecret_thrown_iff (env : TaintEnv) (p a : NodePath) (e : Exception) :
    markContainsSecret.thrown env p a = some e ↔
      ∃ i, env.getReferencedIndicator a = some i
        ∧ p.node.data.referencedDeclaration ≠ some (i : Int)
        ∧ env.addSecretInteractingPath i p = some e := by
  unfold markContainsSecret.thrown
  cases env.getReferencedIndicator a with
  | none => simp
  | some j =>
    by_cases h : p.node.data.referencedDeclaration = some (j : Int)
    · simp [h]
    · simp [h]

/-- No turn of `markContainsSecret` throws when the calls return. -/
theorem markContainsSecret_thrown_of_returns (env : TaintEnv) (p : NodePath)
    (h : ∀ i, env.addSecretInteractingPath i p = none) (a : NodePath) :
    markContainsSecret.thrown env p a = none := by
  unfold markContainsSecret.thrown
  cases env.getReferencedIndicator a with
  | none => rfl
  | some j =>
    simp only [h]
    split <;> rfl

/-- What `markContainsSecret()` does, by whether a call throws.  When the calls return, the
loop returns and writes on every proper ancestor; when one throws, the loop has written on
the ancestors up to the one whose indicator threw, and on no other. -/
theorem markContainsSecret_run (env : TaintEnv) (p : NodePath) (st : TaintState) :
    ((∀ i, env.addSecretInteractingPath i p = none) →
        p.markContainsSecret env st
          = (p.getAncestry.tail.foldl (markContainsSecret.step env p) st, none))
      ∧ (∀ e, (p.markContainsSecret env st).2 = some e →
          ∃ before a after i,
            p.getAncestry.tail = before ++ a :: after
              ∧ env.getReferencedIndicator a = some i
              ∧ p.node.data.referencedDeclaration ≠ some (i : Int)
              ∧ env.addSecretInteractingPath i p = some e
              ∧ (p.markContainsSecret env st).1
                = (before ++ [a]).foldl (markContainsSecret.step env p) st)
      ∧ ((p.markContainsSecret env st).2 = none →
          (p.markContainsSecret env st).1
            = p.getAncestry.tail.foldl (markContainsSecret.step env p) st) := by
  unfold markContainsSecret
  rw [TaintState.forEach_eq]
  refine ⟨?_, ?_, ?_⟩
  · intro h
    obtain ⟨h1, h2⟩ := TaintState.turnsRun_of_returns (markContainsSecret.thrown env p)
      p.getAncestry.tail (fun a _ => markContainsSecret_thrown_of_returns env p h a)
    rw [h1, h2]
  · intro e he
    obtain ⟨before, a, after, h1, _, h3, h4⟩ :=
      TaintState.loopThrown_eq_some (markContainsSecret.thrown env p) e p.getAncestry.tail he
    obtain ⟨i, hi, hne, hthrows⟩ := (markContainsSecret_thrown_iff env p a e).mp h3
    exact ⟨before, a, after, i, h1, hi, hne, hthrows, by rw [h4]⟩
  · intro h
    obtain ⟨h1, _⟩ := TaintState.loopThrown_eq_none (markContainsSecret.thrown env p)
      p.getAncestry.tail h
    simp only [h1]

/-- The marks and the calls of the turns of `markContainsPublic` on a list of ancestors. -/
theorem markContainsPublic_effect (env : TaintEnv) (p : NodePath) (ancestors : List NodePath)
    (st : TaintState) :
    (∀ k, (ancestors.foldl (markContainsPublic.step env p) st).pathMarks k
        = if ancestors.any (fun a => a.node.id == k) then
            { st.pathMarks k with containsPublic := some true }
          else st.pathMarks k)
      ∧ (∀ k, (ancestors.foldl (markContainsPublic.step env p) st).nodeMarks k
        = if ancestors.any (fun a => a.node.id == k) then
            { st.nodeMarks k with containsPublic := some true }
          else st.nodeMarks k)
      ∧ (∃ added, (ancestors.foldl (markContainsPublic.step env p) st).publicInteractingPaths
            = st.publicInteractingPaths ++ added
          ∧ ∀ i q, (i, q) ∈ added ↔
              q = p ∧ ∃ a ∈ ancestors, env.getReferencedIndicator a = some i
                ∧ p.node.data.referencedDeclaration ≠ some (i : Int))
      ∧ (ancestors.foldl (markContainsPublic.step env p) st).secretInteractingPaths
          = st.secretInteractingPaths := by
  refine ⟨?_, ?_, ?_, ?_⟩
  · intro k
    have := TaintState.foldl_marks (markContainsPublic.step env p) TaintState.pathMarks
      (fun m => { m with containsPublic := some true }) (fun _ => true) (fun _ => rfl)
      (fun st a => by simp [(markContainsPublic_step_calls env p st a).2.2.1])
      ancestors st k
    simpa using this
  · intro k
    have := TaintState.foldl_marks (markContainsPublic.step env p) TaintState.nodeMarks
      (fun m => { m with containsPublic := some true }) (fun _ => true) (fun _ => rfl)
      (fun st a => by simp [(markContainsPublic_step_calls env p st a).2.2.2])
      ancestors st k
    simpa using this
  · obtain ⟨added, h1, h2⟩ := TaintState.foldl_calls (markContainsPublic.step env p)
      TaintState.publicInteractingPaths _
      (fun st a => (markContainsPublic_step_calls env p st a).1) ancestors st
    refine ⟨added, h1, ?_⟩
    intro i q
    rw [h2]
    simp only [mem_turn_calls]
    constructor
    · rintro ⟨a, ha, hq, hi, hne⟩
      exact ⟨hq, a, ha, hi, hne⟩
    · rintro ⟨hq, a, ha, hi, hne⟩
      exact ⟨a, ha, hq, hi, hne⟩
  · exact TaintState.foldl_frame (markContainsPublic.step env p)
      TaintState.secretInteractingPaths
      (fun st a => (markContainsPublic_step_calls env p st a).2.1) ancestors st

/-- A turn of `markContainsPublic` throws what the call it makes throws. -/
theorem markContainsPublic_thrown_iff (env : TaintEnv) (p a : NodePath) (e : Exception) :
    markContainsPublic.thrown env p a = some e ↔
      ∃ i, env.getReferencedIndicator a = some i
        ∧ p.node.data.referencedDeclaration ≠ some (i : Int)
        ∧ env.addPublicInteractingPath i p = some e := by
  unfold markContainsPublic.thrown
  cases env.getReferencedIndicator a with
  | none => simp
  | some j =>
    by_cases h : p.node.data.referencedDeclaration = some (j : Int)
    · simp [h]
    · simp [h]

/-- No turn of `markContainsPublic` throws when the calls return. -/
theorem markContainsPublic_thrown_of_returns (env : TaintEnv) (p : NodePath)
    (h : ∀ i, env.addPublicInteractingPath i p = none) (a : NodePath) :
    markContainsPublic.thrown env p a = none := by
  unfold markContainsPublic.thrown
  cases env.getReferencedIndicator a with
  | none => rfl
  | some j =>
    simp only [h]
    split <;> rfl

/-- What `markContainsPublic()` does, by whether a call throws.  When the calls return, the
loop returns and writes on every proper ancestor; when one throws, the loop has written on
the ancestors up to the one whose indicator threw, and on no other. -/
theorem markContainsPublic_run (env : TaintEnv) (p : NodePath) (st : TaintState) :
    ((∀ i, env.addPublicInteractingPath i p = none) →
        p.markContainsPublic env st
          = (p.getAncestry.tail.foldl (markContainsPublic.step env p) st, none))
      ∧ (∀ e, (p.markContainsPublic env st).2 = some e →
          ∃ before a after i,
            p.getAncestry.tail = before ++ a :: after
              ∧ env.getReferencedIndicator a = some i
              ∧ p.node.data.referencedDeclaration ≠ some (i : Int)
              ∧ env.addPublicInteractingPath i p = some e
              ∧ (p.markContainsPublic env st).1
                = (before ++ [a]).foldl (markContainsPublic.step env p) st)
      ∧ ((p.markContainsPublic env st).2 = none →
          (p.markContainsPublic env st).1
            = p.getAncestry.tail.foldl (markContainsPublic.step env p) st) := by
  unfold markContainsPublic
  rw [TaintState.forEach_eq]
  refine ⟨?_, ?_, ?_⟩
  · intro h
    obtain ⟨h1, h2⟩ := TaintState.turnsRun_of_returns (markContainsPublic.thrown env p)
      p.getAncestry.tail (fun a _ => markContainsPublic_thrown_of_returns env p h a)
    rw [h1, h2]
  · intro e he
    obtain ⟨before, a, after, h1, _, h3, h4⟩ :=
      TaintState.loopThrown_eq_some (markContainsPublic.thrown env p) e p.getAncestry.tail he
    obtain ⟨i, hi, hne, hthrows⟩ := (markContainsPublic_thrown_iff env p a e).mp h3
    exact ⟨before, a, after, i, h1, hi, hne, hthrows, by rw [h4]⟩
  · intro h
    obtain ⟨h1, _⟩ := TaintState.loopThrown_eq_none (markContainsPublic.thrown env p)
      p.getAncestry.tail h
    simp only [h1]

end NodePath

/-- Claim C26 does not hold of the source as it is: the loop of `markContainsSecret()` does
what the claim says when the calls `indicator.addSecretInteractingPath(p)` return, but no
class of the sources defines that method, and a call that throws ends the loop.  When the
calls return, the method returns, `containsSecret` is `true` on every proper ancestor path of
`p` (the paths of `getAncestry()` after `p`, up to the root) and on its node, the calls made
all register `p`, and `p` is registered on the indicator `i` exactly when some proper ancestor
resolves to `i` and `i.id` differs from `p.node.referencedDeclaration`, hence never on the
indicator of the variable `p` references.  When a call throws, the loop ends with the
ancestor for which the call was made: the ancestors up to that one carry the mark, every
other path and node is as it was, and the calls made are those of these ancestors.
`markContainsPublic()` does the same with `containsPublic` and
`addPublicInteractingPath`. -/
theorem markContainsSecret_marks_and_registers (env : TaintEnv) (p : NodePath)
    (st : TaintState) :
    (((∀ i, env.addSecretInteractingPath i p = none) →
        (p.markContainsSecret env st).2 = none
          ∧ (∀ a ∈ p.getAncestry.tail,
              (((p.markContainsSecret env st).1.pathMarks a.node.id).containsSecret = some true
                ∧ ((p.markContainsSecret env st).1.nodeMarks a.node.id).containsSecret
                  = some true))
          ∧ ∃ added, (p.markContainsSecret env st).1.secretInteractingPaths
                = st.secretInteractingPaths ++ added
              ∧ (∀ i q, (i, q) ∈ added ↔
                  q = p ∧ ∃ a ∈ p.getAncestry.tail, env.getReferencedIndicator a = some i
                    ∧ p.node.data.referencedDeclaration ≠ some (i : Int))
              ∧ ∀ (i : Nat) (q : NodePath),
                  p.node.data.referencedDeclaration = some (i : Int) → (i, q) ∉ added)
      ∧ (∀ e, (p.markContainsSecret env st).2 = some e →
          ∃ before a after i,
            p.getAncestry.tail = before ++ a :: after
              ∧ env.getReferencedIndicator a = some i
              ∧ p.node.data.referencedDeclaration ≠ some (i : Int)
              ∧ env.addSecretInteractingPath i p = some e
              ∧ (∀ b ∈ before ++ [a],
                  ((p.markContainsSecret env st).1.pathMarks b.node.id).containsSecret = some true
                    ∧ ((p.markContainsSecret env st).1.nodeMarks b.node.id).containsSecret
                      = some true)
              ∧ (∀ k, (∀ b ∈ before ++ [a], b.node.id ≠ k) →
                  (p.markContainsSecret env st).1.pathMarks k = st.pathMarks k
                    ∧ (p.markContainsSecret env st).1.nodeMarks k = st.nodeMarks k)
              ∧ ∃ added, (p.markContainsSecret env st).1.secretInteractingPaths
                    = st.secretInteractingPaths ++ added
                  ∧ (∀ j q, (j, q) ∈ added ↔
                      q = p ∧ ∃ b ∈ before ++ [a], env.getReferencedIndicator b = some j
                        ∧ p.node.data.referencedDeclaration ≠ some (j : Int))
                  ∧ ∀ (j : Nat) (q : NodePath),
                      p.node.data.referencedDeclaration = some (j : Int) → (j, q) ∉ added))
      ∧ (((∀ i, env.addPublicInteractingPath i p = none) →
        (p.markContainsPublic env st).2 = none
          ∧ (∀ a ∈ p.getAncestry.tail,
              (((p.markContainsPublic env st).1.pathMarks a.node.id).containsPublic = some true
                ∧ ((p.markContainsPublic env st).1.nodeMarks a.node.id).containsPublic
                  = some true))
          ∧ ∃ added, (p.markContainsPublic env st).1.publicInteractingPaths
                = st.publicInteractingPaths ++ added
              ∧ (∀ i q, (i, q) ∈ added ↔
                  q = p ∧ ∃ a ∈ p.getAncestry.tail, env.getReferencedIndicator a = some i
                    ∧ p.node.data.referencedDeclaration ≠ some (i : Int))
              ∧ ∀ (i : Nat) (q : NodePath),
                  p.node.data.referencedDeclaration = some (i : Int) → (i, q) ∉ added)
      ∧ (∀ e, (p.markContainsPublic env st).2 = some e →
          ∃ before a after i,
            p.getAncestry.tail = before ++ a :: after
              ∧ env.getReferencedIndicator a = some i
              ∧ p.node.data.referencedDeclaration ≠ some (i : Int)
              ∧ env.addPublicInteractingPath i p = some e
              ∧ (∀ b ∈ before ++ [a],
                  ((p.markContainsPublic env st).1.pathMarks b.node.id).containsPublic = some true
                    ∧ ((p.markContainsPublic env st).1.nodeMarks b.node.id).containsPublic
                      = some true)
              ∧ (∀ k, (∀ b ∈ before ++ [a], b.node.id ≠ k) →
                  (p.markContainsPublic env st).1.pathMarks k = st.pathMarks k
                    ∧ (p.markContainsPublic env st).1.nodeMarks k = st.nodeMarks k)
              ∧ ∃ added, (p.markContainsPublic env st).1.publicInteractingPaths
                    = st.publicInteractingPaths ++ added
                  ∧ (∀ j q, (j, q) ∈ added ↔
                      q = p ∧ ∃ b ∈ before ++ [a], env.getReferencedIndicator b = some j
                        ∧ p.node.data.referencedDeclaration ≠ some (j : Int))
                  ∧ ∀ (j : Nat) (q : NodePath),
                      p.node.data.referencedDeclaration = some (j : Int) → (j, q) ∉ added)) := by
  have secretHalf : ((∀ i, env.addSecretInteractingPath i p = none) →
        (p.markContainsSecret env st).2 = none
          ∧ (∀ a ∈ p.getAncestry.tail,
              (((p.markContainsSecret env st).1.pathMarks a.node.id).containsSecret = some true
                ∧ ((p.markContainsSecret env st).1.nodeMarks a.node.id).containsSecret
                  = some true))
          ∧ ∃ added, (p.markContainsSecret env st).1.secretInteractingPaths
                = st.secretInteractingPaths ++ added
              ∧ (∀ i q, (i, q) ∈ added ↔
                  q = p ∧ ∃ a ∈ p.getAncestry.tail, env.getReferencedIndicator a = some i
                    ∧ p.node.data.referencedDeclaration ≠ some (i : Int))
              ∧ ∀ (i : Nat) (q : NodePath),
                  p.node.data.referencedDeclaration = some (i : Int) → (i, q) ∉ added)
      ∧ (∀ e, (p.markContainsSecret env st).2 = some e →
          ∃ before a after i,
            p.getAncestry.tail = before ++ a :: after
              ∧ env.getReferencedIndicator a = some i
              ∧ p.node.data.referencedDeclaration ≠ some (i : Int)
              ∧ env.addSecretInteractingPath i p = some e
              ∧ (∀ b ∈ before ++ [a],
                  ((p.markContainsSecret env st).1.pathMarks b.node.id).containsSecret = some true
                    ∧ ((p.markContainsSecret env st).1.nodeMarks b.node.id).containsSecret
                      = some true)
              ∧ (∀ k, (∀ b ∈ before ++ [a], b.node.id ≠ k) →
                  (p.markContainsSecret env st).1.pathMarks k = st.pathMarks k
                    ∧ (p.markContainsSecret env st).1.nodeMarks k = st.nodeMarks k)
              ∧ ∃ added, (p.markContainsSecret env st).1.secretInteractingPaths
                    = st.secretInteractingPaths ++ added
                  ∧ (∀ j q, (j, q) ∈ added ↔
                      q = p ∧ ∃ b ∈ before ++ [a], env.getReferencedIndicator b = some j
                        ∧ p.node.data.referencedDeclaration ≠ some (j : Int))
                  ∧ ∀ (j : Nat) (q : NodePath),
                      p.node.data.referencedDeclaration = some (j : Int) → (j, q) ∉ added) := by
    obtain ⟨r1, r2, _⟩ := p.markContainsSecret_run env st
    refine ⟨?_, ?_⟩
    · intro h
      rw [r1 h]
      obtain ⟨m1, m2, ⟨added, c1, c2⟩, _⟩ := p.markContainsSecret_effect env p.getAncestry.tail st
      refine ⟨rfl, ?_, added, c1, c2, ?_⟩
      · intro a ha
        have hany : p.getAncestry.tail.any (fun b => b.node.id == a.node.id) = true :=
          List.any_eq_true.mpr ⟨a, ha, by simp⟩
        simp [m1, m2, hany]
      · intro i q hi hmem
        obtain ⟨_, a, _, _, hne⟩ := (c2 i q).mp hmem
        exact hne hi
    · intro e he
      obtain ⟨before, a, after, i, h1, hi, hne, hthrows, hstate⟩ := r2 e he
      obtain ⟨m1, m2, ⟨added, c1, c2⟩, _⟩ := p.markContainsSecret_effect env (before ++ [a]) st
      refine ⟨before, a, after, i, h1, hi, hne, hthrows, ?_, ?_, ?_⟩
      · intro b hb
        have hany : (before ++ [a]).any (fun c => c.node.id == b.node.id) = true :=
          List.any_eq_true.mpr ⟨b, hb, by simp⟩
        rw [hstate, m1, m2, hany]
        exact ⟨rfl, rfl⟩
      · intro k hk
        have hany : (before ++ [a]).any (fun c => c.node.id == k) = false := by
          rw [List.any_eq_false]
          intro c hc
          simpa using hk c hc
        rw [hstate]
        simp only [m1, m2, hany, Bool.false_eq_true, if_false, and_self]
      · rw [hstate]
        refine ⟨added, c1, c2, ?_⟩
        intro j q hj hmem
        obtain ⟨_, b, _, _, hne2⟩ := (c2 j q).mp hmem
        exact hne2 hj
  have publicHalf : ((∀ i, env.addPublicInteractingPath i p = none) →
        (p.markContainsPublic env st).2 = none
          ∧ (∀ a ∈ p.getAncestry.tail,
              (((p.markContainsPublic env st).1.pathMarks a.node.id).containsPublic = some true
                ∧ ((p.markContainsPublic env st).1.nodeMarks a.node.id).containsPublic
                  = some true))
          ∧ ∃ added, (p.markContainsPublic env st).1.publicInteractingPaths
                = st.publicInteractingPaths ++ added
              ∧ (∀ i q, (i, q) ∈ added ↔
                  q = p ∧ ∃ a ∈ p.getAncestry.tail, env.getReferencedIndicator a = some i
                    ∧ p.node.data.referencedDeclaration ≠ some (i : Int))
              ∧ ∀ (i : Nat) (q : NodePath),
                  p.node.data.referencedDeclaration = some (i : Int) → (i, q) ∉ added)
      ∧ (∀ e, (p.markContainsPublic env st).2 = some e →
          ∃ before a after i,
            p.getAncestry.tail = before ++ a :: after
              ∧ env.getReferencedIndicator a = some i
              ∧ p.node.data.referencedDeclaration ≠ some (i : Int)
              ∧ env.addPublicInteractingPath i p = some e
              ∧ (∀ b ∈ before ++ [a],
                  ((p.markContainsPublic env st).1.pathMarks b.node.id).containsPublic = some true
                    ∧ ((p.markContainsPublic env st).1.nodeMarks b.node.id).containsPublic
                      = some true)
              ∧ (∀ k, (∀ b ∈ before ++ [a], b.node.id ≠ k) →
                  (p.markContainsPublic env st).1.pathMarks k = st.pathMarks k
                    ∧ (p.markContainsPublic env st).1.nodeMarks k = st.nodeMarks k)
              ∧ ∃ added, (p.markContainsPublic env st).1.publicInteractingPaths
                    = st.publicInteractingPaths ++ added
                  ∧ (∀ j q, (j, q) ∈ added ↔
                      q = p ∧ ∃ b ∈ before ++ [a], env.getReferencedIndicator b = some j
                        ∧ p.node.data.referencedDeclaration ≠ some (j : Int))
                  ∧ ∀ (j : Nat) (q : NodePath),
                      p.node.data.referencedDeclaration = some (j : Int) → (j, q) ∉ added) := by
    obtain ⟨r1, r2, _⟩ := p.markContainsPublic_run env st
    refine ⟨?_, ?_⟩
    · intro h
      rw [r1 h]
      obtain ⟨m1, m2, ⟨added, c1, c2⟩, _⟩ := p.markContainsPublic_effect env p.getAncestry.tail st
      refine ⟨rfl, ?_, added, c1, c2, ?_⟩
      · intro a ha
        have hany : p.getAncestry.tail.any (fun b => b.node.id == a.node.id) = true :=
          List.any_eq_true.mpr ⟨a, ha, by simp⟩
        simp [m1, m2, hany]
      · intro i q hi hmem
        obtain ⟨_, a, _, _, hne⟩ := (c2 i q).mp hmem
        exact hne hi
    · intro e he
      obtain ⟨before, a, after, i, h1, hi, hne, hthrows, hstate⟩ := r2 e he
      obtain ⟨m1, m2, ⟨added, c1, c2⟩, _⟩ := p.markContainsPublic_effect env (before ++ [a]) st
      refine ⟨before, a, after, i, h1, hi, hne, hthrows, ?_, ?_, ?_⟩
      · intro b hb
        have hany : (before ++ [a]).any (fun c => c.node.id == b.node.id) = true :=
          List.any_eq_true.mpr ⟨b, hb, by simp⟩
        rw [hstate, m1, m2, hany]
        exact ⟨rfl, rfl⟩
      · intro k hk
        have hany : (before ++ [a]).any (fun c => c.node.id == k) = false := by
          rw [List.any_eq_false]
          intro c hc
          simpa using hk c hc
        rw [hstate]
        simp only [m1, m2, hany, Bool.false_eq_true, if_false, and_self]
      · rw [hstate]
        refine ⟨added, c1, c2, ?_⟩
        intro j q hj hmem
        obtain ⟨_, b, _, _, hne2⟩ := (c2 j q).mp hmem
        exact hne2 hj
  exact ⟨secretHalf, publicHalf⟩

/-- Witness of C26: the key `k` of `balances[k] = 1;`, whose parent, the index access,
resolves to the indicator of `balances`.  With indicators that have the method, the index
access, the assignment and the statement are marked.  With the indicators of
`Indicator.mjs`, the call made for the index access throws a `TypeError`: the index access
is marked, the assignment and the statement are not. -/
theorem markContainsSecret_marks_and_registers_witness :
    (((Example.keyedKeyPath.markContainsSecret Example.keyedTaintEnv {}).1.pathMarks
          Example.keyedStatementPath.node.id).containsSecret = some true
        ∧ ((Example.keyedKeyPath.markContainsSecret Example.keyedTaintEnv {}).1.nodeMarks
          Example.keyedStatementPath.node.id).containsSecret = some true)
      ∧ (Example.keyedKeyPath.markContainsSecret Example.keyedTaintEnv {}).1.secretInteractingPaths
          = [(4, Example.keyedKeyPath)]
      ∧ (Example.keyedKeyPath.markContainsSecret Example.bareKeyedTaintEnv {}).2
          = some Example.missingSecretMethod
      ∧ ((Example.keyedKeyPath.markContainsSecret Example.bareKeyedTaintEnv {}).1.pathMarks
          Example.keyedAccessPath.node.id).containsSecret = some true
      ∧ ((Example.keyedKeyPath.markContainsSecret Example.bareKeyedTaintEnv {}).1.pathMarks
          Example.keyedAssignmentPath.node.id).containsSecret = none
      ∧ ((Example.keyedKeyPath.markContainsSecret Example.bareKeyedTaintEnv {}).1.pathMarks
          Example.keyedStatementPath.node.id).containsSecret = none
      ∧ (Example.keyedKeyPath.markContainsSecret Example.bareKeyedTaintEnv
          {}).1.secretInteractingPaths = [(4, Example.keyedKeyPath)] :=
  ⟨((markContainsSecret_marks_and_registers Example.keyedTaintEnv Example.keyedKeyPath
      {}).1.1 (fun _ => rfl)).2.1 Example.keyedStatementPath
      (List.mem_cons_of_mem _ (List.mem_cons_of_mem _ (List.mem_cons_self _ _))),
    rfl, rfl, by decide, by decide, by decide, rfl⟩

namespace interactsWithSecretVisitor

/-- The paths on which a sweep writes: those of an `Identifier` or of a
`VariableDeclarationStatement`. -/
theorem contains_target (t : NodePath) :
    ["Identifier", "VariableDeclarationStatement"].contains t.node.nodeType = true
      ↔ t.nodeType = "Identifier" ∨ t.nodeType = "VariableDeclarationStatement" := by
  simp [NodePath.nodeType]

/-- What one call of `markSubtreeInteractsWithSecret` writes. -/
theorem markSubtreeInteractsWithSecret_step (env : TaintEnv) (secretPath : NodePath)
    (st : TaintState) (t : NodePath) :
    (markSubtreeInteractsWithSecret env secretPath st t).secretInteractingPaths
        = st.secretInteractingPaths
          ++ (if ["Identifier", "VariableDeclarationStatement"].contains t.node.nodeType then
                match env.getReferencedIndicator t with
                | some i => if secretPath.node.id != t.node.id then [(i, secretPath)] else []
                | none => []
              else [])
      ∧ (markSubtreeInteractsWithSecret env secretPath st t).publicInteractingPaths
        = st.publicInteractingPaths
      ∧ (markSubtreeInteractsWithSecret env secretPath st t).pathMarks
        = (if ["Identifier", "VariableDeclarationStatement"].contains t.node.nodeType then
            Function.update st.pathMarks t.node.id
              { st.pathMarks t.node.id with interactsWithSecret := some true }
          else st.pathMarks)
      ∧ (markSubtreeInteractsWithSecret env secretPath st t).nodeMarks
        = (if ["Identifier", "VariableDeclarationStatement"].contains t.node.nodeType then
            Function.update st.nodeMarks t.node.id
              { st.nodeMarks t.node.id with interactsWithSecret := some true }
          else st.nodeMarks) := by
  unfold markSubtreeInteractsWithSecret
  cases ["Identifier", "VariableDeclarationStatement"].contains t.node.nodeType with
  | false => simp
  | true =>
    cases env.getReferencedIndicator t with
    | none => simp [TaintState.markPath, TaintState.markNode]
    | some i =>
      by_cases h : secretPath.node.id = t.node.id <;>
        simp [TaintState.markPath, TaintState.markNode, TaintState.addSecretInteractingPath, h]

/-- What one call of `markSubtreeInteractsWithPublic` writes. -/
theorem markSubtreeInteractsWithPublic_step (env : TaintEnv) (publicPath : NodePath)
    (st : TaintState) (t : NodePath) :
    (markSubtreeInteractsWithPublic env publicPath st t).publicInteractingPaths
        = st.publicInteractingPaths
          ++ (if ["Identifier", "VariableDeclarationStatement"].contains t.node.nodeType then
                match env.getReferencedIndicator t with
                | some i => if publicPath.node.id != t.node.id then [(i, publicPath)] else []
                | none => []
              else [])
      ∧ (markSubtreeInteractsWithPublic env publicPath st t).secretInteractingPaths
        = st.secretInteractingPaths
      ∧ (markSubtreeInteractsWithPublic env publicPath st t).pathMarks
        = (if ["Identifier", "VariableDeclarationStatement"].contains t.node.nodeType then
            Function.update st.pathMarks t.node.id
              { st.pathMarks t.node.id with interactsWithPublic := some true }
          else st.pathMarks)
      ∧ (markSubtreeInteractsWithPublic env publicPath st t).nodeMarks
        = (if ["Identifier", "VariableDeclarationStatement"].contains t.node.nodeType then
            Function.update st.nodeMarks t.node.id
              { st.nodeMarks t.node.id with interactsWithPublic := some true }
          else st.nodeMarks) := by
  unfold markSubtreeInteractsWithPublic
  cases ["Identifier", "VariableDeclarationStatement"].contains t.node.nodeType with
  | false => simp
  | true =>
    cases env.getReferencedIndicator t with
    | none => simp [TaintState.markPath, TaintState.markNode]
    | some i =>
      by_cases h : publicPath.node.id = t.node.id <;>
        simp [TaintState.markPath, TaintState.markNode, TaintState.addPublicInteractingPath, h]

/-- Membership in the calls of one visit of a sweep. -/
theorem mem_sweep_calls (env : TaintEnv) (origin t : NodePath) (i : Nat) (q : NodePath) :
    (i, q) ∈ (if ["Identifier", "VariableDeclarationStatement"].contains t.node.nodeType then
                match env.getReferencedIndicator t with
                | some i => if origin.node.id != t.node.id then [(i, origin)] else []
                | none => []
              else [])
      ↔ q = origin
          ∧ (t.nodeType = "Identifier" ∨ t.nodeType = "VariableDeclarationStatement")
          ∧ env.getReferencedIndicator t = some i ∧ origin.node.id ≠ t.node.id := by
  rw [← contains_target]
  cases ["Identifier", "VariableDeclarationStatement"].contains t.node.nodeType with
  | false => simp
  | true =>
    cases env.getReferencedIndicator t with
    | none => simp
    | some j =>
      by_cases h : origin.node.id = t.node.id
      · simp [h]
      · simp only [if_true, bne_iff_ne, ne_eq, h, not_false_eq_true, List.mem_singleton,
          Prod.mk.injEq, Option.some.injEq, true_and, and_true]
        constructor
        · rintro ⟨rfl, rfl⟩
          exact ⟨rfl, rfl⟩
        · rintro ⟨rfl, rfl⟩
          exact ⟨rfl, rfl⟩

/-- The marks and the calls of a sweep with `markSubtreeInteractsWithSecret`. -/
theorem secret_sweep_effect (env : TaintEnv) (origin : NodePath) (visited : List NodePath)
    (st : TaintState) :
    (∀ k, (visited.foldl (markSubtreeInteractsWithSecret env origin) st).pathMarks k
        = if visited.any (fun t =>
              ["Identifier", "VariableDeclarationStatement"].contains t.node.nodeType
                && t.node.id == k) then
            { st.pathMarks k with interactsWithSecret := some true }
          else st.pathMarks k)
      ∧ (∀ k, (visited.foldl (markSubtreeInteractsWithSecret env origin) st).nodeMarks k
        = if visited.any (fun t =>
              ["Identifier", "VariableDeclarationStatement"].contains t.node.nodeType
                && t.node.id == k) then
            { st.nodeMarks k with interactsWithSecret := some true }
          else st.nodeMarks k)
      ∧ (∃ added, (visited.foldl (markSubtreeInteractsWithSecret env origin) st).secretInteractingPaths
            = st.secretInteractingPaths ++ added
          ∧ ∀ i q, (i, q) ∈ added ↔
              q = origin ∧ ∃ t ∈ visited,
                (t.nodeType = "Identifier" ∨ t.nodeType = "VariableDeclarationStatement")
                  ∧ env.getReferencedIndicator t = some i ∧ origin.node.id ≠ t.node.id)
      ∧ (visited.foldl (markSubtreeInteractsWithSecret env origin) st).publicInteractingPaths
          = st.publicInteractingPaths := by
  refine ⟨?_, ?_, ?_, ?_⟩
  · intro k
    exact TaintState.foldl_marks (markSubtreeInteractsWithSecret env origin)
      TaintState.pathMarks (fun m => { m with interactsWithSecret := some true })
      (fun t => ["Identifier", "VariableDeclarationStatement"].contains t.node.nodeType)
      (fun _ => rfl)
      (fun st t => (markSubtreeInteractsWithSecret_step env origin st t).2.2.1) visited st k
  · intro k
    exact TaintState.foldl_marks (markSubtreeInteractsWithSecret env origin)
      TaintState.nodeMarks (fun m => { m with interactsWithSecret := some true })
      (fun t => ["Identifier", "VariableDeclarationStatement"].contains t.node.nodeType)
      (fun _ => rfl)
      (fun st t => (markSubtreeInteractsWithSecret_step env origin st t).2.2.2) visited st k
  · obtain ⟨added, h1, h2⟩ := TaintState.foldl_calls (markSubtreeInteractsWithSecret env origin)
      TaintState.secretInteractingPaths _
      (fun st t => (markSubtreeInteractsWithSecret_step env origin st t).1) visited st
    refine ⟨added, h1, ?_⟩
    intro i q
    rw [h2]
    simp only [mem_sweep_calls]
    constructor
    · rintro ⟨t, ht, hq, htype, hi, hne⟩
      exact ⟨hq, t, ht, htype, hi, hne⟩
    · rintro ⟨hq, t, ht, htype, hi, hne⟩
      exact ⟨t, ht, hq, htype, hi, hne⟩
  · exact TaintState.foldl_frame (markSubtreeInteractsWithSecret env origin)
      TaintState.publicInteractingPaths
      (fun st t => (markSubtreeInteractsWithSecret_step env origin st t).2.1) visited st

/-- The marks and the calls of a sweep with `markSubtreeInteractsWithPublic`. -/
theorem public_sweep_effect (env : TaintEnv) (origin : NodePath) (visited : List NodePath)
    (st : TaintState) :
    (∀ k, (visited.foldl (markSubtreeInteractsWithPublic env origin) st).pathMarks k
        = if visited.any (fun t =>
              ["Identifier", "VariableDeclarationStatement"].contains t.node.nodeType
                && t.node.id == k) then
            { st.pathMarks k with interactsWithPublic := some true }
          else st.pathMarks k)
      ∧ (∀ k, (visited.foldl (markSubtreeInteractsWithPublic env origin) st).nodeMarks k
        = if visited.any (fun t =>
              ["Identifier", "VariableDeclarationStatement"].contains t.node.nodeType
                && t.node.id == k) then
            { st.nodeMarks k with interactsWithPublic := some true }
          else st.nodeMarks k)
      ∧ (∃ added, (visited.foldl (markSubtreeInteractsWithPublic env origin) st).publicInteractingPaths
            = st.publicInteractingPaths ++ added
          ∧ ∀ i q, (i, q) ∈ added ↔
              q = origin ∧ ∃ t ∈ visited,
                (t.nodeType = "Identifier" ∨ t.nodeType = "VariableDeclarationStatement")
                  ∧ env.getReferencedIndicator t = some i ∧ origin.node.id ≠ t.node.id)
      ∧ (visited.foldl (markSubtreeInteractsWithPublic env origin) st).secretInteractingPaths
          = st.secretInteractingPaths := by
  refine ⟨?_, ?_, ?_, ?_⟩
  · intro k
    exact TaintState.foldl_marks (markSubtreeInteractsWithPublic env origin)
      TaintState.pathMarks (fun m => { m with interactsWithPublic := some true })
      (fun t => ["Identifier", "VariableDeclarationStatement"].contains t.node.nodeType)
      (fun _ => rfl)
      (fun st t => (markSubtreeInteractsWithPublic_step env origin st t).2.2.1) visited st k
  · intro k
    exact TaintState.foldl_marks (markSubtreeInteractsWithPublic env origin)
      TaintState.nodeMarks (fun m => { m with interactsWithPublic := some true })
      (fun t => ["Identifier", "VariableDeclarationStatement"].contains t.node.nodeType)
      (fun _ => rfl)
      (fun st t => (markSubtreeInteractsWithPublic_step env origin st t).2.2.2) visited st k
  · obtain ⟨added, h1, h2⟩ := TaintState.foldl_calls (markSubtreeInteractsWithPublic env origin)
      TaintState.publicInteractingPaths _
      (fun st t => (markSubtreeInteractsWithPublic_step env origin st t).1) visited st
    refine ⟨added, h1, ?_⟩
    intro i q
    rw [h2]
    simp only [mem_sweep_calls]
    constructor
    · rintro ⟨t, ht, hq, htype, hi, hne⟩
      exact ⟨hq, t, ht, htype, hi, hne⟩
    · rintro ⟨hq, t, ht, htype, hi, hne⟩
      exact ⟨t, ht, hq, htype, hi, hne⟩
  · exact TaintState.foldl_frame (markSubtreeInteractsWithPublic env origin)
      TaintState.secretInteractingPaths
      (fun st t => (markSubtreeInteractsWithPublic_step env origin st t).2.1) visited st

/-- A visit of the sweep throws what the call it makes throws. -/
theorem markSubtreeInteractsWithSecret_thrown_iff (env : TaintEnv) (origin t : NodePath)
    (e : Exception) :
    markSubtreeInteractsWithSecret.thrown env origin t = some e ↔
      ∃ i, (t.nodeType = "Identifier" ∨ t.nodeType = "VariableDeclarationStatement")
        ∧ env.getReferencedIndicator t = some i ∧ origin.node.id ≠ t.node.id
        ∧ env.addSecretInteractingPath i origin = some e := by
  unfold markSubtreeInteractsWithSecret.thrown
  rw [← contains_target]
  cases ["Identifier", "VariableDeclarationStatement"].contains t.node.nodeType with
  | false => simp
  | true =>
    cases env.getReferencedIndicator t with
    | none => simp
    | some j =>
      by_cases h : origin.node.id = t.node.id
      · simp [h]
      · simp [h]

/-- No visit of the sweep throws when the calls return. -/
theorem markSubtreeInteractsWithSecret_thrown_of_returns (env : TaintEnv) (origin : NodePath)
    (h : ∀ i, env.addSecretInteractingPath i origin = none) (t : NodePath) :
    markSubtreeInteractsWithSecret.thrown env origin t = none := by
  unfold markSubtreeInteractsWithSecret.thrown
  split
  · rfl
  · cases env.getReferencedIndicator t with
    | none => rfl
    | some j =>
      simp only [h]
      split <;> rfl

/-- The sweep runs the callback on the paths visited up to the first call that throws; when
the calls return, on all of them. -/
theorem sweepSecret_run (env : TaintEnv) (origin statement : NodePath) (st : TaintState) :
    ((∀ i, env.addSecretInteractingPath i origin = none) →
        sweepSecret env origin statement st
          = ((env.traversePathsFast statement).foldl
              (markSubtreeInteractsWithSecret env origin) st, none))
      ∧ ∃ ran : List NodePath, (∀ t ∈ ran, t ∈ env.traversePathsFast statement)
          ∧ (sweepSecret env origin statement st).1
            = ran.foldl (markSubtreeInteractsWithSecret env origin) st := by
  unfold sweepSecret
  rw [TaintState.forEach_eq]
  refine ⟨?_, TaintState.turnsRun (markSubtreeInteractsWithSecret.thrown env origin)
    (env.traversePathsFast statement),
    fun t ht => TaintState.mem_of_mem_turnsRun _ t _ ht, rfl⟩
  intro h
  obtain ⟨h1, h2⟩ := TaintState.turnsRun_of_returns
    (markSubtreeInteractsWithSecret.thrown env origin) (env.traversePathsFast statement)
    (fun t _ => markSubtreeInteractsWithSecret_thrown_of_returns env origin h t)
  rw [h1, h2]

/-- A visit of the sweep throws what the call it makes throws. -/
theorem markSubtreeInteractsWithPublic_thrown_iff (env : TaintEnv) (origin t : NodePath)
    (e : Exception) :
    markSubtreeInteractsWithPublic.thrown env origin t = some e ↔
      ∃ i, (t.nodeType = "Identifier" ∨ t.nodeType = "VariableDeclarationStatement")
        ∧ env.getReferencedIndicator t = some i ∧ origin.node.id ≠ t.node.id
        ∧ env.addPublicInteractingPath i origin = some e := by
  unfold markSubtreeInteractsWithPublic.thrown
  rw [← contains_target]
  cases ["Identifier", "VariableDeclarationStatement"].contains t.node.nodeType with
  | false => simp
  | true =>
    cases env.getReferencedIndicator t with
    | none => simp
    | some j =>
      by_cases h : origin.node.id = t.node.id
      · simp [h]
      · simp [h]

/-- No visit of the sweep throws when the calls return. -/
theorem markSubtreeInteractsWithPublic_thrown_of_returns (env : TaintEnv) (origin : NodePath)
    (h : ∀ i, env.addPublicInteractingPath i origin = none) (t : NodePath) :
    markSubtreeInteractsWithPublic.thrown env origin t = none := by
  unfold markSubtreeInteractsWithPublic.thrown
  split
  · rfl
  · cases env.getReferencedIndicator t with
    | none => rfl
    | some j =>
      simp only [h]
      split <;> rfl

/-- The sweep runs the callback on the paths visited up to the first call that throws; when
the calls return, on all of them. -/
theorem sweepPublic_run (env : TaintEnv) (origin statement : NodePath) (st : TaintState) :
    ((∀ i, env.addPublicInteractingPath i origin = none) →
        sweepPublic env origin statement st
          = ((env.traversePathsFast statement).foldl
              (markSubtreeInteractsWithPublic env origin) st, none))
      ∧ ∃ ran : List NodePath, (∀ t ∈ ran, t ∈ env.traversePathsFast statement)
          ∧ (sweepPublic env origin statement st).1
            = ran.foldl (markSubtreeInteractsWithPublic env origin) st := by
  unfold sweepPublic
  rw [TaintState.forEach_eq]
  refine ⟨?_, TaintState.turnsRun (markSubtreeInteractsWithPublic.thrown env origin)
    (env.traversePathsFast statement),
    fun t ht => TaintState.mem_of_mem_turnsRun _ t _ ht, rfl⟩
  intro h
  obtain ⟨h1, h2⟩ := TaintState.turnsRun_of_returns
    (markSubtreeInteractsWithPublic.thrown env origin) (env.traversePathsFast statement)
    (fun t _ => markSubtreeInteractsWithPublic_thrown_of_returns env origin h t)
  rw [h1, h2]

end interactsWithSecretVisitor

/-- The calls of the `Identifier.exit` handler, for a path `p` that resolves to a secret
variable and has an enclosing statement, when the calls `addSecretInteractingPath(p)` return:
the handler returns, and the calls are those of `markContainsSecret()` followed by those of
the sweep; the sweep registers `p` on an indicator `i` exactly when it visits a path `t` of
an `Identifier` or of a `VariableDeclarationStatement` that resolves to `i` and whose node is
not the node of `p` (`p.node.id !== t.node.id`).  The same holds of a public state variable,
with `addPublicInteractingPath`. -/
theorem identifier_exit_calls (env : TaintEnv) (p statement : NodePath)
    (binding : Binding) (st : TaintState)
    (hb : env.getReferencedBinding p = some binding)
    (he : interactsWithSecretVisitor.Identifier.expressionPath p = some statement) :
    (truthy binding.isSecret = true → (∀ i, env.addSecretInteractingPath i p = none) →
        (interactsWithSecretVisitor.Identifier.exit env p st).2 = none
          ∧ ∃ fromAncestors fromSweep,
            (interactsWithSecretVisitor.Identifier.exit env p st).1.secretInteractingPaths
                = st.secretInteractingPaths ++ fromAncestors ++ fromSweep
              ∧ (∀ i q, (i, q) ∈ fromAncestors ↔
                  q = p ∧ ∃ a ∈ p.getAncestry.tail, env.getReferencedIndicator a = some i
                    ∧ p.node.data.referencedDeclaration ≠ some (i : Int))
              ∧ (∀ i q, (i, q) ∈ fromSweep ↔
                  q = p ∧ ∃ t ∈ env.traversePathsFast statement,
                    (t.nodeType = "Identifier" ∨ t.nodeType = "VariableDeclarationStatement")
                      ∧ env.getReferencedIndicator t = some i ∧ p.node.id ≠ t.node.id))
      ∧ (truthy binding.isSecret = false → truthy binding.stateVariable = true →
        (∀ i, env.addPublicInteractingPath i p = none) →
        (interactsWithSecretVisitor.Identifier.exit env p st).2 = none
          ∧ ∃ fromAncestors fromSweep,
            (interactsWithSecretVisitor.Identifier.exit env p st).1.publicInteractingPaths
                = st.publicInteractingPaths ++ fromAncestors ++ fromSweep
              ∧ (∀ i q, (i, q) ∈ fromAncestors ↔
                  q = p ∧ ∃ a ∈ p.getAncestry.tail, env.getReferencedIndicator a = some i
                    ∧ p.node.data.referencedDeclaration ≠ some (i : Int))
              ∧ (∀ i q, (i, q) ∈ fromSweep ↔
                  q = p ∧ ∃ t ∈ env.traversePathsFast statement,
                    (t.nodeType = "Identifier" ∨ t.nodeType = "VariableDeclarationStatement")
                      ∧ env.getReferencedIndicator t = some i ∧ p.node.id ≠ t.node.id)) := by
  constructor
  · intro hs hreturns
    obtain ⟨_, _, ⟨fromAncestors, a1, a2⟩, _⟩ :=
      p.markContainsSecret_effect env p.getAncestry.tail st
    obtain ⟨_, _, ⟨fromSweep, s1, s2⟩, _⟩ :=
      interactsWithSecretVisitor.secret_sweep_effect env p (env.traversePathsFast statement)
        (p.getAncestry.tail.foldl (NodePath.markContainsSecret.step env p) st)
    have hexit : interactsWithSecretVisitor.Identifier.exit env p st
        = ((env.traversePathsFast statement).foldl
            (interactsWithSecretVisitor.markSubtreeInteractsWithSecret env p)
            (p.getAncestry.tail.foldl (NodePath.markContainsSecret.step env p) st), none) := by
      simp only [interactsWithSecretVisitor.Identifier.exit, hb, hs, if_true, he,
        (p.markContainsSecret_run env st).1 hreturns]
      exact (interactsWithSecretVisitor.sweepSecret_run env p statement _).1 hreturns
    rw [hexit]
    refine ⟨rfl, fromAncestors, fromSweep, ?_, a2, s2⟩
    simp only
    rw [s1, a1]
  · intro hs hv hreturns
    obtain ⟨_, _, ⟨fromAncestors, a1, a2⟩, _⟩ :=
      p.markContainsPublic_effect env p.getAncestry.tail st
    obtain ⟨_, _, ⟨fromSweep, s1, s2⟩, _⟩ :=
      interactsWithSecretVisitor.public_sweep_effect env p (env.traversePathsFast statement)
        (p.getAncestry.tail.foldl (NodePath.markContainsPublic.step env p) st)
    have hexit : interactsWithSecretVisitor.Identifier.exit env p st
        = ((env.traversePathsFast statement).foldl
            (interactsWithSecretVisitor.markSubtreeInteractsWithPublic env p)
            (p.getAncestry.tail.foldl (NodePath.markContainsPublic.step env p) st), none) := by
      simp only [interactsWithSecretVisitor.Identifier.exit, hb, hs, hv, if_true, he,
        Bool.false_eq_true, if_false, (p.markContainsPublic_run env st).1 hreturns]
      exact (interactsWithSecretVisitor.sweepPublic_run env p statement _).1 hreturns
    rw [hexit]
    refine ⟨rfl, fromAncestors, fromSweep, ?_, a2, s2⟩
    simp only
    rw [s1, a1]

/-- Claim C27 does not hold of the source.  In `x = x + 1;` with `x` a secret variable, the
`Identifier.exit` handler, run on the path of the `x` on the left, sweeps the statement; on
the visit of the `x` on the right, whose node is another one, the test
`secretPath.node.id !== node.id` holds and the path of the left `x` is registered on the
indicator of `x`, the variable that the left `x` references.  `markContainsSecret()` makes no
call here: no ancestor of the left `x` resolves to an indicator. -/
theorem identifier_exit_registers_on_own_indicator :
    (Example.taintEnv.getReferencedBinding Example.selfLhsPath).map Binding.isSecret
        = some (some true)
      ∧ Example.selfLhsPath.node.data.referencedDeclaration = some 90
      ∧ Example.taintEnv.getReferencedIndicator Example.selfLhsPath = some 90
      ∧ Example.taintEnv.getReferencedIndicator Example.selfRhsPath = some 90
      ∧ Example.selfRhsPath ∈ Example.taintEnv.traversePathsFast Example.selfStatementPath
      ∧ interactsWithSecretVisitor.Identifier.expressionPath Example.selfLhsPath
          = some Example.selfStatementPath
      ∧ (Example.selfLhsPath.markContainsSecret Example.taintEnv {}).1.secretInteractingPaths
          = []
      ∧ (interactsWithSecretVisitor.Identifier.exit Example.taintEnv Example.selfLhsPath
            {}).1.secretInteractingPaths = [(90, Example.selfLhsPath)] :=
  ⟨rfl, rfl, rfl, rfl,
    List.mem_cons_of_mem _ (List.mem_cons_of_mem _ (List.mem_cons_of_mem _
      (List.mem_cons_of_mem _ (List.mem_cons_self _ _)))),
    rfl, rfl, rfl⟩

/-- Claim C28, as stated, fails for the call of `bank.deposit(x);`, an external function
call.  After the handler the path of the call has neither `containsPublic` nor
`interactsWithPublic`: `markContainsPublic()` writes on the proper ancestors of the call, and
the sweep writes on the paths of an `Identifier` or of a `VariableDeclarationStatement`.  This
is so with indicators whose method `addPublicInteractingPath` returns, where the handler
returns, and with the indicators of `Indicator.mjs`, which have no such method, where the
handler throws at the visit of `bank` and the argument `x` is left unmarked as well. -/
theorem functionCall_exit_call_counterexample :
    Example.depositCallPath.isExternalFunctionCall Example.taintEnv = .ok true
      ∧ (interactsWithSecretVisitor.FunctionCall.exit Example.taintEnv Example.depositCallPath
            {}).2 = none
      ∧ ((interactsWithSecretVisitor.FunctionCall.exit Example.taintEnv Example.depositCallPath
            {}).1.pathMarks Example.depositCallPath.node.id).containsPublic = none
      ∧ ((interactsWithSecretVisitor.FunctionCall.exit Example.taintEnv Example.depositCallPath
            {}).1.pathMarks Example.depositCallPath.node.id).interactsWithPublic = none
      ∧ ((interactsWithSecretVisitor.FunctionCall.exit Example.taintEnv Example.depositCallPath
            {}).1.pathMarks Example.depositStatementPath.node.id).containsPublic = some true
      ∧ ((interactsWithSecretVisitor.FunctionCall.exit Example.taintEnv Example.depositCallPath
            {}).1.pathMarks Example.depositArgumentPath.node.id).interactsWithPublic
          = some true
      ∧ (interactsWithSecretVisitor.FunctionCall.exit Example.bareTaintEnv
            Example.depositCallPath {}).2 = some Example.missingPublicMethod
      ∧ ((interactsWithSecretVisitor.FunctionCall.exit Example.bareTaintEnv
            Example.depositCallPath {}).1.pathMarks
              Example.depositCallPath.node.id).containsPublic = none
      ∧ ((interactsWithSecretVisitor.FunctionCall.exit Example.bareTaintEnv
            Example.depositCallPath {}).1.pathMarks
              Example.depositCallPath.node.id).interactsWithPublic = none
      ∧ ((interactsWithSecretVisitor.FunctionCall.exit Example.bareTaintEnv
            Example.depositCallPath {}).1.pathMarks
              Example.depositArgumentPath.node.id).interactsWithPublic = none :=
  ⟨rfl, rfl, by decide, by decide, by decide, by decide, rfl, by decide, by decide,
    by decide⟩

/-- The marks after the `FunctionCall.exit` handler of an external function call with an
enclosing statement, however the handler ends: those of turns of `markContainsPublic()` on
some of the proper ancestors, then of visits of the sweep on some of the paths of the
statement. -/
theorem functionCall_exit_state (env : TaintEnv) (p statement : NodePath) (st : TaintState)
    (hext : p.isExternalFunctionCall env = .ok true)
    (he : interactsWithSecretVisitor.FunctionCall.expressionPath p = some statement) :
    ∃ ancestors visited : List NodePath,
      (∀ a ∈ ancestors, a ∈ p.getAncestry.tail)
        ∧ (∀ t ∈ visited, t ∈ env.traversePathsFast statement)
        ∧ (interactsWithSecretVisitor.FunctionCall.exit env p st).1
          = visited.foldl (interactsWithSecretVisitor.markSubtreeInteractsWithPublic env p)
              (ancestors.foldl (NodePath.markContainsPublic.step env p) st) := by
  have hmark : p.markContainsPublic env st
      = ((TaintState.turnsRun (NodePath.markContainsPublic.thrown env p)
            p.getAncestry.tail).foldl (NodePath.markContainsPublic.step env p) st,
          TaintState.loopThrown (NodePath.markContainsPublic.thrown env p)
            p.getAncestry.tail) := by
    unfold NodePath.markContainsPublic
    rw [TaintState.forEach_eq]
  simp only [interactsWithSecretVisitor.FunctionCall.exit, hext, hmark, he]
  cases TaintState.loopThrown (NodePath.markContainsPublic.thrown env p) p.getAncestry.tail with
  | some e =>
    exact ⟨_, [], fun a ha => TaintState.mem_of_mem_turnsRun _ a _ ha, by simp, rfl⟩
  | none =>
    obtain ⟨_, ran, hran, hstate⟩ :=
      interactsWithSecretVisitor.sweepPublic_run env p statement
        ((TaintState.turnsRun (NodePath.markContainsPublic.thrown env p)
          p.getAncestry.tail).foldl (NodePath.markContainsPublic.step env p) st)
    exact ⟨_, ran, fun a ha => TaintState.mem_of_mem_turnsRun _ a _ ha, hran, hstate⟩

/-- Claim C28, amended.  For every path of an external function call that has an enclosing
statement (an `ExpressionStatement` among the path and its ancestors, or else a parent path),
the marks of the call path itself and of its node are after the `FunctionCall.exit` handler
what they were before, however the handler ends (no other node having the `id` of the
call).  When the calls `addPublicInteractingPath` return, the handler returns; it sets
`containsPublic` on every proper ancestor path of the call and on its node, and
`interactsWithPublic` on every path of an `Identifier` or of a `VariableDeclarationStatement`
that the sweep of the statement visits and on its node; it registers the call path on the
indicators of those paths. -/
theorem functionCall_exit_marks (env : TaintEnv) (p statement : NodePath) (st : TaintState)
    (hext : p.isExternalFunctionCall env = .ok true)
    (he : interactsWithSecretVisitor.FunctionCall.expressionPath p = some statement)
    (hancestors : ∀ a ∈ p.getAncestry.tail, a.node.id ≠ p.node.id)
    (hvisited : ∀ t ∈ env.traversePathsFast statement,
      t.node.id = p.node.id → t.nodeType = "FunctionCall") :
    ((interactsWithSecretVisitor.FunctionCall.exit env p st).1.pathMarks p.node.id
          = st.pathMarks p.node.id
        ∧ (interactsWithSecretVisitor.FunctionCall.exit env p st).1.nodeMarks p.node.id
          = st.nodeMarks p.node.id)
      ∧ ((∀ i, env.addPublicInteractingPath i p = none) →
        (interactsWithSecretVisitor.FunctionCall.exit env p st).2 = none
          ∧ (∀ a ∈ p.getAncestry.tail,
              ((interactsWithSecretVisitor.FunctionCall.exit env p st).1.pathMarks
                  a.node.id).containsPublic = some true
                ∧ ((interactsWithSecretVisitor.FunctionCall.exit env p st).1.nodeMarks
                  a.node.id).containsPublic = some true)
          ∧ (∀ t ∈ env.traversePathsFast statement,
              t.nodeType = "Identifier" ∨ t.nodeType = "VariableDeclarationStatement" →
              ((interactsWithSecretVisitor.FunctionCall.exit env p st).1.pathMarks
                  t.node.id).interactsWithPublic = some true
                ∧ ((interactsWithSecretVisitor.FunctionCall.exit env p st).1.nodeMarks
                  t.node.id).interactsWithPublic = some true)
          ∧ (∃ fromAncestors fromSweep,
              (interactsWithSecretVisitor.FunctionCall.exit env p st).1.publicInteractingPaths
                  = st.publicInteractingPaths ++ fromAncestors ++ fromSweep
                ∧ (∀ i q, (i, q) ∈ fromAncestors ↔
                    q = p ∧ ∃ a ∈ p.getAncestry.tail, env.getReferencedIndicator a = some i
                      ∧ p.node.data.referencedDeclaration ≠ some (i : Int))
                ∧ (∀ i q, (i, q) ∈ fromSweep ↔
                    q = p ∧ ∃ t ∈ env.traversePathsFast statement,
                      (t.nodeType = "Identifier" ∨ t.nodeType = "VariableDeclarationStatement")
                        ∧ env.getReferencedIndicator t = some i ∧ p.node.id ≠ t.node.id))) := by
  refine ⟨?_, ?_⟩
  · obtain ⟨ancestors, visited, hsubA, hsubV, hstate⟩ :=
      functionCall_exit_state env p statement st hext he
    obtain ⟨a1, a2, _, _⟩ := p.markContainsPublic_effect env ancestors st
    obtain ⟨s1, s2, _, _⟩ :=
      interactsWithSecretVisitor.public_sweep_effect env p visited
        (ancestors.foldl (NodePath.markContainsPublic.step env p) st)
    have hnoAncestor : ancestors.any (fun a => a.node.id == p.node.id) = false := by
      rw [List.any_eq_false]
      intro a ha
      simpa using hancestors a (hsubA a ha)
    have hnoTarget : visited.any (fun t =>
        ["Identifier", "VariableDeclarationStatement"].contains t.node.nodeType
          && t.node.id == p.node.id) = false := by
      rw [List.any_eq_false]
      intro t ht
      by_cases hid : t.node.id = p.node.id
      · have htype : t.node.nodeType = "FunctionCall" := hvisited t (hsubV t ht) hid
        simp [htype]
      · simp [hid]
    rw [hstate]
    constructor
    · simp only [s1, hnoTarget, a1, hnoAncestor]
      rfl
    · simp only [s2, hnoTarget, a2, hnoAncestor]
      rfl
  · intro hreturns
    obtain ⟨a1, a2, ⟨fromAncestors, a3, a4⟩, _⟩ :=
      p.markContainsPublic_effect env p.getAncestry.tail st
    obtain ⟨s1, s2, ⟨fromSweep, s3, s4⟩, _⟩ :=
      interactsWithSecretVisitor.public_sweep_effect env p (env.traversePathsFast statement)
        (p.getAncestry.tail.foldl (NodePath.markContainsPublic.step env p) st)
    have hexit : interactsWithSecretVisitor.FunctionCall.exit env p st
        = ((env.traversePathsFast statement).foldl
            (interactsWithSecretVisitor.markSubtreeInteractsWithPublic env p)
            (p.getAncestry.tail.foldl (NodePath.markContainsPublic.step env p) st), none) := by
      simp only [interactsWithSecretVisitor.FunctionCall.exit, hext, he,
        (p.markContainsPublic_run env st).1 hreturns]
      exact (interactsWithSecretVisitor.sweepPublic_run env p statement _).1 hreturns
    rw [hexit]
    refine ⟨rfl, ?_, ?_, ⟨fromAncestors, fromSweep, ?_, a4, s4⟩⟩
    · intro a ha
      have hany : p.getAncestry.tail.any (fun b => b.node.id == a.node.id) = true :=
        List.any_eq_true.mpr ⟨a, ha, by simp⟩
      simp only [s1, s2, a1, a2, hany, if_true]
      constructor <;> split <;> rfl
    · intro t ht htype
      have htarget := (interactsWithSecretVisitor.contains_target t).mpr htype
      have hany : (env.traversePathsFast statement).any (fun u =>
          ["Identifier", "VariableDeclarationStatement"].contains u.node.nodeType
            && u.node.id == t.node.id) = true := by
        rw [List.any_eq_true]
        exact ⟨t, ht, by rw [htarget]; simp⟩
      rw [s1, s2, hany]
      exact ⟨rfl, rfl⟩
    · simp only
      rw [s3, a3]

/-- Witness of C28, amended: the call of `bank.deposit(x);`, with indicators that have the
method and with those of `Indicator.mjs`. -/
theorem functionCall_exit_marks_witness :
    ((interactsWithSecretVisitor.FunctionCall.exit Example.bareTaintEnv Example.depositCallPath
          {}).1.pathMarks Example.depositCallPath.node.id = {}
        ∧ (interactsWithSecretVisitor.FunctionCall.exit Example.bareTaintEnv
          Example.depositCallPath {}).1.nodeMarks Example.depositCallPath.node.id = {})
      ∧ (interactsWithSecretVisitor.FunctionCall.exit Example.taintEnv Example.depositCallPath
          {}).2 = none :=
  ⟨(functionCall_exit_marks Example.bareTaintEnv Example.depositCallPath
      Example.depositStatementPath {} rfl rfl (by decide) (by decide)).1,
    ((functionCall_exit_marks Example.taintEnv Example.depositCallPath
      Example.depositStatementPath {} rfl rfl (by decide) (by decide)).2 (fun _ => rfl)).1⟩

/-! ## The decorator check -/

/-- Claim C29 does not hold of the source for an identifier without a binding.  The handler
reads `varDec.stateVariable` on what `scope.findReferencedBinding(node)` returned without
testing it, so when the scope finds no binding (as for the `msg` of `msg.sender`) it throws a
`TypeError`, although no state variable is involved.  For every identifier, the handler
throws exactly when there is no binding, or the binding is a state variable (`stateVariable`)
that is not secret (`secretVariable`) and the node is marked `isUnknown`.  With a binding,
what it throws is the error that names the identifier; a node marked `isKnown` and not
`isUnknown`, on a state variable that is not secret, returns with one warning logged; a
binding that is not a state variable returns with the binding as it was and nothing logged. -/
theorem decorator_exit_raises_iff (node : Node) (varDec : Option Binding) :
    ((∃ e, decoratorVisitor.Identifier.exit node varDec = .error e) ↔
        varDec = none
          ∨ ∃ binding, varDec = some binding ∧ truthy binding.stateVariable = true
              ∧ truthy binding.secretVariable = false ∧ truthy node.isUnknown = true)
      ∧ decoratorVisitor.Identifier.exit node none
          = .error (.TypeError "Cannot read properties of null (reading stateVariable)")
      ∧ (∀ binding e, decoratorVisitor.Identifier.exit node (some binding) = .error e →
          e = .Error ("Identifier " ++ templateString node.name
                ++ " is marked as unknown but is not secret."))
      ∧ (∀ binding : Binding, truthy binding.stateVariable = true →
          truthy binding.secretVariable = false →
          truthy node.isKnown = true → truthy node.isUnknown = false →
          decoratorVisitor.Identifier.exit node (some binding)
            = .ok ({ binding with isKnown := node.isKnown },
                ["PEDANTIC: a conventional smart contract state variable ("
                  ++ templateString node.name ++ ") is \x27known\x27 by default"]))
      ∧ (∀ binding : Binding, truthy binding.stateVariable = false →
          decoratorVisitor.Identifier.exit node (some binding) = .ok (binding, [])) := by
  have key : ∀ binding : Binding,
      ((∃ e, decoratorVisitor.Identifier.exit node (some binding) = .error e) ↔
          truthy binding.stateVariable = true ∧ truthy binding.secretVariable = false
            ∧ truthy node.isUnknown = true)
        ∧ (∀ e, decoratorVisitor.Identifier.exit node (some binding) = .error e →
            e = .Error ("Identifier " ++ templateString node.name
                  ++ " is marked as unknown but is not secret."))
        ∧ (truthy binding.stateVariable = true → truthy binding.secretVariable = false →
            truthy node.isKnown = true → truthy node.isUnknown = false →
            decoratorVisitor.Identifier.exit node (some binding)
              = .ok ({ binding with isKnown := node.isKnown },
                  ["PEDANTIC: a conventional smart contract state variable ("
                    ++ templateString node.name ++ ") is \x27known\x27 by default"]))
        ∧ (truthy binding.stateVariable = false →
            decoratorVisitor.Identifier.exit node (some binding) = .ok (binding, [])) := by
    intro binding
    simp only [decoratorVisitor.Identifier.exit]
    generalize truthy binding.stateVariable = isState
    generalize truthy binding.secretVariable = isSecret
    generalize truthy node.isUnknown = unknown
    generalize truthy node.isKnown = known
    cases isState <;> cases isSecret <;> cases unknown <;> cases known <;> simp
  refine ⟨?_, rfl, fun binding e => (key binding).2.1 e, fun binding => (key binding).2.2.1,
    fun binding => (key binding).2.2.2⟩
  cases varDec with
  | none =>
    simp only [true_or, iff_true]
    exact ⟨_, rfl⟩
  | some binding =>
    rw [(key binding).1]
    simp

/-- Witness of C29: the identifier `msg`, for which the scope finds no binding, and the
identifier `balances` marked `known`, bound to a public state variable. -/
theorem decorator_exit_raises_iff_witness :
    decoratorVisitor.Identifier.exit Example.msgNode none
        = .error (.TypeError "Cannot read properties of null (reading stateVariable)")
      ∧ decoratorVisitor.Identifier.exit Example.knownNode (some Example.publicBinding)
        = .ok ({ Example.publicBinding with isKnown := some true },
            ["PEDANTIC: a conventional smart contract state variable (balances) is "
              ++ "\x27known\x27 by default"]) :=
  ⟨(decorator_exit_raises_iff Example.msgNode none).2.1,
    (decorator_exit_raises_iff Example.knownNode (some Example.publicBinding)).2.2.2.1
      Example.publicBinding rfl rfl rfl rfl⟩

/-- Claim C30.  When the binding of the identifier is a state variable and the decorator
check returns, the binding has `isKnown` true if the node has `isKnown`, and `isUnknown` true
if the node has `isUnknown`; a flag of the binding that was true is true afterwards, a flag
whose decorator is not on the node is what it was, and every other field of the binding is
what it was. -/
theorem decorator_exit_binding (node : Node) (varDec after : Binding) (warnings : List String)
    (hstate : truthy varDec.stateVariable = true)
    (hreturns : decoratorVisitor.Identifier.exit node (some varDec) = .ok (after, warnings)) :
    (truthy node.isKnown = true → after.isKnown = some true)
      ∧ (truthy node.isUnknown = true → after.isUnknown = some true)
      ∧ (varDec.isKnown = some true → after.isKnown = some true)
      ∧ (varDec.isUnknown = some true → after.isUnknown = some true)
      ∧ (truthy node.isKnown = false → after.isKnown = varDec.isKnown)
      ∧ (truthy node.isUnknown = false → after.isUnknown = varDec.isUnknown)
      ∧ after = { varDec with isKnown := after.isKnown, isUnknown := after.isUnknown } := by
  unfold decoratorVisitor.Identifier.exit at hreturns
  simp only [hstate, if_true] at hreturns
  split at hreturns
  · cases hreturns
  · simp only [Except.ok.injEq, Prod.mk.injEq] at hreturns
    obtain ⟨hafter, _⟩ := hreturns
    subst hafter
    cases hknown : node.isKnown with
    | none => cases hunknown : node.isUnknown with
      | none => simp [truthy]
      | some u => cases u <;> simp [truthy]
    | some k => cases hunknown : node.isUnknown with
      | none => cases k <;> simp [truthy]
      | some u => cases k <;> cases u <;> simp [truthy]

theorem decorator_exit_binding_witness :
    ({ Example.publicBinding with isKnown := some true } : Binding).isKnown = some true
      ∧ ({ Example.publicBinding with isKnown := some true } : Binding).isUnknown
          = Example.publicBinding.isUnknown
      ∧ ({ Example.publicBinding with isKnown := some true } : Binding)
          = { Example.publicBinding with
              isKnown := some true, isUnknown := Example.publicBinding.isUnknown } :=
  have h := decorator_exit_binding Example.knownNode Example.publicBinding
    { Example.publicBinding with isKnown := some true }
    ["PEDANTIC: a conventional smart contract state variable (balances) is "
      ++ "\x27known\x27 by default"] rfl rfl
  ⟨h.1 rfl, h.2.2.2.2.2.1 rfl, h.2.2.2.2.2.2⟩

/-! ## Incrementations -/

/-- Claim C31 does not hold of the source: `isIncrementation(e)` returns `e.isIncremented` in
both components, the `isDecremented` component being written `expressionNode.isIncremented`.
For an assignment marked `isIncremented: true`, `isDecremented: false` it returns
`{ isIncremented: true, isDecremented: true }`.  `isIncrementationOf(lhs, e)` returns the pair
`{ e.isIncremented, e.isDecremented }` when `e.incrementedDeclaration` is
`lhs.referencedDeclaration`, and `{ false, false }` otherwise. -/
theorem isIncrementation_repeats_isIncremented :
    (∀ (p : NodePath) (e : Node),
        p.isIncrementation (some e)
          = { isIncremented := e.data.isIncremented, isDecremented := e.data.isIncremented })
      ∧ (∀ p : NodePath,
        p.isIncrementation none
          = { isIncremented := p.node.data.isIncremented
              isDecremented := p.node.data.isIncremented })
      ∧ (∀ (p : NodePath) (lhs e : Node),
        p.isIncrementationOf lhs (some e)
          = if e.data.incrementedDeclaration = lhs.data.referencedDeclaration then
              { isIncremented := e.data.isIncremented, isDecremented := e.data.isDecremented }
            else { isIncremented := some false, isDecremented := some false })
      ∧ Example.incrementingAssignmentNode.data.isIncremented = some true
      ∧ Example.incrementingAssignmentNode.data.isDecremented = some false
      ∧ Example.incrementingAssignmentPath.isIncrementation none
          = { isIncremented := some true, isDecremented := some true }
      ∧ Example.incrementingAssignmentPath.isIncrementationOf Example.selfLhsNode none
          = { isIncremented := some true, isDecremented := some false } := by
  refine ⟨fun _ _ => rfl, fun _ => rfl, ?_, rfl, rfl, rfl, by decide⟩
  intro p lhs e
  simp [NodePath.isIncrementationOf]

/-- Claim C33 does not hold of the source: in `a = b + c` the operand `b` is reported as a
modification.  Neither `b` nor any of its ancestors is held in a `leftHandSide` or in a
`subExpression`; `b` is held in the `leftExpression` of the binary operation, which is a name
of `lhsContainers`, so `getLhsAncestor(true)` returns `leftExpression` and `isModification()`
is truthy.  The operand `c`, held in `rightExpression`, is not reported. -/
theorem isModification_left_operand :
    Example.operandBPath.nodeType = "Identifier"
      ∧ Example.operandBPath.getAncestry
          = [Example.operandBPath, Example.operandSumPath, Example.sumAssignmentPath,
              Example.sumStatementPath]
      ∧ (∀ q ∈ Example.operandBPath.getAncestry,
          q.containerName ≠ "leftHandSide" ∧ q.containerName ≠ "subExpression")
      ∧ Example.operandBPath.getLhsAncestorName = some "leftExpression"
      ∧ Example.operandBPath.isModification = true
      ∧ Example.operandCPath.isModification = false
      ∧ Example.sumLeftPath.isModification = true :=
  ⟨rfl, rfl, by decide, by decide, by decide, by decide, by decide⟩

/-! ## Knowledge merged from the binding -/

/-- Claim C35, as stated, fails for the indicator of `x`, whole with the one reason
`Overwritten` recorded locally, whose binding holds no reason: after `updateFromBinding()`
the indicator is still whole and `isWholeReason` is the `undefined` of the binding, the
local reason being lost.  The same happens to a mapping key. -/
theorem updateFromBinding_reasons_counterexample :
    Example.knownWhole.isWhole = some true
      ∧ Example.knownWhole.isWholeReason = some [Example.overwritten]
      ∧ (StateVariableIndicator.updateFromBinding
          { ind := Example.knownWhole, parentIndincator := {},
            binding := Example.xBinding }).1.ind.isWhole = some true
      ∧ (StateVariableIndicator.updateFromBinding
          { ind := Example.knownWhole, parentIndincator := {},
            binding := Example.xBinding }).1.ind.isWholeReason = none
      ∧ Example.senderKey.isPartitioned = some true
      ∧ Example.senderKey.isPartitionedReason = some [Example.incremented]
      ∧ (Example.senderKey.updateFromBinding Example.balancesBinding).isPartitioned
          = some true
      ∧ (Example.senderKey.updateFromBinding Example.balancesBinding).isPartitionedReason
          = none :=
  ⟨rfl, rfl, rfl, rfl, rfl, rfl, rfl, rfl⟩

/-- Claim C35, amended.  For every `StateVariableIndicator` whose `isWhole` is already true,
after `updateFromBinding()` (however the call ends) `isWhole` is still true and
`isWholeReason` is the `isWholeReason` of the binding: the list recorded locally is replaced,
so a reason that was in it is in the list afterwards exactly when the binding holds it.  The
same holds of `isPartitioned` and `isPartitionedReason`, and of a `MappingKey`.  In general
`isWhole` is written only when it was `undefined`, and the reasons are replaced by those of
the binding whenever `isWhole` is true after that. -/
theorem updateFromBinding_replaces_reasons (w : World) (k : MappingKey) (binding : Binding) :
    (w.ind.isWhole = some true →
        (StateVariableIndicator.updateFromBinding w).1.ind.isWhole = some true
          ∧ (StateVariableIndicator.updateFromBinding w).1.ind.isWholeReason
              = w.binding.isWholeReason)
      ∧ (w.ind.isPartitioned = some true →
        (StateVariableIndicator.updateFromBinding w).1.ind.isPartitioned = some true
          ∧ (StateVariableIndicator.updateFromBinding w).1.ind.isPartitionedReason
              = w.binding.isPartitionedReason)
      ∧ (StateVariableIndicator.updateFromBinding w).1.ind.isWhole
          = nullishAssign w.ind.isWhole w.binding.isWhole
      ∧ (StateVariableIndicator.updateFromBinding w).1.ind.isWholeReason
          = (if truthy (nullishAssign w.ind.isWhole w.binding.isWhole) then
              w.binding.isWholeReason
            else w.ind.isWholeReason)
      ∧ (StateVariableIndicator.updateFromBinding w).1.ind.isPartitioned
          = nullishAssign w.ind.isPartitioned w.binding.isPartitioned
      ∧ (StateVariableIndicator.updateFromBinding w).1.ind.isPartitionedReason
          = (if truthy (nullishAssign w.ind.isPartitioned w.binding.isPartitioned) then
              w.binding.isPartitionedReason
            else w.ind.isPartitionedReason)
      ∧ (k.isWhole = some true →
        (k.updateFromBinding binding).isWhole = some true
          ∧ (k.updateFromBinding binding).isWholeReason = binding.isWholeReason)
      ∧ (k.isPartitioned = some true →
        (k.updateFromBinding binding).isPartitioned = some true
          ∧ (k.updateFromBinding binding).isPartitionedReason = binding.isPartitionedReason)
      ∧ (∀ w1, StateVariableIndicator.updateFromBinding w = (w1, none) →
          ∀ keys, w.ind.mappingKeys = some keys → w.ind.isMapping = some true →
            w1.ind.mappingKeys
              = some (keys.map (fun kv => (kv.1, kv.2.updateFromBinding w.binding)))) := by
  have hind : (StateVariableIndicator.updateFromBinding w).1.ind.isWhole
        = nullishAssign w.ind.isWhole w.binding.isWhole
      ∧ (StateVariableIndicator.updateFromBinding w).1.ind.isWholeReason
        = (if truthy (nullishAssign w.ind.isWhole w.binding.isWhole) then
            w.binding.isWholeReason
          else w.ind.isWholeReason)
      ∧ (StateVariableIndicator.updateFromBinding w).1.ind.isPartitioned
        = nullishAssign w.ind.isPartitioned w.binding.isPartitioned
      ∧ (StateVariableIndicator.updateFromBinding w).1.ind.isPartitionedReason
        = (if truthy (nullishAssign w.ind.isPartitioned w.binding.isPartitioned) then
            w.binding.isPartitionedReason
          else w.ind.isPartitionedReason) := by
    unfold StateVariableIndicator.updateFromBinding
    simp only
    split
    · split <;> exact ⟨rfl, rfl, rfl, rfl⟩
    · exact ⟨rfl, rfl, rfl, rfl⟩
  obtain ⟨h1, h2, h3, h4⟩ := hind
  refine ⟨?_, ?_, h1, h2, h3, h4, ?_, ?_, ?_⟩
  · intro hw
    rw [h1, h2, hw]
    exact ⟨rfl, rfl⟩
  · intro hp
    rw [h3, h4, hp]
    exact ⟨rfl, rfl⟩
  · intro hw
    simp [MappingKey.updateFromBinding, hw, nullishAssign, truthy]
  · intro hp
    simp [MappingKey.updateFromBinding, hp, nullishAssign, truthy]
  · intro w1 hret keys hkeys hmap
    unfold StateVariableIndicator.updateFromBinding at hret
    simp only [hmap, hkeys, truthy, if_true] at hret
    simp only [Prod.mk.injEq, and_true] at hret
    rw [← hret]

/-- Witness of C35, amended: the indicator of `x`, whole with the local reason `Overwritten`,
and a binding that holds the one reason `Incremented and marked as unknown`. -/
theorem updateFromBinding_replaces_reasons_witness :
    (StateVariableIndicator.updateFromBinding
        { ind := Example.knownWhole, parentIndincator := {},
          binding := { Example.xBinding with isWholeReason := some [Example.incremented] }
        }).1.ind.isWhole = some true
      ∧ (StateVariableIndicator.updateFromBinding
        { ind := Example.knownWhole, parentIndincator := {},
          binding := { Example.xBinding with isWholeReason := some [Example.incremented] }
        }).1.ind.isWholeReason = some [Example.incremented] :=
  (updateFromBinding_replaces_reasons
    { ind := Example.knownWhole, parentIndincator := {},
      binding := { Example.xBinding with isWholeReason := some [Example.incremented] } }
    Example.senderKey Example.balancesBinding).1 rfl

/-! ## The indexes of the parts of a partitioned state -/

/-- The position that `findIndex` returns: the first position whose element satisfies the
callback. -/
theorem findIdx_first {α : Type} (p : α → Bool) (xs : List α) (i : Nat) :
    xs.findIdx? p = some i ↔
      (∃ x, xs[i]? = some x ∧ p x = true) ∧ ∀ j < i, ∀ y, xs[j]? = some y → p y = false := by
  rw [List.findIdx?_eq_some_iff_getElem]
  constructor
  · rintro ⟨h, hp, hj⟩
    refine ⟨⟨xs[i], List.getElem?_eq_getElem h, hp⟩, ?_⟩
    intro j hji y hy
    have hjl : j < xs.length := Nat.lt_trans hji h
    rw [List.getElem?_eq_getElem hjl] at hy
    cases hy
    simpa using hj j hji
  · rintro ⟨⟨x, hx, hp⟩, hj⟩
    obtain ⟨h, hxi⟩ := List.getElem?_eq_some.mp hx
    refine ⟨h, by rw [hxi]; exact hp, ?_⟩
    intro j hji
    have hjl : j < xs.length := Nat.lt_trans hji h
    simpa using hj j hji xs[j] (List.getElem?_eq_getElem hjl)

/-- The test `id === node.id` of the callback of `findIndex`. -/
theorem id_test (a : Nat) (node : Node) :
    ((some a == some node.id) = true ↔ node.id = a)
      ∧ ((some a == some node.id) = false ↔ node.id ≠ a) := by
  constructor
  · constructor
    · intro h
      have h1 : some a = some node.id := by simpa using h
      exact (Option.some.inj h1).symm
    · intro h
      rw [h]
      simp
  · constructor
    · intro h hid
      rw [hid] at h
      simp at h
    · intro h
      cases hb : (some a == some node.id)
      · rfl
      · have h1 : some a = some node.id := by simpa using hb
        exact absurd (Option.some.inj h1).symm h

/-- The first position of a list of nodes whose node has a given id. -/
theorem findIdx_id (xs : List Node) (a i : Nat) :
    xs.findIdx? (fun node => some a == some node.id) = some i ↔
      (∃ node, xs[i]? = some node ∧ node.id = a)
        ∧ ∀ j < i, ∀ node, xs[j]? = some node → node.id ≠ a := by
  rw [findIdx_first]
  constructor
  · rintro ⟨⟨x, hx, hp⟩, hj⟩
    exact ⟨⟨x, hx, (id_test a x).1.mp hp⟩, fun j hji y hy => (id_test a y).2.mp (hj j hji y hy)⟩
  · rintro ⟨⟨x, hx, hp⟩, hj⟩
    exact ⟨⟨x, hx, (id_test a x).1.mpr hp⟩, fun j hji y hy => (id_test a y).2.mpr (hj j hji y hy)⟩

theorem findIdx_id_none (xs : List Node) (a : Nat) :
    xs.findIdx? (fun node => some a == some node.id) = none ↔ ∀ node ∈ xs, node.id ≠ a := by
  rw [List.findIdx?_eq_none_iff]
  constructor
  · intro h node hnode
    exact (id_test a node).2.mp (h node hnode)
  · intro h node hnode
    exact (id_test a node).2.mpr (h node hnode)

namespace BoilerplateGenerator

theorem getIndex_addend (g : BoilerplateGenerator) (increments : List Node) (a : Nat)
    (subtrahendId : Option Nat) (ha : a ≠ 0) (hs : supplied subtrahendId = false)
    (hincrements : g.increments = some increments) :
    g.getIndex (some a) subtrahendId
      = match increments.findIdx? (fun node => some a == some node.id) with
        | none => .error (.Error "Not found in array.")
        | some index => .ok index := by
  have hsa : supplied (some a) = true := by simp [supplied, ha]
  simp only [getIndex, hsa, hs, hincrements, Bool.and_false, Bool.false_eq_true, if_false,
    if_true]

theorem getIndex_subtrahend (g : BoilerplateGenerator) (decrements : List Node) (s : Nat)
    (addendId : Option Nat) (hs : s ≠ 0) (ha : supplied addendId = false)
    (hdecrements : g.decrements = some decrements) :
    g.getIndex addendId (some s)
      = match decrements.findIdx? (fun node => some s == some node.id) with
        | none => .error (.Error "Not found in array.")
        | some index => .ok ((g.increments.map List.length).getD 0 + index * 4) := by
  have hss : supplied (some s) = true := by simp [supplied, hs]
  simp only [getIndex, hss, ha, hdecrements, Bool.false_and, Bool.false_eq_true, if_false,
    if_true]

end BoilerplateGenerator

/-- Claim C34.  On a generator with a list of `increments` and a list of `decrements`,
`getIndex` given an `addendId` only (the other id being `undefined` or `0`, which is falsy)
returns `i` exactly when `i` is the first position of `increments` whose node has that id;
given a `subtrahendId` only it returns `increments.length + 4 * i` for the first position `i`
of `decrements` whose node has that id; it throws when both ids are given, when neither is,
and when no node of the list has the id.  Hence an index returned for an addend is smaller
than an index returned for a subtrahend, and decrements found at different positions get
different indexes. -/
theorem getIndex_positions (g : BoilerplateGenerator) (increments decrements : List Node)
    (hincrements : g.increments = some increments)
    (hdecrements : g.decrements = some decrements) :
    (∀ (a i : Nat) (none0 : Option Nat), a ≠ 0 → BoilerplateGenerator.supplied none0 = false →
        (g.getIndex (some a) none0 = .ok i ↔
          (∃ node, increments[i]? = some node ∧ node.id = a)
            ∧ ∀ j < i, ∀ node, increments[j]? = some node → node.id ≠ a))
      ∧ (∀ (s r : Nat) (none0 : Option Nat), s ≠ 0 →
        BoilerplateGenerator.supplied none0 = false →
        (g.getIndex none0 (some s) = .ok r ↔
          ∃ i, r = increments.length + 4 * i
            ∧ (∃ node, decrements[i]? = some node ∧ node.id = s)
            ∧ ∀ j < i, ∀ node, decrements[j]? = some node → node.id ≠ s))
      ∧ (∀ a s : Nat, a ≠ 0 → s ≠ 0 →
        g.getIndex (some a) (some s)
          = .error (.Error "Expected only one of addend xor subtrahend; got both."))
      ∧ (∀ x y : Option Nat, BoilerplateGenerator.supplied x = false →
        BoilerplateGenerator.supplied y = false →
        g.getIndex x y = .error (.Error "This should be unreachable."))
      ∧ (∀ (a : Nat) (none0 : Option Nat), a ≠ 0 →
        BoilerplateGenerator.supplied none0 = false →
        (∀ node ∈ increments, node.id ≠ a) →
        g.getIndex (some a) none0 = .error (.Error "Not found in array."))
      ∧ (∀ (s : Nat) (none0 : Option Nat), s ≠ 0 →
        BoilerplateGenerator.supplied none0 = false →
        (∀ node ∈ decrements, node.id ≠ s) →
        g.getIndex none0 (some s) = .error (.Error "Not found in array."))
      ∧ (∀ (a s i r : Nat) (x y : Option Nat), g.getIndex (some a) x = .ok i →
        g.getIndex y (some s) = .ok r → a ≠ 0 → s ≠ 0 →
        BoilerplateGenerator.supplied x = false → BoilerplateGenerator.supplied y = false →
        i < r)
      ∧ (∀ (s t i j : Nat), s ≠ 0 → t ≠ 0 →
        (∃ node, decrements[i]? = some node ∧ node.id = s) →
        (∀ k < i, ∀ node, decrements[k]? = some node → node.id ≠ s) →
        (∃ node, decrements[j]? = some node ∧ node.id = t) →
        (∀ k < j, ∀ node, decrements[k]? = some node → node.id ≠ t) →
        i ≠ j →
        ∃ r1 r2, g.getIndex none (some s) = .ok r1 ∧ g.getIndex none (some t) = .ok r2
          ∧ r1 ≠ r2) := by
  have haddend : ∀ (a i : Nat) (none0 : Option Nat), a ≠ 0 →
      BoilerplateGenerator.supplied none0 = false →
      (g.getIndex (some a) none0 = .ok i ↔
        (∃ node, increments[i]? = some node ∧ node.id = a)
          ∧ ∀ j < i, ∀ node, increments[j]? = some node → node.id ≠ a) := by
    intro a i none0 ha hn
    rw [BoilerplateGenerator.getIndex_addend g increments a none0 ha hn hincrements]
    cases hfind : increments.findIdx? (fun node => some a == some node.id) with
    | none =>
      have hno := (findIdx_id_none increments a).mp hfind
      constructor
      · intro h
        cases h
      · rintro ⟨⟨node, hnode, hid⟩, _⟩
        exact absurd hid (hno node (List.getElem?_mem hnode))
    | some index =>
      simp only [Except.ok.injEq]
      constructor
      · rintro rfl
        exact (findIdx_id increments a index).mp hfind
      · intro h
        have hi := (findIdx_id increments a i).mpr h
        rw [hfind] at hi
        exact Option.some.inj hi
  have hsubtrahend : ∀ (s r : Nat) (none0 : Option Nat), s ≠ 0 →
      BoilerplateGenerator.supplied none0 = false →
      (g.getIndex none0 (some s) = .ok r ↔
        ∃ i, r = increments.length + 4 * i
          ∧ (∃ node, decrements[i]? = some node ∧ node.id = s)
          ∧ ∀ j < i, ∀ node, decrements[j]? = some node → node.id ≠ s) := by
    intro s r none0 hs hn
    rw [BoilerplateGenerator.getIndex_subtrahend g decrements s none0 hs hn hdecrements]
    cases hfind : decrements.findIdx? (fun node => some s == some node.id) with
    | none =>
      have hno := (findIdx_id_none decrements s).mp hfind
      constructor
      · intro h
        cases h
      · rintro ⟨i, _, ⟨node, hnode, hid⟩, _⟩
        exact absurd hid (hno node (List.getElem?_mem hnode))
    | some index =>
      simp only [Except.ok.injEq, hincrements, Option.map_some', Option.getD_some]
      obtain ⟨h1, h2⟩ := (findIdx_id decrements s index).mp hfind
      constructor
      · rintro rfl
        exact ⟨index, by omega, h1, h2⟩
      · rintro ⟨i, rfl, h3, h4⟩
        have hi2 := (findIdx_id decrements s i).mpr ⟨h3, h4⟩
        rw [hfind] at hi2
        have := Option.some.inj hi2
        omega
  refine ⟨haddend, hsubtrahend, ?_, ?_, ?_, ?_, ?_, ?_⟩
  · intro a s ha hs
    simp [BoilerplateGenerator.getIndex, BoilerplateGenerator.supplied, ha, hs]
  · intro x y hx hy
    simp [BoilerplateGenerator.getIndex, hx, hy]
  · intro a none0 ha hn hno
    rw [BoilerplateGenerator.getIndex_addend g increments a none0 ha hn hincrements]
    rw [(findIdx_id_none increments a).mpr hno]
  · intro s none0 hs hn hno
    rw [BoilerplateGenerator.getIndex_subtrahend g decrements s none0 hs hn hdecrements]
    rw [(findIdx_id_none decrements s).mpr hno]
  · intro a s i r x y hi hr ha hs hx hy
    obtain ⟨⟨node, hnode, _⟩, _⟩ := (haddend a i x ha hx).mp hi
    obtain ⟨k, hk, _⟩ := (hsubtrahend s r y hs hy).mp hr
    obtain ⟨hlt, _⟩ := List.getElem?_eq_some.mp hnode
    omega
  · intro s t i j hs ht hi1 hi2 hj1 hj2 hij
    refine ⟨increments.length + 4 * i, increments.length + 4 * j,
      (hsubtrahend s _ none hs rfl).mpr ⟨i, rfl, hi1, hi2⟩,
      (hsubtrahend t _ none ht rfl).mpr ⟨j, rfl, hj1, hj2⟩, by omega⟩

/-- Witness of C34: a generator with two increments (ids 201, 202) and two decrements (ids
203, 204): the addend 202 has the index 1, the subtrahend 204 the index 2 + 4 * 1. -/
theorem getIndex_positions_witness :
    Example.generator.getIndex (some 202) none = .ok 1
      ∧ Example.generator.getIndex none (some 204) = .ok 6 :=
  have h := getIndex_positions Example.generator Example.addendNodes Example.subtrahendNodes
    rfl rfl
  ⟨(h.1 202 1 none (by decide) rfl).mpr ⟨⟨_, rfl, rfl⟩, by decide⟩,
    (h.2.1 204 6 none (by decide) rfl).mpr ⟨1, rfl, ⟨_, rfl, rfl⟩, by decide⟩⟩

namespace BoilerplateGenerator

/-- The boilerplate types whose method returns without reading `extraParams`: all but
`incrementation` and `decrementation`. -/
theorem methodOfType_plain (g : BoilerplateGenerator) (bpType : BpType)
    (extraParams : Option ExtraParams)
    (hplain : bpType ≠ .incrementation ∧ bpType ≠ .decrementation) :
    g.methodOfType bpType extraParams
      = .ok (if bpType = .mapping then
          { mappingName := g.mappingName, mappingKeyName := g.mappingKeyName }
        else {}) := by
  obtain ⟨h1, h2⟩ := hplain
  cases bpType <;> simp [methodOfType] at h1 h2 ⊢

/-- A sequence of calls of `_addBP` with such a type adds one node per call at the end of
each section, and does not throw. -/
theorem addAll_plain (bpType : BpType)
    (hplain : bpType ≠ .incrementation ∧ bpType ≠ .decrementation) :
    ∀ (calls : List ExtraParams) (g : BoilerplateGenerator),
      addAll bpType g calls
        = ({ g with
            importStatements := g.importStatements ++ calls.map (fun params =>
              g.boilerplate "importStatements" bpType (some params)
                (if bpType = .mapping then
                  { mappingName := g.mappingName, mappingKeyName := g.mappingKeyName }
                else {}))
            parameters := g.parameters ++ calls.map (fun params =>
              g.boilerplate "parameters" bpType (some params)
                (if bpType = .mapping then
                  { mappingName := g.mappingName, mappingKeyName := g.mappingKeyName }
                else {}))
            preStatements := g.preStatements ++ calls.map (fun params =>
              g.boilerplate "preStatements" bpType (some params)
                (if bpType = .mapping then
                  { mappingName := g.mappingName, mappingKeyName := g.mappingKeyName }
                else {}))
            postStatements := g.postStatements ++ calls.map (fun params =>
              g.boilerplate "postStatements" bpType (some params)
                (if bpType = .mapping then
                  { mappingName := g.mappingName, mappingKeyName := g.mappingKeyName }
                else {})) }, none)
  | [], g => by simp [addAll]
  | params :: rest, g => by
    rw [addAll]
    simp only [_addBP, methodOfType_plain g bpType (some params) hplain]
    rw [addAll_plain bpType hplain rest]
    simp [boilerplate, List.append_assoc]

end BoilerplateGenerator

namespace BoilerplateGenerator

/-- A generated name is not the empty string. -/
theorem generated_ne_empty (name : Option String) (i : Nat) :
    (templateString name ++ "_" ++ toString i != "") = true := by
  rw [bne_iff_ne]
  intro h
  have hlen := congrArg String.length h
  simp only [String.length_append] at hlen
  have h1 : "_".length = 1 := rfl
  have h0 : "".length = 0 := rfl
  omega

/-- The name of the node that `_addBP` builds for a generated name. -/
theorem boilerplate_generated (g : BoilerplateGenerator) (bpSection : String)
    (bpType : BpType) (name : Option String) (i : Nat) (fields : BpFields) :
    (g.boilerplate bpSection bpType
        (some (named (templateString name ++ "_" ++ toString i) {})) fields).name
      = some (templateString name ++ "_" ++ toString i) := by
  simp only [boilerplate, named, Option.some_bind]
  rw [if_pos (generated_ne_empty name i)]

end BoilerplateGenerator

/-- Claim C36 does not hold of the source.  `addBP.partitioned` names the parts of the
decrement at position `k` with `j = increments.length + k`, `j + 1` and `j + 2`, while
`getIndex` gives that decrement the index `increments.length + 4 * k`: the two agree for the
first decrement only.  With two decrements the name of index `increments.length + 1` is
given to a part of the first decrement and to a part of the second one, for the same
boilerplate type.  Here for every boilerplate type but `incrementation` and `decrementation`:
the call does not throw, and each section receives one node per call of `_addBP`; and for
the state `a` that is decremented twice and never incremented: the second decrement has the
index 4, and the nodes added for `nullification` are named `a_0`, `a_1`, `a_1`, `a_2`. -/
theorem partitioned_names (g : BoilerplateGenerator) (bpType : BpType)
    (hplain : bpType ≠ .incrementation ∧ bpType ≠ .decrementation) :
    (BoilerplateGenerator.addBP.partitioned g bpType {}).2 = none
      ∧ (BoilerplateGenerator.addBP.partitioned g bpType {}).1.preStatements.length
          = g.preStatements.length + (g.partitionedCalls bpType {}).length
      ∧ (∀ (name : Option String) (n k : Nat) (t : BpType),
          t ∈ [BpType.PoKoSK, .nullification, .oldCommitmentPreimage,
            .oldCommitmentExistence] →
          (BoilerplateGenerator.decrementCalls name n t {} k).map
              (fun params => (g.boilerplate "preStatements" t (some params) {}).name)
            = [some (templateString name ++ "_" ++ toString (n + k)),
                some (templateString name ++ "_" ++ toString (n + k + 1))])
      ∧ (∀ (name : Option String) (n k : Nat),
          (BoilerplateGenerator.decrementCalls name n .newCommitment {} k).map
              (fun params =>
                (g.boilerplate "preStatements" .newCommitment (some params) {}).name)
            = [some (templateString name ++ "_" ++ toString (n + k + 2))])
      ∧ Example.decrementingGenerator.getIndex none (some 203) = .ok 0
      ∧ Example.decrementingGenerator.getIndex none (some 204) = .ok 4
      ∧ (BoilerplateGenerator.addBP.partitioned Example.decrementingGenerator
            .nullification {}).1.preStatements.map Boilerplate.name
          = [some "a_0", some "a_1", some "a_1", some "a_2"]
      ∧ (BoilerplateGenerator.addBP.partitioned Example.decrementingGenerator
            .newCommitment {}).1.preStatements.map Boilerplate.name
          = [some "a_2", some "a_3"] := by
  refine ⟨?_, ?_, ?_, ?_, rfl, rfl, by decide, by decide⟩
  · simp [BoilerplateGenerator.addBP.partitioned,
      BoilerplateGenerator.addAll_plain bpType hplain]
  · simp [BoilerplateGenerator.addBP.partitioned,
      BoilerplateGenerator.addAll_plain bpType hplain]
  · intro name n k t ht
    simp only [List.mem_cons, List.mem_singleton, List.not_mem_nil, or_false] at ht
    rcases ht with rfl | rfl | rfl | rfl <;>
      simp [BoilerplateGenerator.decrementCalls,
        BoilerplateGenerator.boilerplate_generated]
  · intro name n k
    simp [BoilerplateGenerator.decrementCalls, BoilerplateGenerator.boilerplate_generated]

/-- Witness of C36: `nullification` on the state `a` that is decremented twice. -/
theorem partitioned_names_witness :
    (BoilerplateGenerator.addBP.partitioned Example.decrementingGenerator
        .nullification {}).2 = none
      ∧ (BoilerplateGenerator.addBP.partitioned Example.decrementingGenerator
          .nullification {}).1.preStatements.length = 0 + 4 :=
  have h := partitioned_names Example.decrementingGenerator .nullification
    (by decide)
  ⟨h.1, h.2.1⟩

/-! ## Building nodes -/

/-- Claim C32 does not hold of the source.  `buildNode('MappingDeclaration', fields)` builds
the `Mapping` node and passes it as `typeName` to the case `VariableDeclaration`, which does
not read `typeName` from its fields: it reads `typeString`, which is not passed, and builds
an `ElementaryTypeName` itself.  For all fields the node returned is a `VariableDeclaration`
whose `typeName` is `{ nodeType: 'ElementaryTypeName', typeDescriptions: { typeString:
undefined } }`; it has no `Mapping` node, no `keyType` and no `valueType`. -/
theorem buildNode_mappingDeclaration
    (getBoilerplate : String → List (String × JsValue) → Except Exception JsValue)
    (fields : List (String × JsValue)) :
    buildNode getBoilerplate "MappingDeclaration" fields
      = .ok (.object [("nodeType", .string "VariableDeclaration"),
          ("name", JsValue.get fields "name"),
          ("visibility", JsValue.get fields "visibility"),
          ("storageLocation", JsValue.get fields "storageLocation"),
          ("typeDescriptions", .object [("typeString", .undefined)]),
          ("typeName", .object [("nodeType", .string "ElementaryTypeName"),
            ("typeDescriptions", .object [("typeString", .undefined)])]),
          ("isSecret", .undefined),
          ("declarationType", .undefined)]) := by
  have h : buildNode getBoilerplate "MappingDeclaration" fields
      = .ok (buildNode.MappingDeclaration fields) := by
    unfold buildNode
    simp
  rw [h]
  rfl

/-! ## Siblings and return parameters -/

/-- A string with a character that is not a digit is not a position of an array. -/
theorem JsKey.arrayIndex_of_not_digits (s : String)
    (h : s.data.all Char.isDigit = false) : JsKey.arrayIndex (.string s) = none := by
  have hnat : s.toNat? = none := by
    simp [String.toNat?, String.isNat, String.all_eq, h]
  simp [JsKey.arrayIndex, hnat]

/-- Claim C39 does not hold of the source.  `getPrevSiblingNode()` and `getNextSiblingNode()`
compute their index from `this.key`, not from `this.index`.  For a path in a list the key is
the name of the list: `key - 1` is `NaN` and `key + 1` is the name followed by `1`, neither
of which is a position of the array, and both methods return `undefined`.  For the second of
three statements they return nothing, while `getAllNextSiblingNodes()` and
`getAllPrevSiblingNodes()`, which use `this.index`, return the third and the first statement.
For a path that is not in a list all four return `null`. -/
theorem sibling_by_key (h : Heap) (toNumber : String → Option Int) (p : PathObject)
    (name : String) (elements : List Address)
    (hkey : p.key = .string name)
    (hnumber : toNumber name = none)
    (hposition : JsKey.arrayIndex (.string (name ++ "1")) = none)
    (hcontainer : h p.container = some (.array elements)) :
    p.getPrevSiblingNode h toNumber = none
      ∧ p.getNextSiblingNode h = none
      ∧ (∀ q : PathObject, q.inList = false →
          q.getPrevSiblingNode h toNumber = none ∧ q.getNextSiblingNode h = none
            ∧ q.getAllNextSiblingNodes h = none ∧ q.getAllPrevSiblingNodes h = none) := by
  refine ⟨?_, ?_, ?_⟩
  · simp [PathObject.getPrevSiblingNode, PathObject.getSiblingNode, JsKey.minusOne, hkey,
      hnumber]
  · simp [PathObject.getNextSiblingNode, PathObject.getSiblingNode, JsKey.plusOne, hkey,
      Heap.get, hcontainer, hposition]
  · intro q hq
    simp [PathObject.getPrevSiblingNode, PathObject.getNextSiblingNode,
      PathObject.getSiblingNode, PathObject.getAllNextSiblingNodes,
      PathObject.getAllPrevSiblingNodes, hq]

/-- Witness of C39: the second of the three statements of a block. -/
theorem sibling_by_key_witness :
    Example.secondStatementPath.inList = true
      ∧ Example.secondStatementPath.index = some 1
      ∧ Example.blockHeap.get Example.secondStatementPath.container (.number 0) = some 12
      ∧ Example.blockHeap.get Example.secondStatementPath.container (.number 2) = some 14
      ∧ Example.secondStatementPath.getAllNextSiblingNodes Example.blockHeap = some [14]
      ∧ Example.secondStatementPath.getAllPrevSiblingNodes Example.blockHeap = some [12]
      ∧ Example.secondStatementPath.getPrevSiblingNode Example.blockHeap Example.toNumber
          = none
      ∧ Example.secondStatementPath.getNextSiblingNode Example.blockHeap = none :=
  have h := sibling_by_key Example.blockHeap Example.toNumber Example.secondStatementPath
    "statements" [12, 13, 14] rfl (by decide)
    (JsKey.arrayIndex_of_not_digits _ (by decide)) rfl
  ⟨rfl, rfl, by decide, by decide, by decide, by decide, h.1, h.2.1⟩

/-- Claim C40 does not hold of the source.  `isFunctionReturnParameterDeclaration()` reads
`containerName` on `this.parent`, which is a node and not a path: on a node that has no
`containerName` the read gives `undefined` and the method returns `false`, also for a
declaration that sits in the list held as `returnParameters`, whose parent path has that
`containerName`. -/
theorem isFunctionReturnParameterDeclaration_false (h : Heap)
    (stringProperty : Address → String → Option String) (p : PathObject)
    (hnode : stringProperty p.parent "containerName" = none) :
    p.isFunctionReturnParameterDeclaration h stringProperty = false := by
  simp [PathObject.isFunctionReturnParameterDeclaration, hnode]

/-- Witness of C40: the declaration in the list that a function holds as
`returnParameters`. -/
theorem isFunctionReturnParameterDeclaration_false_witness :
    Example.functionHeap.nodeType Example.returnDeclarationPath.parent = some "ParameterList"
      ∧ Example.functionHeap.get 20 (.string "returnParameters")
          = some Example.returnDeclarationPath.parent
      ∧ Example.returnDeclarationPath.parentPath.map (fun q => q.fields.containerName)
          = some (.string "returnParameters")
      ∧ Example.returnDeclarationPath.isFunctionReturnParameterDeclaration
          Example.functionHeap Example.parserStrings = false :=
  ⟨by decide, by decide, rfl,
    isFunctionReturnParameterDeclaration_false Example.functionHeap Example.parserStrings
      Example.returnDeclarationPath rfl⟩

/-! ## Reasons of a classification -/

theorem nonEmptyList_push (reasons : Option (List Reason)) (reason : Reason) :
    nonEmptyList (some (reasons.getD [] ++ [reason])) := by
  cases reasons with
  | none => simp [nonEmptyList]
  | some rs => cases rs <;> simp [nonEmptyList]

theorem nonEmptyList_iff (reasons : Option (List Reason)) :
    nonEmptyList reasons ↔ ∃ r rs, reasons = some (r :: rs) := by
  cases reasons with
  | none => simp [nonEmptyList]
  | some rs => cases rs <;> simp [nonEmptyList]

namespace MappingKey

theorem key_create_reasoned (E : Env) (container : StateVariableIndicator) (keyPath : NodePath)
    (k : MappingKey) (h : MappingKey.create E container keyPath = .ok k) :
    k.classification.reasoned := by
  unfold MappingKey.create at h
  simp only at h
  split at h
  · simp at h
  · simp only [Except.ok.injEq] at h
    rw [← h]
    simp [Classification.reasoned, MappingKey.classification]

theorem key_updateOwnProperties_reasoned (k : MappingKey) (path : NodePath)
    (h : k.classification.reasoned) : (k.updateOwnProperties path).classification.reasoned := by
  unfold updateOwnProperties addModifyingPath addReferencingPath
  simp only
  repeat' split
  all_goals exact h

theorem key_updateIncrementation_reasoned (k : MappingKey) (path : NodePath)
    (state : IncrementationState) (h : k.classification.reasoned) :
    (k.updateIncrementation path state).classification.reasoned := by
  obtain ⟨hw, hp⟩ := h
  have hpush := nonEmptyList_push
  simp only [Classification.reasoned, MappingKey.classification] at hw hp ⊢
  simp only [MappingKey.updateIncrementation, MappingKey.addNullifyingPath]
  generalize (!truthy path.isIncremented || truthy state.incrementedIdentifier.isKnown) = a
  generalize (state.incrementedPath.isSome
    && !truthy state.incrementedIdentifier.reinitialisable) = b
  generalize (!truthy path.isDecremented
    && (truthy state.incrementedIdentifier.isUnknown
      || truthy (state.incrementedIdentifier.baseExpression.bind Node.isUnknown))) = c
  generalize (truthy path.isDecremented && !truthy state.incrementedIdentifier.isKnown) = d
  cases a <;> cases b <;> cases c <;> cases d <;> simp [hpush] <;> first | exact ⟨hw, hp⟩ | exact hw | exact hp

end MappingKey


namespace StateVariableIndicator

theorem everyKey_of_keys_eq (Q : MappingKey → Prop) (w w1 : World)
    (h : w1.ind.mappingKeys = w.ind.mappingKeys) (hw : w.everyKey Q) : w1.everyKey Q := by
  unfold World.everyKey at hw ⊢
  rw [h]
  exact hw

theorem addMappingKey_everyKey (E : Env) (Q : MappingKey → Prop)
    (hcreate : ∀ container keyPath k, MappingKey.create E container keyPath = .ok k → Q k)
    (w w1 : World) (referencingPath : Option NodePath) (keyName : String)
    (h : addMappingKey E w referencingPath = .ok (w1, keyName)) (hw : w.everyKey Q) :
    w1.everyKey Q := by
  obtain ⟨rp, keyNode, keyPath, keys, _, _, _, _, _, h6, h7⟩ :=
    (addMappingKey_ok_iff E w w1 referencingPath keyName).mp h
  rcases h7 with ⟨_, _, rfl⟩ | ⟨_, _, rfl⟩ | ⟨_, _, k, hk, rfl⟩
  · exact hw
  · exact hw
  · intro keys1 hkeys1 kv hkv
    simp only [Option.some.injEq] at hkeys1
    subst hkeys1
    rcases List.mem_append.mp hkv with hmem | hmem
    · exact hw keys h6 kv hmem
    · simp only [List.mem_singleton] at hmem
      subst hmem
      exact hcreate _ _ _ hk

theorem onKey_everyKey (Q : MappingKey → Prop) (f : MappingKey → MappingKey)
    (hf : ∀ k, Q k → Q (f k)) (w : World) (keyName : String) (hw : w.everyKey Q) :
    (onKey w keyName f).everyKey Q := by
  intro keys1 hkeys1 kv hkv
  cases hkeys : w.ind.mappingKeys with
  | none => simp [onKey, hkeys] at hkeys1
  | some keys =>
    simp only [onKey, hkeys, Option.map_some', Option.some.injEq] at hkeys1
    subst hkeys1
    rcases mem_modifyKey f keyName keys kv hkv with hmem | ⟨k, hmem, rfl⟩
    · exact hw keys hkeys kv hmem
    · exact hf k (hw keys hkeys _ hmem)

theorem callOnKey_everyKey (Q : MappingKey → Prop) {w after : World} (keyName method : String)
    (h1 : w.everyKey Q) (h2 : after.everyKey Q) :
    (callOnKey w keyName method after).1.everyKey Q := by
  rcases callOnKey_fst w keyName method after with hc | hc
  · rw [hc]
    exact h2
  · rw [hc]
    exact h1

theorem shareWholeReason_everyKey (Q : MappingKey → Prop)
    (hshare : ∀ (k : MappingKey) (reasons : Option (List Reason)), Q k →
      Q (if k.isWholeReasonOfBinding then { k with isWholeReason := reasons } else k))
    (w : World) (reasons : Option (List Reason)) (hw : w.everyKey Q) :
    (shareWholeReason w reasons).everyKey Q := by
  intro keys1 hkeys1 kv hkv
  cases hkeys : w.ind.mappingKeys with
  | none => simp [shareWholeReason, hkeys] at hkeys1
  | some keys =>
    simp only [shareWholeReason, hkeys, Option.map_some', Option.some.injEq] at hkeys1
    subst hkeys1
    obtain ⟨kv0, hmem, rfl⟩ := List.mem_map.mp hkv
    exact hshare kv0.2 reasons (hw keys hkeys kv0 hmem)

theorem sharePartitionedReason_everyKey (Q : MappingKey → Prop)
    (hshare : ∀ (k : MappingKey) (reasons : Option (List Reason)), Q k →
      Q (if k.isPartitionedReasonOfBinding then { k with isPartitionedReason := reasons }
        else k))
    (w : World) (reasons : Option (List Reason)) (hw : w.everyKey Q) :
    (sharePartitionedReason w reasons).everyKey Q := by
  intro keys1 hkeys1 kv hkv
  cases hkeys : w.ind.mappingKeys with
  | none => simp [sharePartitionedReason, hkeys] at hkeys1
  | some keys =>
    simp only [sharePartitionedReason, hkeys, Option.map_some', Option.some.injEq] at hkeys1
    subst hkeys1
    obtain ⟨kv0, hmem, rfl⟩ := List.mem_map.mp hkv
    exact hshare kv0.2 reasons (hw keys hkeys kv0 hmem)

theorem pushedWholeReason_everyKey (Q : MappingKey → Prop)
    (hshare : ∀ (k : MappingKey) (reasons : Option (List Reason)), Q k →
      Q (if k.isWholeReasonOfBinding then { k with isWholeReason := reasons } else k))
    (w : World) (hw : w.everyKey Q) : (pushedWholeReason w).everyKey Q := by
  unfold pushedWholeReason
  split
  · exact shareWholeReason_everyKey Q hshare w _ hw
  · exact hw

theorem pushedPartitionedReason_everyKey (Q : MappingKey → Prop)
    (hshare : ∀ (k : MappingKey) (reasons : Option (List Reason)), Q k →
      Q (if k.isPartitionedReasonOfBinding then { k with isPartitionedReason := reasons }
        else k))
    (w : World) (hw : w.everyKey Q) : (pushedPartitionedReason w).everyKey Q := by
  unfold pushedPartitionedReason
  split
  · exact sharePartitionedReason_everyKey Q hshare w _ hw
  · exact hw

theorem keyUpdateIncrementation_everyKey (Q : MappingKey → Prop)
    (hwhole : ∀ (k : MappingKey) (reasons : Option (List Reason)), Q k →
      Q (if k.isWholeReasonOfBinding then { k with isWholeReason := reasons } else k))
    (hpartitioned : ∀ (k : MappingKey) (reasons : Option (List Reason)), Q k →
      Q (if k.isPartitionedReasonOfBinding then { k with isPartitionedReason := reasons }
        else k))
    (path : NodePath) (state : IncrementationState)
    (hincrement : ∀ k, Q k → Q (k.updateIncrementation path state))
    (w : World) (keyName : String) (hw : w.everyKey Q) :
    (keyUpdateIncrementation w keyName path state).everyKey Q := by
  have h1 := onKey_everyKey Q _ hincrement w keyName hw
  unfold keyUpdateIncrementation
  simp only
  repeat' split
  all_goals first
    | exact h1
    | exact shareWholeReason_everyKey Q hwhole _ _ h1
    | exact sharePartitionedReason_everyKey Q hpartitioned _ _ h1

theorem addNullifyingPath_everyKey (E : Env) (Q : MappingKey → Prop)
    (hcreate : ∀ container keyPath k, MappingKey.create E container keyPath = .ok k → Q k)
    (hnullify : ∀ k p, Q k → Q (k.addNullifyingPath p))
    (w : World) (path : Option NodePath) (hw : w.everyKey Q) :
    (addNullifyingPath E w path).1.everyKey Q := by
  unfold addNullifyingPath
  simp only
  split
  · exact hw
  · split
    · split
      · exact hw
      · next w2 keyName hk =>
        have h2 := addMappingKey_everyKey E Q hcreate _ w2 path keyName hk hw
        exact callOnKey_everyKey Q keyName _ h2
          (onKey_everyKey Q _ (fun k => hnullify k path) w2 keyName h2)
    · exact hw

theorem updateIncrementation_everyKey (E : Env) (Q : MappingKey → Prop)
    (hcreate : ∀ container keyPath k, MappingKey.create E container keyPath = .ok k → Q k)
    (hnullify : ∀ k p, Q k → Q (k.addNullifyingPath p))
    (hwhole : ∀ (k : MappingKey) (reasons : Option (List Reason)), Q k →
      Q (if k.isWholeReasonOfBinding then { k with isWholeReason := reasons } else k))
    (hpartitioned : ∀ (k : MappingKey) (reasons : Option (List Reason)), Q k →
      Q (if k.isPartitionedReasonOfBinding then { k with isPartitionedReason := reasons }
        else k))
    (path : NodePath) (state : IncrementationState)
    (hincrement : ∀ k, Q k → Q (k.updateIncrementation path state))
    (w : World) (hw : w.everyKey Q) :
    (updateIncrementation E w path state).1.everyKey Q := by
  refine updateIncrementation_induct E w path state (fun w => w.everyKey Q) ?_ ?_ ?_
  · unfold classifyIncrementation
    simp only
    split
    · split
      · refine addNullifyingPath_everyKey E Q hcreate hnullify _ _ ?_
        exact pushedWholeReason_everyKey Q hwhole _ hw
      · exact pushedWholeReason_everyKey Q hwhole _ hw
    · split
      · exact pushedPartitionedReason_everyKey Q hpartitioned _ hw
      · split <;> exact hw
  · intro w1 h1
    unfold nullifyDecrement
    split
    · exact addNullifyingPath_everyKey E Q hcreate hnullify _ _ h1
    · exact h1
  · intro w2 h2
    unfold recordIncrementation
    simp only
    split
    · split
      · exact h2
      · next w3 keyName hk =>
        have h3 := addMappingKey_everyKey E Q hcreate _ w3 _ keyName hk h2
        exact callOnKey_everyKey Q keyName _ h3
          (keyUpdateIncrementation_everyKey Q hwhole hpartitioned path state hincrement w3
            keyName h3)
    · exact h2

theorem update_everyKey (E : Env) (Q : MappingKey → Prop)
    (hcreate : ∀ container keyPath k, MappingKey.create E container keyPath = .ok k → Q k)
    (path : NodePath) (hproperties : ∀ k, Q k → Q (k.updateOwnProperties path))
    (w : World) (hw : w.everyKey Q) : (update E w path).1.everyKey Q := by
  unfold update
  split
  · split
    · exact hw
    · next w1 keyName hk =>
      have h1 := addMappingKey_everyKey E Q hcreate w w1 _ keyName hk hw
      refine callOnKey_everyKey Q keyName _ h1 ?_
      refine onKey_everyKey Q _ hproperties _ keyName ?_
      exact everyKey_of_keys_eq Q w1 _ (updateProperties_mappingKeys w1.ind path) h1
  · exact everyKey_of_keys_eq Q w _ (updateProperties_mappingKeys w.ind path) hw

theorem updateAccessed_everyKey (E : Env) (Q : MappingKey → Prop)
    (hcreate : ∀ container keyPath k, MappingKey.create E container keyPath = .ok k → Q k)
    (haccessed : ∀ (k : MappingKey) accessedPaths, Q k → Q { k with accessedPaths := accessedPaths })
    (hwhole : ∀ (k : MappingKey) (reasons : Option (List Reason)), Q k →
      Q (if k.isWholeReasonOfBinding then { k with isWholeReason := reasons } else k))
    (path : NodePath) (w : World) (hw : w.everyKey Q) :
    (updateAccessed E w path).1.everyKey Q := by
  have h0 : (pushedWholeReason { w with
      ind := { w.ind with
        isWhole := some true
        isAccessed := some true
        oldCommitmentAccessRequired := some true
        isWholeReason :=
          some (w.ind.isWholeReason.getD [] ++ [{ src := path.node.src, text := "Accessed" }])
        accessedPaths := some (w.ind.accessedPaths.getD [] ++ [path]) }
      parentIndincator := { w.parentIndincator with
        oldCommitmentAccessRequired := true
        initialisationRequired := true } }).everyKey Q :=
    pushedWholeReason_everyKey Q hwhole _ hw
  unfold updateAccessed
  simp only
  split
  · split
    · exact h0
    · next w2 keyName hk =>
      have h2 := addMappingKey_everyKey E Q hcreate _ w2 _ keyName hk h0
      have h3 := onKey_everyKey Q
        (fun k : MappingKey => { k with accessedPaths := nullishAssign k.accessedPaths (some []) })
        (fun k => haccessed k _) w2 keyName h2
      split
      · exact h3
      · next w4 keyName2 hk2 =>
        exact onKey_everyKey Q _ (fun k => haccessed k _) w4 keyName2
          (addMappingKey_everyKey E Q hcreate _ w4 _ keyName2 hk2 h3)
  · exact h0

end StateVariableIndicator


namespace StateVariableIndicator

theorem reasoned_of_frame {a b : StateVariableIndicator}
    (h : b = { a with mappingKeys := b.mappingKeys }) (ha : a.classification.reasoned) :
    b.classification.reasoned := by
  rw [h]
  exact ha

theorem updateProperties_reasoned (ind : StateVariableIndicator) (path : NodePath)
    (h : ind.classification.reasoned) : (ind.updateProperties path).classification.reasoned := by
  unfold updateProperties addModifyingPath addReferencingPath
  simp only
  repeat' split
  all_goals exact h

theorem updateProperties_sameShape (ind : StateVariableIndicator) (path : NodePath) :
    ind.sameShape (ind.updateProperties path) := by
  unfold updateProperties addModifyingPath addReferencingPath
  simp only
  repeat' split
  all_goals exact ⟨rfl, rfl⟩

theorem updateProperties_ownsReasons (ind : StateVariableIndicator) (path : NodePath) :
    (ind.updateProperties path).isWholeReasonOfBinding = ind.isWholeReasonOfBinding
      ∧ (ind.updateProperties path).isPartitionedReasonOfBinding
          = ind.isPartitionedReasonOfBinding := by
  unfold updateProperties addModifyingPath addReferencingPath
  simp only
  repeat' split
  all_goals exact ⟨rfl, rfl⟩

theorem update_reasoned (E : Env) (w : World) (path : NodePath)
    (h : w.ind.classification.reasoned) : (update E w path).1.ind.classification.reasoned := by
  unfold update
  split
  · split
    · exact h
    · next w1 keyName hk =>
      have h1 := reasoned_of_frame (addMappingKey_frame E w w1 _ keyName hk).2.2 h
      rcases callOnKey_fst w1 keyName "updateProperties"
        (onKey { w1 with ind := w1.ind.updateProperties path } keyName
          (fun k => k.updateOwnProperties path)) with hc | hc
      · rw [hc]
        exact updateProperties_reasoned w1.ind path h1
      · rw [hc]
        exact h1
  · exact updateProperties_reasoned w.ind path h

theorem update_ownsReasons (E : Env) (w : World) (path : NodePath) :
    (update E w path).1.ind.isWholeReasonOfBinding = w.ind.isWholeReasonOfBinding
      ∧ (update E w path).1.ind.isPartitionedReasonOfBinding
          = w.ind.isPartitionedReasonOfBinding := by
  unfold update
  split
  · split
    · exact ⟨rfl, rfl⟩
    · next w1 keyName hk =>
      have hi := (addMappingKey_frame E w w1 _ keyName hk).2.2
      have h1 : w1.ind.isWholeReasonOfBinding = w.ind.isWholeReasonOfBinding
          ∧ w1.ind.isPartitionedReasonOfBinding = w.ind.isPartitionedReasonOfBinding := by
        rw [hi]
        exact ⟨rfl, rfl⟩
      rcases callOnKey_fst w1 keyName "updateProperties"
        (onKey { w1 with ind := w1.ind.updateProperties path } keyName
          (fun k => k.updateOwnProperties path)) with hc | hc
      · rw [hc]
        have h2 := updateProperties_ownsReasons w1.ind path
        exact ⟨h2.1.trans h1.1, h2.2.trans h1.2⟩
      · rw [hc]
        exact h1
  · exact updateProperties_ownsReasons w.ind path

theorem updateAccessed_reasoned (E : Env) (w : World) (path : NodePath)
    (h : w.ind.classification.reasoned) :
    (updateAccessed E w path).1.ind.classification.reasoned := by
  rw [(updateAccessed_shape E w path).2]
  exact ⟨fun _ => nonEmptyList_push _ _, h.2⟩

theorem updateIncrementation_ownsReasons (E : Env) (w : World) (path : NodePath)
    (state : IncrementationState) :
    (updateIncrementation E w path state).1.ind.isWholeReasonOfBinding
        = w.ind.isWholeReasonOfBinding
      ∧ (updateIncrementation E w path state).1.ind.isPartitionedReasonOfBinding
          = w.ind.isPartitionedReasonOfBinding := by
  refine updateIncrementation_induct E w path state
    (fun w1 => w1.ind.isWholeReasonOfBinding = w.ind.isWholeReasonOfBinding
      ∧ w1.ind.isPartitionedReasonOfBinding = w.ind.isPartitionedReasonOfBinding) ?_ ?_ ?_
  · exact (classifyIncrementation_kept E w path state).2
  · intro w1 h1
    have h2 := nullifyDecrement_kept E w1 path state
    exact ⟨h2.2.1.trans h1.1, h2.2.2.1.trans h1.2⟩
  · intro w2 h2
    have h3 := recordIncrementation_kept E w2 path state
    exact ⟨h3.2.1.trans h2.1, h3.2.2.trans h2.2⟩

theorem updateIncrementation_reasoned (E : Env) (w : World) (path : NodePath)
    (state : IncrementationState) (h : w.ind.classification.reasoned)
    (hown : w.ind.isWholeReasonOfBinding = false ∧ w.ind.isPartitionedReasonOfBinding = false) :
    (updateIncrementation E w path state).1.ind.classification.reasoned := by
  have hpush := nonEmptyList_push
  refine (updateIncrementation_induct E w path state
    (fun w => w.ind.classification.reasoned
      ∧ w.ind.isWholeReasonOfBinding = false ∧ w.ind.isPartitionedReasonOfBinding = false)
    ?_ ?_ ?_).1
  · simp only
    refine ⟨?_, (classifyIncrementation_kept E w path state).2.1.trans hown.1,
      (classifyIncrementation_kept E w path state).2.2.trans hown.2⟩
    rw [(classifyIncrementation_shape E w path state).2]
    obtain ⟨hw, hp⟩ := h
    simp only [Classification.reasoned, StateVariableIndicator.classification] at hw hp ⊢
    generalize (!truthy path.isIncremented || truthy state.incrementedIdentifier.isKnown) = a
    generalize (state.incrementedPath.isSome
      && !truthy state.incrementedIdentifier.reinitialisable) = b
    generalize (!truthy path.isDecremented
      && (truthy state.incrementedIdentifier.isUnknown
        || truthy (state.incrementedIdentifier.baseExpression.bind Node.isUnknown))) = c
    cases a <;> cases b <;> cases c <;> simp [hpush]
      <;> first | exact ⟨hw, hp⟩ | exact hw | exact hp
  · intro w1 h1
    have hk := nullifyDecrement_kept E w1 path state
    refine ⟨?_, hk.2.1.trans h1.2.1, hk.2.2.1.trans h1.2.2⟩
    show (nullifyDecrement E w1 path state).1.ind.classification.reasoned
    rw [(nullifyDecrement_shape E w1 path state).2]
    split
    · exact h1.1
    · exact h1.1
  · intro w2 h2
    have hk := recordIncrementation_kept E w2 path state
    refine ⟨?_, hk.2.1.trans h2.2.1, hk.2.2.trans h2.2.2⟩
    show (recordIncrementation E w2 path state).1.ind.classification.reasoned
    rw [(recordIncrementation_shape E w2 path state).2]
    have hwr := recordIncrementation_wholeReason E w2 path state (Or.inr h2.2.1)
    have hpr := recordIncrementation_partitionedReason E w2 path state (Or.inr h2.2.2)
    obtain ⟨hw, hp⟩ := h2.1
    simp only [Classification.reasoned, StateVariableIndicator.classification] at hw hp ⊢
    rw [hwr, hpr]
    exact ⟨hw, hp⟩

end StateVariableIndicator


/-- A mapping key that has reasons for what it is classified as fails its check only with
one of the two documented conflicts. -/
theorem MappingKey.key_check_documented (k : MappingKey) (containerNode : Node)
    (h : k.classification.reasoned) (e : Exception)
    (he : k.prelimTraversalErrorChecks containerNode = .error e) : e.isDocumentedConflict := by
  obtain ⟨hw, hp⟩ := h
  simp only [MappingKey.classification] at hw hp
  unfold MappingKey.prelimTraversalErrorChecks at he
  simp only at he
  split at he
  · next hc =>
    simp only [Bool.and_eq_true, truthy_eq_true_iff] at hc
    simp only [Except.error.injEq] at he
    rw [← he]
    exact ⟨Or.inl rfl, hw hc.2⟩
  · split at he
    · next hc =>
      simp only [Bool.and_eq_true, truthy_eq_true_iff] at hc
      obtain ⟨r, rs, hwr⟩ := (nonEmptyList_iff _).mp (hw hc.1)
      obtain ⟨r2, rs2, hpr⟩ := (nonEmptyList_iff _).mp (hp hc.2)
      simp only [hwr, hpr, Except.error.injEq] at he
      rw [← he]
      exact ⟨Or.inr rfl, by simp [nonEmptyList]⟩
    · simp at he

theorem checkMappingKeys_documented (containerNode : Node) :
    ∀ (keys : List (String × MappingKey)),
      (∀ kv ∈ keys, kv.2.classification.reasoned) →
      ∀ e, checkMappingKeys containerNode keys = .error e → e.isDocumentedConflict
  | [], _, e, he => by simp [checkMappingKeys] at he
  | (n, k) :: rest, h, e, he => by
    unfold checkMappingKeys at he
    cases hk : k.prelimTraversalErrorChecks containerNode with
    | error e1 =>
      simp only [hk, Except.error.injEq] at he
      rw [← he]
      exact MappingKey.key_check_documented k containerNode
        (h (n, k) (List.mem_cons_self _ _)) e1 hk
    | ok log =>
      cases hr : checkMappingKeys containerNode rest with
      | error e2 =>
        simp only [hk, hr, Except.error.injEq] at he
        rw [← he]
        exact checkMappingKeys_documented containerNode rest
          (fun kv hkv => h kv (List.mem_cons_of_mem _ hkv)) e2 hr
      | ok logs => simp [hk, hr] at he

/-- An indicator that, like its mapping keys, has reasons for what it is classified as, and
that has a table of keys when it is a mapping, fails its check only with one of the two
documented conflicts. -/
theorem StateVariableIndicator.check_documented (w : World) (h : w.reasoned)
    (hshape : w.ind.isMapping = some true → w.ind.mappingKeys.isSome = true) (e : Exception)
    (he : w.ind.prelimTraversalErrorChecks = .error e) : e.isDocumentedConflict := by
  obtain ⟨⟨hw, hp⟩, hkeys⟩ := h
  simp only [StateVariableIndicator.classification] at hw hp
  unfold StateVariableIndicator.prelimTraversalErrorChecks at he
  split at he
  · simp at he
  · simp only at he
    split at he
    · next e1 hkc =>
      simp only [Except.error.injEq] at he
      rw [← he]
      split at hkc
      · next hm =>
        simp only [truthy_eq_true_iff] at hm
        cases hk : w.ind.mappingKeys with
        | none =>
          have := hshape hm
          simp [hk] at this
        | some keys =>
          simp only [hk] at hkc
          exact checkMappingKeys_documented w.ind.node keys (hkeys keys hk) e1 hkc
      · simp at hkc
    · split at he
      · next e2 hwarned =>
        split at hwarned
        · next hc =>
          simp only [Bool.and_eq_true, truthy_eq_true_iff] at hc
          obtain ⟨r, rs, hwr⟩ := (nonEmptyList_iff _).mp (hw hc.1.2)
          simp [hwr] at hwarned
        · simp at hwarned
      · split at he
        · next hc =>
          simp only [Bool.and_eq_true, truthy_eq_true_iff] at hc
          simp only [Except.error.injEq] at he
          rw [← he]
          exact ⟨Or.inl rfl, hw hc.2⟩
        · split at he
          · next hc =>
            simp only [Bool.and_eq_true, truthy_eq_true_iff] at hc
            obtain ⟨r, rs, hwr⟩ := (nonEmptyList_iff _).mp (hw hc.1)
            obtain ⟨r2, rs2, hpr⟩ := (nonEmptyList_iff _).mp (hp hc.2)
            simp only [hwr, hpr, Except.error.injEq] at he
            rw [← he]
            exact ⟨Or.inr rfl, by simp [nonEmptyList]⟩
          · simp at he

namespace StateVariableIndicator

/-- One accumulating call keeps the reasons, keeps the lists of reasons arrays of their
owners, and keeps the table of keys of a mapping. -/
theorem accumulate_reasoned (E : Env) (w : World) (c : AccumulatingCall)
    (h : w.reasoned ∧ w.ownsReasons
      ∧ (w.ind.isMapping = some true → w.ind.mappingKeys.isSome = true)) :
    (accumulate E w c).reasoned ∧ (accumulate E w c).ownsReasons
      ∧ ((accumulate E w c).ind.isMapping = some true
        → (accumulate E w c).ind.mappingKeys.isSome = true) := by
  obtain ⟨⟨hind, hkeys⟩, ⟨hown, hownkeys⟩, hshape⟩ := h
  have shaped : ∀ after : StateVariableIndicator, w.ind.sameShape after →
      after.isMapping = some true → after.mappingKeys.isSome = true := by
    intro after hs hm
    rw [hs.2]
    exact hshape (hs.1 ▸ hm)
  have hboth : w.everyKey (fun k => k.classification.reasoned ∧ k.ownsReasons) :=
    fun keys hk kv hkv => ⟨hkeys keys hk kv hkv, hownkeys keys hk kv hkv⟩
  have split : ∀ after : World,
      after.everyKey (fun k => k.classification.reasoned ∧ k.ownsReasons) →
      after.everyKey (fun k => k.classification.reasoned)
        ∧ after.everyKey MappingKey.ownsReasons :=
    fun _ ha => ⟨fun keys hk kv hkv => (ha keys hk kv hkv).1,
      fun keys hk kv hkv => (ha keys hk kv hkv).2⟩
  have hcreate : ∀ container keyPath k, MappingKey.create E container keyPath = .ok k →
      k.classification.reasoned ∧ k.ownsReasons := by
    intro container keyPath k hk
    refine ⟨MappingKey.key_create_reasoned E container keyPath k hk, ?_⟩
    unfold MappingKey.create at hk
    simp only at hk
    split at hk
    · simp at hk
    · simp only [Except.ok.injEq] at hk
      rw [← hk]
      exact ⟨rfl, rfl⟩
  have hnullify : ∀ (k : MappingKey) (p : Option NodePath),
      k.classification.reasoned ∧ k.ownsReasons →
        (k.addNullifyingPath p).classification.reasoned ∧ (k.addNullifyingPath p).ownsReasons :=
    fun _ _ hk => hk
  have haccessed : ∀ (k : MappingKey) (accessedPaths : Option (List NodePath)),
      k.classification.reasoned ∧ k.ownsReasons →
        ({ k with accessedPaths := accessedPaths } : MappingKey).classification.reasoned
          ∧ ({ k with accessedPaths := accessedPaths } : MappingKey).ownsReasons :=
    fun _ _ hk => hk
  have hwhole : ∀ (k : MappingKey) (reasons : Option (List Reason)),
      k.classification.reasoned ∧ k.ownsReasons →
        (if k.isWholeReasonOfBinding then { k with isWholeReason := reasons }
          else k).classification.reasoned
        ∧ (if k.isWholeReasonOfBinding then { k with isWholeReason := reasons }
          else k).ownsReasons := by
    intro k reasons hk
    rw [hk.2.1]
    exact hk
  have hpartitioned : ∀ (k : MappingKey) (reasons : Option (List Reason)),
      k.classification.reasoned ∧ k.ownsReasons →
        (if k.isPartitionedReasonOfBinding then { k with isPartitionedReason := reasons }
          else k).classification.reasoned
        ∧ (if k.isPartitionedReasonOfBinding then { k with isPartitionedReason := reasons }
          else k).ownsReasons := by
    intro k reasons hk
    rw [hk.2.2]
    exact hk
  have hproperties : ∀ (path : NodePath) (k : MappingKey),
      k.classification.reasoned ∧ k.ownsReasons →
        (k.updateOwnProperties path).classification.reasoned
          ∧ (k.updateOwnProperties path).ownsReasons := by
    intro path k hk
    refine ⟨MappingKey.key_updateOwnProperties_reasoned k path hk.1, ?_⟩
    have h2 := hk.2
    unfold MappingKey.updateOwnProperties MappingKey.addModifyingPath
      MappingKey.addReferencingPath
    simp only
    repeat' split
    all_goals exact h2
  have hincrement : ∀ (path : NodePath) (state : IncrementationState) (k : MappingKey),
      k.classification.reasoned ∧ k.ownsReasons →
        (k.updateIncrementation path state).classification.reasoned
          ∧ (k.updateIncrementation path state).ownsReasons := by
    intro path state k hk
    refine ⟨MappingKey.key_updateIncrementation_reasoned k path state hk.1, ?_⟩
    have h2 := hk.2
    unfold MappingKey.updateIncrementation MappingKey.addNullifyingPath
    simp only
    repeat' split
    all_goals exact h2
  cases c with
  | update path =>
    have hk := split _ (update_everyKey E _ hcreate path (hproperties path) w hboth)
    have ho := update_ownsReasons E w path
    exact ⟨⟨update_reasoned E w path hind, hk.1⟩,
      ⟨⟨ho.1.trans hown.1, ho.2.trans hown.2⟩, hk.2⟩,
      shaped _ (update_sameShape E w path)⟩
  | updateProperties path =>
    have hk := split { w with ind := w.ind.updateProperties path }
      (everyKey_of_keys_eq _ w _ (updateProperties_mappingKeys w.ind path) hboth)
    have ho := updateProperties_ownsReasons w.ind path
    exact ⟨⟨updateProperties_reasoned w.ind path hind, hk.1⟩,
      ⟨⟨ho.1.trans hown.1, ho.2.trans hown.2⟩, hk.2⟩,
      shaped _ (updateProperties_sameShape w.ind path)⟩
  | updateAccessed path =>
    have hk := split _ (updateAccessed_everyKey E _ hcreate haccessed hwhole path w hboth)
    refine ⟨⟨updateAccessed_reasoned E w path hind, hk.1⟩, ⟨?_, hk.2⟩,
      shaped _ (updateAccessed_sameShape E w path)⟩
    show (updateAccessed E w path).1.ind.isWholeReasonOfBinding = false
      ∧ (updateAccessed E w path).1.ind.isPartitionedReasonOfBinding = false
    rw [(updateAccessed_shape E w path).2]
    exact hown
  | updateIncrementation path state =>
    have hk := split _ (updateIncrementation_everyKey E _ hcreate hnullify hwhole hpartitioned
      path state (hincrement path state) w hboth)
    have ho := updateIncrementation_ownsReasons E w path state
    exact ⟨⟨updateIncrementation_reasoned E w path state hind hown, hk.1⟩,
      ⟨⟨ho.1.trans hown.1, ho.2.trans hown.2⟩, hk.2⟩,
      shaped _ (updateIncrementation_sameShape E w path state)⟩
  | keyUpdateProperties keyName path =>
    have hk := split _ (onKey_everyKey _ _ (hproperties path)
      { w with ind := w.ind.updateProperties path } keyName
      (everyKey_of_keys_eq _ w _ (updateProperties_mappingKeys w.ind path) hboth))
    have ho := updateProperties_ownsReasons w.ind path
    exact ⟨⟨updateProperties_reasoned w.ind path hind, hk.1⟩,
      ⟨⟨ho.1.trans hown.1, ho.2.trans hown.2⟩, hk.2⟩,
      shaped _ (sameShape_trans (updateProperties_sameShape w.ind path)
        (onKey_sameShape _ keyName _))⟩
  | keyUpdateIncrementation keyName path state =>
    have hk := split _ (keyUpdateIncrementation_everyKey _ hwhole hpartitioned path state
      (hincrement path state) w keyName hboth)
    have hf := (keyUpdateIncrementation_frame w keyName path state).2
    have hwr := keyUpdateIncrementation_wholeReason w keyName path state hown.1
    have hpr := keyUpdateIncrementation_partitionedReason w keyName path state hown.2
    refine ⟨⟨?_, hk.1⟩, ⟨?_, hk.2⟩,
      shaped _ (keyUpdateIncrementation_sameShape w keyName path state)⟩
    · show (keyUpdateIncrementation w keyName path state).ind.classification.reasoned
      rw [hf]
      obtain ⟨hw, hp⟩ := hind
      simp only [Classification.reasoned, StateVariableIndicator.classification] at hw hp ⊢
      rw [hwr, hpr]
      exact ⟨hw, hp⟩
    · show (keyUpdateIncrementation w keyName path state).ind.isWholeReasonOfBinding = false
        ∧ (keyUpdateIncrementation w keyName path state).ind.isPartitionedReasonOfBinding
            = false
      rw [hf]
      exact hown

theorem accumulateAll_reasoned (E : Env) :
    ∀ (cs : List AccumulatingCall) (w : World),
      (w.reasoned ∧ w.ownsReasons
        ∧ (w.ind.isMapping = some true → w.ind.mappingKeys.isSome = true)) →
      (accumulateAll E w cs).reasoned ∧ (accumulateAll E w cs).ownsReasons
        ∧ ((accumulateAll E w cs).ind.isMapping = some true
          → (accumulateAll E w cs).ind.mappingKeys.isSome = true)
  | [], _, h => h
  | c :: cs, w, h => accumulateAll_reasoned E cs (accumulate E w c) (accumulate_reasoned E w c h)

theorem create_reasoned (referencedBinding : Binding) (path : NodePath)
    (isMappingIdentifier : Bool) (parentIndincator : FunctionDefinitionIndicator) :
    (World.create referencedBinding path isMappingIdentifier parentIndincator).reasoned
      ∧ (World.create referencedBinding path isMappingIdentifier parentIndincator).ownsReasons
      ∧ ((World.create referencedBinding path isMappingIdentifier parentIndincator).ind.isMapping
          = some true
        → (World.create referencedBinding path isMappingIdentifier
            parentIndincator).ind.mappingKeys.isSome = true) := by
  cases isMappingIdentifier
    <;> simp [World.create, create, World.reasoned, World.ownsReasons, World.everyKey,
      Classification.reasoned, classification]

end StateVariableIndicator

/-- Claim C37.  From a new `StateVariableIndicator`, mapping or not, after any sequence of
calls of `update`, `updateProperties`, `updateAccessed` and `updateIncrementation` on it and of
`updateProperties` and `updateIncrementation` on its mapping keys, however each call ends:
on the indicator and on every mapping key of its table, `isWhole == true` comes with a
non-empty list `isWholeReason` and `isPartitioned == true` with a non-empty list
`isPartitionedReason`; and `prelimTraversalErrorChecks`, on the indicator and on each of its
keys, throws nothing but a `SyntaxUsageError` of one of the two documented conflicts, with a
non-empty list of reasons (no `TypeError` from a missing list). -/
theorem reasons_invariant (E : Env) (referencedBinding : Binding) (path : NodePath)
    (isMappingIdentifier : Bool) (parentIndincator : FunctionDefinitionIndicator)
    (cs : List AccumulatingCall) :
    (StateVariableIndicator.accumulateAll E
        (World.create referencedBinding path isMappingIdentifier parentIndincator) cs).reasoned
      ∧ (∀ e,
          (StateVariableIndicator.accumulateAll E
            (World.create referencedBinding path isMappingIdentifier parentIndincator)
            cs).ind.prelimTraversalErrorChecks = .error e → e.isDocumentedConflict)
      ∧ ∀ keys,
          (StateVariableIndicator.accumulateAll E
            (World.create referencedBinding path isMappingIdentifier parentIndincator)
            cs).ind.mappingKeys = some keys →
          ∀ kv ∈ keys, ∀ containerNode e,
            kv.2.prelimTraversalErrorChecks containerNode = .error e →
              e.isDocumentedConflict := by
  have h := StateVariableIndicator.accumulateAll_reasoned E cs _
    (StateVariableIndicator.create_reasoned referencedBinding path isMappingIdentifier
      parentIndincator)
  refine ⟨h.1, ?_, ?_⟩
  · intro e he
    exact StateVariableIndicator.check_documented _ h.1 h.2.2 e he
  · intro keys hkeys kv hkv containerNode e he
    exact MappingKey.key_check_documented kv.2 containerNode (h.1.2 keys hkeys kv hkv) e he

/-! ## Nullifications of a mapping key -/

theorem lookup_modifyKey (f : MappingKey → MappingKey) (keyName : String) :
    ∀ keys : List (String × MappingKey),
      (modifyKey keys keyName f).lookup keyName = (keys.lookup keyName).map f
  | [] => by simp [modifyKey]
  | (n, k) :: rest => by
    unfold modifyKey
    by_cases hn : n = keyName
    · subst hn
      simp [List.lookup]
    · have h1 : (n == keyName) = false := by simpa using hn
      have h2 : (keyName == n) = false := by simpa using fun h : keyName = n => hn h.symm
      simp only [h1, Bool.false_eq_true, if_false, List.lookup, h2]
      exact lookup_modifyKey f keyName rest

theorem lookup_append_new (keyName : String) (k : MappingKey) :
    ∀ keys : List (String × MappingKey), keys.lookup keyName = none →
      (keys ++ [(keyName, k)]).lookup keyName = some k
  | [], _ => by simp [List.lookup]
  | (n, k0) :: rest, h => by
    simp only [List.lookup] at h
    simp only [List.cons_append, List.lookup]
    cases hn : (keyName == n) with
    | true => simp [hn] at h
    | false =>
      simp only [hn] at h ⊢
      exact lookup_append_new keyName k rest h

theorem lookup_map_values (g : MappingKey → MappingKey) (keyName : String) :
    ∀ keys : List (String × MappingKey),
      (keys.map (fun kv => (kv.1, g kv.2))).lookup keyName = (keys.lookup keyName).map g
  | [] => rfl
  | (n, k) :: rest => by
    simp only [List.map, List.lookup]
    cases (keyName == n) with
    | true => rfl
    | false => exact lookup_map_values g keyName rest

theorem MappingKey.create_nullifications (E : Env) (container : StateVariableIndicator)
    (keyPath : NodePath) (k : MappingKey) (h : MappingKey.create E container keyPath = .ok k) :
    k.nullificationCount = 0 ∧ k.nullifyingPaths = [] := by
  unfold MappingKey.create at h
  simp only at h
  split at h
  · simp at h
  · simp only [Except.ok.injEq] at h
    rw [← h]
    exact ⟨rfl, rfl⟩

/-- A call of `addNullifyingPath` on a mapping indicator that returns has called
`addNullifyingPath` on the key that the binding names, once. -/
theorem StateVariableIndicator.addNullifyingPath_key (E : Env) (w : World) (rp : NodePath)
    (keyName : String) (hmapping : w.ind.isMapping = some true)
    (hname : ∀ b, E.getMappingKeyName b rp = .ok keyName)
    (hreturns : (StateVariableIndicator.addNullifyingPath E w (some rp)).2 = none) :
    ∃ keys k0,
      w.ind.mappingKeys = some keys
        ∧ (keys.lookup keyName = some k0
          ∨ (keys.lookup keyName = none ∧ k0.nullificationCount = 0 ∧ k0.nullifyingPaths = []))
        ∧ ∃ keysAfter,
          (StateVariableIndicator.addNullifyingPath E w (some rp)).1.ind.mappingKeys
              = some keysAfter
            ∧ keysAfter.lookup keyName = some (k0.addNullifyingPath (some rp)) := by
  unfold StateVariableIndicator.addNullifyingPath at hreturns ⊢
  simp only at hreturns ⊢
  split at hreturns
  · simp at hreturns
  · next hcalled =>
    simp only [hcalled, hmapping, truthy, if_true] at hreturns ⊢
    split at hreturns
    · simp at hreturns
    · next w2 kn hk =>
      have hstored := (StateVariableIndicator.callOnKey_snd _ _ _ _).mp hreturns
      rw [StateVariableIndicator.callOnKey_of_returns _ _ _ _ hreturns]
      obtain ⟨rp2, keyNode, keyPath, keys, h1, _, _, _, h5, h6, h7⟩ :=
        (StateVariableIndicator.addMappingKey_ok_iff E _ w2 (some rp) kn).mp hk
      simp only [Option.some.injEq] at h1
      subst h1
      rw [hname] at h5
      simp only [Except.ok.injEq] at h5
      subst h5
      simp only at h6
      rcases h7 with ⟨k, hlook, rfl⟩ | ⟨hlook, _, rfl⟩ | ⟨hlook, _, k, hcreate, rfl⟩
      · refine ⟨keys, k, h6, Or.inl hlook, modifyKey keys keyName (fun k => k.addNullifyingPath (some rp)), ?_, ?_⟩
        · simp [StateVariableIndicator.onKey, h6]
        · rw [lookup_modifyKey, hlook]
          rfl
      · simp [StateVariableIndicator.storedKey, h6, hlook] at hstored
      · have hk0 := MappingKey.create_nullifications E _ keyPath k hcreate
        refine ⟨keys, k, h6, Or.inr ⟨hlook, hk0⟩,
          modifyKey (keys ++ [(keyName, k)]) keyName
            (fun k => k.addNullifyingPath (some rp)), ?_, ?_⟩
        · simp [StateVariableIndicator.onKey]
        · rw [lookup_modifyKey, lookup_append_new keyName k keys hlook]
          rfl

theorem StateVariableIndicator.shareWholeReason_mappingKeys (w : World)
    (reasons : Option (List Reason)) (keys : List (String × MappingKey))
    (h : w.ind.mappingKeys = some keys) :
    (StateVariableIndicator.shareWholeReason w reasons).ind.mappingKeys
      = some (keys.map (fun kv =>
          (kv.1, (fun k : MappingKey => if k.isWholeReasonOfBinding then
            { k with isWholeReason := reasons } else k) kv.2))) := by
  simp [StateVariableIndicator.shareWholeReason, h]

theorem StateVariableIndicator.sharePartitionedReason_mappingKeys (w : World)
    (reasons : Option (List Reason)) (keys : List (String × MappingKey))
    (h : w.ind.mappingKeys = some keys) :
    (StateVariableIndicator.sharePartitionedReason w reasons).ind.mappingKeys
      = some (keys.map (fun kv =>
          (kv.1, (fun k : MappingKey => if k.isPartitionedReasonOfBinding then
            { k with isPartitionedReason := reasons } else k) kv.2))) := by
  simp [StateVariableIndicator.sharePartitionedReason, h]

/-- The call `updateIncrementation` on a key of the table leaves under its name the key that
`MappingKey.updateIncrementation` gives: what is shown to the holders of an array of the
binding is, for the key that pushed, the list it has. -/
theorem StateVariableIndicator.keyUpdateIncrementation_lookup (w : World) (keyName : String)
    (path : NodePath) (state : IncrementationState) (keys : List (String × MappingKey))
    (k1 : MappingKey) (hkeys : w.ind.mappingKeys = some keys)
    (hlook : keys.lookup keyName = some k1) :
    ∃ keysAfter,
      (StateVariableIndicator.keyUpdateIncrementation w keyName path state).ind.mappingKeys
          = some keysAfter
        ∧ keysAfter.lookup keyName = some (k1.updateIncrementation path state) := by
  have hon : (StateVariableIndicator.onKey w keyName
      (fun k => k.updateIncrementation path state)).ind.mappingKeys
      = some (modifyKey keys keyName (fun k => k.updateIncrementation path state)) := by
    simp [StateVariableIndicator.onKey, hkeys]
  have hmod : (modifyKey keys keyName (fun k => k.updateIncrementation path state)).lookup
      keyName = some (k1.updateIncrementation path state) := by
    rw [lookup_modifyKey, hlook]
    rfl
  have hstored : StateVariableIndicator.storedKey (StateVariableIndicator.onKey w keyName
      (fun k => k.updateIncrementation path state)) keyName
      = some (k1.updateIncrementation path state) := by
    simp [StateVariableIndicator.storedKey, hon, hmod]
  unfold StateVariableIndicator.keyUpdateIncrementation
  simp only [hstored]
  split
  · split
    · refine ⟨_, StateVariableIndicator.shareWholeReason_mappingKeys _ _ _ hon, ?_⟩
      refine (lookup_map_values (fun k : MappingKey => if k.isWholeReasonOfBinding then
        { k with isWholeReason := (k1.updateIncrementation path state).isWholeReason }
        else k) keyName _).trans ?_
      rw [hmod]
      simp only [Option.map_some']
      split <;> rfl
    · exact ⟨_, hon, hmod⟩
  · split
    · split
      · refine ⟨_, StateVariableIndicator.sharePartitionedReason_mappingKeys _ _ _ hon, ?_⟩
        refine (lookup_map_values (fun k : MappingKey => if k.isPartitionedReasonOfBinding then
          { k with
            isPartitionedReason := (k1.updateIncrementation path state).isPartitionedReason }
          else k) keyName _).trans ?_
        rw [hmod]
        simp only [Option.map_some']
        split <;> rfl
      · exact ⟨_, hon, hmod⟩
    · exact ⟨_, hon, hmod⟩

/-- A call of `recordIncrementation` on a mapping indicator that returns has called
`updateIncrementation` on the key that the binding names, when the table holds that key. -/
theorem StateVariableIndicator.recordIncrementation_key (E : Env) (w : World)
    (path rp : NodePath) (state : IncrementationState) (keyName : String)
    (keys : List (String × MappingKey)) (k1 : MappingKey)
    (hmapping : w.ind.isMapping = some true)
    (hpath : state.incrementedPath = some rp)
    (hname : ∀ b, E.getMappingKeyName b rp = .ok keyName)
    (hkeys : w.ind.mappingKeys = some keys) (hlook : keys.lookup keyName = some k1)
    (hreturns : (StateVariableIndicator.recordIncrementation E w path state).2 = none) :
    ∃ keysAfter,
      (StateVariableIndicator.recordIncrementation E w path state).1.ind.mappingKeys
          = some keysAfter
        ∧ keysAfter.lookup keyName = some (k1.updateIncrementation path state) := by
  unfold StateVariableIndicator.recordIncrementation at hreturns ⊢
  simp only [hmapping, truthy, if_true, hpath] at hreturns ⊢
  split at hreturns
  · simp at hreturns
  · next w2 kn hk =>
    rw [StateVariableIndicator.callOnKey_of_returns _ _ _ _ hreturns]
    obtain ⟨rp2, keyNode, keyPath, keys2, h1, _, _, _, h5, h6, h7⟩ :=
      (StateVariableIndicator.addMappingKey_ok_iff E _ w2 (some rp) kn).mp hk
    simp only [Option.some.injEq] at h1
    subst h1
    rw [hname] at h5
    simp only [Except.ok.injEq] at h5
    subst h5
    simp only [hkeys, Option.some.injEq] at h6
    subst h6
    rcases h7 with ⟨k, _, rfl⟩ | ⟨hnone, _⟩ | ⟨hnone, _⟩
    · exact StateVariableIndicator.keyUpdateIncrementation_lookup _ keyName path state keys k1
        hkeys hlook
    · rw [hlook] at hnone
      simp at hnone
    · rw [hlook] at hnone
      simp at hnone

/-- A decrement that is not known, seen by a mapping key, nullifies once. -/
theorem MappingKey.key_updateIncrementation_decrement (k : MappingKey) (path : NodePath)
    (state : IncrementationState)
    (hincremented : path.isIncremented = some true)
    (hdecremented : path.isDecremented = some true)
    (hknown : state.incrementedIdentifier.isKnown ≠ some true) :
    (k.updateIncrementation path state).nullificationCount = k.nullificationCount + 1
      ∧ (k.updateIncrementation path state).nullifyingPaths
        = k.nullifyingPaths ++ [state.incrementedPath] := by
  have h3 : truthy state.incrementedIdentifier.isKnown = false := (truthy_eq_false_iff _).mpr hknown
  simp [MappingKey.updateIncrementation, MappingKey.addNullifyingPath, hincremented,
    hdecremented, h3, truthy]


/-- Claim C38, as the code behaves.  On a mapping indicator, a call of `updateIncrementation`
for a decrement that is not known, which returns, records the nullification once on the
indicator and twice on the mapping key that the binding names: the indicator's
`nullificationCount` grows by one and its `nullifyingPaths` by the incremented path, while the
key's `nullificationCount` grows by two and its `nullifyingPaths` by the incremented path
twice (a key created by the call starts from 0 and the empty list). -/
theorem updateIncrementation_key_counted_twice (E : Env) (w : World) (path rp : NodePath)
    (state : IncrementationState) (keyName : String)
    (hmapping : w.ind.isMapping = some true)
    (hincremented : path.isIncremented = some true)
    (hdecremented : path.isDecremented = some true)
    (hknown : state.incrementedIdentifier.isKnown ≠ some true)
    (hpath : state.incrementedPath = some rp)
    (hname : ∀ b, E.getMappingKeyName b rp = .ok keyName)
    (hreturns : (StateVariableIndicator.updateIncrementation E w path state).2 = none) :
    ((StateVariableIndicator.updateIncrementation E w path state).1.ind.nullificationCount
          = w.ind.nullificationCount + 1
        ∧ (StateVariableIndicator.updateIncrementation E w path state).1.ind.nullifyingPaths
          = w.ind.nullifyingPaths ++ [some rp])
      ∧ ∃ keys k0 keysAfter kAfter,
        w.ind.mappingKeys = some keys
          ∧ (keys.lookup keyName = some k0
            ∨ (keys.lookup keyName = none ∧ k0.nullificationCount = 0
              ∧ k0.nullifyingPaths = []))
          ∧ (StateVariableIndicator.updateIncrementation E w path state).1.ind.mappingKeys
            = some keysAfter
          ∧ keysAfter.lookup keyName = some kAfter
          ∧ kAfter.nullificationCount = k0.nullificationCount + 2
          ∧ kAfter.nullifyingPaths = k0.nullifyingPaths ++ [some rp, some rp] := by
  have h3 : truthy state.incrementedIdentifier.isKnown = false :=
    (truthy_eq_false_iff _).mpr hknown
  have hclassify : StateVariableIndicator.classifyIncrementation E w path state = (w, none) := by
    simp [StateVariableIndicator.classifyIncrementation, hincremented, hdecremented, h3, truthy]
  have hnullify : ∀ w1, StateVariableIndicator.nullifyDecrement E w1 path state
      = StateVariableIndicator.addNullifyingPath E
          { w1 with parentIndincator := { w1.parentIndincator with
              nullifiersRequired := true
              newCommitmentsRequired := true
              oldCommitmentAccessRequired := true } } (some rp) := by
    intro w1
    simp [StateVariableIndicator.nullifyDecrement, hdecremented, h3, truthy, hpath]
  have hsteps := StateVariableIndicator.updateIncrementation_of_returns E w path state hreturns
  unfold StateVariableIndicator.updateIncrementation StateVariableIndicator.andThen at hreturns
  rw [hclassify] at hsteps hreturns
  simp only [hnullify] at hsteps hreturns
  rw [hsteps]
  generalize hw0 : ({ w with parentIndincator := { w.parentIndincator with
      nullifiersRequired := true
      newCommitmentsRequired := true
      oldCommitmentAccessRequired := true } } : World) = w0 at hreturns ⊢
  have hm0 : w0.ind.isMapping = some true := by rw [← hw0]; exact hmapping
  have hi0 : w0.ind = w.ind := by rw [← hw0]
  cases hA : (StateVariableIndicator.addNullifyingPath E w0 (some rp)).2 with
  | some e => simp [hA] at hreturns
  | none =>
    simp only [hA] at hreturns
    obtain ⟨keys, k0, hkeys, hk0, keys1, hkeys1, hlook1⟩ :=
      StateVariableIndicator.addNullifyingPath_key E w0 rp keyName hm0 hname hA
    have hshape := (StateVariableIndicator.addNullifyingPath_shape E w0 (some rp)).2
    have hm1 : (StateVariableIndicator.addNullifyingPath E w0 (some rp)).1.ind.isMapping
        = some true := by
      rw [hshape]
      exact hm0
    obtain ⟨keys2, hkeys2, hlook2⟩ :=
      StateVariableIndicator.recordIncrementation_key E _ path rp state keyName keys1 _ hm1
        hpath hname hkeys1 hlook1 hreturns
    have hkey := MappingKey.key_updateIncrementation_decrement
      (k0.addNullifyingPath (some rp)) path state hincremented hdecremented hknown
    refine ⟨?_, keys, k0, keys2, _, by rw [← hi0]; exact hkeys, hk0, hkeys2, hlook2, ?_, ?_⟩
    · rw [(StateVariableIndicator.recordIncrementation_shape E _ path state).2, hshape, hi0]
      exact ⟨rfl, rfl⟩
    · rw [hkey.1]
      rfl
    · rw [hkey.2, hpath]
      simp [MappingKey.addNullifyingPath]

/-- Witness of C38: `balances[msg.sender] -= amount` seen once by the fresh indicator of the
mapping `balances`: one nullifying path on the indicator, the same path twice on the key. -/
theorem updateIncrementation_key_counted_twice_witness :
    ((Example.debitedWorld.ind.nullificationCount = 0 + 1
        ∧ Example.debitedWorld.ind.nullifyingPaths = [] ++ [some Example.debitBalancesPath])
      ∧ ∃ keys k0 keysAfter kAfter,
        Example.mappingWorld.ind.mappingKeys = some keys
          ∧ (keys.lookup "msg" = some k0
            ∨ (keys.lookup "msg" = none ∧ k0.nullificationCount = 0
              ∧ k0.nullifyingPaths = []))
          ∧ Example.debitedWorld.ind.mappingKeys = some keysAfter
          ∧ keysAfter.lookup "msg" = some kAfter
          ∧ kAfter.nullificationCount = k0.nullificationCount + 2
          ∧ kAfter.nullifyingPaths
            = k0.nullifyingPaths
              ++ [some Example.debitBalancesPath, some Example.debitBalancesPath])
      ∧ Example.debitedWorld.ind.nullificationCount = 1
      ∧ (Example.debitedWorld.ind.mappingKeys.bind (fun keys => keys.lookup "msg")).map
          (fun k => k.nullificationCount) = some 2 :=
  ⟨updateIncrementation_key_counted_twice Example.mappingEnv Example.mappingWorld
    Example.debitAccessPath Example.debitBalancesPath Example.debit "msg" rfl rfl rfl
    (by decide) rfl (fun _ => rfl) rfl, rfl, rfl⟩

end Starlight
